import Mathlib

/-!
Apollo planning core: decision merge, ST-boundary mapper, decider, reference line

A shallow embedding of the planning code under `modules/planning` and the
properties stated about it.

Conventions of the embedding.

* A C++ `double` is an exact rational number (`ℚ`): comparisons, sums and
  `fmin`/`fmax` are the exact ones; NaN and rounding are outside the model.
* An output parameter becomes part of the returned value.
* A `CHECK` that fails, or a read of an element that does not exist, is the
  result `none` of an `Option`.
* Code that is called but is not part of the planning sources at hand (the
  geometry library, the map path, singletons, in-class member initialisers of
  missing headers) is a field of `Externals` or of the structure that owns it:
  the theorems hold for every choice of it.
-/

namespace apollo
namespace planning

/-! ## Common values -/

/-- The error codes of `apollo::common::ErrorCode` used by the planning code. -/
inductive ErrorCode where
  | OK
  | PLANNING_ERROR
  deriving DecidableEq, Repr

/-- The value of `apollo::common::Status`: an error code and a message. -/
structure Status where
  code : ErrorCode
  msg : String
  deriving DecidableEq, Repr

/-- The value of `Status::OK()`. -/
def Status.OK : Status := ⟨ErrorCode.OK, ""⟩

/-- The method `Status::ok()`. -/
def Status.ok (st : Status) : Bool := decide (st.code = ErrorCode.OK)

/-- The class `common::math::Vec2d`. -/
structure Vec2d where
  x : ℚ
  y : ℚ
  deriving DecidableEq, Repr

/-- The class `STPoint`: a `Vec2d` whose `x` is the time `t` and whose `y` is the arc length `s`;
the constructor `STPoint(s, t)` takes `s` first. -/
structure STPoint where
  s : ℚ
  t : ℚ
  deriving DecidableEq, Repr

/-- The conversion of an `STPoint` to its `Vec2d` base: `x = t`, `y = s`. -/
def STPoint.toVec2d (p : STPoint) : Vec2d := ⟨p.t, p.s⟩

/-- The message `common::PointENU` (the coordinates the code reads). -/
structure PointENU where
  x : ℚ
  y : ℚ
  deriving DecidableEq, Repr

/-- The message `common::PathPoint`. -/
structure PathPoint where
  x : ℚ
  y : ℚ
  theta : ℚ
  kappa : ℚ
  s : ℚ
  deriving DecidableEq, Repr

/-- The message `common::TrajectoryPoint`. -/
structure TrajectoryPoint where
  path_point : PathPoint
  v : ℚ
  a : ℚ
  relative_time : ℚ
  deriving DecidableEq, Repr

/-- The class `common::math::Box2d`, by the arguments of its constructor. -/
structure Box2d where
  center : Vec2d
  heading : ℚ
  length : ℚ
  width : ℚ
  deriving DecidableEq, Repr

/-- The message `common::SLPoint`; a fresh one has `s = 0` and `l = 0`. -/
structure SLPoint where
  s : ℚ := 0
  l : ℚ := 0
  deriving DecidableEq, Repr

/-- The message `SLBoundary`. -/
structure SLBoundary where
  start_s : ℚ
  end_s : ℚ
  start_l : ℚ
  end_l : ℚ
  deriving DecidableEq, Repr

/-! ## Object decisions (`decision.proto`) -/

/-- The message `ObjectStop`. -/
structure ObjectStop where
  reason_code : Nat
  distance_s : ℚ
  stop_point : PointENU
  stop_heading : ℚ
  deriving DecidableEq, Repr

/-- The message `ObjectFollow`. -/
structure ObjectFollow where
  distance_s : ℚ
  fence_point : PointENU
  fence_heading : ℚ
  deriving DecidableEq, Repr

/-- The message `ObjectYield`. -/
structure ObjectYield where
  distance_s : ℚ
  fence_point : PointENU
  fence_heading : ℚ
  deriving DecidableEq, Repr

/-- The message `ObjectOvertake`. -/
structure ObjectOvertake where
  distance_s : ℚ
  fence_point : PointENU
  fence_heading : ℚ
  deriving DecidableEq, Repr

/-- The message `ObjectNudge`. -/
structure ObjectNudge where
  type : Nat
  distance_l : ℚ
  deriving DecidableEq, Repr

/-- The message `ObjectDecisionType`: a oneof `object_tag`, possibly not set. -/
inductive ObjectDecisionType where
  | not_set
  | ignore
  | stop (d : ObjectStop)
  | follow (d : ObjectFollow)
  | yield (d : ObjectYield)
  | overtake (d : ObjectOvertake)
  | nudge (d : ObjectNudge)
  | avoid
  deriving DecidableEq, Repr

namespace ObjectDecisionType

/-- The accessor `has_stop()`. -/
def has_stop : ObjectDecisionType → Bool
  | stop _ => true
  | _ => false

/-- The accessor `has_follow()`. -/
def has_follow : ObjectDecisionType → Bool
  | follow _ => true
  | _ => false

/-- The accessor `has_yield()`. -/
def has_yield : ObjectDecisionType → Bool
  | yield _ => true
  | _ => false

/-- The accessor `has_overtake()`. -/
def has_overtake : ObjectDecisionType → Bool
  | overtake _ => true
  | _ => false

/-- The accessor `has_ignore()`. -/
def has_ignore : ObjectDecisionType → Bool
  | ignore => true
  | _ => false

/-- The accessor `has_nudge()`. -/
def has_nudge : ObjectDecisionType → Bool
  | nudge _ => true
  | _ => false

/-- The `distance_s` of a decision; a decision kind without such a field reads as `0`,
the default of an unset numeric field. -/
def distance_s : ObjectDecisionType → ℚ
  | stop d => d.distance_s
  | follow d => d.distance_s
  | yield d => d.distance_s
  | overtake d => d.distance_s
  | _ => 0

end ObjectDecisionType

/-! ## Obstacles and path obstacles -/

/-- The message `perception::PerceptionObstacle` (the fields the planning code reads). -/
structure PerceptionObstacle where
  position : PointENU
  velocity : Vec2d
  length : ℚ
  width : ℚ
  deriving DecidableEq, Repr

/-- The class `planning::Obstacle`: identity, perception data, predicted trajectory and the
bounding box of the perceived object. -/
structure Obstacle where
  Id : String
  PerceptionId : Int
  Perception : PerceptionObstacle
  Trajectory : List TrajectoryPoint
  PerceptionBoundingBox : Box2d
  deriving DecidableEq, Repr

/-- The class `PathObstacle` (`path_obstacle.h`): an obstacle with its path properties, the
decisions added to it and the two merged decision slots. -/
structure PathObstacle where
  id_ : String
  obstacle_ : Obstacle
  decisions_ : List ObjectDecisionType := []
  decider_tags_ : List String := []
  perception_sl_boundary_ : SLBoundary
  lateral_decision_ : ObjectDecisionType := ObjectDecisionType.not_set
  has_lateral_decision_ : Bool := false
  longitudinal_decision_ : ObjectDecisionType := ObjectDecisionType.not_set
  has_longitudinal_decision_ : Bool := false
  deriving DecidableEq, Repr

namespace PathObstacle

/-- The accessor `PathObstacle::Id()`. -/
def Id (po : PathObstacle) : String := po.id_

/-- The accessor `PathObstacle::Obstacle()`. -/
def Obstacle (po : PathObstacle) : planning.Obstacle := po.obstacle_

/-- The accessor `PathObstacle::HasLateralDecision()`. -/
def HasLateralDecision (po : PathObstacle) : Bool := po.has_lateral_decision_

/-- The accessor `PathObstacle::HasLongitudinalDecision()`. -/
def HasLongitudinalDecision (po : PathObstacle) : Bool := po.has_longitudinal_decision_

/-- The accessor `PathObstacle::LateralDecision()`. -/
def LateralDecision (po : PathObstacle) : ObjectDecisionType := po.lateral_decision_

/-- The accessor `PathObstacle::LongitudinalDecision()`. -/
def LongitudinalDecision (po : PathObstacle) : ObjectDecisionType := po.longitudinal_decision_

/-- The accessor `PathObstacle::perception_sl_boundary()`. -/
def perception_sl_boundary (po : PathObstacle) : SLBoundary := po.perception_sl_boundary_

/-- Modelled from the spec: `PathObstacle::IsLateralDecision` (declared in `path_obstacle.h`,
its body is in the missing `path_obstacle.cc`). Lateral decisions are Nudge and Ignore. -/
def IsLateralDecision (d : ObjectDecisionType) : Bool := d.has_ignore || d.has_nudge

/-- Modelled from the spec: `PathObstacle::IsLongitudinalDecision` (body in the missing
`path_obstacle.cc`). Longitudinal decisions are Stop, Yield, Follow, Overtake and Ignore. -/
def IsLongitudinalDecision (d : ObjectDecisionType) : Bool :=
  d.has_ignore || d.has_stop || d.has_yield || d.has_follow || d.has_overtake

/-- Modelled from the spec: the table `s_longitudinal_decision_safety_sorter_` (declared in
`path_obstacle.h`, defined in the missing `path_obstacle.cc`), with the values of the fixed
order `Stop(4) > Yield(3) = Follow(3) > Overtake(2) > Ignore(1)`. -/
def s_longitudinal_decision_safety_sorter_ : ObjectDecisionType → Nat
  | ObjectDecisionType.stop _ => 4
  | ObjectDecisionType.yield _ => 3
  | ObjectDecisionType.follow _ => 3
  | ObjectDecisionType.overtake _ => 2
  | ObjectDecisionType.ignore => 1
  | _ => 0

/-- Modelled from the spec: the table `s_lateral_decision_safety_sorter_` (defined in the missing
`path_obstacle.cc`), with the order `Nudge > Ignore`. -/
def s_lateral_decision_safety_sorter_ : ObjectDecisionType → Nat
  | ObjectDecisionType.nudge _ => 2
  | ObjectDecisionType.ignore => 1
  | _ => 0

/-- Modelled from the spec: `PathObstacle::MergeLongitudinalDecision` (body in the missing
`path_obstacle.cc`). The decision of the higher priority value wins; on equal priority the
decision with the smaller `distance_s` wins (the held one when the distances are equal). -/
def MergeLongitudinalDecision (lhs rhs : ObjectDecisionType) : ObjectDecisionType :=
  if s_longitudinal_decision_safety_sorter_ lhs < s_longitudinal_decision_safety_sorter_ rhs then
    rhs
  else if s_longitudinal_decision_safety_sorter_ rhs < s_longitudinal_decision_safety_sorter_ lhs then
    lhs
  else if rhs.distance_s < lhs.distance_s then rhs
  else lhs

/-- Modelled from the spec: `PathObstacle::MergeLateralDecision` (body in the missing
`path_obstacle.cc`), by the same rule over the lateral order. -/
def MergeLateralDecision (lhs rhs : ObjectDecisionType) : ObjectDecisionType :=
  if s_lateral_decision_safety_sorter_ lhs < s_lateral_decision_safety_sorter_ rhs then rhs
  else if s_lateral_decision_safety_sorter_ rhs < s_lateral_decision_safety_sorter_ lhs then lhs
  else if rhs.distance_s < lhs.distance_s then rhs
  else lhs

/-- Modelled from the spec: `PathObstacle::AddDecision` (declared in `path_obstacle.h`, body in
the missing `path_obstacle.cc`). The decision is classified as lateral and/or longitudinal
(Ignore is both); an empty slot stores it, an occupied slot keeps the merge of the held
decision with the new one. The decision and its tag are recorded. -/
def AddDecision (po : PathObstacle) (decider_tag : String) (decision : ObjectDecisionType) :
    PathObstacle :=
  let po1 : PathObstacle :=
    if IsLateralDecision decision then
      { po with
        lateral_decision_ :=
          if po.has_lateral_decision_ then MergeLateralDecision po.lateral_decision_ decision
          else decision
        has_lateral_decision_ := true }
    else po
  let po2 : PathObstacle :=
    if IsLongitudinalDecision decision then
      { po1 with
        longitudinal_decision_ :=
          if po1.has_longitudinal_decision_ then
            MergeLongitudinalDecision po1.longitudinal_decision_ decision
          else decision
        has_longitudinal_decision_ := true }
    else po1
  { po2 with
    decisions_ := po2.decisions_ ++ [decision]
    decider_tags_ := po2.decider_tags_ ++ [decider_tag] }

/-- A sequence of `AddDecision` calls, in order, each with its decider tag. -/
def AddDecisions (po : PathObstacle) : List (String × ObjectDecisionType) → PathObstacle
  | [] => po
  | td :: rest => AddDecisions (po.AddDecision td.1 td.2) rest

end PathObstacle

/-- The class `PathDecision` (`path_decision.h`): the path obstacles of a cycle, in
insertion order (`path_obstacles().Items()`). -/
structure PathDecision where
  path_obstacles : List PathObstacle
  deriving DecidableEq, Repr

/-! ## Reference line (`reference_line.cc`) -/

/-- The class `hdmap::LaneWaypoint`, by lane id and arc length on the lane. -/
structure LaneWaypoint where
  lane_id : String
  s : ℚ
  deriving DecidableEq, Repr

/-- The class `hdmap::MapPathPoint`: a position, a heading and the lane waypoints. -/
structure MapPathPoint where
  x : ℚ
  y : ℚ
  heading : ℚ
  lane_waypoints : List LaneWaypoint
  deriving DecidableEq, Repr

/-- The class `ReferencePoint`: a `MapPathPoint` with curvature, curvature rate and the two
bounds, in the order of its constructor
`ReferencePoint(map_path_point, kappa, dkappa, lower_bound, upper_bound)`. -/
structure ReferencePoint extends MapPathPoint where
  kappa : ℚ
  dkappa : ℚ
  lower_bound : ℚ
  upper_bound : ℚ
  deriving DecidableEq, Repr

/-- The method `add_lane_waypoints` of a point: the given waypoints are added after the held
ones. -/
def ReferencePoint.add_lane_waypoints (p : ReferencePoint) (ws : List LaneWaypoint) :
    ReferencePoint :=
  { p with lane_waypoints := p.lane_waypoints ++ ws }

/-- The class `hdmap::Path` as the reference line uses it. Its code is not part of the planning
sources, so its queries are fields: the theorems hold for every path. -/
structure MapPath where
  accumulated_s : List ℚ
  length : ℚ
  num_points : Nat
  get_smooth_point : ℚ → MapPathPoint
  get_projection : Vec2d → Option (ℚ × ℚ)
  get_width : ℚ → Option (ℚ × ℚ)

/-- The class `ReferenceLine`: the reference points and the map path built from them. -/
structure ReferenceLine where
  reference_points_ : List ReferencePoint
  reference_map_line_ : MapPath

/-- The numeric library functions the reference line calls (`common/math/linear_interpolation.h`
and `boost::math::tools::brent_find_minima`), not part of the planning sources. -/
structure MathLib where
  lerp : ℚ → ℚ → ℚ → ℚ → ℚ → ℚ
  slerp : ℚ → ℚ → ℚ → ℚ → ℚ → ℚ
  brent_find_minima : (ℚ → ℚ) → ℚ → ℚ → Nat → ℚ × ℚ
  cos : ℚ → ℚ
  sin : ℚ → ℚ
  hypot : ℚ → ℚ → ℚ

namespace ReferenceLine

/-- The accessor `ReferenceLine::length()`. -/
def length (rl : ReferenceLine) : ℚ := rl.reference_map_line_.length

/-- The function `ReferenceLine::interpolate`: the copy of `p1` with `x`, `y`, `kappa`, `dkappa`
replaced by `lerp` values and the heading by the `slerp` value. -/
def interpolate (ml : MathLib) (p0 : ReferencePoint) (s0 : ℚ) (p1 : ReferencePoint) (s1 : ℚ)
    (s : ℚ) : ReferencePoint :=
  { p1 with
    x := ml.lerp p0.x s0 p1.x s1 s
    y := ml.lerp p0.y s0 p1.y s1 s
    heading := ml.slerp p0.heading s0 p1.heading s1 s
    kappa := ml.lerp p0.kappa s0 p1.kappa s1 s
    dkappa := ml.lerp p0.dkappa s0 p1.dkappa s1 s }

/-- The index `std::lower_bound(accumulated_s.begin(), accumulated_s.end(), s)` returns: the
number of leading elements that are less than `s` (the list is ordered). -/
def lower_bound (accumulated_s : List ℚ) (s : ℚ) : Nat :=
  (accumulated_s.takeWhile (fun a => decide (a < s))).length

/-- The function `ReferenceLine::get_reference_point(const double s)`. The result is `none`
only where the C++ reads an element of an empty vector or past its end. -/
def get_reference_point (ml : MathLib) (rl : ReferenceLine) (s : ℚ) : Option ReferencePoint :=
  let accumulated_s := rl.reference_map_line_.accumulated_s
  match accumulated_s.head?, accumulated_s.getLast? with
  | some front, some back =>
    if s < front then
      let ref_point : ReferencePoint :=
        { toMapPathPoint := rl.reference_map_line_.get_smooth_point s
          kappa := 0, dkappa := 0, lower_bound := 0, upper_bound := 0 }
      if ref_point.lane_waypoints.isEmpty then
        match rl.reference_points_.head? with
        | some first => some (ref_point.add_lane_waypoints first.lane_waypoints)
        | none => none
      else some ref_point
    else if s > back then
      let ref_point : ReferencePoint :=
        { toMapPathPoint := rl.reference_map_line_.get_smooth_point s
          kappa := 0, dkappa := 0, lower_bound := 0, upper_bound := 0 }
      if ref_point.lane_waypoints.isEmpty then
        match rl.reference_points_.getLast? with
        | some last => some (ref_point.add_lane_waypoints last.lane_waypoints)
        | none => none
      else some ref_point
    else
      let index := lower_bound accumulated_s s
      if index = 0 then rl.reference_points_.head?
      else
        match rl.reference_points_.get? (index - 1), rl.reference_points_.get? index,
            accumulated_s.get? (index - 1), accumulated_s.get? index with
        | some p0, some p1, some s0, some s1 => some (interpolate ml p0 s0 p1 s1 s)
        | _, _, _, _ => none
  | _, _ => none

/-- The function `ReferenceLine::get_point_in_frenet_frame`: `none` is the return value
`false` (the output point is then left as it was), `some sl` is `true` with the point set.
On a map path without any accumulated `s`, where the C++ would read the last element of an
empty vector, the result is `none` as well. -/
def get_point_in_frenet_frame (rl : ReferenceLine) (xy_point : Vec2d) : Option SLPoint :=
  match rl.reference_map_line_.get_projection xy_point with
  | none => none
  | some (s, l) =>
    match rl.reference_map_line_.accumulated_s.getLast? with
    | none => none
    | some back => if s > back then none else some { s := s, l := l }

/-- The lambda `func_distance_square` of `get_reference_point(x, y)`. -/
def func_distance_square (point : ReferencePoint) (x y : ℚ) : ℚ :=
  (point.x - x) * (point.x - x) + (point.y - y) * (point.y - y)

/-- The scan of `get_reference_point(x, y)` for the nearest sampled point: `i` is the index of
the head of the remaining points, the result is the final `(d_min, index_min)`. -/
def nearest_scan (x y : ℚ) : List ReferencePoint → Nat → ℚ → Nat → ℚ × Nat
  | [], _, d_min, index_min => (d_min, index_min)
  | p :: rest, i, d_min, index_min =>
    if func_distance_square p x y < d_min then
      nearest_scan x y rest (i + 1) (func_distance_square p x y) i
    else nearest_scan x y rest (i + 1) d_min index_min

/-- The function `ReferenceLine::find_min_distance_point`. -/
def find_min_distance_point (ml : MathLib) (p0 : ReferencePoint) (s0 : ℚ) (p1 : ReferencePoint)
    (s1 : ℚ) (x y : ℚ) : ℚ :=
  (ml.brent_find_minima
    (fun s =>
      (((interpolate ml p0 s0 p1 s1 s).x - x) * ((interpolate ml p0 s0 p1 s1 s).x - x)
        + ((interpolate ml p0 s0 p1 s1 s).y - y) * ((interpolate ml p0 s0 p1 s1 s).y - y)))
    s0 s1 8).1

/-- The function `ReferenceLine::get_reference_point(const double x, const double y)`. -/
def get_reference_point_xy (ml : MathLib) (rl : ReferenceLine) (x y : ℚ) :
    Option ReferencePoint :=
  match rl.reference_points_ with
  | [] => none
  | first :: rest =>
    let index_min := (nearest_scan x y rest 1 (func_distance_square first x y) 0).2
    let index_start := if index_min = 0 then index_min else index_min - 1
    let index_end :=
      if index_min + 1 = rl.reference_points_.length then index_min else index_min + 1
    if index_start = index_end then rl.reference_points_.get? index_start
    else
      match rl.reference_map_line_.accumulated_s.get? index_start,
          rl.reference_map_line_.accumulated_s.get? index_end,
          rl.reference_points_.get? index_start, rl.reference_points_.get? index_end with
      | some s0, some s1, some p0, some p1 =>
        some (interpolate ml p0 s0 p1 s1 (find_min_distance_point ml p0 s0 p1 s1 x y))
      | _, _, _, _ => none

end ReferenceLine

/-! ## ST-graph boundary (`st_graph_boundary.cc`) -/

/-- The enumeration `StGraphBoundary::BoundaryType`. -/
inductive BoundaryType where
  | UNKNOWN
  | STOP
  | FOLLOW
  | YIELD
  | OVERTAKE
  deriving DecidableEq, Repr

/-- The base class `common::math::Polygon2d`, by what the planning code reads of it: the
vertices and the cached area. -/
structure Polygon2d where
  points : List Vec2d
  area : ℚ
  deriving DecidableEq, Repr

/-- The class `StGraphBoundary`: a polygon with a type tag, an obstacle id, a characteristic
length and the cached extents in `s` and `t`. -/
structure StGraphBoundary extends Polygon2d where
  boundary_type_ : BoundaryType
  id_ : String
  characteristic_length_ : ℚ
  s_high_limit_ : ℚ
  min_s_ : ℚ
  max_s_ : ℚ
  min_t_ : ℚ
  max_t_ : ℚ
  deriving DecidableEq, Repr

/-- The message `StBoundaryConfig` (the fields the boundary mapping reads). -/
structure StBoundaryConfig where
  boundary_buffer : ℚ
  point_extension : ℚ
  minimal_follow_time : ℚ
  follow_buffer : ℚ
  expanding_coeff : ℚ
  deriving DecidableEq, Repr

/-- The message `common::VehicleParam` (the fields the planning code reads). -/
structure VehicleParam where
  front_edge_to_center : ℚ
  length : ℚ
  width : ℚ
  deriving DecidableEq, Repr

/-- The message `common::FrenetFramePoint`. -/
structure FrenetFramePoint where
  s : ℚ
  l : ℚ
  dl : ℚ
  ddl : ℚ
  deriving DecidableEq, Repr

/-- The class `PathData`, by its two paths: the discretized path and the Frenet-frame path. -/
structure PathData where
  discretized_path : List PathPoint
  frenet_frame_path : List FrenetFramePoint
  deriving DecidableEq, Repr

/-- The code the mapper and the boundary call that is not part of the planning sources at
hand. Every theorem holds for every value of these fields.

* `Box2d_HasOverlap a b` is `a.HasOverlap(b)`;
* `Polygon2d_ctor pts` is the `Polygon2d` that `Polygon2d(pts)` builds;
* `StGraphBoundary_default` is a `StGraphBoundary` as its in-class member initialisers leave
  it (the value of `StGraphBoundary()`, and the starting value of the members that the
  points constructors do not set);
* `Double_Compare a b` is `Double::Compare(a, b)`;
* `Obstacle_GetBoundingBox o p` is `o.GetBoundingBox(p)`;
* `PathData_GetPathPointWithRefS d s` is `d.GetPathPointWithRefS(s, &point)`, `none` for `false`;
* `FLAGS_decision_valid_stop_range` is the flag of that name. -/
structure Externals where
  math : MathLib
  Box2d_HasOverlap : Box2d → Box2d → Bool
  Polygon2d_ctor : List Vec2d → Polygon2d
  StGraphBoundary_default : StGraphBoundary
  Double_Compare : ℚ → ℚ → Int
  Obstacle_GetBoundingBox : Obstacle → TrajectoryPoint → Box2d
  PathData_GetPathPointWithRefS : PathData → ℚ → Option PathPoint
  FLAGS_decision_valid_stop_range : ℚ

namespace StGraphBoundary

/-- The loop of the `STPoint` constructor: the running extents after the points seen. -/
def extend_STPoints (b : StGraphBoundary) : List STPoint → StGraphBoundary
  | [] => b
  | point :: rest =>
    extend_STPoints
      { b with
        min_s_ := min b.min_s_ point.s
        min_t_ := min b.min_t_ point.t
        max_s_ := max b.max_s_ point.s
        max_t_ := max b.max_t_ point.t } rest

/-- The loop of the `Vec2d` constructor: `s` is read from `y` and `t` from `x`. -/
def extend_Vec2ds (b : StGraphBoundary) : List Vec2d → StGraphBoundary
  | [] => b
  | point :: rest =>
    extend_Vec2ds
      { b with
        min_s_ := min b.min_s_ point.y
        min_t_ := min b.min_t_ point.x
        max_s_ := max b.max_s_ point.y
        max_t_ := max b.max_t_ point.x } rest

/-- The constructor `StGraphBoundary(const std::vector<STPoint>& points)`; `none` when
`CHECK_EQ(points.size(), 4)` fails. -/
def ctor_STPoints (ext : Externals) (points : List STPoint) : Option StGraphBoundary :=
  if points.length = 4 then
    some (extend_STPoints
      { ext.StGraphBoundary_default with
        toPolygon2d := ext.Polygon2d_ctor (points.map STPoint.toVec2d) } points)
  else none

/-- The constructor `StGraphBoundary(const std::vector<Vec2d>& points)`; `none` when
`CHECK_EQ(points.size(), 4)` fails. -/
def ctor_Vec2ds (ext : Externals) (points : List Vec2d) : Option StGraphBoundary :=
  if points.length = 4 then
    some (extend_Vec2ds
      { ext.StGraphBoundary_default with toPolygon2d := ext.Polygon2d_ctor points } points)
  else none

/-- The accessor `min_s()`. -/
def min_s (b : StGraphBoundary) : ℚ := b.min_s_

/-- The accessor `min_t()`. -/
def min_t (b : StGraphBoundary) : ℚ := b.min_t_

/-- The accessor `max_s()`. -/
def max_s (b : StGraphBoundary) : ℚ := b.max_s_

/-- The accessor `max_t()`. -/
def max_t (b : StGraphBoundary) : ℚ := b.max_t_

/-- The accessor `boundary_type()`. -/
def boundary_type (b : StGraphBoundary) : BoundaryType := b.boundary_type_

/-- The accessor `id()`. -/
def id (b : StGraphBoundary) : String := b.id_

/-- The setter `SetBoundaryType`. -/
def SetBoundaryType (b : StGraphBoundary) (boundary_type : BoundaryType) : StGraphBoundary :=
  { b with boundary_type_ := boundary_type }

/-- The setter `SetId`. -/
def SetId (b : StGraphBoundary) (id : String) : StGraphBoundary := { b with id_ := id }

/-- The setter `SetCharacteristicLength`. -/
def SetCharacteristicLength (b : StGraphBoundary) (characteristic_length : ℚ) :
    StGraphBoundary :=
  { b with characteristic_length_ := characteristic_length }

end StGraphBoundary

namespace ObjectDecisionType

/-- The accessor `stop()`: the held message, or the default message when the tag is another. -/
def get_stop : ObjectDecisionType → ObjectStop
  | stop d => d
  | _ => ⟨0, 0, ⟨0, 0⟩, 0⟩

/-- The accessor `follow()`: the held message, or the default message. -/
def get_follow : ObjectDecisionType → ObjectFollow
  | follow d => d
  | _ => ⟨0, ⟨0, 0⟩, 0⟩

/-- The accessor `yield()`: the held message, or the default message. -/
def get_yield : ObjectDecisionType → ObjectYield
  | yield d => d
  | _ => ⟨0, ⟨0, 0⟩, 0⟩

/-- The accessor `overtake()`: the held message, or the default message. -/
def get_overtake : ObjectDecisionType → ObjectOvertake
  | overtake d => d
  | _ => ⟨0, ⟨0, 0⟩, 0⟩

end ObjectDecisionType

/-! ## ST-boundary mapper (`st_boundary_mapper.cc`)

`DCHECK` assertions are debug-build assertions; the functions below are the release build,
in which they are not evaluated. The one `DCHECK` whose argument has an effect, in the
constructor, is embedded for both builds. -/

/-- The class `StBoundaryMapper`, by its members. -/
structure StBoundaryMapper where
  st_boundary_config_ : StBoundaryConfig
  reference_line_ : ReferenceLine
  path_data_ : PathData
  vehicle_param_ : VehicleParam
  planning_distance_ : ℚ
  planning_time_ : ℚ
  adc_front_s_ : ℚ

/-- The lower and upper overlap points that `GetOverlapBoundaryPoints` fills. -/
structure OverlapPoints where
  upper_points : List STPoint
  lower_points : List STPoint
  deriving DecidableEq, Repr

/-- The variables of the bracketing search in `GetOverlapBoundaryPoints`. -/
structure OverlapSearch where
  low : Int
  high : Int
  find_low : Bool
  find_high : Bool
  deriving DecidableEq, Repr

/-- The stop obstacle held by the loop of `GetGraphBoundary`: `stop_obstacle`, `stop_decision`
and `min_stop_s`, which are assigned together. The state before the first assignment
(`stop_obstacle == nullptr`, in which `min_stop_s` is never read) is `none` of the option. -/
structure StopSelection where
  stop_obstacle : PathObstacle
  stop_decision : ObjectDecisionType
  min_stop_s : ℚ
  deriving DecidableEq, Repr

namespace StBoundaryMapper

/-- The constructor `StBoundaryMapper::StBoundaryMapper`. `vehicle_param` is the value read from
`VehicleConfigHelper`. With `dcheck_on` (debug build) the projection inside `DCHECK` is run
and must succeed; without it (release build) it is not run and `sl_point` keeps `s = 0`.
`StartPoint()` of an empty path is `none`. -/
def ctor (dcheck_on : Bool) (vehicle_param : VehicleParam) (config : StBoundaryConfig)
    (reference_line : ReferenceLine) (path_data : PathData) (planning_distance : ℚ)
    (planning_time : ℚ) : Option StBoundaryMapper :=
  match path_data.discretized_path.head? with
  | none => none
  | some path_start_point =>
    let checked : Option SLPoint :=
      if dcheck_on then
        reference_line.get_point_in_frenet_frame ⟨path_start_point.x, path_start_point.y⟩
      else some {}
    match checked with
    | none => none
    | some sl_point =>
      some
        { st_boundary_config_ := config
          reference_line_ := reference_line
          path_data_ := path_data
          vehicle_param_ := vehicle_param
          planning_distance_ := planning_distance
          planning_time_ := planning_time
          adc_front_s_ := sl_point.s + vehicle_param.front_edge_to_center }

/-- The function `StBoundaryMapper::CheckOverlap`. -/
def CheckOverlap (ext : Externals) (m : StBoundaryMapper) (path_point : PathPoint)
    (obs_box : Box2d) (buffer : ℚ) : Bool :=
  let mid_to_rear_center := m.vehicle_param_.length / 2 - m.vehicle_param_.front_edge_to_center
  let x := path_point.x - mid_to_rear_center * ext.math.cos path_point.theta
  let y := path_point.y - mid_to_rear_center * ext.math.sin path_point.theta
  let adc_box : Box2d :=
    ⟨⟨x, y⟩, path_point.theta, m.vehicle_param_.length + 2 * buffer,
      m.vehicle_param_.width + 2 * buffer⟩
  ext.Box2d_HasOverlap obs_box adc_box

/-- The function `StBoundaryMapper::AppendBoundary`. -/
def AppendBoundary (ext : Externals) (boundary : StGraphBoundary)
    (st_graph_boundaries : List StGraphBoundary) : List StGraphBoundary :=
  if ext.Double_Compare boundary.area 0 ≤ 0 then st_graph_boundaries
  else st_graph_boundaries ++ [boundary]

/-- The first loop of `GetOverlapBoundaryPoints` (obstacle without trajectory): the scan of the
path points up to the first overlap or the first point beyond the planning distance. -/
def static_overlap (ext : Externals) (m : StBoundaryMapper) (obstacle : Obstacle) :
    List PathPoint → OverlapPoints
  | [] => ⟨[], []⟩
  | curr_point_on_path :: rest =>
    if curr_point_on_path.s > m.planning_distance_ then ⟨[], []⟩
    else if CheckOverlap ext m curr_point_on_path obstacle.PerceptionBoundingBox
        m.st_boundary_config_.boundary_buffer then
      { lower_points :=
          [⟨curr_point_on_path.s, 0⟩, ⟨curr_point_on_path.s, m.planning_time_⟩]
        upper_points := [⟨m.planning_distance_, 0⟩, ⟨m.planning_distance_, m.planning_time_⟩] }
    else static_overlap ext m obstacle rest

/-- The element `path_points[i]` for a signed index. -/
def path_point_at (path_points : List PathPoint) (i : Int) : Option PathPoint :=
  if 0 ≤ i then path_points.get? i.toNat else none

/-- The `while (low < high)` loop of `GetOverlapBoundaryPoints`; `overlaps i` is
`CheckOverlap(path_points[i], obs_box, boundary_buffer)`. Every pass that does not leave the
loop moves `low` or `high` or sets a flag, so `path_points.size() + 2` passes, the fuel it is
run with, are never used up. -/
def overlap_search (overlaps : Int → Bool) : Nat → OverlapSearch → OverlapSearch
  | 0, st => st
  | fuel + 1, st =>
    if st.low < st.high then
      if st.find_low && st.find_high then st
      else
        let st1 : OverlapSearch :=
          if !st.find_low then
            if !overlaps st.low then { st with low := st.low + 1 }
            else { st with find_low := true }
          else st
        let st2 : OverlapSearch :=
          if !st1.find_high then
            if !overlaps st1.high then { st1 with high := st1.high - 1 }
            else { st1 with find_high := true }
          else st1
        overlap_search overlaps fuel st2
    else st

/-- The second loop of `GetOverlapBoundaryPoints` (obstacle with a trajectory): one bracketing
search per trajectory point, which adds one lower and one upper point when both ends are found. -/
def trajectory_overlap (ext : Externals) (m : StBoundaryMapper) (obstacle : Obstacle)
    (path_points : List PathPoint) : List TrajectoryPoint → OverlapPoints → OverlapPoints
  | [], acc => acc
  | trajectory_point :: rest, acc =>
    let obs_box := ext.Obstacle_GetBoundingBox obstacle trajectory_point
    let st := overlap_search
      (fun i =>
        match path_point_at path_points i with
        | some p => CheckOverlap ext m p obs_box m.st_boundary_config_.boundary_buffer
        | none => false)
      (path_points.length + 2) ⟨0, (path_points.length : Int) - 1, false, false⟩
    if st.find_high && st.find_low then
      match path_point_at path_points st.low, path_point_at path_points st.high with
      | some p_low, some p_high =>
        trajectory_overlap ext m obstacle path_points rest
          { lower_points := acc.lower_points ++
              [⟨p_low.s - m.st_boundary_config_.point_extension,
                trajectory_point.relative_time⟩]
            upper_points := acc.upper_points ++
              [⟨p_high.s + m.st_boundary_config_.point_extension,
                trajectory_point.relative_time⟩] }
      | _, _ => trajectory_overlap ext m obstacle path_points rest acc
    else trajectory_overlap ext m obstacle path_points rest acc

/-- The function `StBoundaryMapper::GetOverlapBoundaryPoints`: the returned flag and the points
written to `upper_points` and `lower_points` (both empty at the call). -/
def GetOverlapBoundaryPoints (ext : Externals) (m : StBoundaryMapper)
    (path_points : List PathPoint) (obstacle : Obstacle) : Bool × OverlapPoints :=
  if path_points.length = 0 then (false, ⟨[], []⟩)
  else
    let pts : OverlapPoints :=
      if obstacle.Trajectory.length = 0 then static_overlap ext m obstacle path_points
      else trajectory_overlap ext m obstacle path_points obstacle.Trajectory ⟨[], []⟩
    (decide (pts.lower_points.length > 0) && decide (pts.upper_points.length > 0), pts)

/-- The function `StBoundaryMapper::MapWithoutDecision`: the returned status and the value of
`*boundary` afterwards. -/
def MapWithoutDecision (ext : Externals) (m : StBoundaryMapper) (path_obstacle : PathObstacle)
    (boundary : StGraphBoundary) : Option (Status × StGraphBoundary) :=
  match GetOverlapBoundaryPoints ext m m.path_data_.discretized_path path_obstacle.Obstacle with
  | (false, _) => some (Status.OK, boundary)
  | (true, pts) =>
    if pts.lower_points.length > 0 ∧ pts.upper_points.length > 0 then
      match pts.lower_points.head?, pts.lower_points.getLast?, pts.upper_points.getLast?,
          pts.upper_points.head? with
      | some lower_first, some lower_back, some upper_back, some upper_first =>
        match StGraphBoundary.ctor_STPoints ext
            [⟨lower_first.s - m.st_boundary_config_.boundary_buffer,
                lower_first.t - m.st_boundary_config_.boundary_buffer⟩,
              ⟨lower_back.s - m.st_boundary_config_.boundary_buffer,
                lower_back.t + m.st_boundary_config_.boundary_buffer⟩,
              ⟨upper_back.s + m.st_boundary_config_.boundary_buffer,
                upper_back.t + m.st_boundary_config_.boundary_buffer⟩,
              ⟨upper_first.s + m.st_boundary_config_.boundary_buffer,
                upper_first.t - m.st_boundary_config_.boundary_buffer⟩] with
        | some b => some (Status.OK, b.SetId path_obstacle.Obstacle.Id)
        | none => none
      | _, _, _, _ => none
    else some (Status.OK, boundary)

/-- The adjustment of the four boundary points by the decision in `MapWithPredictionTrajectory`
("change boundary according to obj_decision"): the points, the boundary type and the
characteristic length. -/
def adjust_by_decision (ext : Externals) (m : StBoundaryMapper) (path_obstacle : PathObstacle)
    (obj_decision : ObjectDecisionType) (buffer : ℚ) (p0 p1 p2 p3 : STPoint) :
    List STPoint × BoundaryType × ℚ :=
  if obj_decision.has_follow then
    let scalar_speed := ext.math.hypot path_obstacle.Obstacle.Perception.velocity.x
      path_obstacle.Obstacle.Perception.velocity.y
    ([p0, p1, p2, { p3 with t := -1 }], BoundaryType.FOLLOW,
      max (scalar_speed * m.st_boundary_config_.minimal_follow_time)
        |obj_decision.get_follow.distance_s| + m.vehicle_param_.front_edge_to_center)
  else if obj_decision.has_yield then
    let dis := |obj_decision.get_yield.distance_s|
    ([ (if p0.s - dis < 0 then { p0 with s := max (p0.s - buffer) 0 }
        else { p0 with s := p0.s - dis }),
       (if p1.s - dis < 0 then { p1 with s := max (p1.s - buffer) 0 }
        else { p1 with s := p1.s - dis }),
       p2, p3], BoundaryType.YIELD, dis)
  else if obj_decision.has_overtake then
    let dis := |obj_decision.get_overtake.distance_s|
    ([p0, p1, { p2 with s := p2.s + dis }, { p3 with s := p3.s + dis }],
      BoundaryType.UNKNOWN, dis)
  else ([p0, p1, p2, p3], BoundaryType.UNKNOWN, 0)

/-- The function `StBoundaryMapper::MapWithPredictionTrajectory`: the returned status and the
value of `*boundary` afterwards. -/
def MapWithPredictionTrajectory (ext : Externals) (m : StBoundaryMapper)
    (path_obstacle : PathObstacle) (obj_decision : ObjectDecisionType)
    (boundary : StGraphBoundary) : Option (Status × StGraphBoundary) :=
  match GetOverlapBoundaryPoints ext m m.path_data_.discretized_path path_obstacle.Obstacle with
  | (false, _) => some (⟨ErrorCode.PLANNING_ERROR, "PLANNING_ERROR"⟩, boundary)
  | (true, pts) =>
    if pts.lower_points.length > 0 ∧ pts.upper_points.length > 0 then
      let buffer := m.st_boundary_config_.boundary_buffer
      match pts.lower_points.head?, pts.lower_points.getLast?, pts.upper_points.getLast?,
          pts.upper_points.head? with
      | some lower_first, some lower_back, some upper_back, some upper_first =>
        match adjust_by_decision ext m path_obstacle obj_decision buffer
            ⟨max 0 (lower_first.s - buffer), lower_first.t⟩
            ⟨max 0 (lower_back.s - buffer), lower_back.t⟩
            ⟨upper_back.s + buffer + m.st_boundary_config_.boundary_buffer, upper_back.t⟩
            ⟨upper_first.s + buffer, upper_first.t⟩ with
        | (boundary_points, b_type, characteristic_length) =>
          match StGraphBoundary.ctor_STPoints ext boundary_points with
          | some b =>
            some (Status.OK,
              ((b.SetBoundaryType b_type).SetId path_obstacle.Obstacle.Id).SetCharacteristicLength
                characteristic_length)
          | none => none
      | _, _, _, _ => none
    else some (Status.OK, boundary)

/-- The function `StBoundaryMapper::MapFollowDecision`: the returned status and the value of
`*boundary` afterwards. The result of the first projection is not tested by the code: when it
fails `obstacle_sl_point` keeps `s = 0`. -/
def MapFollowDecision (ext : Externals) (m : StBoundaryMapper) (path_obstacle : PathObstacle)
    (obj_decision : ObjectDecisionType) (boundary : StGraphBoundary) :
    Option (Status × StGraphBoundary) :=
  let obstacle := path_obstacle.Obstacle
  let obstacle_sl_point : SLPoint :=
    match m.reference_line_.get_point_in_frenet_frame
        ⟨obstacle.Perception.position.x, obstacle.Perception.position.y⟩ with
    | some sl => sl
    | none => {}
  match m.reference_line_.get_reference_point_xy ext.math obstacle.Perception.position.x
      obstacle.Perception.position.y with
  | none => none
  | some ref_point =>
    if ext.math.cos (obj_decision.get_follow.fence_heading - ref_point.heading) < 0 then
      some (⟨ErrorCode.PLANNING_ERROR, "obstacle is moving opposite the reference line"⟩, boundary)
    else
      match m.path_data_.discretized_path.head? with
      | none => none
      | some start_point =>
        match m.reference_line_.get_point_in_frenet_frame ⟨start_point.x, start_point.y⟩ with
        | none => some (⟨ErrorCode.PLANNING_ERROR, "Fail to get s and l of start point."⟩, boundary)
        | some start_sl_point =>
          let distance_to_obstacle :=
            obstacle_sl_point.s
              - obstacle.Perception.length / 2 * m.st_boundary_config_.expanding_coeff
              - start_sl_point.s - m.vehicle_param_.front_edge_to_center
              - m.st_boundary_config_.follow_buffer
          if distance_to_obstacle > m.planning_distance_ then some (Status.OK, boundary)
          else
            let speed := ext.math.hypot obstacle.Perception.velocity.x
              obstacle.Perception.velocity.y
            let s_min_lower := distance_to_obstacle
            let s_min_upper := max (distance_to_obstacle + 1) m.planning_distance_
            let s_max_lower := s_min_lower + m.planning_time_ * speed
            let s_max_upper := max s_max_lower m.planning_distance_
            match StGraphBoundary.ctor_STPoints ext
                [⟨s_min_lower, 0⟩, ⟨s_max_lower, m.planning_time_⟩,
                  ⟨s_max_upper, m.planning_time_⟩, ⟨s_min_upper, 0⟩] with
            | some b =>
              some (Status.OK,
                ((b.SetCharacteristicLength
                    (|obj_decision.get_follow.distance_s|
                      + m.st_boundary_config_.follow_buffer)).SetId
                  obstacle.Id).SetBoundaryType BoundaryType.FOLLOW)
            | none => none

/-- The function `StBoundaryMapper::MapStopDecision`: the returned flag and the value of
`*boundary` afterwards. -/
def MapStopDecision (ext : Externals) (m : StBoundaryMapper) (stop_obstacle : PathObstacle)
    (stop_decision : ObjectDecisionType) (boundary : StGraphBoundary) :
    Option (Bool × StGraphBoundary) :=
  match m.path_data_.frenet_frame_path.getLast? with
  | none => none
  | some frenet_back =>
    if stop_obstacle.perception_sl_boundary.start_s > frenet_back.s then some (true, boundary)
    else
      match ext.PathData_GetPathPointWithRefS m.path_data_
          stop_obstacle.perception_sl_boundary.start_s with
      | none => some (false, boundary)
      | some obstacle_point =>
        let st_stop_s := obstacle_point.s + stop_decision.get_stop.distance_s
          - m.vehicle_param_.front_edge_to_center - ext.FLAGS_decision_valid_stop_range
        if st_stop_s < 0 then some (false, boundary)
        else
          let s_min := st_stop_s
          let s_max := max s_min (max m.planning_distance_ m.reference_line_.length)
          match StGraphBoundary.ctor_STPoints ext
              [⟨s_min, 0⟩, ⟨s_min, m.planning_time_⟩,
                ⟨s_max + m.st_boundary_config_.boundary_buffer, m.planning_time_⟩,
                ⟨s_max, 0⟩] with
          | some b =>
            some (true,
              ((b.SetBoundaryType BoundaryType.STOP).SetCharacteristicLength
                m.st_boundary_config_.boundary_buffer).SetId stop_obstacle.Id)
          | none => none

/-- The stop position `stop_s` that `GetGraphBoundary` computes for an obstacle with a stop
decision: `perception_sl_boundary().start_s() + decision.stop().distance_s()`. -/
def stop_s (path_obstacle : PathObstacle) : ℚ :=
  path_obstacle.perception_sl_boundary.start_s
    + path_obstacle.LongitudinalDecision.get_stop.distance_s

/-- The body of the `for` loop of `GetGraphBoundary` for one path obstacle, from the held stop
selection and the boundaries appended so far. `Except.error st` is a `return st` from inside
the loop, `Except.ok sel` the end of the body (or a `continue`) with the stop selection then
held; the list is the content of `*st_graph_boundaries` at that point. -/
def GetGraphBoundary_body (ext : Externals) (m : StBoundaryMapper) (path_obstacle : PathObstacle)
    (sel : Option StopSelection) (bs : List StGraphBoundary) :
    Option (Except Status (Option StopSelection) × List StGraphBoundary) :=
  if !path_obstacle.HasLongitudinalDecision then
    match MapWithoutDecision ext m path_obstacle ext.StGraphBoundary_default with
    | none => none
    | some (ret, boundary) =>
      if !ret.ok then
        some (Except.error ⟨ErrorCode.PLANNING_ERROR,
          "Fail to map obstacle " ++ path_obstacle.Id ++ " without decision."⟩, bs)
      else some (Except.ok sel, AppendBoundary ext boundary bs)
  else if path_obstacle.LongitudinalDecision.has_follow then
    match MapFollowDecision ext m path_obstacle path_obstacle.LongitudinalDecision
        ext.StGraphBoundary_default with
    | none => none
    | some (ret, follow_boundary) =>
      if !ret.ok then
        some (Except.error ⟨ErrorCode.PLANNING_ERROR, "Fail to map follow decision"⟩, bs)
      else some (Except.ok sel, AppendBoundary ext follow_boundary bs)
  else if path_obstacle.LongitudinalDecision.has_stop then
    if stop_s path_obstacle < m.adc_front_s_ then
      some (Except.error ⟨ErrorCode.PLANNING_ERROR, "invalid decision"⟩, bs)
    else
      match sel with
      | none =>
        some (Except.ok
          (some ⟨path_obstacle, path_obstacle.LongitudinalDecision, stop_s path_obstacle⟩), bs)
      | some held =>
        if stop_s path_obstacle < held.min_stop_s then
          some (Except.ok
            (some ⟨path_obstacle, path_obstacle.LongitudinalDecision, stop_s path_obstacle⟩), bs)
        else some (Except.ok sel, bs)
  else if path_obstacle.LongitudinalDecision.has_overtake
      || path_obstacle.LongitudinalDecision.has_yield then
    match MapWithPredictionTrajectory ext m path_obstacle path_obstacle.LongitudinalDecision
        ext.StGraphBoundary_default with
    | none => none
    | some (ret, boundary) =>
      if !ret.ok then
        some (Except.error ⟨ErrorCode.PLANNING_ERROR, "Fail to map overtake/yield decision"⟩, bs)
      else some (Except.ok sel, AppendBoundary ext boundary bs)
  else some (Except.ok sel, bs)

/-- The `for` loop of `GetGraphBoundary` over `path_obstacles.Items()`: the body for each
obstacle in order, until one returns. -/
def GetGraphBoundary_loop (ext : Externals) (m : StBoundaryMapper) :
    List PathObstacle → Option StopSelection → List StGraphBoundary →
      Option (Except Status (Option StopSelection) × List StGraphBoundary)
  | [], sel, bs => some (Except.ok sel, bs)
  | path_obstacle :: rest, sel, bs =>
    match GetGraphBoundary_body ext m path_obstacle sel bs with
    | none => none
    | some (Except.error st, bs1) => some (Except.error st, bs1)
    | some (Except.ok sel1, bs1) => GetGraphBoundary_loop ext m rest sel1 bs1

/-- The function `StBoundaryMapper::GetGraphBoundary`. The argument `st_graph_boundaries` is
the vector the pointer refers to (`none` for a null pointer); the result is the returned
status and the vector afterwards. The whole result is `none` where the C++ stops at a failed
`CHECK` or reads a missing element. -/
def GetGraphBoundary (ext : Externals) (m : StBoundaryMapper) (path_decision : PathDecision)
    (st_graph_boundaries : Option (List StGraphBoundary)) :
    Option (Status × Option (List StGraphBoundary)) :=
  match st_graph_boundaries with
  | none => some (⟨ErrorCode.PLANNING_ERROR, "st_graph_boundaries is NULL."⟩, none)
  | some held =>
    if m.planning_time_ < 0 then
      some (⟨ErrorCode.PLANNING_ERROR, "Fail to get params since planning_time_ < 0."⟩, some held)
    else if m.path_data_.discretized_path.length < 2 then
      some (⟨ErrorCode.PLANNING_ERROR, "Fail to get params because of too few path points"⟩,
        some held)
    else
      match GetGraphBoundary_loop ext m path_decision.path_obstacles none [] with
      | none => none
      | some (Except.error st, bs) => some (st, some bs)
      | some (Except.ok none, bs) => some (Status.OK, some bs)
      | some (Except.ok (some sel), bs) =>
        match MapStopDecision ext m sel.stop_obstacle sel.stop_decision
            ext.StGraphBoundary_default with
        | none => none
        | some (false, _) =>
          some (⟨ErrorCode.PLANNING_ERROR, "Fail to MapStopDecision."⟩, some bs)
        | some (true, stop_boundary) =>
          some (Status.OK, some (AppendBoundary ext stop_boundary bs))

end StBoundaryMapper

/-! ## Discretized trajectory (`discretized_trajectory.cc`) -/

/-- The class `DiscretizedTrajectory`: the vector of trajectory points it holds. -/
structure DiscretizedTrajectory where
  trajectory_points_ : List TrajectoryPoint
  deriving DecidableEq, Repr

namespace DiscretizedTrajectory

/-- The constructor `DiscretizedTrajectory(std::vector<TrajectoryPoint>)`: the points are
moved into the member as they are. -/
def ctor (trajectory_points : List TrajectoryPoint) : DiscretizedTrajectory :=
  { trajectory_points_ := trajectory_points }

/-- The accessor `NumOfPoints()`. -/
def NumOfPoints (t : DiscretizedTrajectory) : Nat := t.trajectory_points_.length

/-- The accessor `trajectory_points()`. -/
def trajectory_points (t : DiscretizedTrajectory) : List TrajectoryPoint :=
  t.trajectory_points_

/-- The loop of `Valid()` over the pairs `(points[i - 1], points[i])`, from the head of the
list on: `false` at the first pair whose times are not strictly increasing. -/
def Valid_loop : List TrajectoryPoint → Bool
  | p :: q :: rest =>
    if ¬ (p.relative_time < q.relative_time) then false else Valid_loop (q :: rest)
  | _ => true

/-- The function `DiscretizedTrajectory::Valid()`. -/
def Valid (t : DiscretizedTrajectory) : Bool :=
  if t.trajectory_points_.length = 0 ∨ t.trajectory_points_.length = 1 then true
  else Valid_loop t.trajectory_points_

/-- The function `DiscretizedTrajectory::AppendTrajectoryPoint`: `none` is the failure of its
`CHECK_GT`, which ends the program. -/
def AppendTrajectoryPoint (t : DiscretizedTrajectory) (trajectory_point : TrajectoryPoint) :
    Option DiscretizedTrajectory :=
  match t.trajectory_points_.getLast? with
  | some back =>
    if trajectory_point.relative_time > back.relative_time then
      some { trajectory_points_ := t.trajectory_points_ ++ [trajectory_point] }
    else none
  | none => some { trajectory_points_ := t.trajectory_points_ ++ [trajectory_point] }

/-- The function `DiscretizedTrajectory::set_trajectory_points`: the points are stored, and
`none` is the failure of the `CHECK(Valid() ...)` that follows. -/
def set_trajectory_points (_t : DiscretizedTrajectory) (points : List TrajectoryPoint) :
    Option DiscretizedTrajectory :=
  if (DiscretizedTrajectory.mk points).Valid then some { trajectory_points_ := points }
  else none

/-- The function `DiscretizedTrajectory::Clear()`. -/
def Clear (_t : DiscretizedTrajectory) : DiscretizedTrajectory := { trajectory_points_ := [] }

/-- The function `DiscretizedTrajectory::TimeLength()`. -/
def TimeLength (t : DiscretizedTrajectory) : ℚ :=
  match t.trajectory_points_.head?, t.trajectory_points_.getLast? with
  | some front, some back => back.relative_time - front.relative_time
  | _, _ => 0

end DiscretizedTrajectory

/-! ## Decider (`decider.cc`) -/

/-- The message `MainStop`; a fresh one has every field at its default. -/
structure MainStop where
  reason_code : Nat := 0
  reason : String := ""
  stop_point : PointENU := ⟨0, 0⟩
  stop_heading : ℚ := 0
  deriving DecidableEq, Repr

/-- The enumeration `MainEmergencyStop::ReasonCode`: the code the decider names, and any
other code by its number. -/
inductive EStopReasonCode where
  | ESTOP_REASON_INTERNAL_ERR
  | other (code : Nat)
  deriving DecidableEq, Repr

/-- The oneof `task` of `MainEmergencyStop`. -/
inductive EStopTask where
  | not_set
  | hard_brake
  | cruise_to_stop
  deriving DecidableEq, Repr

/-- The message `MainEmergencyStop`; `reason_code` is `none` while unset. -/
structure MainEmergencyStop where
  reason_code : Option EStopReasonCode := none
  reason : String := ""
  task : EStopTask := EStopTask.not_set
  deriving DecidableEq, Repr

/-- The message `MainDecision`: the oneof of the main decision, possibly not set. -/
inductive MainDecision where
  | not_set
  | cruise
  | stop (d : MainStop)
  | estop (d : MainEmergencyStop)
  | not_ready (reason : String)
  deriving DecidableEq, Repr

/-- The message `ObjectDecision`: one obstacle and the decisions made for it. -/
structure ObjectDecision where
  id : String := ""
  perception_id : Int := 0
  object_decision : List ObjectDecisionType := []
  deriving DecidableEq, Repr

/-- The message `DecisionResult`; a cleared one has no main decision and no object decision. -/
structure DecisionResult where
  main_decision : MainDecision := MainDecision.not_set
  object_decision : List ObjectDecision := []
  deriving DecidableEq, Repr

/-! ## Output message and planning data (`planning.proto`, `frame.h`) -/

/-- The class `PublishableTrajectory`: a `DiscretizedTrajectory` with the header time given
to its constructor. -/
structure PublishableTrajectory extends DiscretizedTrajectory where
  header_time_ : ℚ
  deriving DecidableEq, Repr

namespace PublishableTrajectory

/-- The default constructor: no point. -/
def default : PublishableTrajectory := { trajectory_points_ := [], header_time_ := 0 }

/-- The constructor `PublishableTrajectory(header_time, discretized_trajectory)`. -/
def ctor (header_time : ℚ) (discretized_trajectory : DiscretizedTrajectory) :
    PublishableTrajectory :=
  { toDiscretizedTrajectory := discretized_trajectory, header_time_ := header_time }

/-- The setter `set_header_time`. -/
def set_header_time (t : PublishableTrajectory) (header_time : ℚ) : PublishableTrajectory :=
  { t with header_time_ := header_time }

/-- The inherited `DiscretizedTrajectory::Clear()`: the points are removed. -/
def Clear (t : PublishableTrajectory) : PublishableTrajectory :=
  { t with toDiscretizedTrajectory := t.toDiscretizedTrajectory.Clear }

end PublishableTrajectory

/-- The message `common::Header`, by the fields the planning code fills. -/
structure Header where
  module_name : String := ""
  timestamp_sec : ℚ := 0
  sequence_num : Nat := 0
  deriving DecidableEq, Repr

/-- The enumeration `canbus::Chassis::GearPosition`: the position the planning code names,
and any other position by its number. -/
inductive GearPosition where
  | GEAR_DRIVE
  | other (code : Nat)
  deriving DecidableEq, Repr

/-- The enumeration `canbus::Chassis::DrivingMode`: the mode the planning code names, and any
other mode by its number. -/
inductive DrivingMode where
  | COMPLETE_AUTO_DRIVE
  | other (code : Nat)
  deriving DecidableEq, Repr

/-- The message `canbus::Chassis`, by the field the planning code reads. -/
structure Chassis where
  driving_mode : DrivingMode
  deriving DecidableEq, Repr

/-- The message `localization::Pose`, by its position. -/
structure Pose where
  position : PointENU := ⟨0, 0⟩
  deriving DecidableEq, Repr

/-- The message `localization::LocalizationEstimate`, by its pose. -/
structure LocalizationEstimate where
  pose : Pose
  deriving DecidableEq, Repr

/-- The message `routing::RoutingResponse`, by the ids of the lanes it routes over. -/
structure RoutingResponse where
  lane_ids : List String := []
  deriving DecidableEq, Repr

/-- The message `prediction::PredictionObstacles`: the time of its header and, for every
obstacle, the points of each of its predicted trajectories. -/
structure PredictionObstacles where
  header_timestamp_sec : ℚ := 0
  prediction_obstacle : List (List (List TrajectoryPoint)) := []
  deriving DecidableEq, Repr

/-- The message `planning_internal::Path` of the debug output: a named list of path points. -/
structure DebugPath where
  name : String
  path_point : List PathPoint
  deriving DecidableEq, Repr

/-- The debug part of the output message, by the fields the planning code writes. -/
structure PlanningDebug where
  init_point : Option TrajectoryPoint := none
  path : List DebugPath := []
  adc_position : Option LocalizationEstimate := none
  chassis : Option Chassis := none
  routing : Option RoutingResponse := none
  deriving DecidableEq, Repr

/-- The message `ADCTrajectory`, the output of a planning cycle; a fresh one has every field
at its default. -/
structure ADCTrajectory where
  header : Header := {}
  trajectory_point : List TrajectoryPoint := []
  is_replan : Bool := false
  gear : Option GearPosition := none
  decision : DecisionResult := {}
  latency_stats_total_time_ms : Option ℚ := none
  debug : PlanningDebug := {}
  deriving DecidableEq, Repr

/-- The message `common::SpeedPoint`. -/
structure SpeedPoint where
  s : ℚ
  t : ℚ
  v : ℚ
  a : ℚ
  da : ℚ
  deriving DecidableEq, Repr

/-- The class `SpeedData` (`speed_data.cc`): the vector of speed points it holds. -/
structure SpeedData where
  speed_vector_ : List SpeedPoint := []
  deriving DecidableEq, Repr

/-- The class `DecisionData`, by the obstacles it holds; a new one holds none. -/
structure DecisionData where
  obstacles : List Obstacle := []
  deriving DecidableEq, Repr

/-- The class `ReferenceLineInfo`, by what `Planning::Plan` reads of it: the trajectory a
planner has left in it. -/
structure ReferenceLineInfo where
  trajectory_ : DiscretizedTrajectory := ⟨[]⟩
  deriving DecidableEq, Repr

/-- A default-constructed `ReferenceLine`: no point, and a path without points. -/
def ReferenceLine.default : ReferenceLine :=
  { reference_points_ := []
    reference_map_line_ :=
      { accumulated_s := [], length := 0, num_points := 0,
        get_smooth_point := fun _ => ⟨0, 0, 0, []⟩,
        get_projection := fun _ => none,
        get_width := fun _ => none } }

/-- The class `PlanningData`, by what the planner and the optimizers read and write of it:
the reference line, the start point, the decision data, the path data and the speed data. -/
structure PlanningData where
  reference_line_ : ReferenceLine := ReferenceLine.default
  init_planning_point_ : TrajectoryPoint := ⟨⟨0, 0, 0, 0, 0⟩, 0, 0, 0⟩
  decision_data_ : Option DecisionData := none
  path_data_ : PathData := ⟨[], []⟩
  speed_data_ : SpeedData := {}

/-- The class `Frame`: the reference line and the path decision that `Frame::Init` creates
(what the decider reads of it), and the members the planning cycle reads and writes. A frame
made by `Frame(sequence_num)` has every member but the sequence number at its default. The
member `path_decision_` is a `std::unique_ptr<PathDecision>`, null (`none`) until
`Frame::Init` creates the path decision. -/
structure Frame where
  reference_line_ : ReferenceLine
  path_decision_ : Option PathDecision
  sequence_num_ : Nat := 0
  planning_start_point_ : TrajectoryPoint := ⟨⟨0, 0, 0, 0, 0⟩, 0, 0, 0⟩
  routing_response_ : RoutingResponse := {}
  prediction_ : PredictionObstacles := {}
  init_pose_ : Pose := {}
  computed_trajectory_ : PublishableTrajectory := PublishableTrajectory.default
  planning_data_ : PlanningData := {}
  reference_line_info_ : List ReferenceLineInfo := []
  trajectory_pb_ : ADCTrajectory := {}

/-- The values the decider reads from outside the planning sources at hand:
`VehicleState::instance()->pose().position()`, the vehicle parameters of
`VehicleConfigHelper`, and the method `PathObstacle::IsIgnore()`, which `decider.cc` calls
and `path_obstacle.h` does not declare. -/
structure DeciderGlobals where
  adc_position : PointENU
  vehicle_param : VehicleParam
  PathObstacle_IsIgnore : PathObstacle → Bool

/-- The stop obstacle held by the loop of `MakeMainStopDecision`: `min_stop_line_s`,
`stop_obstacle` and `stop_decision`, which are assigned together. The initial state
(`min_stop_line_s` infinite, both pointers null) is `none` of the option. -/
structure MainStopSelection where
  min_stop_line_s : ℚ
  stop_obstacle : Obstacle
  stop_decision : ObjectStop
  deriving DecidableEq, Repr

namespace Decider

/-- The value `stop_line_sl.s()` in `MakeMainStopDecision`: the `s` of the projection of the
stop point on the reference line, or `0`, the `s` of the fresh `SLPoint`, when the projection
returns `false` (the code does not test its result). -/
def stop_line_s (reference_line : ReferenceLine) (path_obstacle : PathObstacle) : ℚ :=
  (match reference_line.get_point_in_frenet_frame
      ⟨path_obstacle.LongitudinalDecision.get_stop.stop_point.x,
        path_obstacle.LongitudinalDecision.get_stop.stop_point.y⟩ with
    | some sl => sl
    | none => ({} : SLPoint)).s

/-- The value `adc_sl.s()` in `MakeMainStopDecision`, obtained the same way from the position
of the vehicle. -/
def adc_s (g : DeciderGlobals) (reference_line : ReferenceLine) : ℚ :=
  (match reference_line.get_point_in_frenet_frame ⟨g.adc_position.x, g.adc_position.y⟩ with
    | some sl => sl
    | none => ({} : SLPoint)).s

/-- The `for` loop of `MakeMainStopDecision` over `path_obstacles.Items()`. -/
def main_stop_scan (g : DeciderGlobals) (reference_line : ReferenceLine) :
    List PathObstacle → Option MainStopSelection → Option MainStopSelection
  | [], sel => sel
  | path_obstacle :: rest, sel =>
    if !path_obstacle.LongitudinalDecision.has_stop then
      main_stop_scan g reference_line rest sel
    else if stop_line_s reference_line path_obstacle < 0
        ∨ stop_line_s reference_line path_obstacle > reference_line.length then
      main_stop_scan g reference_line rest sel
    else if stop_line_s reference_line path_obstacle
        ≤ adc_s g reference_line + g.vehicle_param.front_edge_to_center then
      main_stop_scan g reference_line rest sel
    else
      match sel with
      | none =>
        main_stop_scan g reference_line rest
          (some ⟨stop_line_s reference_line path_obstacle, path_obstacle.Obstacle,
            path_obstacle.LongitudinalDecision.get_stop⟩)
      | some held =>
        if stop_line_s reference_line path_obstacle < held.min_stop_line_s then
          main_stop_scan g reference_line rest
            (some ⟨stop_line_s reference_line path_obstacle, path_obstacle.Obstacle,
              path_obstacle.LongitudinalDecision.get_stop⟩)
        else main_stop_scan g reference_line rest sel

/-- The function `Decider::MakeMainStopDecision`: the returned code and `*decision_`
afterwards. `frame` and `path_decision` are `none` for a null pointer; the result is `none`
where `CHECK_NOTNULL(path_decision)` fails, which ends the program. -/
def MakeMainStopDecision (g : DeciderGlobals) (decision_ : DecisionResult)
    (frame : Option Frame) (path_decision : Option PathDecision) :
    Option (Int × DecisionResult) :=
  match frame with
  | none => some (0, decision_)
  | some fr =>
    match path_decision with
    | none => none
    | some path_decision =>
      match main_stop_scan g fr.reference_line_ path_decision.path_obstacles none with
      | some sel =>
        some (1, { decision_ with
              main_decision := MainDecision.stop
                { reason_code := sel.stop_decision.reason_code
                  reason := "stop by " ++ sel.stop_obstacle.Id
                  stop_point := ⟨sel.stop_decision.stop_point.x, sel.stop_decision.stop_point.y⟩
                  stop_heading := sel.stop_decision.stop_heading } })
      | none => some (0, decision_)

/-- The loop body of `SetObjectDecisions`: the entry added for one path obstacle. -/
def object_decision_of (g : DeciderGlobals) (path_obstacle : PathObstacle) : ObjectDecision :=
  if g.PathObstacle_IsIgnore path_obstacle then
    { id := path_obstacle.Obstacle.Id
      perception_id := path_obstacle.Obstacle.PerceptionId
      object_decision := [ObjectDecisionType.ignore] }
  else
    { id := path_obstacle.Obstacle.Id
      perception_id := path_obstacle.Obstacle.PerceptionId
      object_decision :=
        (if path_obstacle.HasLateralDecision then [path_obstacle.LateralDecision] else [])
          ++ (if path_obstacle.HasLongitudinalDecision then [path_obstacle.LongitudinalDecision]
              else []) }

/-- The `for` loop of `SetObjectDecisions`: one `add_decision()` per path obstacle, in order. -/
def set_object_decisions_loop (g : DeciderGlobals) :
    List PathObstacle → List ObjectDecision → List ObjectDecision
  | [], acc => acc
  | path_obstacle :: rest, acc =>
    set_object_decisions_loop g rest (acc ++ [object_decision_of g path_obstacle])

/-- The function `Decider::SetObjectDecisions`: the returned code and `*decision_` afterwards.
`path_decision` is the object the pointer refers to; the caller handles the null pointer. -/
def SetObjectDecisions (g : DeciderGlobals) (decision_ : DecisionResult)
    (path_decision : PathDecision) : Int × DecisionResult :=
  (0, { decision_ with
        object_decision :=
          set_object_decisions_loop g path_decision.path_obstacles decision_.object_decision })

/-- The `for` loop of `MakeEStopDecision`: one entry per path obstacle, with the single
decision `avoid`. -/
def estop_object_decisions_loop : List PathObstacle → List ObjectDecision → List ObjectDecision
  | [], acc => acc
  | path_obstacle :: rest, acc =>
    estop_object_decisions_loop rest
      (acc ++ [{ id := path_obstacle.Obstacle.Id
                 perception_id := path_obstacle.Obstacle.PerceptionId
                 object_decision := [ObjectDecisionType.avoid] }])

/-- The function `Decider::MakeEStopDecision`: the returned code and `*decision_` afterwards.
The held result is cleared first (`decision_->Clear()`). `path_decision` is the object the
pointer refers to; on the null pointer `CHECK_NOTNULL(path_decision)` ends the program, which
the caller `MakeDecision` gives as `none`. -/
def MakeEStopDecision (_decision_ : DecisionResult) (path_decision : PathDecision) :
    Int × DecisionResult :=
  let cleared : DecisionResult := {}
  (0, { cleared with
        main_decision := MainDecision.estop
          { reason_code := some EStopReasonCode.ESTOP_REASON_INTERNAL_ERR
            reason := "estop reason to be added"
            task := EStopTask.cruise_to_stop }
        object_decision :=
          estop_object_decisions_loop path_decision.path_obstacles cleared.object_decision })

/-- The function `Decider::MakeDecision`: the returned status and `*decision_` afterwards.
`path_decision` is the pointer `frame->path_decision()`, null (`none`) on a frame whose
`Init` has not created the path decision. The result is `none` where the program ends: at
the `CHECK_NOTNULL(path_decision)` of `MakeMainStopDecision` or of `MakeEStopDecision`, and
where `SetObjectDecisions` reads through the null pointer. -/
def MakeDecision (g : DeciderGlobals) (_decision_ : DecisionResult) (frame : Frame) :
    Option (Status × DecisionResult) :=
  let cleared : DecisionResult := {}
  let path_decision := frame.path_decision_
  let estop := false
  if estop then
    match path_decision with
    | none => none
    | some held => some (⟨ErrorCode.OK, "estop"⟩, (MakeEStopDecision cleared held).2)
  else
    let with_cruise : DecisionResult := { cleared with main_decision := MainDecision.cruise }
    match MakeMainStopDecision g with_cruise (some frame) path_decision with
    | none => none
    | some (error_code, after_stop) =>
      match path_decision with
      | none => none
      | some held =>
        if error_code < 0 then
          some (⟨ErrorCode.OK, "MakeDecision failed. estop."⟩,
            (MakeEStopDecision after_stop held).2)
        else
          some (⟨ErrorCode.OK, "MakeDecision completed"⟩,
            (SetObjectDecisions g after_stop held).2)

end Decider

namespace ReferenceLine

/-- The function `ReferenceLine::get_point_in_frenet_frame` with its output parameter written
out: `sl_point` is the point the caller passes in, the result is the returned flag and the
point as the call leaves it. The result is `none` only where the C++ reads the last element of
an empty vector of accumulated `s`. -/
def get_point_in_frenet_frame_out (rl : ReferenceLine) (xy_point : Vec2d) (sl_point : SLPoint) :
    Option (Bool × SLPoint) :=
  match rl.reference_map_line_.get_projection xy_point with
  | none => some (false, sl_point)
  | some (s, l) =>
    match rl.reference_map_line_.accumulated_s.getLast? with
    | none => none
    | some back =>
      if s > back then some (false, sl_point)
      else some (true, { sl_point with s := s, l := l })

end ReferenceLine

/-! ## Planning cycle (`planning.cc`) -/

/-- The adapters of `AdapterManager` the planning cycle uses: for each input the messages
observed (the latest first; `Empty()` is the empty list), and for the planning output the
sequence number of its header and the messages published so far (the latest last). -/
structure AdapterManager where
  localization : List LocalizationEstimate := []
  chassis : List Chassis := []
  routing_response : List RoutingResponse := []
  prediction : List PredictionObstacles := []
  planning_seq_num : Nat := 0
  planning_published : List ADCTrajectory := []
  deriving DecidableEq, Repr

/-- The method `GetLatestPublished()` of the planning adapter: the last published message, if
any (a null pointer otherwise). -/
def AdapterManager.GetLatestPublished (am : AdapterManager) : Option ADCTrajectory :=
  am.planning_published.getLast?

/-- The code the planning cycle calls that is not part of the sources at hand, and the flags
it reads:
* `Observe` is `AdapterManager::Observe()`;
* `FillPlanningHeader name seq` is `AdapterManager::FillPlanningHeader(name, &pb)`, by the
  header it fills in and the sequence number it leaves in the adapter;
* `VehicleState_Update` is `VehicleState::instance()->Update(localization, chassis)`, by
  the pose the vehicle state has afterwards;
* `Frame_Init` is `frame_->Init(config_)` (the `Frame::Init()` of `frame.cc` takes no
  argument): the returned flag and the frame as the call leaves it;
* `ComputeStitchingTrajectory` is `TrajectoryStitcher::ComputeStitchingTrajectory`;
* `planner_Plan` is `planner_->Plan(start_point, frame, &reference_line_info)`: the status,
  and the frame and the reference line info as the call leaves them;
* `PrependTrajectoryPoints` and `PopulateTrajectoryProtobuf` are the methods of
  `PublishableTrajectory` of these names. -/
structure PlanningEnv where
  FLAGS_enable_prediction : Bool
  FLAGS_enable_record_debug : Bool
  FLAGS_planning_loop_rate : ℚ
  Observe : AdapterManager → AdapterManager
  FillPlanningHeader : String → Nat → Header × Nat
  VehicleState_Update : LocalizationEstimate → Chassis → Pose
  Frame_Init : Frame → Bool × Frame
  ComputeStitchingTrajectory : Bool → ℚ → ℚ → PublishableTrajectory → List TrajectoryPoint
  planner_Plan : TrajectoryPoint → Frame → ReferenceLineInfo → Status × Frame × ReferenceLineInfo
  PrependTrajectoryPoints : PublishableTrajectory → List TrajectoryPoint → PublishableTrajectory
  PopulateTrajectoryProtobuf : PublishableTrajectory → ADCTrajectory → ADCTrajectory

/-- The constructor `Frame(sequence_num)`: it sets the sequence number and leaves the
pointer `path_decision_` null. -/
def Frame.ctor (sequence_num : Nat) : Frame :=
  { reference_line_ := ReferenceLine.default, path_decision_ := none,
    sequence_num_ := sequence_num }

/-- The method `Frame::SetPlanningStartPoint`. -/
def Frame.SetPlanningStartPoint (frame : Frame) (start_point : TrajectoryPoint) : Frame :=
  { frame with planning_start_point_ := start_point }

/-- The method `Frame::SetVehicleInitPose`. -/
def Frame.SetVehicleInitPose (frame : Frame) (pose : Pose) : Frame :=
  { frame with init_pose_ := pose }

/-- The method `Frame::SetRoutingResponse`. -/
def Frame.SetRoutingResponse (frame : Frame) (routing : RoutingResponse) : Frame :=
  { frame with routing_response_ := routing }

/-- The method `Frame::SetPrediction`. -/
def Frame.SetPrediction (frame : Frame) (prediction : PredictionObstacles) : Frame :=
  { frame with prediction_ := prediction }

/-- The method `Frame::RecordInputDebug`: with the debug flag set, the latest localization,
chassis and routing messages are copied into the debug part of the output message. -/
def Frame.RecordInputDebug (enable_record_debug : Bool) (am : AdapterManager) (frame : Frame) :
    Frame :=
  if !enable_record_debug then frame
  else
    { frame with
      trajectory_pb_ :=
        { frame.trajectory_pb_ with
          debug :=
            { frame.trajectory_pb_.debug with
              adc_position := am.localization.head?
              chassis := am.chassis.head?
              routing := am.routing_response.head? } } }

/-- The method `Frame::AlignPredictionTime`: every predicted point gets the relative time
`prediction_header_time + relative_time - trajectory_header_time`. -/
def Frame.AlignPredictionTime (frame : Frame) (trajectory_header_time : ℚ) : Frame :=
  { frame with
    prediction_ :=
      { frame.prediction_ with
        prediction_obstacle :=
          frame.prediction_.prediction_obstacle.map (fun obstacle =>
            obstacle.map (fun trajectory =>
              trajectory.map (fun point =>
                { point with
                  relative_time :=
                    frame.prediction_.header_timestamp_sec + point.relative_time
                      - trajectory_header_time }))) } }

/-- The class `Planning`, by the members the planning cycle reads and writes: the frame (a
null pointer before the first cycle) and the trajectory published last. -/
structure Planning where
  frame_ : Option Frame := none
  last_publishable_trajectory_ : PublishableTrajectory := PublishableTrajectory.default

namespace Planning

/-- The method `Planning::PublishPlanningPb(trajectory_pb)`: the header is filled in, the gear
is set to drive, and the message is published. The result is the adapters afterwards. -/
def PublishPlanningPb (env : PlanningEnv) (am : AdapterManager) (trajectory_pb : ADCTrajectory) :
    AdapterManager :=
  let filled := env.FillPlanningHeader "planning" am.planning_seq_num
  let pb : ADCTrajectory :=
    { trajectory_pb with header := filled.1, gear := some GearPosition.GEAR_DRIVE }
  { am with planning_seq_num := filled.2, planning_published := am.planning_published ++ [pb] }

/-- The method `Planning::PublishPlanningPb(trajectory_pb, timestamp)`: as the one above,
with the time of the header replaced by `timestamp`. The result is the adapters and the
message as the call leaves it. -/
def PublishPlanningPb_timestamp (env : PlanningEnv) (am : AdapterManager)
    (trajectory_pb : ADCTrajectory) (timestamp : ℚ) : AdapterManager × ADCTrajectory :=
  let filled := env.FillPlanningHeader "planning" am.planning_seq_num
  let pb : ADCTrajectory :=
    { trajectory_pb with
      header := { filled.1 with timestamp_sec := timestamp }
      gear := some GearPosition.GEAR_DRIVE }
  ({ am with planning_seq_num := filled.2,
             planning_published := am.planning_published ++ [pb] }, pb)

/-- The method `Planning::InitFrame`: the returned flag and the planning object with its new
frame. `pose` is `VehicleState::instance()->pose()`. -/
def InitFrame (env : PlanningEnv) (p : Planning) (am : AdapterManager) (pose : Pose)
    (sequence_num : Nat) : Bool × Planning :=
  let frame := Frame.ctor sequence_num
  match am.routing_response with
  | [] => (false, { p with frame_ := some frame })
  | routing :: _ =>
    let frame := frame.SetVehicleInitPose pose
    let frame := frame.SetRoutingResponse routing
    let frame :=
      match env.FLAGS_enable_prediction, am.prediction with
      | true, prediction :: _ => frame.SetPrediction prediction
      | _, _ => frame
    match env.Frame_Init frame with
    | (false, frame) => (false, { p with frame_ := some frame })
    | (true, frame) =>
      (true, { p with
        frame_ := some (Frame.RecordInputDebug env.FLAGS_enable_record_debug am frame) })

/-- The loop of `Planning::Plan` over the reference line infos of the frame: `done` are the
infos already planned, as the planner left them, `best` is the index of the last info for
which the planner returned `Status::OK()` (`best_reference_line`, null as `none`). The result
is the frame as the last planner call left it, holding the infos as the calls left them, and
the final `best`. -/
def plan_loop (env : PlanningEnv) (start_point : TrajectoryPoint) :
    Frame → List ReferenceLineInfo → List ReferenceLineInfo → Option Nat → Frame × Option Nat
  | frame, [], done, best => ({ frame with reference_line_info_ := done }, best)
  | frame, reference_line_info :: rest, done, best =>
    let r := env.planner_Plan start_point
      { frame with reference_line_info_ := done ++ reference_line_info :: rest }
      reference_line_info
    if r.1 ≠ Status.OK then plan_loop env start_point r.2.1 rest (done ++ [r.2.2]) best
    else plan_loop env start_point r.2.1 rest (done ++ [r.2.2]) (some done.length)

/-- The method `Planning::Plan`: the returned flag and the planning object afterwards. The
result is `none` where the C++ reads through a null frame, or the last point of an empty
stitching trajectory (and for an index `best` outside the infos, which the loop never
leaves). -/
def Plan (env : PlanningEnv) (p : Planning) (is_on_auto_mode : Bool)
    (current_time_stamp planning_cycle_time : ℚ) : Option (Bool × Planning) :=
  let stitching_trajectory :=
    env.ComputeStitchingTrajectory is_on_auto_mode current_time_stamp planning_cycle_time
      p.last_publishable_trajectory_
  match p.frame_, stitching_trajectory.getLast? with
  | some frame, some back =>
    let frame := frame.SetPlanningStartPoint back
    let frame :=
      if env.FLAGS_enable_record_debug then
        { frame with
          trajectory_pb_ :=
            { frame.trajectory_pb_ with
              debug := { frame.trajectory_pb_.debug with init_point := some back } } }
      else frame
    let frame := frame.AlignPredictionTime current_time_stamp
    let planned := plan_loop env back frame frame.reference_line_info_ [] none
    let frame := planned.1
    match planned.2 with
    | none =>
      some (false,
        { p with
          frame_ := some frame
          last_publishable_trajectory_ := p.last_publishable_trajectory_.Clear })
    | some best =>
      match frame.reference_line_info_.get? best with
      | none => none
      | some best_reference_line =>
        let publishable_trajectory :=
          PublishableTrajectory.ctor current_time_stamp best_reference_line.trajectory_
        let publishable_trajectory :=
          env.PrependTrajectoryPoints publishable_trajectory stitching_trajectory.dropLast
        let publishable_trajectory := publishable_trajectory.set_header_time current_time_stamp
        let trajectory_pb :=
          env.PopulateTrajectoryProtobuf publishable_trajectory frame.trajectory_pb_
        let trajectory_pb : ADCTrajectory :=
          { trajectory_pb with is_replan := decide (stitching_trajectory.length = 1) }
        some (true,
          { p with
            frame_ := some { frame with trajectory_pb_ := trajectory_pb }
            last_publishable_trajectory_ := publishable_trajectory })
  | _, _ => none

/-- The method `Planning::RunOnce`: the planning object and the adapters after one cycle.
`start_timestamp` and `end_timestamp` are the two readings of `Clock::Now()`. The result is
`none` where `Plan` is. The quotient `1.0 / FLAGS_planning_loop_rate` is only handed on to the
trajectory stitcher. -/
def RunOnce (env : PlanningEnv) (p : Planning) (adapters : AdapterManager)
    (start_timestamp end_timestamp : ℚ) : Option (Planning × AdapterManager) :=
  let am := env.Observe adapters
  let not_ready_pb (reason : String) : ADCTrajectory :=
    { decision := { main_decision := MainDecision.not_ready reason } }
  match am.localization with
  | [] => some (p, PublishPlanningPb env am (not_ready_pb "localization not ready"))
  | localization :: _ =>
    match am.chassis with
    | [] => some (p, PublishPlanningPb env am (not_ready_pb "chassis not ready"))
    | chassis :: _ =>
      if am.routing_response.isEmpty then
        some (p, PublishPlanningPb env am (not_ready_pb "routing not ready"))
      else if env.FLAGS_enable_prediction && am.prediction.isEmpty then
        some (p, PublishPlanningPb env am (not_ready_pb "prediction not ready"))
      else
        let pose := env.VehicleState_Update localization chassis
        let planning_cycle_time := 1 / env.FLAGS_planning_loop_rate
        let frame_num := am.planning_seq_num + 1
        match InitFrame env p am pose frame_num with
        | (false, p) => some (p, am)
        | (true, p) =>
          let is_auto_mode := decide (chassis.driving_mode = DrivingMode.COMPLETE_AUTO_DRIVE)
          match Plan env p is_auto_mode start_timestamp planning_cycle_time with
          | none => none
          | some (res_planning, p) =>
            match p.frame_ with
            | none => none
            | some frame =>
              let time_diff_ms := (end_timestamp - start_timestamp) * 1000
              let trajectory_pb : ADCTrajectory :=
                { frame.trajectory_pb_ with latency_stats_total_time_ms := some time_diff_ms }
              if res_planning then
                let published := PublishPlanningPb_timestamp env am trajectory_pb start_timestamp
                some ({ p with frame_ := some { frame with trajectory_pb_ := published.2 } },
                  published.1)
              else
                some ({ p with frame_ := some { frame with trajectory_pb_ := trajectory_pb } }, am)

end Planning

/-! ## EM planner (`em_planner.cc`, `path_optimizer.cc`) -/

/-- The enumeration `OptimizerType`, by the four types `RegisterOptimizers` registers. -/
inductive OptimizerType where
  | DP_POLY_PATH_OPTIMIZER
  | DP_ST_SPEED_OPTIMIZER
  | QP_SPLINE_PATH_OPTIMIZER
  | QP_SPLINE_ST_SPEED_OPTIMIZER
  deriving DecidableEq, Repr

/-- The class `Optimizer` as `EMPlanner` uses it: its name, the result of its `Init()`, and
its `Optimize(planning_data)`, by the status it returns and the planning data as the call
leaves them. -/
structure Optimizer where
  name : String
  Init : Bool
  Optimize : PlanningData → Status × PlanningData

/-- The code `EMPlanner::Plan` calls that is not part of the sources at hand, and the flags it
reads:
* `OptimizerType_Parse name` is `OptimizerType_Parse(name, &type)`, `none` for `false`;
* `PlanningData_aggregate d r t` is `d->aggregate(r, &t)`: the returned flag and the
  trajectory as the call leaves it;
* `populate_trajectory_protobuf` is the method of `PublishableTrajectory` of that name;
* `PathPoint_of_ReferencePoint` is the copy of a reference point into a path point of the
  debug output. -/
structure EMPlannerEnv where
  FLAGS_enable_record_debug : Bool
  FLAGS_output_trajectory_time_resolution : ℚ
  OptimizerType_Parse : String → Option OptimizerType
  PlanningData_aggregate : PlanningData → ℚ → PublishableTrajectory → Bool × PublishableTrajectory
  populate_trajectory_protobuf : PublishableTrajectory → ADCTrajectory → ADCTrajectory
  PathPoint_of_ReferencePoint : ReferencePoint → PathPoint

/-- The class `EMPlanner`, by its optimizers, in the order of the configuration. -/
structure EMPlanner where
  optimizers_ : List Optimizer

namespace EMPlanner

/-- The second loop of `EMPlanner::Init`: a planning error for the first optimizer whose
`Init()` returns `false`. -/
def Init_loop : List Optimizer → Status
  | [] => Status.OK
  | optimizer :: rest =>
    if !optimizer.Init then
      ⟨ErrorCode.PLANNING_ERROR, "Init optimizer[" ++ optimizer.name ++ "] failed."⟩
    else Init_loop rest

/-- The loop of `EMPlanner::Plan` over the optimizers: the planning data, the output message
and the names in the lines `after optimizer <name>` logged so far. The status an optimizer
returns from `Optimize` is not looked at. The result is `none` where the `CHECK` on
`OptimizerType_Parse` fails. -/
def optimize_loop (env : EMPlannerEnv) :
    List Optimizer → PlanningData → ADCTrajectory → List String →
      Option (PlanningData × ADCTrajectory × List String)
  | [], planning_data, trajectory_pb, log => some (planning_data, trajectory_pb, log)
  | optimizer :: rest, planning_data, trajectory_pb, log =>
    let planning_data := (optimizer.Optimize planning_data).2
    let log := log ++ [optimizer.name]
    if env.FLAGS_enable_record_debug then
      match env.OptimizerType_Parse optimizer.name with
      | none => none
      | some type =>
        if type = OptimizerType.DP_POLY_PATH_OPTIMIZER
            ∨ type = OptimizerType.QP_SPLINE_PATH_OPTIMIZER then
          optimize_loop env rest planning_data
            { trajectory_pb with
              debug :=
                { trajectory_pb.debug with
                  path := trajectory_pb.debug.path
                    ++ [⟨optimizer.name, planning_data.path_data_.discretized_path⟩] } }
            log
        else optimize_loop env rest planning_data trajectory_pb log
    else optimize_loop env rest planning_data trajectory_pb log

/-- The function `EMPlanner::Plan`, on the current frame of the data center: the returned
status, the frame and the output message as the call leaves them, and the names of the
optimizers in the lines logged. The result is `none` where `optimize_loop` is. -/
def Plan (env : EMPlannerEnv) (planner : EMPlanner) (start_point : TrajectoryPoint)
    (frame : Frame) (trajectory_pb : ADCTrajectory) :
    Option (Status × Frame × ADCTrajectory × List String) :=
  let planning_data : PlanningData :=
    { frame.planning_data_ with
      init_planning_point_ := start_point
      decision_data_ := some {} }
  match optimize_loop env planner.optimizers_ planning_data trajectory_pb [] with
  | none => none
  | some (planning_data, trajectory_pb, log) =>
    match env.PlanningData_aggregate planning_data env.FLAGS_output_trajectory_time_resolution
        PublishableTrajectory.default with
    | (false, _) =>
      some (⟨ErrorCode.PLANNING_ERROR, "Fail to aggregate planning trajectory."⟩,
        { frame with planning_data_ := planning_data }, trajectory_pb, log)
    | (true, computed_trajectory) =>
      let frame : Frame :=
        { frame with planning_data_ := planning_data, computed_trajectory_ := computed_trajectory }
      let trajectory_pb := env.populate_trajectory_protobuf computed_trajectory trajectory_pb
      let trajectory_pb : ADCTrajectory :=
        if env.FLAGS_enable_record_debug then
          { trajectory_pb with
            debug :=
              { trajectory_pb.debug with
                path := trajectory_pb.debug.path
                  ++ [⟨"planning_reference_line",
                      planning_data.reference_line_.reference_points_.map
                        env.PathPoint_of_ReferencePoint⟩] } }
        else trajectory_pb
      some (Status.OK, frame, trajectory_pb, log)

end EMPlanner

/-- The class `PathOptimizer`: its name and its `Process`, by the status it returns and the
path decision and path data as the call leaves them. The path decision is given by the pointer
`frame->path_decision()`, which is null (`none`) before `Frame::Init`. -/
structure PathOptimizer where
  name : String
  Process : SpeedData → ReferenceLine → TrajectoryPoint → Option PathDecision → PathData →
    Status × Option PathDecision × PathData

/-- The function `PathOptimizer::Optimize(Frame*)` with `RecordDebugInfo`: the status of
`Process` is returned, and the path left in the path data is added to the debug output under
the name of the optimizer. -/
def PathOptimizer.Optimize (optimizer : PathOptimizer) (frame : Frame) : Status × Frame :=
  let ret := optimizer.Process frame.planning_data_.speed_data_ frame.reference_line_
    frame.planning_start_point_ frame.path_decision_ frame.planning_data_.path_data_
  let frame : Frame :=
    { frame with
      path_decision_ := ret.2.1
      planning_data_ := { frame.planning_data_ with path_data_ := ret.2.2 } }
  (ret.1,
    { frame with
      trajectory_pb_ :=
        { frame.trajectory_pb_ with
          debug :=
            { frame.trajectory_pb_.debug with
              path := frame.trajectory_pb_.debug.path
                ++ [⟨optimizer.name, frame.planning_data_.path_data_.discretized_path⟩] } } })

/-! ## QP spline path generator (`qp_spline_path_generator.cc`, `util.cc`) -/

namespace util

/-- The function `common::util::MakePathPoint`: position, heading and curvature are set, and
the arc length `s` is left at `0`. The arguments `z`, `dkappa` and `ddkappa` go to fields
that this development does not hold. -/
def MakePathPoint (x y _z theta kappa _dkappa _ddkappa : ℚ) : PathPoint :=
  { x := x, y := y, theta := theta, kappa := kappa, s := 0 }

/-- The function `common::util::Distance2D`. -/
def Distance2D (ml : MathLib) (a b : PathPoint) : ℚ := ml.hypot (a.x - b.x) (a.y - b.y)

end util

/-- The message `QpSplinePathConfig`, by the fields the generator reads. -/
structure QpSplinePathConfig where
  number_of_knots : Nat
  spline_order : Nat
  number_of_fx_constraint_knots : Nat
  time_resolution : ℚ
  num_output : Nat
  regularization_weight : ℚ
  derivative_weight : ℚ
  second_derivative_weight : ℚ
  third_derivative_weight : ℚ
  reference_line_weight : ℚ
  deriving DecidableEq, Repr

/-- A constraint given to `Spline1dConstraint`, by the method that adds it and its
arguments. -/
inductive SplineConstraint where
  | point_fx (x fx : ℚ)
  | point_derivative (x dfx : ℚ)
  | point_second_derivative (x ddfx : ℚ)
  | fx_boundary (x_coord lower_bound upper_bound : List ℚ)
  | third_derivative_smooth
  deriving DecidableEq, Repr

/-- A cost term given to `Spline1dKernel`, by the method that adds it and its arguments. -/
inductive SplineKernelTerm where
  | regularization (weight : ℚ)
  | derivative_kernel_matrix (weight : ℚ)
  | second_order_derivative_matrix (weight : ℚ)
  | third_order_derivative_matrix (weight : ℚ)
  | reference_line_kernel_matrix (x_coord ref_x : List ℚ) (weight : ℚ)
  deriving DecidableEq, Repr

/-- The class `Spline1dGenerator`, by what it has been given: the knots and the order of its
constructor, and the constraints and cost terms added since, in the order of the calls. -/
structure Spline1dGenerator where
  x_knots : List ℚ
  spline_order : Nat
  constraints : List SplineConstraint := []
  kernel : List SplineKernelTerm := []
  deriving DecidableEq, Repr

/-- The class `Spline1d` after a solve, by its three evaluations. -/
structure Spline1d where
  value : ℚ → ℚ
  derivative : ℚ → ℚ
  second_order_derivative : ℚ → ℚ

/-- The class `QpFrenetFrame`, by the arguments of its constructor and the number of points
given to its `Init`. -/
structure QpFrenetFrame where
  reference_line : ReferenceLine
  decision_data : DecisionData
  speed_data : SpeedData
  init_frenet_point : FrenetFramePoint
  start_s : ℚ
  end_s : ℚ
  time_resolution : ℚ
  num_points : Nat := 0

/-- The code the generator calls that is not part of the sources at hand, and the flag it
reads:
* `Double_compare a b` is `Double::compare(a, b)`;
* the five `calculate_` fields are the functions of `SLAnalyticTransformation` of these names;
* `QpFrenetFrame_Init f n` is `f.Init(n)`;
* `QpFrenetFrame_feasible_longitudinal_upper_bound` is the accessor of that name;
* `QpFrenetFrame_GetMapBound f s b` is `f.GetMapBound(s, &b)`: the returned flag and the pair
  as the call leaves it;
* `add_fx_boundary` and `add_third_derivative_smooth_constraint` are the flags the methods
  of `Spline1dConstraint` of these names return, on the generator as it is at the call;
* `Spline1dGenerator_solve` is `solve()`: `none` for `false`, else the solved spline;
* `PathData_set_discretized_path d points` is `d->set_discretized_path(points)`, by the path
  data as the call leaves them. -/
structure QpExternals where
  math : MathLib
  FLAGS_planning_distance : ℚ
  Double_compare : ℚ → ℚ → Int
  calculate_xypoint : ℚ → Vec2d → ℚ → Vec2d
  calculate_theta : ℚ → ℚ → ℚ → ℚ → ℚ
  calculate_kappa : ℚ → ℚ → ℚ → ℚ → ℚ → ℚ
  calculate_lateral_derivative : ℚ → ℚ → ℚ → ℚ → ℚ
  calculate_second_order_lateral_derivative : ℚ → ℚ → ℚ → ℚ → ℚ → ℚ → ℚ
  QpFrenetFrame_Init : QpFrenetFrame → Nat → Bool
  QpFrenetFrame_feasible_longitudinal_upper_bound : QpFrenetFrame → ℚ
  QpFrenetFrame_GetMapBound : QpFrenetFrame → ℚ → ℚ × ℚ → Bool × (ℚ × ℚ)
  add_fx_boundary : Spline1dGenerator → List ℚ → List ℚ → List ℚ → Bool
  add_third_derivative_smooth_constraint : Spline1dGenerator → Bool
  Spline1dGenerator_solve : Spline1dGenerator → Option Spline1d
  PathData_set_discretized_path : PathData → List PathPoint → PathData

/-- The class `QpSplinePathGenerator`: the reference line and the configuration of its
constructor, and its members. A new generator has no spline generator, no knot and no
evaluated `s`. -/
structure QpSplinePathGenerator where
  reference_line_ : ReferenceLine
  qp_spline_path_config_ : QpSplinePathConfig
  init_frenet_point_ : FrenetFramePoint := ⟨0, 0, 0, 0⟩
  spline_generator_ : Option Spline1dGenerator := none
  knots_ : List ℚ := []
  evaluated_s_ : List ℚ := []

namespace QpSplinePathGenerator

/-- The function `QpSplinePathGenerator::CalculateInitFrenetPoint`: the returned flag and the
Frenet point as the call leaves it. The result is `none` where `get_reference_point` is. -/
def CalculateInitFrenetPoint (ext : QpExternals) (g : QpSplinePathGenerator)
    (traj_point : TrajectoryPoint) (frenet_frame_point : FrenetFramePoint) :
    Option (Bool × FrenetFramePoint) :=
  match g.reference_line_.get_point_in_frenet_frame
      ⟨traj_point.path_point.x, traj_point.path_point.y⟩ with
  | none => some (false, frenet_frame_point)
  | some sl_point =>
    let theta := traj_point.path_point.theta
    let kappa := traj_point.path_point.kappa
    let l := sl_point.l
    match ReferenceLine.get_reference_point ext.math g.reference_line_ sl_point.s with
    | none => none
    | some ref_point =>
      let theta_ref := ref_point.heading
      let kappa_ref := ref_point.kappa
      let dkappa_ref := ref_point.dkappa
      let dl := ext.calculate_lateral_derivative theta_ref theta l kappa_ref
      let ddl :=
        ext.calculate_second_order_lateral_derivative theta_ref theta kappa_ref kappa
          dkappa_ref l
      some (true, { s := sl_point.s, l := sl_point.l, dl := dl, ddl := ddl })

/-- The function `QpSplinePathGenerator::InitCoordRange`: the returned flag, `*start_s` and
`*end_s`. -/
def InitCoordRange (ext : QpExternals) (g : QpSplinePathGenerator)
    (qp_frenet_frame : QpFrenetFrame) (start_s _end_s : ℚ) : Bool × ℚ × ℚ :=
  let start_point := max (g.init_frenet_point_.s - 5) 0
  let end_point := min qp_frenet_frame.reference_line.length (start_s + ext.FLAGS_planning_distance)
  let end_point :=
    min (ext.QpFrenetFrame_feasible_longitudinal_upper_bound qp_frenet_frame) end_point
  (true, start_point, end_point)

/-- The two loops of `InitSpline` that push `count` values onto a vector, from `curr` on in
steps of `delta`. -/
def push_steps : Nat → ℚ → ℚ → List ℚ → List ℚ
  | 0, _, _, values => values
  | count + 1, curr, delta, values => push_steps count (curr + delta) delta (values ++ [curr])

/-- The function `QpSplinePathGenerator::InitSpline`: the returned flag and the generator as
the call leaves it. The knots and the evaluated `s` are added to the ones held. The result is
`none` only for a spline without knots, which the loop before excludes. -/
def InitSpline (ext : QpExternals) (g : QpSplinePathGenerator)
    (init_frenet_point : FrenetFramePoint) (_start_s end_s : ℚ) :
    Option (Bool × QpSplinePathGenerator) :=
  if g.qp_spline_path_config_.number_of_knots ≤ 1 then some (false, g)
  else
    let distance := min g.reference_line_.reference_map_line_.length end_s - init_frenet_point.s
    let distance :=
      if distance > ext.FLAGS_planning_distance then ext.FLAGS_planning_distance else distance
    let delta_s := distance / g.qp_spline_path_config_.number_of_knots
    let knots := push_steps (g.qp_spline_path_config_.number_of_knots + 1) init_frenet_point.s
      delta_s g.knots_
    let spline_generator : Spline1dGenerator :=
      { x_knots := knots, spline_order := g.qp_spline_path_config_.spline_order }
    let g : QpSplinePathGenerator :=
      { g with knots_ := knots, spline_generator_ := some spline_generator }
    let num_evaluated_s := g.qp_spline_path_config_.number_of_fx_constraint_knots
    if num_evaluated_s ≤ 2 then some (false, g)
    else
      match spline_generator.x_knots.head?, spline_generator.x_knots.getLast? with
      | some front, some back =>
        let ds := (back - front) / num_evaluated_s
        some (true, { g with evaluated_s_ := push_steps num_evaluated_s front ds g.evaluated_s_ })
      | _, _ => none

/-- The function `QpSplinePathGenerator::AddConstraint`: the returned flag and the generator
as the call leaves it; a constraint is recorded when it has been accepted. The result is
`none` where the C++ has no spline generator or no knot. -/
def AddConstraint (ext : QpExternals) (g : QpSplinePathGenerator)
    (qp_frenet_frame : QpFrenetFrame) : Option (Bool × QpSplinePathGenerator) :=
  match g.spline_generator_, g.knots_.getLast? with
  | some spline_generator, some knots_back =>
    let spline_generator : Spline1dGenerator :=
      { spline_generator with
        constraints := spline_generator.constraints ++
          [ SplineConstraint.point_fx g.init_frenet_point_.s g.init_frenet_point_.l,
            SplineConstraint.point_derivative g.init_frenet_point_.s g.init_frenet_point_.dl,
            SplineConstraint.point_second_derivative g.init_frenet_point_.s
              g.init_frenet_point_.ddl,
            SplineConstraint.point_fx knots_back 0,
            SplineConstraint.point_derivative knots_back 0,
            SplineConstraint.point_second_derivative knots_back 0 ] }
    let boundary := g.evaluated_s_.map (fun s =>
      (ext.QpFrenetFrame_GetMapBound qp_frenet_frame s (0, 0)).2)
    let boundary_low := boundary.map (fun b => b.1)
    let boundary_high := boundary.map (fun b => b.2)
    if !ext.add_fx_boundary spline_generator g.evaluated_s_ boundary_low boundary_high then
      some (false, { g with spline_generator_ := some spline_generator })
    else
      let spline_generator : Spline1dGenerator :=
        { spline_generator with
          constraints := spline_generator.constraints ++
            [SplineConstraint.fx_boundary g.evaluated_s_ boundary_low boundary_high] }
      if !ext.add_third_derivative_smooth_constraint spline_generator then
        some (false, { g with spline_generator_ := some spline_generator })
      else
        some (true,
          { g with
            spline_generator_ := some
              { spline_generator with
                constraints := spline_generator.constraints
                  ++ [SplineConstraint.third_derivative_smooth] } })
  | _, _ => none

/-- The cost terms `AddKernel` adds, in the order of its calls. -/
def kernel_terms (config : QpSplinePathConfig) (knots : List ℚ) : List SplineKernelTerm :=
  (if config.regularization_weight > 0 then
      [SplineKernelTerm.regularization config.regularization_weight] else [])
    ++ (if config.derivative_weight > 0 then
      [SplineKernelTerm.derivative_kernel_matrix config.derivative_weight] else [])
    ++ (if config.second_derivative_weight > 0 then
      [SplineKernelTerm.second_order_derivative_matrix config.second_derivative_weight]
      else [])
    ++ (if config.third_derivative_weight > 0 then
      [SplineKernelTerm.third_order_derivative_matrix config.third_derivative_weight]
      else [])
    ++ (if config.number_of_knots > 1 then
      [SplineKernelTerm.reference_line_kernel_matrix knots (List.replicate knots.length 0)
        config.reference_line_weight]
      else [])

/-- The function `QpSplinePathGenerator::AddKernel`: the returned flag and the generator as
the call leaves it. The result is `none` where the C++ has no spline generator. -/
def AddKernel (g : QpSplinePathGenerator) : Option (Bool × QpSplinePathGenerator) :=
  match g.spline_generator_ with
  | none => none
  | some spline_generator =>
    some (true,
      { g with
        spline_generator_ := some
          { spline_generator with
            kernel := spline_generator.kernel
              ++ kernel_terms g.qp_spline_path_config_ g.knots_ } })

/-- The function `QpSplinePathGenerator::Solve`, with the solved spline when it returns
`true` (`some`). The outer `none` is where the C++ has no spline generator. -/
def Solve (ext : QpExternals) (g : QpSplinePathGenerator) : Option (Option Spline1d) :=
  match g.spline_generator_ with
  | none => none
  | some spline_generator => some (ext.Spline1dGenerator_solve spline_generator)

/-- The loop of `Generate` that extracts the path points, from `s` on with the points pushed
so far. It runs on fuel: the result is `none` when the fuel is used up before the loop ends,
and where `get_reference_point` is `none`. -/
def extract_loop (ext : QpExternals) (g : QpSplinePathGenerator) (spline : Spline1d)
    (x_diff y_diff end_s s_resolution : ℚ) : Nat → ℚ → List PathPoint → Option (List PathPoint)
  | 0, s, path_points => if ext.Double_compare s end_s < 0 then none else some path_points
  | fuel + 1, s, path_points =>
    if ext.Double_compare s end_s < 0 then
      let l := spline.value s
      let dl := spline.derivative s
      let ddl := spline.second_order_derivative s
      match ReferenceLine.get_reference_point ext.math g.reference_line_ s with
      | none => none
      | some ref_point =>
        let xy_point := ext.calculate_xypoint ref_point.heading ⟨ref_point.x, ref_point.y⟩ l
        let xy_point : Vec2d := ⟨xy_point.x - x_diff, xy_point.y - y_diff⟩
        let theta := ext.calculate_theta ref_point.heading ref_point.kappa l dl
        let kappa := ext.calculate_kappa ref_point.kappa ref_point.dkappa l dl ddl
        let path_point := util.MakePathPoint xy_point.x xy_point.y 0 theta kappa 0 0
        let path_point : PathPoint :=
          match path_points.getLast? with
          | some back => { path_point with s := back.s + util.Distance2D ext.math back path_point }
          | none => path_point
        if ext.Double_compare path_point.s end_s ≥ 0 then some path_points
        else
          extract_loop ext g spline x_diff y_diff end_s s_resolution fuel (s + s_resolution)
            (path_points ++ [path_point])
    else some path_points

/-- The function `QpSplinePathGenerator::Generate`: the returned flag, the path data and the
generator as the call leaves them. The extraction loop advances `s` by
`(end_s - init_s) / num_output` up to `end_s`, so that it runs on the fuel `num_output + 1`.
The result is `none` where one of the steps is, and for `num_output = 0`, where the step of
the loop is not a number of this development. -/
def Generate (ext : QpExternals) (g : QpSplinePathGenerator) (decision_data : DecisionData)
    (speed_data : SpeedData) (init_point : TrajectoryPoint) (path_data : PathData) :
    Option (Bool × PathData × QpSplinePathGenerator) :=
  match CalculateInitFrenetPoint ext g init_point g.init_frenet_point_ with
  | none => none
  | some (false, _) => some (false, path_data, g)
  | some (true, init_frenet_point) =>
    let g : QpSplinePathGenerator := { g with init_frenet_point_ := init_frenet_point }
    let start_s := g.init_frenet_point_.s
    let end_s := min g.reference_line_.length (g.init_frenet_point_.s + ext.FLAGS_planning_distance)
    let qp_frenet_frame : QpFrenetFrame :=
      { reference_line := g.reference_line_, decision_data := decision_data,
        speed_data := speed_data, init_frenet_point := g.init_frenet_point_,
        start_s := start_s, end_s := end_s,
        time_resolution := g.qp_spline_path_config_.time_resolution }
    if !ext.QpFrenetFrame_Init qp_frenet_frame g.qp_spline_path_config_.num_output then
      some (false, path_data, g)
    else
      let qp_frenet_frame : QpFrenetFrame :=
        { qp_frenet_frame with num_points := g.qp_spline_path_config_.num_output }
      match InitCoordRange ext g qp_frenet_frame start_s end_s with
      | (false, _, _) => some (false, path_data, g)
      | (true, start_s, end_s) =>
        match InitSpline ext g g.init_frenet_point_ start_s (end_s - 1 / 10) with
        | none => none
        | some (false, g) => some (false, path_data, g)
        | some (true, g) =>
          match AddConstraint ext g qp_frenet_frame with
          | none => none
          | some (false, g) => some (false, path_data, g)
          | some (true, g) =>
            match AddKernel g with
            | none => none
            | some (false, g) => some (false, path_data, g)
            | some (true, g) =>
              match Solve ext g with
              | none => none
              | some none => some (false, path_data, g)
              | some (some spline) =>
                let start_l := spline.value g.init_frenet_point_.s
                match ReferenceLine.get_reference_point ext.math g.reference_line_
                    g.init_frenet_point_.s with
                | none => none
                | some ref_point =>
                  let xy_point :=
                    ext.calculate_xypoint ref_point.heading ⟨ref_point.x, ref_point.y⟩ start_l
                  let x_diff := xy_point.x - init_point.path_point.x
                  let y_diff := xy_point.y - init_point.path_point.y
                  let s := g.init_frenet_point_.s
                  if g.qp_spline_path_config_.num_output = 0 then none
                  else
                    let s_resolution :=
                      (end_s - g.init_frenet_point_.s) / g.qp_spline_path_config_.num_output
                    match extract_loop ext g spline x_diff y_diff end_s s_resolution
                        (g.qp_spline_path_config_.num_output + 1) s [] with
                    | none => none
                    | some path_points =>
                      some (true, ext.PathData_set_discretized_path path_data path_points, g)

end QpSplinePathGenerator

/-- The function `StGraphBoundary::GetUnblockSRange`: the returned flag, `*s_upper` and
`*s_lower`. `GetOverlap` is `Polygon2d::GetOverlap(segment, &first, &second)` on the
boundary, which is not part of the sources at hand: `none` for `false`, else the two points. -/
def StGraphBoundary.GetUnblockSRange
    (GetOverlap : StGraphBoundary → Vec2d × Vec2d → Option (Vec2d × Vec2d))
    (b : StGraphBoundary) (curr_time : ℚ) : Bool × ℚ × ℚ :=
  let segment : Vec2d × Vec2d := (⟨curr_time, 0⟩, ⟨curr_time, b.s_high_limit_⟩)
  let s_upper := b.s_high_limit_
  let s_lower : ℚ := 0
  match GetOverlap b segment with
  | none => (false, s_upper, s_lower)
  | some (p_s_first, p_s_second) =>
    if b.boundary_type_ = BoundaryType.STOP ∨ b.boundary_type_ = BoundaryType.YIELD
        ∨ b.boundary_type_ = BoundaryType.FOLLOW then
      (true, min s_upper (min p_s_first.y p_s_second.y), s_lower)
    else if b.boundary_type_ = BoundaryType.OVERTAKE then
      (true, s_upper, max s_lower (max p_s_first.y p_s_second.y))
    else (false, s_upper, s_lower)

/-! ## Evaluation of a trajectory and of speed data at a time -/

/-- The function `DiscretizedTrajectory::Evaluate`. `interpolate` is `util::interpolate`, which
is not part of the sources at hand. The iterator `it_lower` is the number of leading points
whose time is below `relative_time`, which is what `std::lower_bound` returns on points ordered
by time. The result is `none` where one of the two `CHECK`s fails, and where `*it_lower` reads
past the last point. -/
def DiscretizedTrajectory.Evaluate
    (interpolate : TrajectoryPoint → TrajectoryPoint → ℚ → TrajectoryPoint)
    (d : DiscretizedTrajectory) (relative_time : ℚ) : Option TrajectoryPoint :=
  match d.trajectory_points_.head?, d.trajectory_points_.getLast? with
  | some front, some back =>
    if front.relative_time ≤ relative_time ∧ back.relative_time ≤ relative_time then
      let it_lower :=
        (d.trajectory_points_.takeWhile (fun p => decide (p.relative_time < relative_time))).length
      if it_lower = 0 then some front
      else
        match d.trajectory_points_.get? (it_lower - 1), d.trajectory_points_.get? it_lower with
        | some p0, some p1 => some (interpolate p0 p1 relative_time)
        | _, _ => none
    else none
  | _, _ => none

/-- The function `SpeedData::find_index`, in the arithmetic of `std::uint32_t`. The iterator
`upper_bound` is one more than the number of points after the first whose time is not above
`t`, which is what `std::upper_bound` returns on points ordered by time. The result is `none`
for an empty vector, where `begin() + 1` is past the end. -/
def SpeedData.find_index (d : SpeedData) (t : ℚ) : Option Nat :=
  if d.speed_vector_.length = 0 then none
  else
    let upper_bound :=
      1 + ((d.speed_vector_.drop 1).takeWhile (fun speed_point => !decide (t < speed_point.t))).length
    some ((min ((d.speed_vector_.length - 1) % 2 ^ 32) (upper_bound % 2 ^ 32) + 2 ^ 32 - 1)
      % 2 ^ 32)

/-- The function `SpeedData::interpolate`. -/
def SpeedData.interpolate (left right : SpeedPoint) (weight : ℚ) : SpeedPoint :=
  { s := (1 - weight) * left.s + weight * right.s
    t := (1 - weight) * left.t + weight * right.t
    v := (1 - weight) * left.v + weight * right.v
    a := (1 - weight) * left.a + weight * right.a
    da := (1 - weight) * left.da + weight * right.da }

/-- The function `SpeedData::get_speed_point_with_time`: the returned flag and `*speed_point`
as the call leaves it. `Double_compare a b` is `Double::compare(a, b)`, which is not part of
the sources at hand. The result is `none` where an element is read past the end of the vector. -/
def SpeedData.get_speed_point_with_time (Double_compare : ℚ → ℚ → Int) (d : SpeedData) (t : ℚ)
    (speed_point : SpeedPoint) : Option (Bool × SpeedPoint) :=
  if d.speed_vector_.length < 2 then some (false, speed_point)
  else
    match d.find_index t with
    | none => none
    | some index =>
      match d.speed_vector_.get? index with
      | none => none
      | some at_index =>
        if Double_compare t at_index.t < 0 ∨ (index + 1) % 2 ^ 32 ≥ d.speed_vector_.length then
          some (false, speed_point)
        else
          match d.speed_vector_.get? ((index + 1) % 2 ^ 32) with
          | none => none
          | some at_next =>
            let weight : ℚ :=
              if Double_compare at_next.t at_index.t > 0 then
                (t - at_index.t) / (at_next.t - at_index.t)
              else 0
            some (true, SpeedData.interpolate at_index at_next weight)

/-! ## Predicates used in the statements -/

/-- The path obstacle carries a merged stop decision: it has a longitudinal decision and
that decision is a stop. -/
def IsStopObstacle (po : PathObstacle) : Prop :=
  po.HasLongitudinalDecision = true ∧ po.LongitudinalDecision.has_stop = true

/-- The obstacle `po` is, in the iteration order of `all`, the first of the obstacles with a
stop decision that attain the smallest `stop_s`. -/
def IsNearestStop (all : List PathObstacle) (po : PathObstacle) : Prop :=
  IsStopObstacle po ∧ ∃ pre post, all = pre ++ po :: post
    ∧ (∀ q ∈ pre, IsStopObstacle q → StBoundaryMapper.stop_s po < StBoundaryMapper.stop_s q)
    ∧ (∀ q ∈ post, IsStopObstacle q → StBoundaryMapper.stop_s po ≤ StBoundaryMapper.stop_s q)

/-- The stop selection held by the loop of `GetGraphBoundary` is the nearest stop of the
obstacles `seen`: none is held when none of them carries a stop decision; otherwise the held
obstacle is their nearest stop, held with its own decision and stop position. -/
def HoldsNearestStop (seen : List PathObstacle) : Option StopSelection → Prop
  | none => ∀ q ∈ seen, ¬ IsStopObstacle q
  | some held =>
    held.stop_decision = held.stop_obstacle.LongitudinalDecision
      ∧ held.min_stop_s = StBoundaryMapper.stop_s held.stop_obstacle
      ∧ IsNearestStop seen held.stop_obstacle

/-- The inputs of the mapper hold every element that the mapping reads: the reference line
has a point, its map path has one accumulated `s` per reference point (it is built from
them), and the Frenet-frame path has a point. -/
def StBoundaryMapper.WellFormed (m : StBoundaryMapper) : Prop :=
  m.reference_line_.reference_points_ ≠ []
    ∧ m.reference_line_.reference_map_line_.accumulated_s.length
        = m.reference_line_.reference_points_.length
    ∧ m.path_data_.frenet_frame_path ≠ []

/-- No path point overlaps the obstacle: `GetOverlapBoundaryPoints` returns `false` for it. -/
def NoOverlap (ext : Externals) (m : StBoundaryMapper) (po : PathObstacle) : Prop :=
  (StBoundaryMapper.GetOverlapBoundaryPoints ext m m.path_data_.discretized_path
    po.Obstacle).1 = false

/-- The path obstacle qualifies for the main stop: its longitudinal decision is a stop whose
stop-line `s` lies within `[0, reference line length]` and strictly ahead of the front edge of
the vehicle. -/
def Decider.Qualifies (g : DeciderGlobals) (reference_line : ReferenceLine)
    (po : PathObstacle) : Prop :=
  po.LongitudinalDecision.has_stop = true
    ∧ 0 ≤ Decider.stop_line_s reference_line po
    ∧ Decider.stop_line_s reference_line po ≤ reference_line.length
    ∧ Decider.adc_s g reference_line + g.vehicle_param.front_edge_to_center
        < Decider.stop_line_s reference_line po

/-- Qualifying is decided by evaluating the four conditions. -/
instance Decider.Qualifies.decidable (g : DeciderGlobals) (reference_line : ReferenceLine)
    (po : PathObstacle) : Decidable (Decider.Qualifies g reference_line po) := by
  unfold Decider.Qualifies
  infer_instance

/-- The obstacle `po` is, in the iteration order of `all`, the first of the qualifying
obstacles that attain the smallest stop-line `s`. -/
def Decider.IsNearestQualifying (g : DeciderGlobals) (reference_line : ReferenceLine)
    (all : List PathObstacle) (po : PathObstacle) : Prop :=
  Decider.Qualifies g reference_line po ∧ ∃ pre post, all = pre ++ po :: post
    ∧ (∀ q ∈ pre, Decider.Qualifies g reference_line q →
        Decider.stop_line_s reference_line po < Decider.stop_line_s reference_line q)
    ∧ (∀ q ∈ post, Decider.Qualifies g reference_line q →
        Decider.stop_line_s reference_line po ≤ Decider.stop_line_s reference_line q)

/-- The selection held by the loop of `MakeMainStopDecision` is the nearest qualifying
obstacle of the obstacles `seen`, or nothing when none of them qualifies. -/
def Decider.HoldsNearestQualifying (g : DeciderGlobals) (reference_line : ReferenceLine)
    (seen : List PathObstacle) : Option MainStopSelection → Prop
  | none => ∀ q ∈ seen, ¬ Decider.Qualifies g reference_line q
  | some held => ∃ po, Decider.IsNearestQualifying g reference_line seen po
      ∧ held = ⟨Decider.stop_line_s reference_line po, po.Obstacle,
          po.LongitudinalDecision.get_stop⟩

/-- The contract of `common::math::lerp` the statements on interpolation rely on: between two
distinct abscissas the value is the one on the straight line through `(t0, x0)` and
`(t1, x1)`. -/
def IsLinearLerp (lerp : ℚ → ℚ → ℚ → ℚ → ℚ → ℚ) : Prop :=
  ∀ x0 t0 x1 t1 t : ℚ, t0 < t1 → lerp x0 t0 x1 t1 t = x0 + (t - t0) / (t1 - t0) * (x1 - x0)

/-- Modelled from the spec: the heading `h` lies on the shorter angular arc from the heading
`a0` to the heading `a1`, at the fraction `r` of the way, where `half_turn` is the angle of
half a turn: for an angle `d` that differs from `a1 - a0` by whole turns and is at most half
a turn in absolute value, `h` differs from `a0 + r * d` by whole turns. -/
def OnShorterArc (half_turn a0 a1 r h : ℚ) : Prop :=
  ∃ (d : ℚ) (m n : ℤ), d = a1 - a0 + 2 * half_turn * m ∧ |d| ≤ half_turn
    ∧ h = a0 + r * d + 2 * half_turn * n

/-- Modelled from the spec: the contract of `common::math::slerp`, whose code is not part of
the sources at hand. Between two distinct abscissas `t0 < t1` the value at `t` lies on the
shorter angular arc from `a0` to `a1`, at the fraction `(t - t0) / (t1 - t0)` of the way. -/
def IsShorterArcSlerp (slerp : ℚ → ℚ → ℚ → ℚ → ℚ → ℚ) (half_turn : ℚ) : Prop :=
  ∀ a0 t0 a1 t1 t : ℚ, t0 < t1 →
    OnShorterArc half_turn a0 a1 ((t - t0) / (t1 - t0)) (slerp a0 t0 a1 t1 t)

/-- The cycle `RunOnce` ends as a not-ready cycle with the given reason: the planning object
is as before, and the adapters after `Observe` have got one more published message, whose
main decision is `not_ready` with that reason, which has no object decision and no trajectory
point, and whose gear is drive. -/
def Planning.PublishesNotReady (env : PlanningEnv) (p : Planning) (adapters : AdapterManager)
    (start_timestamp end_timestamp : ℚ) (reason : String) : Prop :=
  ∃ (p2 : Planning) (am : AdapterManager) (msg : ADCTrajectory),
    Planning.RunOnce env p adapters start_timestamp end_timestamp = some (p2, am)
      ∧ p2.frame_ = p.frame_
      ∧ p2.last_publishable_trajectory_ = p.last_publishable_trajectory_
      ∧ am.planning_published = (env.Observe adapters).planning_published ++ [msg]
      ∧ am.localization = (env.Observe adapters).localization
      ∧ am.chassis = (env.Observe adapters).chassis
      ∧ am.routing_response = (env.Observe adapters).routing_response
      ∧ am.prediction = (env.Observe adapters).prediction
      ∧ msg.decision.main_decision = MainDecision.not_ready reason
      ∧ msg.decision.object_decision = []
      ∧ msg.trajectory_point = []
      ∧ msg.gear = some GearPosition.GEAR_DRIVE

/-- The boundary with the four given vertices, the given type, id and characteristic length:
what `StGraphBoundary(points)` followed by the three setters leaves; `none` for a vertex list
that the constructor refuses. -/
def StGraphBoundary.built (ext : Externals) (vertices : List STPoint) (type : BoundaryType)
    (id : String) (characteristic_length : ℚ) : Option StGraphBoundary :=
  (StGraphBoundary.ctor_STPoints ext vertices).map (fun b =>
    { b with boundary_type_ := type, id_ := id, characteristic_length_ := characteristic_length })

/-- The polygon constructor keeps the vertices it is given, in their order. -/
def KeepsVertices (ext : Externals) : Prop :=
  ∀ pts : List Vec2d, (ext.Polygon2d_ctor pts).points = pts

/-- What holds of the variables of the bracketing search over `n` path points before and after
every pass: a set flag marks an overlapping index, no index below `low` and none above `high`
overlaps, and when both flags are set `low` is below `high`. -/
def StBoundaryMapper.SearchInvariant (overlaps : Int → Bool) (n : Int) (st : OverlapSearch) :
    Prop :=
  0 ≤ st.low ∧ st.high < n
    ∧ (st.find_low = true → overlaps st.low = true)
    ∧ (st.find_high = true → overlaps st.high = true)
    ∧ (∀ i, 0 ≤ i → i < st.low → overlaps i = false)
    ∧ (∀ i, st.high < i → i < n → overlaps i = false)
    ∧ (st.find_low = true → st.find_high = true → st.low < st.high)

/-! ## Concrete values

A straight reference line along the x axis, a path on it, a vehicle and a few obstacles, and
one concrete choice of the external code. They are the inputs at which the theorems below
are evaluated. -/

namespace Sample

/-- The angle of half a turn in the sample library: `22/7`, a rational number in the place
of π. -/
def half_turn : ℚ := 22 / 7

/-- A concrete numeric library: exact linear interpolation, interpolation of angles along the
shorter arc (the difference of the two angles is brought into `[-half_turn, half_turn)` by
whole turns before it is scaled), and sine, cosine and distance of an axis-aligned world. -/
def math : MathLib where
  lerp := fun x0 t0 x1 t1 t => if t1 = t0 then x0 else x0 + (t - t0) / (t1 - t0) * (x1 - x0)
  slerp := fun a0 t0 a1 t1 t =>
    if t1 = t0 then a0
    else a0 + (t - t0) / (t1 - t0)
      * (a1 - a0 - 2 * half_turn * ⌊(a1 - a0 + half_turn) / (2 * half_turn)⌋)
  brent_find_minima := fun f a _ _ => (a, f a)
  cos := fun _ => 1
  sin := fun _ => 0
  hypot := fun x y => max |x| |y|

/-- Overlap of two axis-aligned boxes. -/
def box_overlap (a b : Box2d) : Bool :=
  decide (|a.center.x - b.center.x| * 2 ≤ a.length + b.length)
    && decide (|a.center.y - b.center.y| * 2 ≤ a.width + b.width)

/-- Twice the signed area of a polygon (the shoelace sum). -/
def shoelace (pts : List Vec2d) : ℚ :=
  ((pts.zip (pts.rotate 1)).map (fun pq => pq.1.x * pq.2.y - pq.2.x * pq.1.y)).sum

/-- A boundary as left by member initialisers: no vertex, area `0`, type `UNKNOWN`, and
extents that every point of the examples replaces. -/
def default_boundary : StGraphBoundary :=
  { points := [], area := 0, boundary_type_ := BoundaryType.UNKNOWN, id_ := "",
    characteristic_length_ := 1, s_high_limit_ := 200,
    min_s_ := 1000000, max_s_ := -1000000, min_t_ := 1000000, max_t_ := -1000000 }

/-- A concrete choice of the external code. -/
def ext : Externals where
  math := math
  Box2d_HasOverlap := box_overlap
  Polygon2d_ctor := fun pts => ⟨pts, |shoelace pts| / 2⟩
  StGraphBoundary_default := default_boundary
  Double_Compare := fun a b => if a < b then -1 else if b < a then 1 else 0
  Obstacle_GetBoundingBox := fun o p =>
    ⟨⟨p.path_point.x, p.path_point.y⟩, p.path_point.theta, o.Perception.length,
      o.Perception.width⟩
  PathData_GetPathPointWithRefS := fun d s => d.discretized_path.find? (fun p => decide (s ≤ p.s))
  FLAGS_decision_valid_stop_range := 1 / 2

/-- A lane waypoint of the sample lane. -/
def waypoint : LaneWaypoint := ⟨"lane_1", 0⟩

/-- The reference points: the ends of a straight line of length 20; the first has curvature 1. -/
def reference_points : List ReferencePoint :=
  [ { x := 0, y := 0, heading := 0, lane_waypoints := [waypoint], kappa := 1, dkappa := 0,
      lower_bound := 0, upper_bound := 0 },
    { x := 20, y := 0, heading := 0, lane_waypoints := [waypoint], kappa := 0, dkappa := 0,
      lower_bound := 0, upper_bound := 0 } ]

/-- The map path of the sample line: the projection of `(x, y)` is `(s, l) = (x, y)`, and the
smooth point is clamped to the ends of the line. -/
def map_path : MapPath where
  accumulated_s := [0, 20]
  length := 20
  num_points := 2
  get_smooth_point := fun s =>
    if s ≤ 0 then ⟨0, 0, 0, [waypoint]⟩
    else if 20 ≤ s then ⟨20, 0, 0, [waypoint]⟩
    else ⟨s, 0, 0, [waypoint]⟩
  get_projection := fun v => some (v.x, v.y)
  get_width := fun _ => some (2, 2)

/-- The sample reference line. -/
def reference_line : ReferenceLine := ⟨reference_points, map_path⟩

/-- The sample line with headings on both sides of the half turn: 3 at the first point and
-3 at the last, which are `44/7 - 6 = 2/7` apart along the shorter arc. -/
def reference_line_wrap : ReferenceLine :=
  ⟨[ { x := 0, y := 0, heading := 3, lane_waypoints := [waypoint], kappa := 1, dkappa := 0,
       lower_bound := 0, upper_bound := 0 },
     { x := 20, y := 0, heading := -3, lane_waypoints := [waypoint], kappa := 0, dkappa := 0,
       lower_bound := 0, upper_bound := 0 } ], map_path⟩

/-- A path point on the x axis at arc length `s`. -/
def path_point (s : ℚ) : PathPoint := ⟨s, 0, 0, 0, s⟩

/-- The sample path: six points from `s = 0` to `s = 10`. -/
def path_data : PathData :=
  { discretized_path := [path_point 0, path_point 2, path_point 4, path_point 6,
      path_point 8, path_point 10]
    frenet_frame_path := [⟨0, 0, 0, 0⟩, ⟨10, 0, 0, 0⟩] }

/-- The sample vehicle: 2 long, 1 wide, front edge 1 ahead of its centre. -/
def vehicle_param : VehicleParam := ⟨1, 2, 1⟩

/-- The sample configuration. -/
def config : StBoundaryConfig :=
  { boundary_buffer := 1 / 10, point_extension := 1, minimal_follow_time := 2,
    follow_buffer := 1, expanding_coeff := 1 }

/-- The sample mapper: planning distance 10, planning time 8, front edge at `s = 1`. -/
def mapper : StBoundaryMapper :=
  { st_boundary_config_ := config, reference_line_ := reference_line, path_data_ := path_data,
    vehicle_param_ := vehicle_param, planning_distance_ := 10, planning_time_ := 8,
    adc_front_s_ := 1 }

/-- A static obstacle (no trajectory) of size 1 by 1 centred at `(x, y)`. -/
def static_obstacle (id : String) (x y : ℚ) : Obstacle :=
  { Id := id, PerceptionId := 7, Perception := ⟨⟨x, y⟩, ⟨0, 0⟩, 1, 1⟩, Trajectory := [],
    PerceptionBoundingBox := ⟨⟨x, y⟩, 0, 1, 1⟩ }

/-- A path obstacle without any decision for the given obstacle, starting at `start_s`. -/
def undecided (o : Obstacle) (start_s : ℚ) : PathObstacle :=
  { id_ := o.Id, obstacle_ := o, perception_sl_boundary_ := ⟨start_s, start_s + 1, -1 / 2, 1 / 2⟩ }

/-- A stop decision at `distance_s` from the obstacle, with stop point `(x, 0)`. -/
def stop_decision (distance_s x : ℚ) : ObjectDecisionType :=
  ObjectDecisionType.stop ⟨3, distance_s, ⟨x, 0⟩, 0⟩

/-- A yield decision at `distance_s`. -/
def yield_decision (distance_s : ℚ) : ObjectDecisionType :=
  ObjectDecisionType.yield ⟨distance_s, ⟨0, 0⟩, 0⟩

/-- A follow decision at `distance_s`. -/
def follow_decision (distance_s : ℚ) : ObjectDecisionType :=
  ObjectDecisionType.follow ⟨distance_s, ⟨0, 0⟩, 0⟩

/-- An overtake decision at `distance_s`. -/
def overtake_decision (distance_s : ℚ) : ObjectDecisionType :=
  ObjectDecisionType.overtake ⟨distance_s, ⟨0, 0⟩, 0⟩

/-- Four proposals for one obstacle: follow, stop at -1, ignore, stop at -3. -/
def proposals : List (String × ObjectDecisionType) :=
  [("dp_st", follow_decision (-5)), ("traffic", stop_decision (-1) 7),
    ("path", ObjectDecisionType.ignore), ("routing", stop_decision (-3) 5)]

/-- A path obstacle at `s = 8` with a stop decision 1 before it: `stop_s = 7`. -/
def stop_far : PathObstacle :=
  (undecided (static_obstacle "o1" 8 0) 8).AddDecision "traffic" (stop_decision (-1) 7)

/-- A path obstacle at `s = 6` with a stop decision 1 before it: `stop_s = 5`. -/
def stop_near : PathObstacle :=
  (undecided (static_obstacle "o2" 6 0) 6).AddDecision "traffic" (stop_decision (-1) 5)

/-- A path obstacle at `s = 1/2` with a stop decision 1 before it: `stop_s = -1/2`, behind the
front edge of the vehicle at `s = 1`. -/
def stop_behind : PathObstacle :=
  (undecided (static_obstacle "o3" 1 0) (1 / 2)).AddDecision "traffic" (stop_decision (-1) 0)

/-- A path obstacle far from the path (at `x = 60`) with a yield decision. -/
def yield_apart : PathObstacle :=
  (undecided (static_obstacle "o4" 60 0) 60).AddDecision "dp_st" (yield_decision 2)

/-- A path obstacle far from the path (at `x = 60`) without any decision. -/
def undecided_apart : PathObstacle := undecided (static_obstacle "o5" 60 0) 60

/-- A path obstacle on the path (at `x = 6`) without any decision. -/
def undecided_ahead : PathObstacle := undecided (static_obstacle "o6" 6 0) 6

/-- The values the decider reads from the singletons: the vehicle at the origin. -/
def globals : DeciderGlobals :=
  { adc_position := ⟨0, 0⟩, vehicle_param := vehicle_param,
    PathObstacle_IsIgnore := fun po =>
      po.LongitudinalDecision.has_ignore && po.LateralDecision.has_ignore }

/-- A frame on the sample line with three stop obstacles: stop lines at `s = 7`, `s = 5` and
`s = 0`. -/
def frame : Frame :=
  { reference_line_ := reference_line,
    path_decision_ := some ⟨[stop_far, stop_near, stop_behind]⟩ }

/-- A frame on the sample line whose only stop line, at `s = 0`, is behind the front edge. -/
def frame_without_valid_stop : Frame :=
  { reference_line_ := reference_line,
    path_decision_ := some ⟨[stop_behind, undecided_ahead]⟩ }

/-- A path obstacle at `s = 19` with a stop decision whose stop point `(25, 0)` lies beyond
the end of the sample line (length 20), so that its projection on the line fails. -/
def stop_beyond_end : PathObstacle :=
  (undecided (static_obstacle "o9" 19 0) 19).AddDecision "traffic" (stop_decision 6 25)

/-- The values the decider reads from the singletons, with the vehicle at `(-3, 0)`, before
the start of the sample line: its front edge is at `s = -2`. -/
def globals_before_start : DeciderGlobals := { globals with adc_position := ⟨-3, 0⟩ }

/-- A frame on the sample line whose only stop point lies beyond the end of the line. -/
def frame_stop_beyond_end : Frame :=
  { reference_line_ := reference_line, path_decision_ := some ⟨[stop_beyond_end]⟩ }

/-- The sample mapper with a negative planning time, which fails the parameter check of
`GetGraphBoundary`. -/
def mapper_negative_time : StBoundaryMapper := { mapper with planning_time_ := -1 }

/-- A trajectory point at the origin with relative time `t`. -/
def trajectory_point (t : ℚ) : TrajectoryPoint :=
  { path_point := ⟨0, 0, 0, 0, 0⟩, v := 0, a := 0, relative_time := t }

/-- A concrete choice of the code around the planning cycle: prediction is required, the
header gets the next sequence number, the stitching trajectory is the single point of time 0
when nothing was published before and two points otherwise; `init_ok` is what `Frame::Init`
returns (a frame with one reference line info, and with a path decision when `true`), and with `plan_ok` the planner
leaves a trajectory of two points and returns `OK`, without it a planning error. -/
def planning_env (init_ok plan_ok : Bool) : PlanningEnv where
  FLAGS_enable_prediction := true
  FLAGS_enable_record_debug := false
  FLAGS_planning_loop_rate := 10
  Observe := fun am => am
  FillPlanningHeader := fun name seq =>
    ({ module_name := name, timestamp_sec := 0, sequence_num := seq + 1 }, seq + 1)
  VehicleState_Update := fun localization _ => localization.pose
  Frame_Init := fun frame =>
    (init_ok,
      { frame with
        reference_line_info_ := [{}]
        path_decision_ := if init_ok then some ⟨[]⟩ else frame.path_decision_ })
  ComputeStitchingTrajectory := fun _ _ _ last =>
    match last.trajectory_points_ with
    | [] => [trajectory_point 0]
    | p :: _ => [p, trajectory_point 0]
  planner_Plan := fun _ frame info =>
    if plan_ok then
      (Status.OK, frame, { trajectory_ := ⟨[trajectory_point 1, trajectory_point 2]⟩ })
    else (⟨ErrorCode.PLANNING_ERROR, "Fail to aggregate planning trajectory."⟩, frame, info)
  PrependTrajectoryPoints := fun t pts =>
    { t with trajectory_points_ := pts ++ t.trajectory_points_ }
  PopulateTrajectoryProtobuf := fun t pb => { pb with trajectory_point := t.trajectory_points_ }

/-- Adapters in which every input has been observed and nothing has been published. -/
def adapters : AdapterManager :=
  { localization := [⟨⟨⟨0, 0⟩⟩⟩], chassis := [⟨DrivingMode.COMPLETE_AUTO_DRIVE⟩],
    routing_response := [⟨["lane_1"]⟩], prediction := [{}] }

/-- A planning object before its first cycle. -/
def planning : Planning := {}

/-- A planning object whose last published trajectory has two points. -/
def planning_with_last : Planning :=
  { last_publishable_trajectory_ :=
      { trajectory_points_ := [trajectory_point 1, trajectory_point 2], header_time_ := 0 } }

/-- An optimizer named after the DP path optimizer whose `Optimize` fails and leaves the
planning data as they were. -/
def failing_optimizer : Optimizer where
  name := "DP_POLY_PATH_OPTIMIZER"
  Init := true
  Optimize := fun planning_data =>
    (⟨ErrorCode.PLANNING_ERROR, "Fail to generate path"⟩, planning_data)

/-- An optimizer named after the DP speed optimizer whose `Optimize` succeeds and leaves one
speed point. -/
def speed_optimizer : Optimizer where
  name := "DP_ST_SPEED_OPTIMIZER"
  Init := true
  Optimize := fun planning_data =>
    (Status.OK, { planning_data with speed_data_ := ⟨[⟨0, 0, 1, 0, 0⟩]⟩ })

/-- A concrete choice of the code around `EMPlanner::Plan`: the aggregation succeeds with a
trajectory of two points, which is copied into the output message. -/
def em_planner_env : EMPlannerEnv where
  FLAGS_enable_record_debug := false
  FLAGS_output_trajectory_time_resolution := 1 / 10
  OptimizerType_Parse := fun name =>
    if name = "DP_POLY_PATH_OPTIMIZER" then some OptimizerType.DP_POLY_PATH_OPTIMIZER
    else if name = "DP_ST_SPEED_OPTIMIZER" then some OptimizerType.DP_ST_SPEED_OPTIMIZER
    else if name = "QP_SPLINE_PATH_OPTIMIZER" then some OptimizerType.QP_SPLINE_PATH_OPTIMIZER
    else if name = "QP_SPLINE_ST_SPEED_OPTIMIZER" then
      some OptimizerType.QP_SPLINE_ST_SPEED_OPTIMIZER
    else none
  PlanningData_aggregate := fun _ resolution _ =>
    (true, { trajectory_points_ := [trajectory_point 0, trajectory_point resolution],
             header_time_ := 0 })
  populate_trajectory_protobuf := fun t pb => { pb with trajectory_point := t.trajectory_points_ }
  PathPoint_of_ReferencePoint := fun p => ⟨p.x, p.y, p.heading, p.kappa, 0⟩

/-- A path optimizer whose `Process` fails. -/
def failing_path_optimizer : PathOptimizer where
  name := "QP_SPLINE_PATH_OPTIMIZER"
  Process := fun _ _ _ path_decision path_data =>
    (⟨ErrorCode.PLANNING_ERROR, "Fail to generate path"⟩, path_decision, path_data)

/-- A concrete choice of the code around the path generator, in the axis-aligned world of
`math`: the point at lateral offset `l` of a reference point is `l` to its left, the Frenet
frame accepts every positive number of points and bounds nothing, every constraint is
accepted, the solver, when `solvable`, returns the spline that is `0` everywhere, and the
setter of the path data replaces the discretized path. -/
def qp_ext (solvable : Bool) : QpExternals where
  math := math
  FLAGS_planning_distance := 10
  Double_compare := fun a b => if a < b then -1 else if b < a then 1 else 0
  calculate_xypoint := fun _ p l => ⟨p.x, p.y + l⟩
  calculate_theta := fun theta_ref _ _ _ => theta_ref
  calculate_kappa := fun kappa_ref _ _ _ _ => kappa_ref
  calculate_lateral_derivative := fun _ _ _ _ => 0
  calculate_second_order_lateral_derivative := fun _ _ _ _ _ _ => 0
  QpFrenetFrame_Init := fun _ n => decide (0 < n)
  QpFrenetFrame_feasible_longitudinal_upper_bound := fun f => f.end_s
  QpFrenetFrame_GetMapBound := fun _ _ _ => (true, (-2, 2))
  add_fx_boundary := fun _ _ _ _ => true
  add_third_derivative_smooth_constraint := fun _ => true
  Spline1dGenerator_solve := fun _ =>
    if solvable then some ⟨fun _ => 0, fun _ => 0, fun _ => 0⟩ else none
  PathData_set_discretized_path := fun d points => { d with discretized_path := points }

/-- The sample configuration of the path generator: 2 knots, 3 evaluated positions, 4 output
points. -/
def qp_config : QpSplinePathConfig :=
  { number_of_knots := 2, spline_order := 5, number_of_fx_constraint_knots := 3,
    time_resolution := 1 / 10, num_output := 4, regularization_weight := 1 / 1000,
    derivative_weight := 0, second_derivative_weight := 0, third_derivative_weight := 100,
    reference_line_weight := 1 / 2 }

/-- A new path generator on the sample line. -/
def generator : QpSplinePathGenerator :=
  { reference_line_ := reference_line, qp_spline_path_config_ := qp_config }

/-- A start point on the sample line at `x = 2`. -/
def init_point : TrajectoryPoint :=
  { path_point := ⟨2, 0, 0, 0, 0⟩, v := 1, a := 0, relative_time := 0 }

/-- The sine of a heading given in quarter turns (`0`, `1`, `2`, `3`). -/
def sin_quarter (theta : ℚ) : ℚ := if theta = 1 then 1 else if theta = 3 then -1 else 0

/-- The cosine of a heading given in quarter turns (`0`, `1`, `2`, `3`). -/
def cos_quarter (theta : ℚ) : ℚ := if theta = 0 then 1 else if theta = 2 then -1 else 0

/-- A reference line that turns left around the origin at radius 1: three points a quarter
turn apart, at `(1, 0)`, `(0, 1)` and `(-1, 0)`, with headings in quarter turns and the arc
length of a quarter turn taken as `11/7`. The origin is projected to `s = 0` at lateral
offset 1, every other point as on the straight sample line. -/
def turn_line : ReferenceLine :=
  { reference_points_ :=
      [ { x := 1, y := 0, heading := 1, lane_waypoints := [waypoint], kappa := 1, dkappa := 0,
          lower_bound := 0, upper_bound := 0 },
        { x := 0, y := 1, heading := 2, lane_waypoints := [waypoint], kappa := 1, dkappa := 0,
          lower_bound := 0, upper_bound := 0 },
        { x := -1, y := 0, heading := 3, lane_waypoints := [waypoint], kappa := 1, dkappa := 0,
          lower_bound := 0, upper_bound := 0 } ]
    reference_map_line_ :=
      { accumulated_s := [0, 11 / 7, 22 / 7], length := 22 / 7, num_points := 3,
        get_smooth_point := fun _ => ⟨1, 0, 1, [waypoint]⟩,
        get_projection := fun v => if v = ⟨0, 0⟩ then some (0, 1) else some (v.x, v.y),
        get_width := fun _ => some (2, 2) } }

/-- The code around the path generator on the turning line: the point at lateral offset `l`
of a reference point is `l` along the left normal of its heading, and the solver returns the
spline that is `1` up to the middle point of the line and falls to `0` at the last knot. -/
def qp_ext_turn : QpExternals :=
  { qp_ext true with
    calculate_xypoint := fun theta p l =>
      ⟨p.x - l * sin_quarter theta, p.y + l * cos_quarter theta⟩
    Spline1dGenerator_solve := fun _ =>
      some ⟨fun s => if s ≤ 11 / 7 then 1 else (213 / 70 - s) * (70 / 103), fun _ => 0,
        fun _ => 0⟩ }

/-- A new path generator on the turning line, with 2 output points. -/
def generator_turn : QpSplinePathGenerator :=
  { reference_line_ := turn_line, qp_spline_path_config_ := { qp_config with num_output := 2 } }

/-- A start point at the origin, the centre of the turn. -/
def init_point_turn : TrajectoryPoint :=
  { path_point := ⟨0, 0, 1, 0, 0⟩, v := 1, a := 0, relative_time := 0 }

/-- An overlap of a boundary with a vertical segment: the two points of the segment at the
least and the greatest `s` of the boundary. -/
def boundary_overlap (b : StGraphBoundary) (segment : Vec2d × Vec2d) : Option (Vec2d × Vec2d) :=
  some (⟨segment.1.x, b.min_s_⟩, ⟨segment.1.x, b.max_s_⟩)

/-- A trajectory point on the x axis at `x`, with relative time `t`. -/
def trajectory_point_at (x t : ℚ) : TrajectoryPoint :=
  { path_point := ⟨x, 0, 0, 0, 0⟩, v := 1, a := 0, relative_time := t }

/-- An obstacle of size 1 by 1, perceived at `(6, 0)`, with the given predicted trajectory. -/
def moving_obstacle (trajectory : List TrajectoryPoint) : Obstacle :=
  { static_obstacle "o8" 6 0 with Trajectory := trajectory }

/-- The sample generator with knots at `0`, `5` and `10`, a spline generator on them, and the
given `reference_line_weight`. -/
def generator_with_knots (reference_line_weight : ℚ) : QpSplinePathGenerator :=
  { generator with
    qp_spline_path_config_ := { qp_config with reference_line_weight := reference_line_weight }
    knots_ := [0, 5, 10]
    spline_generator_ := some { x_knots := [0, 5, 10], spline_order := 5 } }

/-- The sample code around the path generator with a solver that returns the spline
`l(s) = s / 10`. -/
def qp_ext_slope : QpExternals :=
  { qp_ext true with
    Spline1dGenerator_solve := fun _ => some ⟨fun s => s / 10, fun _ => 1 / 10, fun _ => 0⟩ }

/-- A start point beside the sample line, at `(2, 1/2)`. -/
def init_point_beside : TrajectoryPoint :=
  { path_point := ⟨2, 1 / 2, 0, 0, 0⟩, v := 1, a := 0, relative_time := 0 }

/-- A trajectory of two points, at the times 0 and 1. -/
def two_point_trajectory : DiscretizedTrajectory :=
  DiscretizedTrajectory.ctor [trajectory_point_at 0 0, trajectory_point_at 1 1]

/-- A comparison of two numbers that is exact: -1, 0 or 1. -/
def exact_compare (a b : ℚ) : Int := if a < b then -1 else if b < a then 1 else 0

/-- Speed data of two points, `s = 0, v = 1` at the time 0 and `s = 2, v = 3` at the time 1. -/
def two_point_speed_data : SpeedData :=
  { speed_vector_ := [⟨0, 0, 1, 2, 0⟩, ⟨2, 1, 3, 2, 0⟩] }

end Sample

/-! ## Theorems: decision merge -/

namespace PathObstacle

theorem merge_mem (a b : ObjectDecisionType) :
    MergeLongitudinalDecision a b = a ∨ MergeLongitudinalDecision a b = b := by
  unfold MergeLongitudinalDecision
  split_ifs <;> simp

theorem merge_priority_left (a b : ObjectDecisionType) :
    s_longitudinal_decision_safety_sorter_ a
      ≤ s_longitudinal_decision_safety_sorter_ (MergeLongitudinalDecision a b) := by
  unfold MergeLongitudinalDecision
  split_ifs <;> omega

theorem merge_priority_right (a b : ObjectDecisionType) :
    s_longitudinal_decision_safety_sorter_ b
      ≤ s_longitudinal_decision_safety_sorter_ (MergeLongitudinalDecision a b) := by
  unfold MergeLongitudinalDecision
  split_ifs <;> omega

theorem merge_distance_left (a b : ObjectDecisionType)
    (h : s_longitudinal_decision_safety_sorter_ a
      = s_longitudinal_decision_safety_sorter_ (MergeLongitudinalDecision a b)) :
    (MergeLongitudinalDecision a b).distance_s ≤ a.distance_s := by
  unfold MergeLongitudinalDecision at h ⊢
  split_ifs at h ⊢ with h1 h2 h3
  · omega
  · exact le_refl _
  · exact le_of_lt h3
  · exact le_refl _

theorem merge_distance_right (a b : ObjectDecisionType)
    (h : s_longitudinal_decision_safety_sorter_ b
      = s_longitudinal_decision_safety_sorter_ (MergeLongitudinalDecision a b)) :
    (MergeLongitudinalDecision a b).distance_s ≤ b.distance_s := by
  unfold MergeLongitudinalDecision at h ⊢
  split_ifs at h ⊢ with h1 h2 h3
  · exact le_refl _
  · omega
  · exact le_refl _
  · exact not_lt.mp h3

/-- The longitudinal slot after one `AddDecision`. -/
theorem AddDecision_longitudinal (po : PathObstacle) (tag : String) (d : ObjectDecisionType) :
    ((po.AddDecision tag d).has_longitudinal_decision_
        = (po.has_longitudinal_decision_ || IsLongitudinalDecision d))
      ∧ (po.AddDecision tag d).longitudinal_decision_
        = (if IsLongitudinalDecision d then
            (if po.has_longitudinal_decision_ then
              MergeLongitudinalDecision po.longitudinal_decision_ d
             else d)
           else po.longitudinal_decision_) := by
  unfold AddDecision
  by_cases h1 : IsLateralDecision d <;> by_cases h2 : IsLongitudinalDecision d <;> simp [h1, h2]

/-- The merged slot is the maximum of the held decision and the longitudinal proposals. -/
theorem AddDecisions_held (ds : List (String × ObjectDecisionType)) :
    ∀ po : PathObstacle, po.has_longitudinal_decision_ = true →
      (po.AddDecisions ds).has_longitudinal_decision_ = true
      ∧ (po.AddDecisions ds).longitudinal_decision_
          ∈ po.longitudinal_decision_ :: (ds.map Prod.snd).filter IsLongitudinalDecision
      ∧ (∀ d ∈ po.longitudinal_decision_ :: (ds.map Prod.snd).filter IsLongitudinalDecision,
          s_longitudinal_decision_safety_sorter_ d
            ≤ s_longitudinal_decision_safety_sorter_ (po.AddDecisions ds).longitudinal_decision_)
      ∧ (∀ d ∈ po.longitudinal_decision_ :: (ds.map Prod.snd).filter IsLongitudinalDecision,
          s_longitudinal_decision_safety_sorter_ d
            = s_longitudinal_decision_safety_sorter_ (po.AddDecisions ds).longitudinal_decision_ →
          (po.AddDecisions ds).longitudinal_decision_.distance_s ≤ d.distance_s) := by
  induction ds with
  | nil =>
    intro po h
    simp [AddDecisions, h]
  | cons td rest ih =>
    intro po h
    obtain ⟨hflag, hslot⟩ := AddDecision_longitudinal po td.1 td.2
    have hflag2 : (po.AddDecision td.1 td.2).has_longitudinal_decision_ = true := by
      rw [hflag, h]; rfl
    obtain ⟨r1, r2, r3, r4⟩ := ih (po.AddDecision td.1 td.2) hflag2
    simp only [AddDecisions, List.map_cons]
    by_cases hl : IsLongitudinalDecision td.2
    · rw [List.filter_cons_of_pos hl]
      rw [if_pos hl, if_pos h] at hslot
      rw [hslot] at r2 r3 r4
      refine ⟨r1, ?_, ?_, ?_⟩
      · rcases List.mem_cons.mp r2 with hm | hm
        · rw [hm]
          rcases merge_mem po.longitudinal_decision_ td.2 with e | e
          · rw [e]; exact List.mem_cons_self _ _
          · rw [e]; exact List.mem_cons_of_mem _ (List.mem_cons_self _ _)
        · exact List.mem_cons_of_mem _ (List.mem_cons_of_mem _ hm)
      · intro d hd
        have top := r3 _ (List.mem_cons_self _ _)
        rcases List.mem_cons.mp hd with e | hd
        · rw [e]; exact le_trans (merge_priority_left _ _) top
        · rcases List.mem_cons.mp hd with e | hd
          · rw [e]; exact le_trans (merge_priority_right _ _) top
          · exact r3 d (List.mem_cons_of_mem _ hd)
      · intro d hd heq
        have top := r3 _ (List.mem_cons_self _ _)
        rcases List.mem_cons.mp hd with e | hd
        · rw [e] at heq ⊢
          have e1 := le_antisymm (merge_priority_left po.longitudinal_decision_ td.2)
            (heq ▸ top)
          exact le_trans (r4 _ (List.mem_cons_self _ _) (e1.symm.trans heq))
            (merge_distance_left _ _ e1)
        · rcases List.mem_cons.mp hd with e | hd
          · rw [e] at heq ⊢
            have e1 := le_antisymm (merge_priority_right po.longitudinal_decision_ td.2)
              (heq ▸ top)
            exact le_trans (r4 _ (List.mem_cons_self _ _) (e1.symm.trans heq))
              (merge_distance_right _ _ e1)
          · exact r4 d (List.mem_cons_of_mem _ hd) heq
    · rw [List.filter_cons_of_neg hl]
      rw [if_neg hl] at hslot
      rw [hslot] at r2 r3 r4
      exact ⟨r1, r2, r3, r4⟩

/-- C1: for every sequence of decisions added through `AddDecision` to a path obstacle whose
longitudinal slot is empty, the merged `LongitudinalDecision()` is one of the longitudinal
proposals (Stop, Yield, Follow, Overtake, Ignore) of the sequence, its priority under
`Stop(4) > Yield(3) = Follow(3) > Overtake(2) > Ignore(1)` is at least the priority of every
such proposal, and its `distance_s` is the smallest among the proposals of that highest
priority. With no longitudinal proposal the slot stays empty. -/
theorem C1_merged_longitudinal_decision_is_maximum (po : PathObstacle)
    (hfresh : po.HasLongitudinalDecision = false) (ds : List (String × ObjectDecisionType)) :
    ((ds.map Prod.snd).filter IsLongitudinalDecision = [] →
        (po.AddDecisions ds).HasLongitudinalDecision = false)
      ∧ ((ds.map Prod.snd).filter IsLongitudinalDecision ≠ [] →
        (po.AddDecisions ds).HasLongitudinalDecision = true
        ∧ (po.AddDecisions ds).LongitudinalDecision
            ∈ (ds.map Prod.snd).filter IsLongitudinalDecision
        ∧ (∀ d ∈ (ds.map Prod.snd).filter IsLongitudinalDecision,
            s_longitudinal_decision_safety_sorter_ d
              ≤ s_longitudinal_decision_safety_sorter_ (po.AddDecisions ds).LongitudinalDecision)
        ∧ (∀ d ∈ (ds.map Prod.snd).filter IsLongitudinalDecision,
            s_longitudinal_decision_safety_sorter_ d
              = s_longitudinal_decision_safety_sorter_
                  (po.AddDecisions ds).LongitudinalDecision →
            (po.AddDecisions ds).LongitudinalDecision.distance_s ≤ d.distance_s)) := by
  unfold HasLongitudinalDecision LongitudinalDecision at *
  induction ds generalizing po with
  | nil => simp [AddDecisions, hfresh]
  | cons td rest ih =>
    obtain ⟨hflag, hslot⟩ := AddDecision_longitudinal po td.1 td.2
    simp only [AddDecisions, List.map_cons]
    by_cases hl : IsLongitudinalDecision td.2
    · rw [List.filter_cons_of_pos hl]
      have hflag2 : (po.AddDecision td.1 td.2).has_longitudinal_decision_ = true := by
        rw [hflag, hl]; simp
      rw [if_pos hl, hfresh] at hslot
      have held := AddDecisions_held rest (po.AddDecision td.1 td.2) hflag2
      rw [hslot] at held
      refine ⟨fun h => absurd h (List.cons_ne_nil _ _), fun _ => ?_⟩
      simpa using held
    · rw [List.filter_cons_of_neg hl]
      have hflag2 : (po.AddDecision td.1 td.2).has_longitudinal_decision_ = false := by
        rw [hflag, hfresh]; simpa using hl
      exact ih (po.AddDecision td.1 td.2) hflag2

/-- C1 at the sample proposals (follow, stop at -1, ignore, stop at -3): the merged decision
is the stop at -3. -/
theorem C1_merged_longitudinal_decision_is_maximum_witness :
    ((Sample.undecided (Sample.static_obstacle "o1" 6 0) 6).AddDecisions
        Sample.proposals).LongitudinalDecision = Sample.stop_decision (-3) 5
      ∧ ((Sample.undecided (Sample.static_obstacle "o1" 6 0) 6).AddDecisions
          Sample.proposals).HasLongitudinalDecision = true
      ∧ (∀ d ∈ (Sample.proposals.map Prod.snd).filter IsLongitudinalDecision,
          s_longitudinal_decision_safety_sorter_ d
            ≤ s_longitudinal_decision_safety_sorter_
                ((Sample.undecided (Sample.static_obstacle "o1" 6 0) 6).AddDecisions
                  Sample.proposals).LongitudinalDecision) :=
  ⟨by decide!,
    ((C1_merged_longitudinal_decision_is_maximum
      (Sample.undecided (Sample.static_obstacle "o1" 6 0) 6) (by decide!) Sample.proposals).2
        (by decide!)).1,
    ((C1_merged_longitudinal_decision_is_maximum
      (Sample.undecided (Sample.static_obstacle "o1" 6 0) 6) (by decide!) Sample.proposals).2
        (by decide!)).2.2.1⟩

end PathObstacle

/-! ## Theorems: ST-graph boundary -/

namespace StGraphBoundary

theorem extend_STPoints_fixed (pts : List STPoint) :
    ∀ b : StGraphBoundary,
      (extend_STPoints b pts).toPolygon2d = b.toPolygon2d
      ∧ (extend_STPoints b pts).boundary_type_ = b.boundary_type_
      ∧ (extend_STPoints b pts).id_ = b.id_ := by
  induction pts with
  | nil => intro b; simp [extend_STPoints]
  | cons p rest ih => intro b; simp [extend_STPoints, ih]

theorem extend_Vec2ds_fixed (pts : List Vec2d) :
    ∀ b : StGraphBoundary,
      (extend_Vec2ds b pts).toPolygon2d = b.toPolygon2d
      ∧ (extend_Vec2ds b pts).boundary_type_ = b.boundary_type_
      ∧ (extend_Vec2ds b pts).id_ = b.id_ := by
  induction pts with
  | nil => intro b; simp [extend_Vec2ds]
  | cons p rest ih => intro b; simp [extend_Vec2ds, ih]

/-- The running extents bound the starting extents and every point seen. -/
theorem extend_STPoints_bounds (pts : List STPoint) :
    ∀ b : StGraphBoundary,
      ((extend_STPoints b pts).min_s_ ≤ b.min_s_ ∧ b.max_s_ ≤ (extend_STPoints b pts).max_s_
        ∧ (extend_STPoints b pts).min_t_ ≤ b.min_t_ ∧ b.max_t_ ≤ (extend_STPoints b pts).max_t_)
      ∧ ∀ p ∈ pts, (extend_STPoints b pts).min_s_ ≤ p.s ∧ p.s ≤ (extend_STPoints b pts).max_s_
        ∧ (extend_STPoints b pts).min_t_ ≤ p.t ∧ p.t ≤ (extend_STPoints b pts).max_t_ := by
  induction pts with
  | nil => intro b; simp [extend_STPoints]
  | cons q rest ih =>
    intro b
    obtain ⟨⟨h1, h2, h3, h4⟩, hall⟩ := ih
      { b with
        min_s_ := min b.min_s_ q.s
        min_t_ := min b.min_t_ q.t
        max_s_ := max b.max_s_ q.s
        max_t_ := max b.max_t_ q.t }
    simp only [extend_STPoints]
    simp only [le_min_iff, max_le_iff] at h1 h2 h3 h4
    refine ⟨⟨h1.1, h2.1, h3.1, h4.1⟩, ?_⟩
    intro p hp
    rcases List.mem_cons.mp hp with e | hp
    · rw [e]; exact ⟨h1.2, h2.2, h3.2, h4.2⟩
    · exact hall p hp

/-- Each running extent is the starting one or is attained at a point seen. -/
theorem extend_STPoints_attained (pts : List STPoint) :
    ∀ b : StGraphBoundary,
      ((extend_STPoints b pts).min_s_ = b.min_s_ ∨ ∃ p ∈ pts, (extend_STPoints b pts).min_s_ = p.s)
      ∧ ((extend_STPoints b pts).max_s_ = b.max_s_
          ∨ ∃ p ∈ pts, (extend_STPoints b pts).max_s_ = p.s)
      ∧ ((extend_STPoints b pts).min_t_ = b.min_t_
          ∨ ∃ p ∈ pts, (extend_STPoints b pts).min_t_ = p.t)
      ∧ ((extend_STPoints b pts).max_t_ = b.max_t_
          ∨ ∃ p ∈ pts, (extend_STPoints b pts).max_t_ = p.t) := by
  induction pts with
  | nil => intro b; simp [extend_STPoints]
  | cons q rest ih =>
    intro b
    obtain ⟨h1, h2, h3, h4⟩ := ih
      { b with
        min_s_ := min b.min_s_ q.s
        min_t_ := min b.min_t_ q.t
        max_s_ := max b.max_s_ q.s
        max_t_ := max b.max_t_ q.t }
    simp only [extend_STPoints]
    refine ⟨?_, ?_, ?_, ?_⟩
    · rcases h1 with e | ⟨p, hp, e⟩
      · rcases min_choice b.min_s_ q.s with c | c
        · left; rw [e]; exact c
        · right; exact ⟨q, List.mem_cons_self _ _, by rw [e]; exact c⟩
      · right; exact ⟨p, List.mem_cons_of_mem _ hp, e⟩
    · rcases h2 with e | ⟨p, hp, e⟩
      · rcases max_choice b.max_s_ q.s with c | c
        · left; rw [e]; exact c
        · right; exact ⟨q, List.mem_cons_self _ _, by rw [e]; exact c⟩
      · right; exact ⟨p, List.mem_cons_of_mem _ hp, e⟩
    · rcases h3 with e | ⟨p, hp, e⟩
      · rcases min_choice b.min_t_ q.t with c | c
        · left; rw [e]; exact c
        · right; exact ⟨q, List.mem_cons_self _ _, by rw [e]; exact c⟩
      · right; exact ⟨p, List.mem_cons_of_mem _ hp, e⟩
    · rcases h4 with e | ⟨p, hp, e⟩
      · rcases max_choice b.max_t_ q.t with c | c
        · left; rw [e]; exact c
        · right; exact ⟨q, List.mem_cons_self _ _, by rw [e]; exact c⟩
      · right; exact ⟨p, List.mem_cons_of_mem _ hp, e⟩

/-- The `Vec2d` loop is the `STPoint` loop on the points read as `(s, t) = (y, x)`. -/
theorem extend_Vec2ds_eq (pts : List Vec2d) :
    ∀ b : StGraphBoundary,
      extend_Vec2ds b pts = extend_STPoints b (pts.map (fun v => (⟨v.y, v.x⟩ : STPoint))) := by
  induction pts with
  | nil => intro b; rfl
  | cons q rest ih => intro b; simp [extend_Vec2ds, extend_STPoints, ih]

/-- The extents after the loop over a non-empty point list: ordered, bounding every point,
and attained at points when the starting extents lie beyond every point. -/
theorem extend_STPoints_extents (b0 : StGraphBoundary) (pts : List STPoint) (hne : pts ≠ []) :
    0 ≤ (extend_STPoints b0 pts).max_s_ - (extend_STPoints b0 pts).min_s_
      ∧ 0 ≤ (extend_STPoints b0 pts).max_t_ - (extend_STPoints b0 pts).min_t_
      ∧ (∀ p ∈ pts, (extend_STPoints b0 pts).min_s_ ≤ p.s ∧ p.s ≤ (extend_STPoints b0 pts).max_s_
          ∧ (extend_STPoints b0 pts).min_t_ ≤ p.t ∧ p.t ≤ (extend_STPoints b0 pts).max_t_)
      ∧ ((∀ p ∈ pts, p.s ≤ b0.min_s_ ∧ b0.max_s_ ≤ p.s ∧ p.t ≤ b0.min_t_ ∧ b0.max_t_ ≤ p.t) →
          (∃ p ∈ pts, (extend_STPoints b0 pts).min_s_ = p.s)
          ∧ (∃ p ∈ pts, (extend_STPoints b0 pts).max_s_ = p.s)
          ∧ (∃ p ∈ pts, (extend_STPoints b0 pts).min_t_ = p.t)
          ∧ (∃ p ∈ pts, (extend_STPoints b0 pts).max_t_ = p.t)) := by
  obtain ⟨_, hall⟩ := extend_STPoints_bounds pts b0
  obtain ⟨a1, a2, a3, a4⟩ := extend_STPoints_attained pts b0
  obtain ⟨p0, hp0⟩ := List.exists_mem_of_ne_nil pts hne
  obtain ⟨c1, c2, c3, c4⟩ := hall p0 hp0
  refine ⟨by linarith, by linarith, hall, ?_⟩
  intro hdom
  obtain ⟨d1, d2, d3, d4⟩ := hdom p0 hp0
  refine ⟨?_, ?_, ?_, ?_⟩
  · rcases a1 with e | h
    · exact ⟨p0, hp0, le_antisymm c1 (e ▸ d1)⟩
    · exact h
  · rcases a2 with e | h
    · exact ⟨p0, hp0, le_antisymm (e ▸ d2) c2⟩
    · exact h
  · rcases a3 with e | h
    · exact ⟨p0, hp0, le_antisymm c3 (e ▸ d3)⟩
    · exact h
  · rcases a4 with e | h
    · exact ⟨p0, hp0, le_antisymm (e ▸ d4) c4⟩
    · exact h

/-- C5: a `StGraphBoundary` built by either points constructor exists only for exactly four
input points (any other size fails `CHECK_EQ`); it then has four vertices (the polygon base
keeps the number of points it is given), its cached extents bound every input point, so that
`max_s() - min_s() >= 0` and `max_t() - min_t() >= 0`, and they are attained at input points,
i.e. are the extrema of the four points, when the initial member values lie beyond every
point (as the largest and lowest `double` do). -/
theorem C5_boundary_has_four_vertices_and_ordered_extents (ext : Externals)
    (hpoly : ∀ pts, (ext.Polygon2d_ctor pts).points.length = pts.length) :
    (∀ points : List STPoint, points.length ≠ 4 → ctor_STPoints ext points = none)
      ∧ (∀ points : List Vec2d, points.length ≠ 4 → ctor_Vec2ds ext points = none)
      ∧ (∀ points : List STPoint, points.length = 4 →
          ∃ b, ctor_STPoints ext points = some b ∧ b.points.length = 4
            ∧ 0 ≤ b.max_s - b.min_s ∧ 0 ≤ b.max_t - b.min_t
            ∧ (∀ p ∈ points, b.min_s ≤ p.s ∧ p.s ≤ b.max_s ∧ b.min_t ≤ p.t ∧ p.t ≤ b.max_t)
            ∧ ((∀ p ∈ points, p.s ≤ ext.StGraphBoundary_default.min_s_
                  ∧ ext.StGraphBoundary_default.max_s_ ≤ p.s
                  ∧ p.t ≤ ext.StGraphBoundary_default.min_t_
                  ∧ ext.StGraphBoundary_default.max_t_ ≤ p.t) →
                (∃ p ∈ points, b.min_s = p.s) ∧ (∃ p ∈ points, b.max_s = p.s)
                ∧ (∃ p ∈ points, b.min_t = p.t) ∧ (∃ p ∈ points, b.max_t = p.t)))
      ∧ (∀ points : List Vec2d, points.length = 4 →
          ∃ b, ctor_Vec2ds ext points = some b ∧ b.points.length = 4
            ∧ 0 ≤ b.max_s - b.min_s ∧ 0 ≤ b.max_t - b.min_t
            ∧ (∀ p ∈ points, b.min_s ≤ p.y ∧ p.y ≤ b.max_s ∧ b.min_t ≤ p.x ∧ p.x ≤ b.max_t)
            ∧ ((∀ p ∈ points, p.y ≤ ext.StGraphBoundary_default.min_s_
                  ∧ ext.StGraphBoundary_default.max_s_ ≤ p.y
                  ∧ p.x ≤ ext.StGraphBoundary_default.min_t_
                  ∧ ext.StGraphBoundary_default.max_t_ ≤ p.x) →
                (∃ p ∈ points, b.min_s = p.y) ∧ (∃ p ∈ points, b.max_s = p.y)
                ∧ (∃ p ∈ points, b.min_t = p.x) ∧ (∃ p ∈ points, b.max_t = p.x))) := by
  refine ⟨fun points h => by simp [ctor_STPoints, h],
    fun points h => by simp [ctor_Vec2ds, h], ?_, ?_⟩
  · intro points h4
    have hne : points ≠ [] := by
      intro e; rw [e] at h4; simp at h4
    refine ⟨_, by unfold ctor_STPoints; rw [if_pos h4], ?_, ?_⟩
    · rw [(extend_STPoints_fixed points _).1]
      simp [hpoly, h4]
    · exact extend_STPoints_extents _ points hne
  · intro points h4
    have hne : points.map (fun v => (⟨v.y, v.x⟩ : STPoint)) ≠ [] := by
      intro e
      have := congrArg List.length e
      simp [h4] at this
    refine ⟨_, by unfold ctor_Vec2ds; rw [if_pos h4], ?_, ?_⟩
    · rw [(extend_Vec2ds_fixed points _).1]
      simp [hpoly, h4]
    · rw [extend_Vec2ds_eq]
      obtain ⟨e1, e2, e3, e4⟩ := extend_STPoints_extents
        { ext.StGraphBoundary_default with toPolygon2d := ext.Polygon2d_ctor points }
        (points.map (fun v => (⟨v.y, v.x⟩ : STPoint))) hne
      refine ⟨e1, e2, ?_, ?_⟩
      · intro p hp
        exact e3 ⟨p.y, p.x⟩ (List.mem_map.mpr ⟨p, hp, rfl⟩)
      · intro hdom
        have := e4 (by
          intro q hq
          obtain ⟨v, hv, e⟩ := List.mem_map.mp hq
          rw [← e]
          exact hdom v hv)
        simpa using this

/-- C5 at the four vertices of a sample stop wall, with the sample external code: the boundary
exists, has four vertices and extents `s ∈ [3, 21/2]`, `t ∈ [0, 8]` attained at the points. -/
theorem C5_boundary_has_four_vertices_and_ordered_extents_witness :
    ∃ b, ctor_STPoints Sample.ext [⟨3, 0⟩, ⟨3, 8⟩, ⟨21 / 2, 8⟩, ⟨10, 0⟩] = some b
      ∧ b.points.length = 4
      ∧ 0 ≤ b.max_s - b.min_s ∧ 0 ≤ b.max_t - b.min_t
      ∧ (∀ p ∈ ([⟨3, 0⟩, ⟨3, 8⟩, ⟨21 / 2, 8⟩, ⟨10, 0⟩] : List STPoint),
          b.min_s ≤ p.s ∧ p.s ≤ b.max_s ∧ b.min_t ≤ p.t ∧ p.t ≤ b.max_t)
      ∧ (∃ p ∈ ([⟨3, 0⟩, ⟨3, 8⟩, ⟨21 / 2, 8⟩, ⟨10, 0⟩] : List STPoint), b.min_s = p.s)
      ∧ (∃ p ∈ ([⟨3, 0⟩, ⟨3, 8⟩, ⟨21 / 2, 8⟩, ⟨10, 0⟩] : List STPoint), b.max_s = p.s)
      ∧ (∃ p ∈ ([⟨3, 0⟩, ⟨3, 8⟩, ⟨21 / 2, 8⟩, ⟨10, 0⟩] : List STPoint), b.min_t = p.t)
      ∧ (∃ p ∈ ([⟨3, 0⟩, ⟨3, 8⟩, ⟨21 / 2, 8⟩, ⟨10, 0⟩] : List STPoint), b.max_t = p.t) := by
  obtain ⟨b, h1, h2, h3, h4, h5, h6⟩ :=
    (C5_boundary_has_four_vertices_and_ordered_extents Sample.ext (fun _ => rfl)).2.2.1
      [⟨3, 0⟩, ⟨3, 8⟩, ⟨21 / 2, 8⟩, ⟨10, 0⟩] rfl
  exact ⟨b, h1, h2, h3, h4, h5, h6 (by decide!)⟩

end StGraphBoundary

/-! ## Theorems: ST-boundary mapper -/

namespace StBoundaryMapper

theorem ctor_STPoints_some (ext : Externals) (pts : List STPoint) (b : StGraphBoundary)
    (h : StGraphBoundary.ctor_STPoints ext pts = some b) :
    b.boundary_type_ = ext.StGraphBoundary_default.boundary_type_
      ∧ b.id_ = ext.StGraphBoundary_default.id_ := by
  unfold StGraphBoundary.ctor_STPoints at h
  split_ifs at h
  simp only [Option.some.injEq] at h
  rw [← h]
  exact (StGraphBoundary.extend_STPoints_fixed pts _).2

theorem ctor_STPoints_of_length (ext : Externals) (pts : List STPoint) (h : pts.length = 4) :
    ∃ b, StGraphBoundary.ctor_STPoints ext pts = some b := by
  unfold StGraphBoundary.ctor_STPoints
  rw [if_pos h]
  exact ⟨_, rfl⟩

theorem ctor_STPoints_ne_none (ext : Externals) (pts : List STPoint) (h : pts.length = 4) :
    StGraphBoundary.ctor_STPoints ext pts ≠ none := by
  obtain ⟨b, hb⟩ := ctor_STPoints_of_length ext pts h
  rw [hb]; simp

theorem adjust_by_decision_spec (ext : Externals) (m : StBoundaryMapper) (po : PathObstacle)
    (d : ObjectDecisionType) (buffer : ℚ) (p0 p1 p2 p3 : STPoint) :
    (adjust_by_decision ext m po d buffer p0 p1 p2 p3).1.length = 4
      ∧ (adjust_by_decision ext m po d buffer p0 p1 p2 p3).2.1 ≠ BoundaryType.STOP := by
  unfold adjust_by_decision
  split_ifs <;> simp

theorem head?_of_pos {α : Type} (l : List α) (h : l.length > 0) : ∃ a, l.head? = some a := by
  cases l with
  | nil => simp at h
  | cons a t => exact ⟨a, rfl⟩

theorem getLast?_of_pos {α : Type} (l : List α) (h : l.length > 0) :
    ∃ a, l.getLast? = some a := by
  cases l with
  | nil => simp at h
  | cons a t => exact ⟨_, List.getLast?_eq_getLast (a :: t) (List.cons_ne_nil _ _)⟩

/-- Mapping an obstacle without decision always succeeds with `OK`; the boundary is the one
passed in or a new one with the default type. -/
theorem MapWithoutDecision_spec (ext : Externals) (m : StBoundaryMapper) (po : PathObstacle)
    (boundary : StGraphBoundary) :
    ∃ b, MapWithoutDecision ext m po boundary = some (Status.OK, b)
      ∧ (b = boundary ∨ b.boundary_type_ = ext.StGraphBoundary_default.boundary_type_)
      ∧ ((GetOverlapBoundaryPoints ext m m.path_data_.discretized_path po.Obstacle).1 = false →
          b = boundary) := by
  unfold MapWithoutDecision
  rcases hov : GetOverlapBoundaryPoints ext m m.path_data_.discretized_path po.Obstacle
    with ⟨flag, pts⟩
  cases flag with
  | false => exact ⟨boundary, rfl, Or.inl rfl, fun _ => rfl⟩
  | true =>
    simp only
    split_ifs with hlen
    · obtain ⟨l0, hl0⟩ := head?_of_pos _ hlen.1
      obtain ⟨l1, hl1⟩ := getLast?_of_pos _ hlen.1
      obtain ⟨u1, hu1⟩ := getLast?_of_pos _ hlen.2
      obtain ⟨u0, hu0⟩ := head?_of_pos _ hlen.2
      rw [hl0, hl1, hu1, hu0]
      simp only
      obtain ⟨b, hb⟩ := ctor_STPoints_of_length ext
        [⟨l0.s - m.st_boundary_config_.boundary_buffer,
            l0.t - m.st_boundary_config_.boundary_buffer⟩,
          ⟨l1.s - m.st_boundary_config_.boundary_buffer,
            l1.t + m.st_boundary_config_.boundary_buffer⟩,
          ⟨u1.s + m.st_boundary_config_.boundary_buffer,
            u1.t + m.st_boundary_config_.boundary_buffer⟩,
          ⟨u0.s + m.st_boundary_config_.boundary_buffer,
            u0.t - m.st_boundary_config_.boundary_buffer⟩] rfl
      rw [hb]
      refine ⟨_, rfl, Or.inr ?_, fun h => by simp at h⟩
      exact (ctor_STPoints_some ext _ b hb).1
    · exact ⟨boundary, rfl, Or.inl rfl, fun _ => rfl⟩

/-- Mapping with the prediction trajectory always returns: an error when no overlap is found,
`OK` otherwise; a boundary it builds is not of type `STOP`. -/
theorem MapWithPredictionTrajectory_spec (ext : Externals) (m : StBoundaryMapper)
    (po : PathObstacle) (d : ObjectDecisionType) (boundary : StGraphBoundary) :
    ∃ st b, MapWithPredictionTrajectory ext m po d boundary = some (st, b)
      ∧ ((GetOverlapBoundaryPoints ext m m.path_data_.discretized_path po.Obstacle).1 = false →
          st = ⟨ErrorCode.PLANNING_ERROR, "PLANNING_ERROR"⟩)
      ∧ ((GetOverlapBoundaryPoints ext m m.path_data_.discretized_path po.Obstacle).1 = true →
          st = Status.OK)
      ∧ (b = boundary ∨ b.boundary_type_ ≠ BoundaryType.STOP) := by
  unfold MapWithPredictionTrajectory
  rcases hov : GetOverlapBoundaryPoints ext m m.path_data_.discretized_path po.Obstacle
    with ⟨flag, pts⟩
  cases flag with
  | false => exact ⟨_, boundary, rfl, fun _ => rfl, fun h => by simp at h, Or.inl rfl⟩
  | true =>
    simp only
    split_ifs with hlen
    · obtain ⟨l0, hl0⟩ := head?_of_pos _ hlen.1
      obtain ⟨l1, hl1⟩ := getLast?_of_pos _ hlen.1
      obtain ⟨u1, hu1⟩ := getLast?_of_pos _ hlen.2
      obtain ⟨u0, hu0⟩ := head?_of_pos _ hlen.2
      rw [hl0, hl1, hu1, hu0]
      simp only
      obtain ⟨hlen4, htype⟩ := adjust_by_decision_spec ext m po d
        m.st_boundary_config_.boundary_buffer
        ⟨max 0 (l0.s - m.st_boundary_config_.boundary_buffer), l0.t⟩
        ⟨max 0 (l1.s - m.st_boundary_config_.boundary_buffer), l1.t⟩
        ⟨u1.s + m.st_boundary_config_.boundary_buffer + m.st_boundary_config_.boundary_buffer,
          u1.t⟩
        ⟨u0.s + m.st_boundary_config_.boundary_buffer, u0.t⟩
      obtain ⟨b, hb⟩ := ctor_STPoints_of_length ext _ hlen4
      rw [hb]
      exact ⟨_, _, rfl, fun h => by simp at h, fun _ => rfl, Or.inr htype⟩
    · exact ⟨_, boundary, rfl, fun h => by simp at h, fun _ => rfl, Or.inl rfl⟩

theorem nearest_scan_lt (x y : ℚ) (rest : List ReferencePoint) :
    ∀ (i : Nat) (d : ℚ) (idx : Nat), idx < i + rest.length →
      (ReferenceLine.nearest_scan x y rest i d idx).2 < i + rest.length := by
  induction rest with
  | nil => intro i d idx h; simpa [ReferenceLine.nearest_scan] using h
  | cons p rest ih =>
    intro i d idx h
    simp only [ReferenceLine.nearest_scan, List.length_cons]
    split_ifs
    · have := ih (i + 1) (ReferenceLine.func_distance_square p x y) i (by omega)
      omega
    · have := ih (i + 1) d idx (by simp only [List.length_cons] at h; omega)
      omega

/-- On a line with a reference point and one accumulated `s` per point, the nearest-point
query reads no missing element. -/
theorem get_reference_point_xy_some (ml : MathLib) (rl : ReferenceLine)
    (hne : rl.reference_points_ ≠ [])
    (hacc : rl.reference_map_line_.accumulated_s.length = rl.reference_points_.length)
    (x y : ℚ) : ∃ p, rl.get_reference_point_xy ml x y = some p := by
  unfold ReferenceLine.get_reference_point_xy
  rcases hpts : rl.reference_points_ with _ | ⟨first, rest⟩
  · exact absurd hpts hne
  · simp only
    have hlt := nearest_scan_lt x y rest 1 (ReferenceLine.func_distance_square first x y) 0
      (by omega)
    generalize (ReferenceLine.nearest_scan x y rest 1
      (ReferenceLine.func_distance_square first x y) 0).2 = index_min at hlt
    have hlen : (first :: rest).length = 1 + rest.length := by simp; omega
    have hstart : (if index_min = 0 then index_min else index_min - 1) < (first :: rest).length := by
      split_ifs <;> omega
    have hend : (if index_min + 1 = (first :: rest).length then index_min else index_min + 1)
        < (first :: rest).length := by
      split_ifs <;> omega
    rw [hpts] at hacc
    generalize (if index_min = 0 then index_min else index_min - 1) = index_start at hstart ⊢
    generalize (if index_min + 1 = (first :: rest).length then index_min else index_min + 1)
      = index_end at hend ⊢
    split_ifs
    · exact ⟨_, List.get?_eq_get hstart⟩
    · rw [List.get?_eq_get (hacc ▸ hstart), List.get?_eq_get (hacc ▸ hend),
        List.get?_eq_get hstart, List.get?_eq_get hend]
      exact ⟨_, rfl⟩

/-- A boundary that the follow mapping builds is of type `FOLLOW`. -/
theorem MapFollowDecision_boundary (ext : Externals) (m : StBoundaryMapper) (po : PathObstacle)
    (d : ObjectDecisionType) (boundary : StGraphBoundary) (st : Status) (b : StGraphBoundary)
    (h : MapFollowDecision ext m po d boundary = some (st, b)) :
    b = boundary ∨ b.boundary_type_ = BoundaryType.FOLLOW := by
  unfold MapFollowDecision at h
  simp only at h
  split at h
  · exact absurd h (by simp)
  · split_ifs at h
    · simp only [Option.some.injEq, Prod.mk.injEq] at h; exact Or.inl h.2.symm
    · split at h
      · exact absurd h (by simp)
      · split at h
        · simp only [Option.some.injEq, Prod.mk.injEq] at h; exact Or.inl h.2.symm
        · split_ifs at h
          · simp only [Option.some.injEq, Prod.mk.injEq] at h; exact Or.inl h.2.symm
          · split at h
            · simp only [Option.some.injEq, Prod.mk.injEq] at h
              right; rw [← h.2]; rfl
            · exact absurd h (by simp)

/-- With well-formed inputs and a non-empty path the follow mapping reads no missing element. -/
theorem MapFollowDecision_some (ext : Externals) (m : StBoundaryMapper) (hwf : m.WellFormed)
    (hpath : m.path_data_.discretized_path ≠ []) (po : PathObstacle) (d : ObjectDecisionType)
    (boundary : StGraphBoundary) : ∃ r, MapFollowDecision ext m po d boundary = some r := by
  unfold MapFollowDecision
  simp only
  obtain ⟨p, hp⟩ := get_reference_point_xy_some ext.math m.reference_line_ hwf.1 hwf.2.1
    po.Obstacle.Perception.position.x po.Obstacle.Perception.position.y
  rw [hp]
  simp only
  split_ifs
  · exact ⟨_, rfl⟩
  · rcases hd : m.path_data_.discretized_path with _ | ⟨start_point, rest⟩
    · exact absurd hd hpath
    · simp only [List.head?_cons]
      split
      · exact ⟨_, rfl⟩
      · split_ifs
        · exact ⟨_, rfl⟩
        · split
          · exact ⟨_, rfl⟩
          · rename_i hnone
            exact absurd hnone (ctor_STPoints_ne_none ext _ rfl)

/-- A boundary that the stop mapping builds is of type `STOP` and carries the id of the stop
obstacle. -/
theorem MapStopDecision_boundary (ext : Externals) (m : StBoundaryMapper)
    (stop_obstacle : PathObstacle) (d : ObjectDecisionType) (boundary : StGraphBoundary)
    (ok : Bool) (b : StGraphBoundary)
    (h : MapStopDecision ext m stop_obstacle d boundary = some (ok, b)) :
    b = boundary ∨ (b.boundary_type_ = BoundaryType.STOP ∧ b.id_ = stop_obstacle.Id) := by
  unfold MapStopDecision at h
  split at h
  · exact absurd h (by simp)
  · split_ifs at h
    · simp only [Option.some.injEq, Prod.mk.injEq] at h; exact Or.inl h.2.symm
    · split at h
      · simp only [Option.some.injEq, Prod.mk.injEq] at h; exact Or.inl h.2.symm
      · simp only at h
        split_ifs at h
        · simp only [Option.some.injEq, Prod.mk.injEq] at h; exact Or.inl h.2.symm
        · split at h
          · simp only [Option.some.injEq, Prod.mk.injEq] at h
            right; rw [← h.2]; exact ⟨rfl, rfl⟩
          · exact absurd h (by simp)

/-- With a non-empty Frenet-frame path the stop mapping reads no missing element. -/
theorem MapStopDecision_some (ext : Externals) (m : StBoundaryMapper)
    (hfrenet : m.path_data_.frenet_frame_path ≠ []) (stop_obstacle : PathObstacle)
    (d : ObjectDecisionType) (boundary : StGraphBoundary) :
    ∃ r, MapStopDecision ext m stop_obstacle d boundary = some r := by
  unfold MapStopDecision
  rw [List.getLast?_eq_getLast _ hfrenet]
  simp only
  split_ifs
  · exact ⟨_, rfl⟩
  · split
    · exact ⟨_, rfl⟩
    · split_ifs
      · exact ⟨_, rfl⟩
      · split
        · exact ⟨_, rfl⟩
        · rename_i hnone
          exact absurd hnone (ctor_STPoints_ne_none ext _ rfl)

theorem AppendBoundary_cases (ext : Externals) (b : StGraphBoundary)
    (bs : List StGraphBoundary) :
    (ext.Double_Compare b.area 0 ≤ 0 ∧ AppendBoundary ext b bs = bs)
      ∨ (0 < ext.Double_Compare b.area 0 ∧ AppendBoundary ext b bs = bs ++ [b]) := by
  unfold AppendBoundary
  split_ifs with h
  · exact Or.inl ⟨h, rfl⟩
  · exact Or.inr ⟨not_le.mp h, rfl⟩

theorem has_stop_exclusive (d : ObjectDecisionType) (h : d.has_stop = true) :
    d.has_follow = false ∧ d.has_overtake = false ∧ d.has_yield = false := by
  cases d <;> simp_all [ObjectDecisionType.has_stop, ObjectDecisionType.has_follow,
    ObjectDecisionType.has_overtake, ObjectDecisionType.has_yield]

theorem has_yield_or_overtake_exclusive (d : ObjectDecisionType)
    (h : d.has_overtake = true ∨ d.has_yield = true) :
    d.has_follow = false ∧ d.has_stop = false := by
  cases d <;> simp_all [ObjectDecisionType.has_stop, ObjectDecisionType.has_follow,
    ObjectDecisionType.has_overtake, ObjectDecisionType.has_yield]

/-- What one pass of the loop body does: the boundaries are kept or one boundary of positive
area is appended, which is not a `STOP` boundary unless the default type is; a `return` has one
of three causes; otherwise the stop selection is kept, or updated by a valid stop obstacle. -/
theorem GetGraphBoundary_body_spec (ext : Externals) (m : StBoundaryMapper) (po : PathObstacle)
    (sel : Option StopSelection) (bs : List StGraphBoundary)
    (r : Except Status (Option StopSelection)) (bs1 : List StGraphBoundary)
    (h : GetGraphBoundary_body ext m po sel bs = some (r, bs1)) :
    (bs1 = bs ∨ ∃ b, bs1 = bs ++ [b] ∧ 0 < ext.Double_Compare b.area 0
        ∧ (ext.StGraphBoundary_default.boundary_type_ ≠ BoundaryType.STOP →
            b.boundary_type_ ≠ BoundaryType.STOP))
      ∧ (∀ st, r = Except.error st →
          bs1 = bs
          ∧ ((st = ⟨ErrorCode.PLANNING_ERROR, "Fail to map follow decision"⟩
                ∧ po.HasLongitudinalDecision = true ∧ po.LongitudinalDecision.has_follow = true)
            ∨ (st = ⟨ErrorCode.PLANNING_ERROR, "invalid decision"⟩
                ∧ IsStopObstacle po ∧ stop_s po < m.adc_front_s_)
            ∨ (st = ⟨ErrorCode.PLANNING_ERROR, "Fail to map overtake/yield decision"⟩
                ∧ po.HasLongitudinalDecision = true
                ∧ (po.LongitudinalDecision.has_overtake = true
                    ∨ po.LongitudinalDecision.has_yield = true)
                ∧ NoOverlap ext m po)))
      ∧ (∀ sel1, r = Except.ok sel1 →
          (¬ IsStopObstacle po ∧ sel1 = sel)
          ∨ (IsStopObstacle po ∧ m.adc_front_s_ ≤ stop_s po ∧ bs1 = bs
              ∧ sel1 = (match sel with
                | none => some ⟨po, po.LongitudinalDecision, stop_s po⟩
                | some held =>
                  if stop_s po < held.min_stop_s then
                    some ⟨po, po.LongitudinalDecision, stop_s po⟩
                  else sel))) := by
  unfold GetGraphBoundary_body at h
  by_cases hlong : po.HasLongitudinalDecision = true
  · simp only [hlong, Bool.not_true, Bool.false_eq_true, if_false] at h
    by_cases hfollow : po.LongitudinalDecision.has_follow = true
    · simp only [hfollow, if_true] at h
      rcases hmap : MapFollowDecision ext m po po.LongitudinalDecision
        ext.StGraphBoundary_default with _ | ⟨ret, b⟩
      · rw [hmap] at h; exact absurd h (by simp)
      · rw [hmap] at h
        have hb := MapFollowDecision_boundary ext m po _ _ ret b hmap
        have hns : ¬ IsStopObstacle po := by
          intro hs; have := (has_stop_exclusive _ hs.2).1; rw [hfollow] at this; simp at this
        simp only at h
        split_ifs at h with hret
        · simp only [Option.some.injEq, Prod.mk.injEq] at h
          obtain ⟨h1, h2⟩ := h
          subst h1 h2
          refine ⟨Or.inl rfl, ?_, ?_⟩
          · intro st hst
            simp only [Except.error.injEq] at hst
            exact ⟨rfl, Or.inl ⟨hst.symm, hlong, hfollow⟩⟩
          · intro sel1 hsel; simp at hsel
        · simp only [Option.some.injEq, Prod.mk.injEq] at h
          obtain ⟨h1, h2⟩ := h
          subst h1 h2
          refine ⟨?_, fun st hst => by simp at hst, ?_⟩
          · rcases AppendBoundary_cases ext b bs with ⟨_, e⟩ | ⟨hpos, e⟩
            · exact Or.inl e
            · refine Or.inr ⟨b, e, hpos, fun hd => ?_⟩
              rcases hb with e1 | e1
              · rw [e1]; exact hd
              · rw [e1]; simp
          · intro sel1 hsel
            simp only [Except.ok.injEq] at hsel
            exact Or.inl ⟨hns, hsel.symm⟩
    · simp only [hfollow, Bool.false_eq_true, if_false] at h
      by_cases hstop : po.LongitudinalDecision.has_stop = true
      · simp only [hstop, if_true] at h
        have hs : IsStopObstacle po := ⟨hlong, hstop⟩
        split_ifs at h with hbehind
        · simp only [Option.some.injEq, Prod.mk.injEq] at h
          obtain ⟨h1, h2⟩ := h
          subst h1 h2
          refine ⟨Or.inl rfl, ?_, fun sel1 hsel => by simp at hsel⟩
          intro st hst
          simp only [Except.error.injEq] at hst
          exact ⟨rfl, Or.inr (Or.inl ⟨hst.symm, hs, hbehind⟩)⟩
        · cases sel with
          | none =>
            simp only [Option.some.injEq, Prod.mk.injEq] at h
            obtain ⟨h1, h2⟩ := h
            subst h1 h2
            refine ⟨Or.inl rfl, fun st hst => by simp at hst, ?_⟩
            intro sel1 hsel
            simp only [Except.ok.injEq] at hsel
            exact Or.inr ⟨hs, not_lt.mp hbehind, rfl, hsel.symm⟩
          | some held =>
            simp only at h
            split_ifs at h with hnear
            · simp only [Option.some.injEq, Prod.mk.injEq] at h
              obtain ⟨h1, h2⟩ := h
              subst h1 h2
              refine ⟨Or.inl rfl, fun st hst => by simp at hst, ?_⟩
              intro sel1 hsel
              simp only [Except.ok.injEq] at hsel
              exact Or.inr ⟨hs, not_lt.mp hbehind, rfl, by rw [← hsel]; simp [hnear]⟩
            · simp only [Option.some.injEq, Prod.mk.injEq] at h
              obtain ⟨h1, h2⟩ := h
              subst h1 h2
              refine ⟨Or.inl rfl, fun st hst => by simp at hst, ?_⟩
              intro sel1 hsel
              simp only [Except.ok.injEq] at hsel
              exact Or.inr ⟨hs, not_lt.mp hbehind, rfl, by rw [← hsel]; simp [hnear]⟩
      · simp only [hstop, Bool.false_eq_true, if_false] at h
        have hns : ¬ IsStopObstacle po := fun hs => hstop hs.2
        by_cases hoy : (po.LongitudinalDecision.has_overtake
            || po.LongitudinalDecision.has_yield) = true
        · simp only [hoy, if_true] at h
          obtain ⟨st0, b, hmap, herr, hok, hb⟩ := MapWithPredictionTrajectory_spec ext m po
            po.LongitudinalDecision ext.StGraphBoundary_default
          rw [hmap] at h
          simp only at h
          split_ifs at h with hret
          · simp only [Option.some.injEq, Prod.mk.injEq] at h
            obtain ⟨h1, h2⟩ := h
            subst h1 h2
            refine ⟨Or.inl rfl, ?_, fun sel1 hsel => by simp at hsel⟩
            intro st hst
            simp only [Except.error.injEq] at hst
            refine ⟨rfl, Or.inr (Or.inr ⟨hst.symm, hlong, by simpa using hoy, ?_⟩)⟩
            unfold NoOverlap
            by_contra hcon
            have := hok (by simpa using hcon)
            rw [this] at hret
            simp [Status.ok, Status.OK] at hret
          · simp only [Option.some.injEq, Prod.mk.injEq] at h
            obtain ⟨h1, h2⟩ := h
            subst h1 h2
            refine ⟨?_, fun st hst => by simp at hst, ?_⟩
            · rcases AppendBoundary_cases ext b bs with ⟨_, e⟩ | ⟨hpos, e⟩
              · exact Or.inl e
              · refine Or.inr ⟨b, e, hpos, fun hd => ?_⟩
                rcases hb with e1 | e1
                · rw [e1]; exact hd
                · exact e1
            · intro sel1 hsel
              simp only [Except.ok.injEq] at hsel
              exact Or.inl ⟨hns, hsel.symm⟩
        · simp only [hoy, Bool.false_eq_true, if_false] at h
          simp only [Option.some.injEq, Prod.mk.injEq] at h
          obtain ⟨h1, h2⟩ := h
          subst h1 h2
          refine ⟨Or.inl rfl, fun st hst => by simp at hst, ?_⟩
          intro sel1 hsel
          simp only [Except.ok.injEq] at hsel
          exact Or.inl ⟨hns, hsel.symm⟩
  · have hlong2 : po.HasLongitudinalDecision = false := by simpa using hlong
    simp only [hlong2, Bool.not_false, if_true] at h
    obtain ⟨b, hmap, hb, _⟩ := MapWithoutDecision_spec ext m po ext.StGraphBoundary_default
    rw [hmap] at h
    have hns : ¬ IsStopObstacle po := fun hs => hlong hs.1
    simp only [Status.ok, Status.OK, decide_True, Bool.not_true, Bool.false_eq_true, if_false,
      Option.some.injEq, Prod.mk.injEq] at h
    obtain ⟨h1, h2⟩ := h
    subst h1 h2
    refine ⟨?_, fun st hst => by simp at hst, ?_⟩
    · rcases AppendBoundary_cases ext b bs with ⟨_, e⟩ | ⟨hpos, e⟩
      · exact Or.inl e
      · refine Or.inr ⟨b, e, hpos, fun hd => ?_⟩
        rcases hb with e1 | e1
        · rw [e1]; exact hd
        · rw [e1]; exact hd
    · intro sel1 hsel
      simp only [Except.ok.injEq] at hsel
      exact Or.inl ⟨hns, hsel.symm⟩

theorem GetGraphBoundary_body_stop_behind (ext : Externals) (m : StBoundaryMapper)
    (po : PathObstacle) (sel : Option StopSelection) (bs : List StGraphBoundary)
    (hs : IsStopObstacle po) (hbehind : stop_s po < m.adc_front_s_) :
    GetGraphBoundary_body ext m po sel bs
      = some (Except.error ⟨ErrorCode.PLANNING_ERROR, "invalid decision"⟩, bs) := by
  unfold GetGraphBoundary_body
  simp [hs.1, hs.2, (has_stop_exclusive _ hs.2).1, hbehind]

theorem GetGraphBoundary_body_no_overlap_decided (ext : Externals) (m : StBoundaryMapper)
    (po : PathObstacle) (sel : Option StopSelection) (bs : List StGraphBoundary)
    (hlong : po.HasLongitudinalDecision = true)
    (hoy : po.LongitudinalDecision.has_overtake = true ∨ po.LongitudinalDecision.has_yield = true)
    (hno : NoOverlap ext m po) :
    GetGraphBoundary_body ext m po sel bs
      = some (Except.error ⟨ErrorCode.PLANNING_ERROR, "Fail to map overtake/yield decision"⟩,
          bs) := by
  unfold GetGraphBoundary_body
  obtain ⟨st0, b, hmap, herr, _, _⟩ := MapWithPredictionTrajectory_spec ext m po
    po.LongitudinalDecision ext.StGraphBoundary_default
  have hst := herr hno
  subst hst
  have hoy2 : (po.LongitudinalDecision.has_overtake || po.LongitudinalDecision.has_yield)
      = true := by simpa using hoy
  simp [hlong, (has_yield_or_overtake_exclusive _ hoy).1, (has_yield_or_overtake_exclusive _ hoy).2,
    hoy2, hmap, Status.ok]

theorem GetGraphBoundary_body_no_overlap_undecided (ext : Externals) (m : StBoundaryMapper)
    (po : PathObstacle) (sel : Option StopSelection) (bs : List StGraphBoundary)
    (hlong : po.HasLongitudinalDecision = false) (hno : NoOverlap ext m po)
    (hdef : ext.Double_Compare ext.StGraphBoundary_default.area 0 ≤ 0) :
    GetGraphBoundary_body ext m po sel bs = some (Except.ok sel, bs) := by
  unfold GetGraphBoundary_body
  obtain ⟨b, hmap, _, hb⟩ := MapWithoutDecision_spec ext m po ext.StGraphBoundary_default
  have hbd := hb hno
  subst hbd
  simp [hlong, hmap, Status.ok, Status.OK, AppendBoundary, hdef]

theorem GetGraphBoundary_body_some (ext : Externals) (m : StBoundaryMapper) (hwf : m.WellFormed)
    (hpath : m.path_data_.discretized_path ≠ []) (po : PathObstacle)
    (sel : Option StopSelection) (bs : List StGraphBoundary) :
    ∃ r, GetGraphBoundary_body ext m po sel bs = some r := by
  unfold GetGraphBoundary_body
  split_ifs
  · obtain ⟨b, hmap, _⟩ := MapWithoutDecision_spec ext m po ext.StGraphBoundary_default
    rw [hmap]; simp only; split_ifs <;> exact ⟨_, rfl⟩
  · obtain ⟨r, hmap⟩ := MapFollowDecision_some ext m hwf hpath po po.LongitudinalDecision
      ext.StGraphBoundary_default
    rw [hmap]; simp only; split_ifs <;> exact ⟨_, rfl⟩
  · exact ⟨_, rfl⟩
  · cases sel with
    | none => exact ⟨_, rfl⟩
    | some held => simp only; split_ifs <;> exact ⟨_, rfl⟩
  · obtain ⟨st0, b, hmap, _⟩ := MapWithPredictionTrajectory_spec ext m po
      po.LongitudinalDecision ext.StGraphBoundary_default
    rw [hmap]; simp only; split_ifs <;> exact ⟨_, rfl⟩
  · exact ⟨_, rfl⟩

theorem GetGraphBoundary_loop_some (ext : Externals) (m : StBoundaryMapper) (hwf : m.WellFormed)
    (hpath : m.path_data_.discretized_path ≠ []) (obstacles : List PathObstacle) :
    ∀ (sel : Option StopSelection) (bs : List StGraphBoundary),
      ∃ r, GetGraphBoundary_loop ext m obstacles sel bs = some r := by
  induction obstacles with
  | nil => intro sel bs; exact ⟨_, rfl⟩
  | cons po rest ih =>
    intro sel bs
    obtain ⟨⟨r, bs1⟩, hb⟩ := GetGraphBoundary_body_some ext m hwf hpath po sel bs
    simp only [GetGraphBoundary_loop, hb]
    cases r with
    | error st => exact ⟨_, rfl⟩
    | ok sel1 => exact ih sel1 bs1

/-- The boundaries after the loop are those before it followed by boundaries of positive area,
none of type `STOP` unless the default type is; a `return` from the loop has one of three
causes, each with an obstacle of the list. -/
theorem GetGraphBoundary_loop_spec (ext : Externals) (m : StBoundaryMapper)
    (obstacles : List PathObstacle) :
    ∀ (sel : Option StopSelection) (bs : List StGraphBoundary)
      (r : Except Status (Option StopSelection)) (bs1 : List StGraphBoundary),
      GetGraphBoundary_loop ext m obstacles sel bs = some (r, bs1) →
      (∃ added, bs1 = bs ++ added ∧ ∀ b ∈ added, 0 < ext.Double_Compare b.area 0
          ∧ (ext.StGraphBoundary_default.boundary_type_ ≠ BoundaryType.STOP →
              b.boundary_type_ ≠ BoundaryType.STOP))
      ∧ (∀ st, r = Except.error st →
          (st = ⟨ErrorCode.PLANNING_ERROR, "Fail to map follow decision"⟩
              ∧ ∃ po ∈ obstacles, po.HasLongitudinalDecision = true
                ∧ po.LongitudinalDecision.has_follow = true)
          ∨ (st = ⟨ErrorCode.PLANNING_ERROR, "invalid decision"⟩
              ∧ ∃ po ∈ obstacles, IsStopObstacle po ∧ stop_s po < m.adc_front_s_)
          ∨ (st = ⟨ErrorCode.PLANNING_ERROR, "Fail to map overtake/yield decision"⟩
              ∧ ∃ po ∈ obstacles, po.HasLongitudinalDecision = true
                ∧ (po.LongitudinalDecision.has_overtake = true
                    ∨ po.LongitudinalDecision.has_yield = true)
                ∧ NoOverlap ext m po)) := by
  induction obstacles with
  | nil =>
    intro sel bs r bs1 h
    simp only [GetGraphBoundary_loop, Option.some.injEq, Prod.mk.injEq] at h
    obtain ⟨h1, h2⟩ := h
    subst h1 h2
    exact ⟨⟨[], by simp, by simp⟩, fun st hst => by simp at hst⟩
  | cons po rest ih =>
    intro sel bs r bs1 h
    simp only [GetGraphBoundary_loop] at h
    rcases hb : GetGraphBoundary_body ext m po sel bs with _ | ⟨r0, bs0⟩
    · rw [hb] at h; exact absurd h (by simp)
    · rw [hb] at h
      obtain ⟨hbs, herr, _⟩ := GetGraphBoundary_body_spec ext m po sel bs r0 bs0 hb
      have hadd0 : ∃ added, bs0 = bs ++ added ∧ ∀ b ∈ added, 0 < ext.Double_Compare b.area 0
          ∧ (ext.StGraphBoundary_default.boundary_type_ ≠ BoundaryType.STOP →
              b.boundary_type_ ≠ BoundaryType.STOP) := by
        rcases hbs with e | ⟨b, e, hpos, ht⟩
        · exact ⟨[], by simp [e], by simp⟩
        · refine ⟨[b], e, ?_⟩
          intro x hx
          rw [List.mem_singleton.mp hx]
          exact ⟨hpos, ht⟩
      cases r0 with
      | error st0 =>
        simp only [Option.some.injEq, Prod.mk.injEq] at h
        obtain ⟨h1, h2⟩ := h
        subst h1 h2
        refine ⟨hadd0, ?_⟩
        intro st hst
        simp only [Except.error.injEq] at hst
        subst hst
        rcases (herr st0 rfl).2 with ⟨e, c⟩ | ⟨e, c⟩ | ⟨e, c⟩
        · exact Or.inl ⟨e, po, List.mem_cons_self _ _, c⟩
        · exact Or.inr (Or.inl ⟨e, po, List.mem_cons_self _ _, c⟩)
        · exact Or.inr (Or.inr ⟨e, po, List.mem_cons_self _ _, c⟩)
      | ok sel0 =>
        simp only at h
        obtain ⟨⟨added1, e1, hall1⟩, herr1⟩ := ih sel0 bs0 r bs1 h
        obtain ⟨added0, e0, hall0⟩ := hadd0
        refine ⟨⟨added0 ++ added1, by rw [e1, e0, List.append_assoc], ?_⟩, ?_⟩
        · intro b hb'
          rcases List.mem_append.mp hb' with hm | hm
          · exact hall0 b hm
          · exact hall1 b hm
        · intro st hst
          rcases herr1 st hst with ⟨e, q, hq, c⟩ | ⟨e, q, hq, c⟩ | ⟨e, q, hq, c⟩
          · exact Or.inl ⟨e, q, List.mem_cons_of_mem _ hq, c⟩
          · exact Or.inr (Or.inl ⟨e, q, List.mem_cons_of_mem _ hq, c⟩)
          · exact Or.inr (Or.inr ⟨e, q, List.mem_cons_of_mem _ hq, c⟩)

/-- An obstacle whose pass always returns makes the loop return, with a planning error. -/
theorem GetGraphBoundary_loop_error (ext : Externals) (m : StBoundaryMapper) (hwf : m.WellFormed)
    (hpath : m.path_data_.discretized_path ≠ []) (obstacles : List PathObstacle)
    (hbad : ∃ po ∈ obstacles, ∀ sel bs, ∃ st,
      GetGraphBoundary_body ext m po sel bs = some (Except.error st, bs)) :
    ∀ (sel : Option StopSelection) (bs : List StGraphBoundary),
      ∃ msg bs1, GetGraphBoundary_loop ext m obstacles sel bs
        = some (Except.error ⟨ErrorCode.PLANNING_ERROR, msg⟩, bs1) := by
  intro sel bs
  obtain ⟨⟨r, bs1⟩, hr⟩ := GetGraphBoundary_loop_some ext m hwf hpath obstacles sel bs
  cases r with
  | error st =>
    rcases (GetGraphBoundary_loop_spec ext m obstacles sel bs _ bs1 hr).2 st rfl with
      ⟨e, _⟩ | ⟨e, _⟩ | ⟨e, _⟩
    all_goals exact ⟨_, bs1, by rw [hr, e]⟩
  | ok sel1 =>
    exfalso
    clear hwf hpath
    induction obstacles generalizing sel bs with
    | nil => obtain ⟨po, hpo, _⟩ := hbad; simp at hpo
    | cons q rest ih =>
      simp only [GetGraphBoundary_loop] at hr
      rcases hb : GetGraphBoundary_body ext m q sel bs with _ | ⟨r0, bs0⟩
      · rw [hb] at hr; simp at hr
      · rw [hb] at hr
        cases r0 with
        | error st0 => simp at hr
        | ok sel0 =>
          simp only at hr
          obtain ⟨po, hpo, hall⟩ := hbad
          rcases List.mem_cons.mp hpo with e | hmem
          · subst e
            obtain ⟨st, hst⟩ := hall sel bs
            rw [hst] at hb
            simp at hb
          · exact ih ⟨po, hmem, hall⟩ sel0 bs0 hr

/-- An obstacle whose pass changes nothing can be removed from the list. -/
theorem GetGraphBoundary_loop_skip (ext : Externals) (m : StBoundaryMapper) (po : PathObstacle)
    (hskip : ∀ sel bs, GetGraphBoundary_body ext m po sel bs = some (Except.ok sel, bs))
    (pre post : List PathObstacle) :
    ∀ (sel : Option StopSelection) (bs : List StGraphBoundary),
      GetGraphBoundary_loop ext m (pre ++ po :: post) sel bs
        = GetGraphBoundary_loop ext m (pre ++ post) sel bs := by
  induction pre with
  | nil =>
    intro sel bs
    simp only [List.nil_append, GetGraphBoundary_loop, hskip]
  | cons q rest ih =>
    intro sel bs
    simp only [List.cons_append, GetGraphBoundary_loop]
    rcases GetGraphBoundary_body ext m q sel bs with _ | ⟨r0, bs0⟩
    · rfl
    · cases r0 with
      | error st0 => rfl
      | ok sel0 => exact ih sel0 bs0

/-- One pass of the body keeps the held stop selection the nearest stop of the obstacles
seen. -/
theorem GetGraphBoundary_body_selection (ext : Externals) (m : StBoundaryMapper)
    (po : PathObstacle) (seen : List PathObstacle) (sel sel1 : Option StopSelection)
    (bs bs1 : List StGraphBoundary) (hinv : HoldsNearestStop seen sel)
    (h : GetGraphBoundary_body ext m po sel bs = some (Except.ok sel1, bs1)) :
    HoldsNearestStop (seen ++ [po]) sel1 := by
  rcases (GetGraphBoundary_body_spec ext m po sel bs _ bs1 h).2.2 sel1 rfl with
    ⟨hns, e⟩ | ⟨hs, _, _, e⟩
  · subst e
    cases sel1 with
    | none =>
      intro q hq
      rcases List.mem_append.mp hq with hq | hq
      · exact hinv q hq
      · rw [List.mem_singleton.mp hq]; exact hns
    | some held =>
      obtain ⟨h1, h2, hstop, pre, post, e, hpre, hpost⟩ := hinv
      refine ⟨h1, h2, hstop, pre, post ++ [po], by rw [e]; simp, hpre, ?_⟩
      intro q hq hqs
      rcases List.mem_append.mp hq with hq | hq
      · exact hpost q hq hqs
      · rw [List.mem_singleton.mp hq] at hqs; exact absurd hqs hns
  · cases sel with
    | none =>
      simp only at e
      subst e
      refine ⟨rfl, rfl, hs, seen, [], rfl, ?_, by simp⟩
      intro q hq hqs
      exact absurd hqs (hinv q hq)
    | some held =>
      obtain ⟨h1, h2, hstop, pre, post, e0, hpre, hpost⟩ := hinv
      have hall : ∀ q ∈ seen, IsStopObstacle q → stop_s held.stop_obstacle ≤ stop_s q := by
        intro q hq hqs
        rw [e0] at hq
        rcases List.mem_append.mp hq with hq | hq
        · exact le_of_lt (hpre q hq hqs)
        · rcases List.mem_cons.mp hq with hq | hq
          · rw [hq]
          · exact hpost q hq hqs
      simp only at e
      by_cases hnear : stop_s po < held.min_stop_s
      · rw [if_pos hnear] at e
        subst e
        refine ⟨rfl, rfl, hs, seen, [], rfl, ?_, by simp⟩
        intro q hq hqs
        exact lt_of_lt_of_le (h2 ▸ hnear) (hall q hq hqs)
      · rw [if_neg hnear] at e
        subst e
        refine ⟨h1, h2, hstop, pre, post ++ [po], by rw [e0]; simp, hpre, ?_⟩
        intro q hq hqs
        rcases List.mem_append.mp hq with hq | hq
        · exact hpost q hq hqs
        · rw [List.mem_singleton.mp hq]
          exact h2 ▸ not_lt.mp hnear

/-- At the normal end of the loop the held stop selection is the nearest stop of all the
obstacles. -/
theorem GetGraphBoundary_loop_selection (ext : Externals) (m : StBoundaryMapper)
    (obstacles : List PathObstacle) :
    ∀ (seen : List PathObstacle) (sel sel1 : Option StopSelection)
      (bs bs1 : List StGraphBoundary), HoldsNearestStop seen sel →
      GetGraphBoundary_loop ext m obstacles sel bs = some (Except.ok sel1, bs1) →
      HoldsNearestStop (seen ++ obstacles) sel1 := by
  induction obstacles with
  | nil =>
    intro seen sel sel1 bs bs1 hinv h
    simp only [GetGraphBoundary_loop, Option.some.injEq, Prod.mk.injEq, Except.ok.injEq] at h
    rw [← h.1, List.append_nil]
    exact hinv
  | cons po rest ih =>
    intro seen sel sel1 bs bs1 hinv h
    simp only [GetGraphBoundary_loop] at h
    rcases hb : GetGraphBoundary_body ext m po sel bs with _ | ⟨r0, bs0⟩
    · rw [hb] at h; exact absurd h (by simp)
    · rw [hb] at h
      cases r0 with
      | error st0 => simp at h
      | ok sel0 =>
        simp only at h
        have := ih (seen ++ [po]) sel0 sel1 bs0 bs1
          (GetGraphBoundary_body_selection ext m po seen sel sel0 bs bs0 hinv hb) h
        simpa using this

/-- Past the parameter checks, the result of `GetGraphBoundary` is the result of the loop,
followed by the mapping of the held stop selection. -/
theorem GetGraphBoundary_unfold (ext : Externals) (m : StBoundaryMapper)
    (path_decision : PathDecision) (held : List StGraphBoundary)
    (htime : 0 ≤ m.planning_time_) (hpoints : 2 ≤ m.path_data_.discretized_path.length)
    (st : Status) (out : Option (List StGraphBoundary))
    (h : GetGraphBoundary ext m path_decision (some held) = some (st, out)) :
    ∃ r bs0, GetGraphBoundary_loop ext m path_decision.path_obstacles none [] = some (r, bs0)
      ∧ ((r = Except.error st ∧ out = some bs0)
        ∨ (r = Except.ok none ∧ st = Status.OK ∧ out = some bs0)
        ∨ (∃ sel ok b, r = Except.ok (some sel)
            ∧ MapStopDecision ext m sel.stop_obstacle sel.stop_decision
                ext.StGraphBoundary_default = some (ok, b)
            ∧ ((ok = false ∧ st = ⟨ErrorCode.PLANNING_ERROR, "Fail to MapStopDecision."⟩
                  ∧ out = some bs0)
              ∨ (ok = true ∧ st = Status.OK ∧ out = some (AppendBoundary ext b bs0))))) := by
  unfold GetGraphBoundary at h
  simp only [not_lt.mpr htime, not_lt.mpr hpoints, if_false] at h
  rcases hl : GetGraphBoundary_loop ext m path_decision.path_obstacles none [] with _ | ⟨r, bs0⟩
  · rw [hl] at h; exact absurd h (by simp)
  · rw [hl] at h
    refine ⟨r, bs0, rfl, ?_⟩
    cases r with
    | error e =>
      simp only [Option.some.injEq, Prod.mk.injEq] at h
      exact Or.inl ⟨by rw [h.1], h.2.symm⟩
    | ok sel0 =>
      cases sel0 with
      | none =>
        simp only [Option.some.injEq, Prod.mk.injEq] at h
        exact Or.inr (Or.inl ⟨rfl, h.1.symm, h.2.symm⟩)
      | some sel =>
        simp only at h
        rcases hm : MapStopDecision ext m sel.stop_obstacle sel.stop_decision
          ext.StGraphBoundary_default with _ | ⟨ok, b⟩
        · rw [hm] at h; exact absurd h (by simp)
        · rw [hm] at h
          refine Or.inr (Or.inr ⟨sel, ok, b, rfl, hm, ?_⟩)
          cases ok with
          | false =>
            simp only [Option.some.injEq, Prod.mk.injEq] at h
            exact Or.inl ⟨rfl, h.1.symm, h.2.symm⟩
          | true =>
            simp only [Option.some.injEq, Prod.mk.injEq] at h
            exact Or.inr ⟨rfl, h.1.symm, h.2.symm⟩

/-- With well-formed inputs `GetGraphBoundary` returns. -/
theorem GetGraphBoundary_some (ext : Externals) (m : StBoundaryMapper) (hwf : m.WellFormed)
    (path_decision : PathDecision) (st_graph_boundaries : Option (List StGraphBoundary)) :
    ∃ st out, GetGraphBoundary ext m path_decision st_graph_boundaries = some (st, out)
      ∧ (st_graph_boundaries ≠ none → out ≠ none) := by
  unfold GetGraphBoundary
  cases st_graph_boundaries with
  | none => exact ⟨_, _, rfl, fun h => absurd rfl h⟩
  | some held =>
    simp only
    split_ifs with h1 h2
    · exact ⟨_, _, rfl, fun _ => by simp⟩
    · exact ⟨_, _, rfl, fun _ => by simp⟩
    · have hpath : m.path_data_.discretized_path ≠ [] := by
        intro e; rw [e] at h2; simp at h2
      obtain ⟨⟨r, bs0⟩, hl⟩ := GetGraphBoundary_loop_some ext m hwf hpath
        path_decision.path_obstacles none []
      rw [hl]
      cases r with
      | error e => exact ⟨_, _, rfl, fun _ => by simp⟩
      | ok sel0 =>
        cases sel0 with
        | none => exact ⟨_, _, rfl, fun _ => by simp⟩
        | some sel =>
          simp only
          obtain ⟨⟨ok, b⟩, hm⟩ := MapStopDecision_some ext m hwf.2.2 sel.stop_obstacle
            sel.stop_decision ext.StGraphBoundary_default
          rw [hm]
          cases ok with
          | false => exact ⟨_, _, rfl, fun _ => by simp⟩
          | true => exact ⟨_, _, rfl, fun _ => by simp⟩

/-- C2: whenever an obstacle of the path decision carries a merged stop decision whose
`stop_s = perception_sl_boundary.start_s + stop.distance_s` is strictly behind the front edge
(`stop_s < adc_front_s_`), `GetGraphBoundary` returns a status with code `PLANNING_ERROR`
(for inputs on which the mapping reads no missing element); and the error of the stop
validation, `"invalid decision"`, is never returned when every stop decision has
`stop_s >= adc_front_s_`. -/
theorem C2_stop_behind_front_edge_is_planning_error (ext : Externals) (m : StBoundaryMapper)
    (path_decision : PathDecision) (st_graph_boundaries : Option (List StGraphBoundary)) :
    (m.WellFormed →
        (∃ po ∈ path_decision.path_obstacles, IsStopObstacle po ∧ stop_s po < m.adc_front_s_) →
        ∃ msg out, GetGraphBoundary ext m path_decision st_graph_boundaries
          = some (⟨ErrorCode.PLANNING_ERROR, msg⟩, out))
      ∧ ((∀ po ∈ path_decision.path_obstacles, IsStopObstacle po → m.adc_front_s_ ≤ stop_s po) →
          ∀ out, GetGraphBoundary ext m path_decision st_graph_boundaries
            ≠ some (⟨ErrorCode.PLANNING_ERROR, "invalid decision"⟩, out)) := by
  constructor
  · intro hwf ⟨po, hpo, hs, hbehind⟩
    unfold GetGraphBoundary
    cases st_graph_boundaries with
    | none => exact ⟨_, _, rfl⟩
    | some held =>
      simp only
      split_ifs with h1 h2
      · exact ⟨_, _, rfl⟩
      · exact ⟨_, _, rfl⟩
      · have hpath : m.path_data_.discretized_path ≠ [] := by
          intro e; rw [e] at h2; simp at h2
        obtain ⟨msg, bs1, hl⟩ := GetGraphBoundary_loop_error ext m hwf hpath
          path_decision.path_obstacles
          ⟨po, hpo, fun sel bs => ⟨_, GetGraphBoundary_body_stop_behind ext m po sel bs hs hbehind⟩⟩
          none []
        rw [hl]
        exact ⟨_, _, rfl⟩
  · intro hall out h
    cases st_graph_boundaries with
    | none => simp [GetGraphBoundary] at h
    | some held =>
      by_cases h1 : m.planning_time_ < 0
      · simp [GetGraphBoundary, h1] at h
      · by_cases h2 : m.path_data_.discretized_path.length < 2
        · simp [GetGraphBoundary, h1, h2] at h
        · obtain ⟨r, bs0, hl, hcases⟩ := GetGraphBoundary_unfold ext m path_decision held
            (not_lt.mp h1) (not_lt.mp h2) _ out h
          rcases hcases with ⟨e, _⟩ | ⟨_, e, _⟩ | ⟨sel, ok, b, _, _, ⟨_, e, _⟩ | ⟨_, e, _⟩⟩
          · rcases (GetGraphBoundary_loop_spec ext m _ none [] r bs0 hl).2 _ e with
              ⟨e1, _⟩ | ⟨_, po, hpo, hs, hbehind⟩ | ⟨e1, _⟩
            · simp at e1
            · exact absurd hbehind (not_lt.mpr (hall po hpo hs))
            · simp at e1
          · simp [Status.OK] at e
          · simp at e
          · simp [Status.OK] at e

/-- C2 at the sample mapper, whose front edge `adc_front_s_ = 1` is the one its constructor
computes: with a stop at `stop_s = 7` followed by a stop at `stop_s = -1/2` the call returns a
planning error; with stops at `stop_s = 7` and `stop_s = 5` only, it does not return the error
of the stop validation. -/
theorem C2_stop_behind_front_edge_is_planning_error_witness :
    (StBoundaryMapper.ctor true Sample.vehicle_param Sample.config Sample.reference_line
        Sample.path_data 10 8).map (fun m => m.adc_front_s_) = some Sample.mapper.adc_front_s_
    ∧ (∃ msg out, GetGraphBoundary Sample.ext Sample.mapper
        ⟨[Sample.stop_far, Sample.stop_behind]⟩ (some [])
      = some (⟨ErrorCode.PLANNING_ERROR, msg⟩, out))
    ∧ ∀ out, GetGraphBoundary Sample.ext Sample.mapper
        ⟨[Sample.stop_far, Sample.stop_near]⟩ (some [])
      ≠ some (⟨ErrorCode.PLANNING_ERROR, "invalid decision"⟩, out) :=
  ⟨by decide!,
    (C2_stop_behind_front_edge_is_planning_error Sample.ext Sample.mapper
      ⟨[Sample.stop_far, Sample.stop_behind]⟩ (some [])).1
      ⟨by decide, by decide, by decide⟩
      ⟨Sample.stop_behind, by simp, ⟨by decide!, by decide!⟩, by decide!⟩,
    (C2_stop_behind_front_edge_is_planning_error Sample.ext Sample.mapper
      ⟨[Sample.stop_far, Sample.stop_near]⟩ (some [])).2
      (by
        intro po hpo _
        simp only [List.mem_cons, List.mem_singleton, List.not_mem_nil, or_false] at hpo
        rcases hpo with e | e <;> rw [e] <;> decide!)⟩

/-- C3: past the parameter checks, the list that `GetGraphBoundary` leaves contains at most one
boundary of type `STOP` (the default boundary type not being `STOP`), and such a boundary
carries the id of the nearest stop: the obstacle that, among those with a stop decision, has
the smallest `stop_s`, the first of them in iteration order when several attain it. With
well-formed inputs the call returns such a list. -/
theorem C3_single_stop_boundary_of_nearest_stop (ext : Externals) (m : StBoundaryMapper)
    (path_decision : PathDecision) (held : List StGraphBoundary)
    (hdefault : ext.StGraphBoundary_default.boundary_type_ ≠ BoundaryType.STOP)
    (htime : 0 ≤ m.planning_time_) (hpoints : 2 ≤ m.path_data_.discretized_path.length) :
    (∀ st out, GetGraphBoundary ext m path_decision (some held) = some (st, out) →
        ∃ bs, out = some bs
          ∧ (bs.filter (fun b => decide (b.boundary_type = BoundaryType.STOP))).length ≤ 1
          ∧ ∀ b ∈ bs, b.boundary_type = BoundaryType.STOP →
              ∃ po, IsNearestStop path_decision.path_obstacles po ∧ b.id = po.Id)
      ∧ (m.WellFormed →
          ∃ st bs, GetGraphBoundary ext m path_decision (some held) = some (st, some bs)) := by
  constructor
  · intro st out h
    obtain ⟨r, bs0, hl, hcases⟩ := GetGraphBoundary_unfold ext m path_decision held htime
      hpoints st out h
    obtain ⟨⟨added, eadd, hadd⟩, _⟩ := GetGraphBoundary_loop_spec ext m _ none [] r bs0 hl
    simp only [List.nil_append] at eadd
    subst eadd
    have hnostop : ∀ b ∈ bs0, ¬ b.boundary_type = BoundaryType.STOP :=
      fun b hb => (hadd b hb).2 hdefault
    have hfilter : bs0.filter (fun b => decide (b.boundary_type = BoundaryType.STOP)) = [] := by
      rw [List.filter_eq_nil_iff]
      intro b hb
      simpa using hnostop b hb
    have hkeep : ∃ bs, some bs0 = some bs
        ∧ (bs.filter (fun b => decide (b.boundary_type = BoundaryType.STOP))).length ≤ 1
        ∧ ∀ b ∈ bs, b.boundary_type = BoundaryType.STOP →
            ∃ po, IsNearestStop path_decision.path_obstacles po ∧ b.id = po.Id :=
      ⟨bs0, rfl, by rw [hfilter]; simp, fun b hb ht => absurd ht (hnostop b hb)⟩
    rcases hcases with ⟨_, e⟩ | ⟨_, _, e⟩ | ⟨sel, ok, b, er, hm, ⟨_, _, e⟩ | ⟨_, _, e⟩⟩
    · rw [e]; exact hkeep
    · rw [e]; exact hkeep
    · rw [e]; exact hkeep
    · rw [e]
      rcases AppendBoundary_cases ext b bs0 with ⟨_, ea⟩ | ⟨_, ea⟩
      · rw [ea]; exact hkeep
      · rw [ea]
        refine ⟨_, rfl, ?_, ?_⟩
        · rw [List.filter_append, hfilter, List.nil_append]
          exact le_trans (List.length_filter_le _ _) (by simp)
        · intro x hx ht
          rcases List.mem_append.mp hx with hx | hx
          · exact absurd ht (hnostop x hx)
          · rw [List.mem_singleton.mp hx] at ht ⊢
            subst er
            have hsel := GetGraphBoundary_loop_selection ext m path_decision.path_obstacles []
              none (some sel) [] bs0 (by intro q hq; simp at hq) hl
            simp only [List.nil_append] at hsel
            refine ⟨sel.stop_obstacle, hsel.2.2, ?_⟩
            rcases MapStopDecision_boundary ext m _ _ _ ok b hm with eb | ⟨_, eid⟩
            · rw [eb] at ht; exact absurd ht hdefault
            · exact eid
  · intro hwf
    obtain ⟨st, out, h, hout⟩ := GetGraphBoundary_some ext m hwf path_decision (some held)
    cases out with
    | none => exact absurd rfl (hout (by simp))
    | some bs => exact ⟨st, bs, h⟩

/-- C3 at the sample mapper with the stops at `stop_s = 7` (obstacle `o1`) and `stop_s = 5`
(obstacle `o2`) and an undecided obstacle ahead: the call returns `OK` with two boundaries, of
which exactly one is a `STOP` boundary, and it carries the id `o2`. -/
theorem C3_single_stop_boundary_of_nearest_stop_witness :
    (GetGraphBoundary Sample.ext Sample.mapper
          ⟨[Sample.stop_far, Sample.undecided_ahead, Sample.stop_near]⟩ (some [])).map
        (fun r => (r.1, r.2.map (List.map (fun b => (b.boundary_type, b.id)))))
      = some (Status.OK, some [(BoundaryType.UNKNOWN, "o6"), (BoundaryType.STOP, "o2")])
    ∧ ∀ st out, GetGraphBoundary Sample.ext Sample.mapper
          ⟨[Sample.stop_far, Sample.undecided_ahead, Sample.stop_near]⟩ (some [])
        = some (st, out) →
        ∃ bs, out = some bs
          ∧ (bs.filter (fun b => decide (b.boundary_type = BoundaryType.STOP))).length ≤ 1
          ∧ ∀ b ∈ bs, b.boundary_type = BoundaryType.STOP →
              ∃ po, IsNearestStop [Sample.stop_far, Sample.undecided_ahead, Sample.stop_near] po
                ∧ b.id = po.Id :=
  ⟨by decide!,
    (C3_single_stop_boundary_of_nearest_stop Sample.ext Sample.mapper
      ⟨[Sample.stop_far, Sample.undecided_ahead, Sample.stop_near]⟩ []
      (by decide) (by decide!) (by decide)).1⟩

/-- C4, counterexample: at the sample mapper an obstacle far from the path that carries a
yield decision has no overlap point, and `GetGraphBoundary` returns `PLANNING_ERROR`, not
`OK`. -/
theorem C4_no_overlap_under_yield_aborts :
    Sample.yield_apart.LongitudinalDecision = Sample.yield_decision 2
      ∧ GetOverlapBoundaryPoints Sample.ext Sample.mapper
          Sample.mapper.path_data_.discretized_path Sample.yield_apart.Obstacle
        = (false, ⟨[], []⟩)
      ∧ GetGraphBoundary Sample.ext Sample.mapper ⟨[Sample.yield_apart]⟩ (some [])
        = some (⟨ErrorCode.PLANNING_ERROR, "Fail to map overtake/yield decision"⟩, some []) := by
  decide!

/-- C4, amended: (1) an obstacle without longitudinal decision that no path point overlaps
contributes nothing: `GetGraphBoundary` returns the same status and the same boundaries as
without that obstacle (the default boundary having no positive area); (2) when an obstacle
with a yield or overtake decision has no overlap, `GetGraphBoundary` returns a planning error;
(3) a status other than `OK` is one of seven planning errors: null output, negative planning
time, fewer than two path points, a follow obstacle whose mapping failed, a stop decision
behind the front edge, a yield or overtake obstacle without overlap, or a stop obstacle whose
stop mapping failed. -/
theorem C4_no_overlap_is_local_only_without_decision (ext : Externals) (m : StBoundaryMapper) :
    (∀ (po : PathObstacle) (pre post : List PathObstacle)
        (st_graph_boundaries : Option (List StGraphBoundary)),
        po.HasLongitudinalDecision = false → NoOverlap ext m po →
        ext.Double_Compare ext.StGraphBoundary_default.area 0 ≤ 0 →
        GetGraphBoundary ext m ⟨pre ++ po :: post⟩ st_graph_boundaries
          = GetGraphBoundary ext m ⟨pre ++ post⟩ st_graph_boundaries)
      ∧ (∀ (path_decision : PathDecision) (st_graph_boundaries : Option (List StGraphBoundary)),
          m.WellFormed →
          (∃ po ∈ path_decision.path_obstacles, po.HasLongitudinalDecision = true
            ∧ (po.LongitudinalDecision.has_overtake = true
                ∨ po.LongitudinalDecision.has_yield = true)
            ∧ NoOverlap ext m po) →
          ∃ msg out, GetGraphBoundary ext m path_decision st_graph_boundaries
            = some (⟨ErrorCode.PLANNING_ERROR, msg⟩, out))
      ∧ (∀ (path_decision : PathDecision) (st_graph_boundaries : Option (List StGraphBoundary))
          (st : Status) (out : Option (List StGraphBoundary)),
          GetGraphBoundary ext m path_decision st_graph_boundaries = some (st, out) →
          st = Status.OK
          ∨ (st = ⟨ErrorCode.PLANNING_ERROR, "st_graph_boundaries is NULL."⟩
              ∧ st_graph_boundaries = none)
          ∨ (st = ⟨ErrorCode.PLANNING_ERROR, "Fail to get params since planning_time_ < 0."⟩
              ∧ m.planning_time_ < 0)
          ∨ (st = ⟨ErrorCode.PLANNING_ERROR, "Fail to get params because of too few path points"⟩
              ∧ m.path_data_.discretized_path.length < 2)
          ∨ (st = ⟨ErrorCode.PLANNING_ERROR, "Fail to map follow decision"⟩
              ∧ ∃ po ∈ path_decision.path_obstacles, po.HasLongitudinalDecision = true
                ∧ po.LongitudinalDecision.has_follow = true)
          ∨ (st = ⟨ErrorCode.PLANNING_ERROR, "invalid decision"⟩
              ∧ ∃ po ∈ path_decision.path_obstacles, IsStopObstacle po
                ∧ stop_s po < m.adc_front_s_)
          ∨ (st = ⟨ErrorCode.PLANNING_ERROR, "Fail to map overtake/yield decision"⟩
              ∧ ∃ po ∈ path_decision.path_obstacles, po.HasLongitudinalDecision = true
                ∧ (po.LongitudinalDecision.has_overtake = true
                    ∨ po.LongitudinalDecision.has_yield = true)
                ∧ NoOverlap ext m po)
          ∨ (st = ⟨ErrorCode.PLANNING_ERROR, "Fail to MapStopDecision."⟩
              ∧ ∃ po ∈ path_decision.path_obstacles, IsStopObstacle po)) := by
  refine ⟨?_, ?_, ?_⟩
  · intro po pre post sgb hlong hno hdef
    unfold GetGraphBoundary
    simp only
    rw [GetGraphBoundary_loop_skip ext m po
      (fun sel bs => GetGraphBoundary_body_no_overlap_undecided ext m po sel bs hlong hno hdef)]
  · intro path_decision sgb hwf ⟨po, hpo, hlong, hoy, hno⟩
    unfold GetGraphBoundary
    cases sgb with
    | none => exact ⟨_, _, rfl⟩
    | some held =>
      simp only
      split_ifs with h1 h2
      · exact ⟨_, _, rfl⟩
      · exact ⟨_, _, rfl⟩
      · have hpath : m.path_data_.discretized_path ≠ [] := by
          intro e; rw [e] at h2; simp at h2
        obtain ⟨msg, bs1, hl⟩ := GetGraphBoundary_loop_error ext m hwf hpath
          path_decision.path_obstacles
          ⟨po, hpo, fun sel bs =>
            ⟨_, GetGraphBoundary_body_no_overlap_decided ext m po sel bs hlong hoy hno⟩⟩
          none []
        rw [hl]
        exact ⟨_, _, rfl⟩
  · intro path_decision sgb st out h
    cases sgb with
    | none =>
      simp only [GetGraphBoundary, Option.some.injEq, Prod.mk.injEq] at h
      exact Or.inr (Or.inl ⟨h.1.symm, rfl⟩)
    | some held =>
      by_cases h1 : m.planning_time_ < 0
      · simp only [GetGraphBoundary, h1, if_true, Option.some.injEq, Prod.mk.injEq] at h
        exact Or.inr (Or.inr (Or.inl ⟨h.1.symm, h1⟩))
      · by_cases h2 : m.path_data_.discretized_path.length < 2
        · simp only [GetGraphBoundary, h1, h2, if_true, if_false, Option.some.injEq,
            Prod.mk.injEq] at h
          exact Or.inr (Or.inr (Or.inr (Or.inl ⟨h.1.symm, h2⟩)))
        · obtain ⟨r, bs0, hl, hcases⟩ := GetGraphBoundary_unfold ext m path_decision held
            (not_lt.mp h1) (not_lt.mp h2) st out h
          rcases hcases with ⟨e, _⟩ | ⟨_, e, _⟩ | ⟨sel, ok, b, er, _, ⟨_, e, _⟩ | ⟨_, e, _⟩⟩
          · rcases (GetGraphBoundary_loop_spec ext m _ none [] r bs0 hl).2 _ e with c | c | c
            · exact Or.inr (Or.inr (Or.inr (Or.inr (Or.inl c))))
            · exact Or.inr (Or.inr (Or.inr (Or.inr (Or.inr (Or.inl c)))))
            · exact Or.inr (Or.inr (Or.inr (Or.inr (Or.inr (Or.inr (Or.inl c))))))
          · exact Or.inl e
          · subst er
            have hsel := GetGraphBoundary_loop_selection ext m path_decision.path_obstacles []
              none (some sel) [] bs0 (by intro q hq; simp at hq) hl
            simp only [List.nil_append] at hsel
            obtain ⟨hs, pre, post, epre, _⟩ := hsel.2.2
            refine Or.inr (Or.inr (Or.inr (Or.inr (Or.inr (Or.inr (Or.inr
              ⟨e, sel.stop_obstacle, ?_, hs⟩))))))
            rw [epre]; simp
          · exact Or.inl e

/-- C4, amended, at the sample mapper: the undecided obstacle far from the path can be removed
from between two others without changing the result, and the yield obstacle far from the path
makes the call return a planning error. -/
theorem C4_no_overlap_is_local_only_without_decision_witness :
    GetGraphBoundary Sample.ext Sample.mapper
        ⟨[Sample.undecided_ahead] ++ Sample.undecided_apart :: [Sample.stop_near]⟩ (some [])
      = GetGraphBoundary Sample.ext Sample.mapper
        ⟨[Sample.undecided_ahead] ++ [Sample.stop_near]⟩ (some [])
    ∧ ∃ msg out, GetGraphBoundary Sample.ext Sample.mapper
        ⟨[Sample.undecided_ahead, Sample.yield_apart]⟩ (some [])
      = some (⟨ErrorCode.PLANNING_ERROR, msg⟩, out) :=
  ⟨(C4_no_overlap_is_local_only_without_decision Sample.ext Sample.mapper).1
      Sample.undecided_apart [Sample.undecided_ahead] [Sample.stop_near] (some [])
      (by decide) (by unfold NoOverlap; decide!) (by decide!),
    (C4_no_overlap_is_local_only_without_decision Sample.ext Sample.mapper).2.1
      ⟨[Sample.undecided_ahead, Sample.yield_apart]⟩ (some [])
      ⟨by decide, by decide, by decide⟩
      ⟨Sample.yield_apart, by simp, by decide!, by decide!, by unfold NoOverlap; decide!⟩⟩

/-- C6: `AppendBoundary` leaves the list unchanged when the area of the boundary compares
`<= 0` with `Double::Compare`, and otherwise appends exactly that boundary at the end; past
the parameter checks, every boundary of the list that `GetGraphBoundary` leaves has an area
that compares `> 0`, hence a strictly positive area when `Double::Compare` reports `> 0` only
for a greater first argument. With well-formed inputs the call returns such a list. -/
theorem C6_listed_boundaries_have_positive_area (ext : Externals) (m : StBoundaryMapper) :
    (∀ (boundary : StGraphBoundary) (bs : List StGraphBoundary),
        (ext.Double_Compare boundary.area 0 ≤ 0 → AppendBoundary ext boundary bs = bs)
        ∧ (¬ ext.Double_Compare boundary.area 0 ≤ 0 →
            AppendBoundary ext boundary bs = bs ++ [boundary]))
      ∧ (∀ (path_decision : PathDecision) (held : List StGraphBoundary) (st : Status)
          (out : Option (List StGraphBoundary)),
          0 ≤ m.planning_time_ → 2 ≤ m.path_data_.discretized_path.length →
          GetGraphBoundary ext m path_decision (some held) = some (st, out) →
          ∃ bs, out = some bs ∧ ∀ b ∈ bs, 0 < ext.Double_Compare b.area 0
            ∧ ((∀ a : ℚ, 0 < ext.Double_Compare a 0 → 0 < a) → 0 < b.area))
      ∧ (∀ (path_decision : PathDecision) (held : List StGraphBoundary), m.WellFormed →
          ∃ st bs, GetGraphBoundary ext m path_decision (some held) = some (st, some bs)) := by
  refine ⟨?_, ?_, ?_⟩
  · intro boundary bs
    unfold AppendBoundary
    exact ⟨fun h => by rw [if_pos h], fun h => by rw [if_neg h]⟩
  · intro path_decision held st out htime hpoints h
    obtain ⟨r, bs0, hl, hcases⟩ := GetGraphBoundary_unfold ext m path_decision held htime
      hpoints st out h
    obtain ⟨⟨added, eadd, hadd⟩, _⟩ := GetGraphBoundary_loop_spec ext m _ none [] r bs0 hl
    simp only [List.nil_append] at eadd
    subst eadd
    have hkeep : ∀ b ∈ bs0, 0 < ext.Double_Compare b.area 0
        ∧ ((∀ a : ℚ, 0 < ext.Double_Compare a 0 → 0 < a) → 0 < b.area) :=
      fun b hb => ⟨(hadd b hb).1, fun hc => hc _ (hadd b hb).1⟩
    rcases hcases with ⟨_, e⟩ | ⟨_, _, e⟩ | ⟨sel, ok, b, er, hm, ⟨_, _, e⟩ | ⟨_, _, e⟩⟩
    · exact ⟨bs0, e, hkeep⟩
    · exact ⟨bs0, e, hkeep⟩
    · exact ⟨bs0, e, hkeep⟩
    · refine ⟨_, e, ?_⟩
      rcases AppendBoundary_cases ext b bs0 with ⟨_, ea⟩ | ⟨hpos, ea⟩
      · rw [ea]; exact hkeep
      · rw [ea]
        intro x hx
        rcases List.mem_append.mp hx with hx | hx
        · exact hkeep x hx
        · rw [List.mem_singleton.mp hx]
          exact ⟨hpos, fun hc => hc _ hpos⟩
  · intro path_decision held hwf
    obtain ⟨st, out, h, hout⟩ := GetGraphBoundary_some ext m hwf path_decision (some held)
    cases out with
    | none => exact absurd rfl (hout (by simp))
    | some bs => exact ⟨st, bs, h⟩

/-- C6 at the sample mapper, with an undecided obstacle ahead and a stop: the call returns
`OK` with two boundaries, of areas `861/25` and `662/5`. -/
theorem C6_listed_boundaries_have_positive_area_witness :
    (GetGraphBoundary Sample.ext Sample.mapper
          ⟨[Sample.undecided_ahead, Sample.stop_near]⟩ (some [])).map
        (fun r => (r.1, r.2.map (List.map (fun b => b.area))))
      = some (Status.OK, some [861 / 25, 662 / 5])
    ∧ ∃ st bs, GetGraphBoundary Sample.ext Sample.mapper
          ⟨[Sample.undecided_ahead, Sample.stop_near]⟩ (some []) = some (st, some bs)
        ∧ ∀ b ∈ bs, 0 < b.area := by
  refine ⟨by decide!, ?_⟩
  obtain ⟨st, bs, h⟩ := (C6_listed_boundaries_have_positive_area Sample.ext Sample.mapper).2.2
    ⟨[Sample.undecided_ahead, Sample.stop_near]⟩ [] ⟨by decide, by decide, by decide⟩
  obtain ⟨bs1, e, hall⟩ := (C6_listed_boundaries_have_positive_area Sample.ext Sample.mapper).2.1
    ⟨[Sample.undecided_ahead, Sample.stop_near]⟩ [] st (some bs) (by decide!) (by decide) h
  simp only [Option.some.injEq] at e
  subst e
  refine ⟨st, bs, h, fun b hb => (hall b hb).2 ?_⟩
  intro a ha
  simp only [Sample.ext] at ha
  split_ifs at ha with h1 h2
  · simp at ha
  · exact h2
  · simp at ha

end StBoundaryMapper

/-! ## Theorems: decider -/

namespace Decider

theorem main_stop_scan_step (g : DeciderGlobals) (rl : ReferenceLine) (po : PathObstacle)
    (rest : List PathObstacle) (sel : Option MainStopSelection) :
    main_stop_scan g rl (po :: rest) sel
      = main_stop_scan g rl rest
          (if Qualifies g rl po then
            (match sel with
              | none => some ⟨stop_line_s rl po, po.Obstacle, po.LongitudinalDecision.get_stop⟩
              | some held =>
                if stop_line_s rl po < held.min_stop_line_s then
                  some ⟨stop_line_s rl po, po.Obstacle, po.LongitudinalDecision.get_stop⟩
                else sel)
           else sel) := by
  unfold Qualifies
  simp only [main_stop_scan]
  by_cases h1 : po.LongitudinalDecision.has_stop = true
  · by_cases h2 : stop_line_s rl po < 0 ∨ stop_line_s rl po > rl.length
    · have : ¬ (0 ≤ stop_line_s rl po ∧ stop_line_s rl po ≤ rl.length
          ∧ adc_s g rl + g.vehicle_param.front_edge_to_center < stop_line_s rl po) := by
        rintro ⟨a, b, _⟩
        rcases h2 with h2 | h2
        · exact absurd a (not_le.mpr h2)
        · exact absurd b (not_le.mpr h2)
      simp [h1, h2, this]
    · by_cases h3 : stop_line_s rl po ≤ adc_s g rl + g.vehicle_param.front_edge_to_center
      · have : ¬ (0 ≤ stop_line_s rl po ∧ stop_line_s rl po ≤ rl.length
            ∧ adc_s g rl + g.vehicle_param.front_edge_to_center < stop_line_s rl po) := by
          rintro ⟨_, _, c⟩
          exact absurd c (not_lt.mpr h3)
        simp [h1, h2, h3, this]
      · have hq : 0 ≤ stop_line_s rl po ∧ stop_line_s rl po ≤ rl.length
            ∧ adc_s g rl + g.vehicle_param.front_edge_to_center < stop_line_s rl po := by
          push_neg at h2
          exact ⟨h2.1, h2.2, not_le.mp h3⟩
        simp only [h1, Bool.not_true, Bool.false_eq_true, if_false, h2, h3, hq, and_self,
          if_true]
        cases sel with
        | none => rfl
        | some held => simp only; split_ifs <;> rfl
  · simp [h1]

/-- The loop keeps the held selection the nearest qualifying obstacle of those seen. -/
theorem main_stop_scan_selection (g : DeciderGlobals) (rl : ReferenceLine)
    (obstacles : List PathObstacle) :
    ∀ (seen : List PathObstacle) (sel : Option MainStopSelection),
      HoldsNearestQualifying g rl seen sel →
      HoldsNearestQualifying g rl (seen ++ obstacles) (main_stop_scan g rl obstacles sel) := by
  induction obstacles with
  | nil => intro seen sel h; simpa [main_stop_scan] using h
  | cons po rest ih =>
    intro seen sel hinv
    rw [main_stop_scan_step]
    have hcons : seen ++ po :: rest = (seen ++ [po]) ++ rest := by simp
    rw [hcons]
    by_cases hq : Qualifies g rl po
    · rw [if_pos hq]
      cases sel with
      | none =>
        refine ih (seen ++ [po]) _ ⟨po, ⟨hq, seen, [], rfl, ?_, by simp⟩, rfl⟩
        intro q hmem hqq
        exact absurd hqq (hinv q hmem)
      | some held =>
        obtain ⟨ho, ⟨hqo, pre, post, e0, hpre, hpost⟩, eh⟩ := hinv
        have hall : ∀ q ∈ seen, Qualifies g rl q → stop_line_s rl ho ≤ stop_line_s rl q := by
          intro q hmem hqq
          rw [e0] at hmem
          rcases List.mem_append.mp hmem with hmem | hmem
          · exact le_of_lt (hpre q hmem hqq)
          · rcases List.mem_cons.mp hmem with hmem | hmem
            · rw [hmem]
            · exact hpost q hmem hqq
        have hmin : held.min_stop_line_s = stop_line_s rl ho := by rw [eh]
        simp only
        by_cases hnear : stop_line_s rl po < held.min_stop_line_s
        · rw [if_pos hnear]
          refine ih (seen ++ [po]) _ ⟨po, ⟨hq, seen, [], rfl, ?_, by simp⟩, rfl⟩
          intro q hmem hqq
          exact lt_of_lt_of_le (hmin ▸ hnear) (hall q hmem hqq)
        · rw [if_neg hnear]
          refine ih (seen ++ [po]) _
            ⟨ho, ⟨hqo, pre, post ++ [po], by rw [e0]; simp, hpre, ?_⟩, eh⟩
          intro q hmem hqq
          rcases List.mem_append.mp hmem with hmem | hmem
          · exact hpost q hmem hqq
          · rw [List.mem_singleton.mp hmem]
            exact hmin ▸ not_lt.mp hnear
    · rw [if_neg hq]
      cases sel with
      | none =>
        refine ih (seen ++ [po]) none ?_
        intro q hmem
        rcases List.mem_append.mp hmem with hmem | hmem
        · exact hinv q hmem
        · rw [List.mem_singleton.mp hmem]; exact hq
      | some held =>
        obtain ⟨ho, ⟨hqo, pre, post, e0, hpre, hpost⟩, eh⟩ := hinv
        refine ih (seen ++ [po]) _
          ⟨ho, ⟨hqo, pre, post ++ [po], by rw [e0]; simp, hpre, ?_⟩, eh⟩
        intro q hmem hqq
        rcases List.mem_append.mp hmem with hmem | hmem
        · exact hpost q hmem hqq
        · rw [List.mem_singleton.mp hmem] at hqq; exact absurd hqq hq

/-- On a frame with a path decision, `MakeDecision` returns, and it sets the main decision
to Stop exactly when some obstacle qualifies: a stop longitudinal decision whose stop-line
`s`, as the code computes it (the `s` of the projection of the stop point, or `0` when the
projection fails), lies within `[0, reference line length]` and satisfies
`stop_line_s > adc_s + front_edge_to_center`. The Stop then carries the reason code, stop point
and heading (and the id, in its reason) of the qualifying obstacle with the smallest stop-line
`s`, the first of them in iteration order; when no obstacle qualifies the main decision is
Cruise. The estop flag of the code is the constant `false` and the stop selection never reports
an error, so the main decision is never Estop here. -/
theorem MakeDecision_main_decision (g : DeciderGlobals) (decision_ : DecisionResult)
    (frame : Frame) (path_decision : PathDecision)
    (hpd : frame.path_decision_ = some path_decision) :
    ∃ r, MakeDecision g decision_ frame = some r
      ∧ ((∃ po ∈ path_decision.path_obstacles, Qualifies g frame.reference_line_ po) →
        ∃ po, IsNearestQualifying g frame.reference_line_ path_decision.path_obstacles po
          ∧ r.2.main_decision
            = MainDecision.stop
                { reason_code := po.LongitudinalDecision.get_stop.reason_code
                  reason := "stop by " ++ po.Obstacle.Id
                  stop_point := po.LongitudinalDecision.get_stop.stop_point
                  stop_heading := po.LongitudinalDecision.get_stop.stop_heading })
      ∧ ((¬ ∃ po ∈ path_decision.path_obstacles, Qualifies g frame.reference_line_ po) →
          r.2.main_decision = MainDecision.cruise)
      ∧ ((∃ ms, r.2.main_decision = MainDecision.stop ms)
          ↔ ∃ po ∈ path_decision.path_obstacles, Qualifies g frame.reference_line_ po) := by
  have hsel := main_stop_scan_selection g frame.reference_line_
    path_decision.path_obstacles [] none (by intro q hq; simp at hq)
  simp only [List.nil_append] at hsel
  have hret : ∃ r, MakeDecision g decision_ frame = some r
      ∧ r.2.main_decision
        = (match main_stop_scan g frame.reference_line_ path_decision.path_obstacles none with
          | some sel =>
            MainDecision.stop
              { reason_code := sel.stop_decision.reason_code
                reason := "stop by " ++ sel.stop_obstacle.Id
                stop_point := ⟨sel.stop_decision.stop_point.x, sel.stop_decision.stop_point.y⟩
                stop_heading := sel.stop_decision.stop_heading }
          | none => MainDecision.cruise) := by
    unfold MakeDecision MakeMainStopDecision SetObjectDecisions
    simp only [hpd]
    generalize main_stop_scan g frame.reference_line_ path_decision.path_obstacles none
      = scan
    cases scan <;> simp
  obtain ⟨r, hr, hmain⟩ := hret
  have hyes : (∃ po ∈ path_decision.path_obstacles, Qualifies g frame.reference_line_ po) →
      ∃ po, IsNearestQualifying g frame.reference_line_ path_decision.path_obstacles po
        ∧ r.2.main_decision
          = MainDecision.stop
              { reason_code := po.LongitudinalDecision.get_stop.reason_code
                reason := "stop by " ++ po.Obstacle.Id
                stop_point := po.LongitudinalDecision.get_stop.stop_point
                stop_heading := po.LongitudinalDecision.get_stop.stop_heading } := by
    intro ⟨q, hq, hqq⟩
    rw [hmain]
    cases hscan : main_stop_scan g frame.reference_line_ path_decision.path_obstacles
        none with
    | none => rw [hscan] at hsel; exact absurd hqq (hsel q hq)
    | some sel =>
      rw [hscan] at hsel
      obtain ⟨po, hnear, e⟩ := hsel
      exact ⟨po, hnear, by rw [e]⟩
  have hno : (¬ ∃ po ∈ path_decision.path_obstacles, Qualifies g frame.reference_line_ po) →
      r.2.main_decision = MainDecision.cruise := by
    intro hnone
    rw [hmain]
    cases hscan : main_stop_scan g frame.reference_line_ path_decision.path_obstacles
        none with
    | none => rfl
    | some sel =>
      rw [hscan] at hsel
      obtain ⟨po, ⟨hq, pre, post, e, _⟩, _⟩ := hsel
      exact absurd ⟨po, by rw [e]; simp, hq⟩ hnone
  refine ⟨r, hr, hyes, hno, ?_, fun h => ?_⟩
  · intro ⟨ms, hms⟩
    by_contra hcon
    rw [hno hcon] at hms
    simp at hms
  · obtain ⟨po, _, e⟩ := hyes h
    exact ⟨_, e⟩

/-- Claim C7, evaluated where the code departs from it. The sample line has length 20, and
the stop point `(25, 0)` of obstacle `o9` lies beyond its end: `get_point_in_frenet_frame`
returns false for it and leaves the fresh `SLPoint` as it is. `MakeMainStopDecision` does not
test the returned flag and reads `stop_line_sl.s()`, which is 0, a value within
`[0, length]`. With the vehicle at `(-3, 0)`, whose front edge is at `s = -2`, the obstacle
passes both tests and the main decision is the Stop of `o9` at `(25, 0)`, although no stop
point has a projection within the line; the claim has Cruise. With the vehicle at the origin
the same frame gives Cruise, and the frame with stop points at `s = 7`, `s = 5` and `s = 0`
gives the Stop of `o2` at `(5, 0)`. -/
theorem C7_stop_point_without_projection_becomes_main_stop :
    Sample.reference_line.length = 20
    ∧ Sample.stop_beyond_end.LongitudinalDecision = Sample.stop_decision 6 25
    ∧ Sample.reference_line.get_point_in_frenet_frame ⟨25, 0⟩ = none
    ∧ stop_line_s Sample.reference_line Sample.stop_beyond_end = 0
    ∧ adc_s Sample.globals_before_start Sample.reference_line
        + Sample.globals_before_start.vehicle_param.front_edge_to_center = -2
    ∧ (MakeDecision Sample.globals_before_start {} Sample.frame_stop_beyond_end).map
        (fun r => (r.1.code, r.2.main_decision))
      = some (ErrorCode.OK, MainDecision.stop ⟨3, "stop by o9", ⟨25, 0⟩, 0⟩)
    ∧ (MakeDecision Sample.globals {} Sample.frame_stop_beyond_end).map
        (fun r => (r.1.code, r.2.main_decision))
      = some (ErrorCode.OK, MainDecision.cruise)
    ∧ (MakeDecision Sample.globals {} Sample.frame).map
        (fun r => (r.1.code, r.2.main_decision))
      = some (ErrorCode.OK, MainDecision.stop ⟨3, "stop by o2", ⟨5, 0⟩, 0⟩)
    ∧ (MakeDecision Sample.globals {} Sample.frame_without_valid_stop).map
        (fun r => (r.1.code, r.2.main_decision))
      = some (ErrorCode.OK, MainDecision.cruise) := by
  decide!

theorem estop_object_decisions_loop_eq (obstacles : List PathObstacle) :
    ∀ acc : List ObjectDecision,
      estop_object_decisions_loop obstacles acc
        = acc ++ obstacles.map (fun po =>
            { id := po.Obstacle.Id, perception_id := po.Obstacle.PerceptionId,
              object_decision := [ObjectDecisionType.avoid] }) := by
  induction obstacles with
  | nil => intro acc; simp [estop_object_decisions_loop]
  | cons po rest ih => intro acc; simp [estop_object_decisions_loop, ih]

theorem set_object_decisions_loop_eq (g : DeciderGlobals) (obstacles : List PathObstacle) :
    ∀ acc : List ObjectDecision,
      set_object_decisions_loop g obstacles acc = acc ++ obstacles.map (object_decision_of g) := by
  induction obstacles with
  | nil => intro acc; simp [set_object_decisions_loop]
  | cons po rest ih => intro acc; simp [set_object_decisions_loop, ih]

/-- C8: after `MakeEStopDecision`, whatever the decision result held before, the main decision
is Estop with reason code `ESTOP_REASON_INTERNAL_ERR`, and the object decisions are exactly one
entry per path obstacle, in obstacle order, each with the id and perception id of the obstacle
and the single decision `avoid`. -/
theorem C8_estop_decision_is_complete (decision_ : DecisionResult)
    (path_decision : PathDecision) :
    (MakeEStopDecision decision_ path_decision).2.main_decision
        = MainDecision.estop
            ⟨some EStopReasonCode.ESTOP_REASON_INTERNAL_ERR, "estop reason to be added",
              EStopTask.cruise_to_stop⟩
      ∧ (MakeEStopDecision decision_ path_decision).2.object_decision
        = path_decision.path_obstacles.map (fun po =>
            { id := po.Obstacle.Id, perception_id := po.Obstacle.PerceptionId,
              object_decision := [ObjectDecisionType.avoid] }) := by
  unfold MakeEStopDecision
  simp [estop_object_decisions_loop_eq]

/-- C9, counterexample: the frame that the constructor `Frame(1)` makes has the null
pointer for its path decision, and `MakeDecision` does not return on it: the
`CHECK_NOTNULL(path_decision)` of `MakeMainStopDecision` ends the program. -/
theorem C9_make_decision_aborts_without_path_decision :
    (Frame.ctor 1).path_decision_ = none
    ∧ (MakeMainStopDecision Sample.globals {} (some (Frame.ctor 1))
        (Frame.ctor 1).path_decision_).isNone = true
    ∧ (MakeDecision Sample.globals {} (Frame.ctor 1)).isNone = true := by
  decide!

/-- C9, amended: on a frame whose path decision has been created `MakeDecision` returns a
status with code `OK` and leaves a complete decision result: the main decision is set, to
Cruise, Stop or Estop, and the object decisions are exactly one entry per path obstacle, in
order, with the id and perception id of the obstacle; an ignored obstacle gets the single
decision `ignore`, any other obstacle its merged lateral decision (if it has one) followed by
its merged longitudinal decision (if it has one). On a frame whose path decision is the null
pointer `MakeDecision` does not return. -/
theorem C9_make_decision_is_complete_with_path_decision (g : DeciderGlobals)
    (decision_ : DecisionResult) (frame : Frame) :
    (frame.path_decision_ = none → MakeDecision g decision_ frame = none)
      ∧ (∀ path_decision, frame.path_decision_ = some path_decision →
        ∃ r, MakeDecision g decision_ frame = some r
          ∧ r.1.code = ErrorCode.OK
          ∧ (r.2.main_decision = MainDecision.cruise
              ∨ (∃ ms, r.2.main_decision = MainDecision.stop ms)
              ∨ (∃ es, r.2.main_decision = MainDecision.estop es))
          ∧ r.2.object_decision
            = path_decision.path_obstacles.map (fun po =>
                { id := po.Obstacle.Id, perception_id := po.Obstacle.PerceptionId,
                  object_decision :=
                    if g.PathObstacle_IsIgnore po = true then [ObjectDecisionType.ignore]
                    else
                      (if po.HasLateralDecision = true then [po.LateralDecision] else [])
                        ++ (if po.HasLongitudinalDecision = true then
                              [po.LongitudinalDecision]
                            else []) })) := by
  constructor
  · intro hnone
    unfold MakeDecision MakeMainStopDecision
    simp only [hnone]
    rfl
  · intro path_decision hpd
    have hmap : path_decision.path_obstacles.map (object_decision_of g)
        = path_decision.path_obstacles.map (fun po =>
            { id := po.Obstacle.Id, perception_id := po.Obstacle.PerceptionId,
              object_decision :=
                if g.PathObstacle_IsIgnore po = true then [ObjectDecisionType.ignore]
                else
                  (if po.HasLateralDecision = true then [po.LateralDecision] else [])
                    ++ (if po.HasLongitudinalDecision = true then [po.LongitudinalDecision]
                        else []) }) := by
      apply List.map_congr_left
      intro po _
      unfold object_decision_of
      split_ifs <;> rfl
    rw [← hmap]
    unfold MakeDecision MakeMainStopDecision SetObjectDecisions
    simp only [hpd]
    generalize main_stop_scan g frame.reference_line_ path_decision.path_obstacles none
      = scan
    cases scan <;> simp [set_object_decisions_loop_eq]

/-- C9, amended, at the sample frame, whose path decision holds the obstacles `o1`, `o2` and
`o3`, each with a stop decision: `MakeDecision` returns `OK` with a Stop as main decision and
one entry per obstacle, each with the obstacle's stop decision. -/
theorem C9_make_decision_is_complete_with_path_decision_witness :
    ∃ r, MakeDecision Sample.globals {} Sample.frame = some r
      ∧ r.1.code = ErrorCode.OK
      ∧ (∃ ms, r.2.main_decision = MainDecision.stop ms)
      ∧ r.2.object_decision.map (fun d => (d.id, d.object_decision))
        = [("o1", [Sample.stop_decision (-1) 7]), ("o2", [Sample.stop_decision (-1) 5]),
            ("o3", [Sample.stop_decision (-1) 0])] := by
  obtain ⟨r, hr, hcode, _, hobj⟩ :=
    (C9_make_decision_is_complete_with_path_decision Sample.globals {} Sample.frame).2
      ⟨[Sample.stop_far, Sample.stop_near, Sample.stop_behind]⟩ rfl
  have hmain : (MakeDecision Sample.globals {} Sample.frame).map (fun r => r.2.main_decision)
      = some (MainDecision.stop ⟨3, "stop by o2", ⟨5, 0⟩, 0⟩) := by decide!
  rw [hr] at hmain
  simp only [Option.map_some', Option.some.injEq] at hmain
  refine ⟨r, hr, hcode, ⟨_, hmain⟩, ?_⟩
  rw [hobj]
  decide!

end Decider

/-! ## Theorems: reference line -/

namespace ReferenceLine

/-- C10, counterexample: on the sample line, whose first reference point has curvature 1, the
query at `s = -1`, before the first accumulated `s = 0`, returns a point of curvature 0, which
is not the first reference point of the line. -/
theorem C10_out_of_range_point_is_not_the_first_point :
    Sample.reference_line.reference_map_line_.accumulated_s.head? = some 0
      ∧ get_reference_point Sample.math Sample.reference_line (-1)
        = some { x := 0, y := 0, heading := 0, lane_waypoints := [Sample.waypoint], kappa := 0,
                 dkappa := 0, lower_bound := 0, upper_bound := 0 }
      ∧ Sample.reference_line.reference_points_.head?
        = some { x := 0, y := 0, heading := 0, lane_waypoints := [Sample.waypoint], kappa := 1,
                 dkappa := 0, lower_bound := 0, upper_bound := 0 }
      ∧ get_reference_point Sample.math Sample.reference_line (-1)
        ≠ Sample.reference_line.reference_points_.head? := by
  decide!

/-- C10, amended: on a line with points, `get_reference_point(s)` returns a point for every
out-of-range `s`. For `s` smaller than the first accumulated `s` the point has the position and
heading of the smooth point of the map path at `s`, curvature, curvature rate and both bounds
`0`, and the lane waypoints of the smooth point or, when it has none, those of the first
reference point of the line; for `s` larger than the last accumulated `s` likewise with the
last reference point of the line. -/
theorem C10_out_of_range_query_returns_smooth_point (ml : MathLib) (rl : ReferenceLine) (s : ℚ)
    (front back : ℚ) (first last : ReferencePoint)
    (hfront : rl.reference_map_line_.accumulated_s.head? = some front)
    (hback : rl.reference_map_line_.accumulated_s.getLast? = some back)
    (hfirst : rl.reference_points_.head? = some first)
    (hlast : rl.reference_points_.getLast? = some last) :
    (s < front →
        get_reference_point ml rl s
          = some
              { x := (rl.reference_map_line_.get_smooth_point s).x
                y := (rl.reference_map_line_.get_smooth_point s).y
                heading := (rl.reference_map_line_.get_smooth_point s).heading
                lane_waypoints :=
                  if (rl.reference_map_line_.get_smooth_point s).lane_waypoints = [] then
                    first.lane_waypoints
                  else (rl.reference_map_line_.get_smooth_point s).lane_waypoints
                kappa := 0, dkappa := 0, lower_bound := 0, upper_bound := 0 })
      ∧ (front ≤ s → back < s →
          get_reference_point ml rl s
            = some
                { x := (rl.reference_map_line_.get_smooth_point s).x
                  y := (rl.reference_map_line_.get_smooth_point s).y
                  heading := (rl.reference_map_line_.get_smooth_point s).heading
                  lane_waypoints :=
                    if (rl.reference_map_line_.get_smooth_point s).lane_waypoints = [] then
                      last.lane_waypoints
                    else (rl.reference_map_line_.get_smooth_point s).lane_waypoints
                  kappa := 0, dkappa := 0, lower_bound := 0, upper_bound := 0 }) := by
  constructor
  · intro h
    unfold get_reference_point
    simp only [hfront, hback, h, if_true, hfirst]
    by_cases he : (rl.reference_map_line_.get_smooth_point s).lane_waypoints = []
    · simp [he, ReferencePoint.add_lane_waypoints]
    · simp [he]
  · intro h1 h2
    unfold get_reference_point
    simp only [hfront, hback, not_lt.mpr h1, if_false, gt_iff_lt, h2, if_true, hlast]
    by_cases he : (rl.reference_map_line_.get_smooth_point s).lane_waypoints = []
    · simp [he, ReferencePoint.add_lane_waypoints]
    · simp [he]

/-- C10, amended, at the sample line (accumulated `s` from 0 to 20), for the queries at
`s = -1` and at `s = 25`. -/
theorem C10_out_of_range_query_returns_smooth_point_witness :
    get_reference_point Sample.math Sample.reference_line (-1)
        = some { x := 0, y := 0, heading := 0, lane_waypoints := [Sample.waypoint], kappa := 0,
                 dkappa := 0, lower_bound := 0, upper_bound := 0 }
      ∧ get_reference_point Sample.math Sample.reference_line 25
        = some { x := 20, y := 0, heading := 0, lane_waypoints := [Sample.waypoint], kappa := 0,
                 dkappa := 0, lower_bound := 0, upper_bound := 0 } :=
  ⟨((C10_out_of_range_query_returns_smooth_point Sample.math Sample.reference_line (-1) 0 20
        _ _ rfl rfl rfl rfl).1 (by decide!)).trans (by decide!),
    ((C10_out_of_range_query_returns_smooth_point Sample.math Sample.reference_line 25 0 20
        _ _ rfl rfl rfl rfl).2 (by decide!) (by decide!)).trans (by decide!)⟩

end ReferenceLine

/-! ## Theorems: reference line, sampled range -/

namespace ReferenceLine

/-- In a strictly increasing list the lower bound of a value in `(acc[i], acc[i+1]]` is
`i + 1`. -/
theorem lower_bound_of_bracket :
    ∀ (acc : List ℚ) (i : Nat) (s s0 s1 : ℚ), acc.Pairwise (fun a b => a < b) →
      acc.get? i = some s0 → acc.get? (i + 1) = some s1 → s0 < s → s ≤ s1 →
      lower_bound acc s = i + 1 := by
  intro acc
  induction acc with
  | nil => intro i s s0 s1 _ h0; simp at h0
  | cons a t ih =>
    intro i s s0 s1 hp h0 h1 hlo hhi
    rw [List.pairwise_cons] at hp
    cases i with
    | zero =>
      simp only [List.get?_cons_zero, Option.some.injEq] at h0
      cases t with
      | nil => simp at h1
      | cons b t2 =>
        simp only [List.get?_cons_succ, List.get?_cons_zero, Option.some.injEq] at h1
        subst h0; subst h1
        simp [lower_bound, List.takeWhile, hlo, not_lt.mpr hhi]
    | succ j =>
      simp only [List.get?_cons_succ] at h0 h1
      have hmem : s0 ∈ t := List.get?_mem h0
      have ha : a < s := lt_trans (hp.1 s0 hmem) hlo
      have := ih j s s0 s1 hp.2 h0 h1 hlo hhi
      simp only [lower_bound] at this ⊢
      simp [List.takeWhile, ha, this]

/-- The first element of a strictly increasing list is at most every element. -/
theorem head_le_of_pairwise (acc : List ℚ) (i : Nat) (front x : ℚ)
    (hp : acc.Pairwise (fun a b => a < b)) (hf : acc.head? = some front)
    (hx : acc.get? i = some x) : front ≤ x := by
  cases acc with
  | nil => simp at hf
  | cons a t =>
    simp only [List.head?_cons, Option.some.injEq] at hf
    subst hf
    cases i with
    | zero => simp at hx; exact le_of_eq hx
    | succ j =>
      simp only [List.get?_cons_succ] at hx
      exact le_of_lt ((List.pairwise_cons.mp hp).1 x (List.get?_mem hx))

/-- Every element of a strictly increasing list is at most the last one. -/
theorem le_getLast_of_pairwise :
    ∀ (acc : List ℚ) (i : Nat) (back x : ℚ), acc.Pairwise (fun a b => a < b) →
      acc.getLast? = some back → acc.get? i = some x → x ≤ back := by
  intro acc
  induction acc with
  | nil => intro i back x _ hb; simp at hb
  | cons a t ih =>
    intro i back x hp hb hx
    rw [List.pairwise_cons] at hp
    cases t with
    | nil =>
      cases i with
      | zero => simp at hb hx; rw [← hb, ← hx]
      | succ j => simp at hx
    | cons b t2 =>
      have hb2 : (b :: t2).getLast? = some back := by
        rw [List.getLast?_cons_cons] at hb; exact hb
      cases i with
      | zero =>
        simp only [List.get?_cons_zero, Option.some.injEq] at hx
        subst hx
        have hmem : back ∈ (b :: t2) := List.mem_of_getLast?_eq_some hb2
        exact le_of_lt (hp.1 back hmem)
      | succ j =>
        simp only [List.get?_cons_succ] at hx
        exact ih j back x hp.2 hb2 hx

/-- A value inside the range of a strictly increasing list, above its first element, lies in
a bracket of two consecutive elements. -/
theorem bracket_exists :
    ∀ (acc : List ℚ) (front back s : ℚ), acc.Pairwise (fun a b => a < b) →
      acc.head? = some front → acc.getLast? = some back → front < s → s ≤ back →
      ∃ i s0 s1, acc.get? i = some s0 ∧ acc.get? (i + 1) = some s1 ∧ s0 < s ∧ s ≤ s1 := by
  intro acc
  induction acc with
  | nil => intro front back s _ hf; simp at hf
  | cons a t ih =>
    intro front back s hp hf hb hlo hhi
    simp only [List.head?_cons, Option.some.injEq] at hf
    subst hf
    cases t with
    | nil =>
      simp at hb
      subst hb
      exact absurd (lt_of_lt_of_le hlo hhi) (lt_irrefl _)
    | cons b t2 =>
      by_cases hsb : s ≤ b
      · exact ⟨0, a, b, rfl, rfl, hlo, hsb⟩
      · rw [List.getLast?_cons_cons] at hb
        obtain ⟨i, s0, s1, h0, h1, h2, h3⟩ :=
          ih b back s (List.pairwise_cons.mp hp).2 rfl hb (not_le.mp hsb) hhi
        exact ⟨i + 1, s0, s1, h0, h1, h2, h3⟩

/-- The interpolation of angles of the sample library keeps the contract of `slerp`: its
value lies on the shorter arc, for the half turn of the sample library. -/
theorem sample_slerp_is_shorter_arc :
    IsShorterArcSlerp Sample.math.slerp Sample.half_turn := by
  intro a0 t0 a1 t1 t hlt
  refine ⟨a1 - a0
      - 2 * Sample.half_turn * ⌊(a1 - a0 + Sample.half_turn) / (2 * Sample.half_turn)⌋,
    -⌊(a1 - a0 + Sample.half_turn) / (2 * Sample.half_turn)⌋, 0, ?_, ?_, ?_⟩
  · push_cast; ring
  · have hpos : (0 : ℚ) < 2 * Sample.half_turn := by unfold Sample.half_turn; norm_num
    have h1 := Int.floor_le ((a1 - a0 + Sample.half_turn) / (2 * Sample.half_turn))
    have h2 := Int.lt_floor_add_one ((a1 - a0 + Sample.half_turn) / (2 * Sample.half_turn))
    rw [le_div_iff₀ hpos] at h1
    rw [div_lt_iff₀ hpos] at h2
    rw [abs_le]
    constructor <;> linarith
  · simp only [Sample.math, if_neg (ne_of_gt hlt)]
    push_cast
    ring

/-- C11: on a reference line whose accumulated `s` values are strictly increasing,
`get_reference_point(s)` for `s` in the sampled range is the first point when `s` is the first
accumulated `s`, and otherwise the interpolation of the two consecutive points `p0`, `p1` with
`s0 < s ≤ s1` (such a bracket exists): `x`, `y`, `kappa`, `dkappa` are the `lerp` values, the
heading is the `slerp` value, lane waypoints and both bounds are those of `p1`. With a linear
`lerp` the four values lie on the straight line between the two points, and at `s = s1` they are
those of `p1`. With a `slerp` that interpolates along the shorter angular arc, the heading lies
on the shorter arc from the heading of `p0` to the heading of `p1`, at the fraction
`(s - s0) / (s1 - s0)` of the way, and at `s = s1` it is the heading of `p1` up to whole
turns. -/
theorem C11_sampled_point_is_interpolation_of_bracket (ml : MathLib) (rl : ReferenceLine)
    (s front back : ℚ)
    (hsorted : rl.reference_map_line_.accumulated_s.Pairwise (fun a b => a < b))
    (hlen : rl.reference_points_.length = rl.reference_map_line_.accumulated_s.length)
    (hfront : rl.reference_map_line_.accumulated_s.head? = some front)
    (hback : rl.reference_map_line_.accumulated_s.getLast? = some back)
    (hlo : front ≤ s) (hhi : s ≤ back) :
    (s = front → get_reference_point ml rl s = rl.reference_points_.head?
        ∧ rl.reference_points_.head? ≠ none)
      ∧ (front < s →
          ∃ i p0 p1 s0 s1,
            rl.reference_points_.get? i = some p0 ∧ rl.reference_points_.get? (i + 1) = some p1
              ∧ rl.reference_map_line_.accumulated_s.get? i = some s0
              ∧ rl.reference_map_line_.accumulated_s.get? (i + 1) = some s1
              ∧ s0 < s ∧ s ≤ s1)
      ∧ (∀ i p0 p1 s0 s1,
          rl.reference_points_.get? i = some p0 → rl.reference_points_.get? (i + 1) = some p1 →
          rl.reference_map_line_.accumulated_s.get? i = some s0 →
          rl.reference_map_line_.accumulated_s.get? (i + 1) = some s1 → s0 < s → s ≤ s1 →
          ∃ p, get_reference_point ml rl s = some p
            ∧ p.x = ml.lerp p0.x s0 p1.x s1 s ∧ p.y = ml.lerp p0.y s0 p1.y s1 s
            ∧ p.kappa = ml.lerp p0.kappa s0 p1.kappa s1 s
            ∧ p.dkappa = ml.lerp p0.dkappa s0 p1.dkappa s1 s
            ∧ p.heading = ml.slerp p0.heading s0 p1.heading s1 s
            ∧ p.lane_waypoints = p1.lane_waypoints ∧ p.lower_bound = p1.lower_bound
            ∧ p.upper_bound = p1.upper_bound
            ∧ (IsLinearLerp ml.lerp →
                p.x = p0.x + (s - s0) / (s1 - s0) * (p1.x - p0.x)
                  ∧ p.y = p0.y + (s - s0) / (s1 - s0) * (p1.y - p0.y)
                  ∧ p.kappa = p0.kappa + (s - s0) / (s1 - s0) * (p1.kappa - p0.kappa)
                  ∧ p.dkappa = p0.dkappa + (s - s0) / (s1 - s0) * (p1.dkappa - p0.dkappa)
                  ∧ (s = s1 →
                      p.x = p1.x ∧ p.y = p1.y ∧ p.kappa = p1.kappa ∧ p.dkappa = p1.dkappa))
            ∧ (∀ half_turn, IsShorterArcSlerp ml.slerp half_turn →
                OnShorterArc half_turn p0.heading p1.heading ((s - s0) / (s1 - s0)) p.heading
                  ∧ (s = s1 → ∃ n : ℤ, p.heading = p1.heading + 2 * half_turn * n))) := by
  refine ⟨?_, ?_, ?_⟩
  · intro hs
    subst hs
    have hidx : lower_bound rl.reference_map_line_.accumulated_s s = 0 := by
      cases hacc : rl.reference_map_line_.accumulated_s with
      | nil => rfl
      | cons a t =>
        rw [hacc] at hfront
        simp only [List.head?_cons, Option.some.injEq] at hfront
        subst hfront
        simp [lower_bound, List.takeWhile]
    constructor
    · unfold get_reference_point
      simp only [hfront, hback, lt_irrefl, if_false, gt_iff_lt, not_lt.mpr hhi, hidx, if_true]
    · cases hacc : rl.reference_map_line_.accumulated_s with
      | nil => rw [hacc] at hfront; simp at hfront
      | cons a t =>
        rw [hacc] at hlen
        cases hrp : rl.reference_points_ with
        | nil => rw [hrp] at hlen; simp at hlen
        | cons q r => simp
  · intro hfs
    obtain ⟨i, s0, s1, h0, h1, h2, h3⟩ :=
      bracket_exists _ front back s hsorted hfront hback hfs hhi
    have hi1 : i + 1 < rl.reference_points_.length := by
      rw [hlen]
      by_contra hcon
      rw [List.get?_eq_none.mpr (not_lt.mp hcon)] at h1
      exact Option.noConfusion h1
    have hi0 : i < rl.reference_points_.length := Nat.lt_of_succ_lt hi1
    exact ⟨i, _, _, s0, s1, List.get?_eq_get hi0, List.get?_eq_get hi1, h0, h1, h2, h3⟩
  · intro i p0 p1 s0 s1 hp0 hp1 hs0 hs1 h2 h3
    have hidx := lower_bound_of_bracket _ i s s0 s1 hsorted hs0 hs1 h2 h3
    have hget : get_reference_point ml rl s = some (interpolate ml p0 s0 p1 s1 s) := by
      unfold get_reference_point
      simp only [hfront, hback, not_lt.mpr hlo, if_false, gt_iff_lt, not_lt.mpr hhi, hidx,
        Nat.succ_ne_zero, Nat.add_sub_cancel, hp0, hp1, hs0, hs1]
    have hlt : s0 < s1 := lt_of_lt_of_le h2 h3
    have hne : s1 - s0 ≠ 0 := sub_ne_zero.mpr (ne_of_gt hlt)
    refine ⟨_, hget, rfl, rfl, rfl, rfl, rfl, rfl, rfl, rfl, ?_, ?_⟩
    · intro hlin
      refine ⟨hlin _ _ _ _ _ hlt, hlin _ _ _ _ _ hlt, hlin _ _ _ _ _ hlt, hlin _ _ _ _ _ hlt,
        ?_⟩
      intro hs
      subst hs
      simp only [interpolate]
      refine ⟨?_, ?_, ?_, ?_⟩ <;>
      · rw [hlin _ _ _ _ _ hlt, div_self hne]; ring
    · intro half_turn harc
      have harc0 := harc p0.heading s0 p1.heading s1 s hlt
      refine ⟨harc0, ?_⟩
      intro hs
      subst hs
      obtain ⟨d, m, n, hd, _, hh⟩ := harc0
      refine ⟨m + n, ?_⟩
      show ml.slerp p0.heading s0 p1.heading s s = _
      rw [hh, hd, div_self hne]
      push_cast
      ring

/-- C11 at the sample line with headings 3 and -3 at `s = 0` and `s = 20` (curvatures 1
and 0), for `s = 5` and the sample library, whose half turn is `22/7`: the point a quarter of
the way, with curvature `3/4` and the heading `43/14`, which lies on the shorter arc, of
length `2/7`, from 3 across the half turn to -3; the heading on the straight line from 3 to
-3 would be `3/2`. -/
theorem C11_sampled_point_is_interpolation_of_bracket_witness :
    ∃ p, get_reference_point Sample.math Sample.reference_line_wrap 5 = some p
      ∧ p.x = 5 ∧ p.kappa = 3 / 4 ∧ p.heading = 43 / 14
      ∧ OnShorterArc Sample.half_turn 3 (-3) ((5 - 0) / (20 - 0)) p.heading := by
  obtain ⟨p, hp, hx, _, hk, _, hh, _, _, _, _, harc⟩ :=
    (C11_sampled_point_is_interpolation_of_bracket Sample.math Sample.reference_line_wrap 5 0 20
      (by decide!) rfl rfl rfl (by decide!) (by decide!)).2.2 0 _ _ 0 20 rfl rfl rfl rfl
      (by decide!) (by decide!)
  exact ⟨p, hp, hx.trans (by decide!), hk.trans (by decide!), hh.trans (by decide!),
    (harc Sample.half_turn sample_slerp_is_shorter_arc).1⟩

/-- C12: on a path with accumulated `s` values, `get_point_in_frenet_frame` returns a flag
and leaves a point such that the flag is `false` exactly when the projection fails or the
projected `s` is larger than the last accumulated `s`; with `false` the point is the one
passed in, with `true` it holds the projected `s` and `l`. -/
theorem C12_frenet_projection_flag_and_output (rl : ReferenceLine) (xy_point : Vec2d)
    (sl_point : SLPoint) (back : ℚ)
    (hback : rl.reference_map_line_.accumulated_s.getLast? = some back) :
    ∃ ok out, get_point_in_frenet_frame_out rl xy_point sl_point = some (ok, out)
      ∧ (ok = false ↔
          (rl.reference_map_line_.get_projection xy_point = none
            ∨ ∃ s l, rl.reference_map_line_.get_projection xy_point = some (s, l) ∧ back < s))
      ∧ (ok = false → out = sl_point)
      ∧ (ok = true →
          ∃ s l, rl.reference_map_line_.get_projection xy_point = some (s, l)
            ∧ out.s = s ∧ out.l = l)
      ∧ get_point_in_frenet_frame rl xy_point = if ok then some out else none := by
  unfold get_point_in_frenet_frame_out get_point_in_frenet_frame
  cases hproj : rl.reference_map_line_.get_projection xy_point with
  | none => exact ⟨false, sl_point, rfl, by simp, fun _ => rfl, by simp, by simp⟩
  | some sl =>
    obtain ⟨s, l⟩ := sl
    simp only [hback]
    by_cases hs : s > back
    · refine ⟨false, sl_point, by simp [hs], ?_, fun _ => rfl, by simp, by simp [hs]⟩
      simp only [true_iff]
      exact Or.inr ⟨s, l, rfl, hs⟩
    · refine ⟨true, { sl_point with s := s, l := l }, by simp [hs], ?_, by simp,
        fun _ => ⟨s, l, rfl, rfl, rfl⟩, by simp [hs]⟩
      constructor
      · intro h; exact absurd h (by simp)
      · rintro (h | ⟨s2, l2, h, hlt⟩)
        · exact Option.noConfusion h
        · simp only [Option.some.injEq, Prod.mk.injEq] at h
          rw [← h.1] at hlt
          exact absurd hlt hs

/-- C12 at the sample line (last accumulated `s` is 20): the point `(5, 1)` is projected to
`(s, l) = (5, 1)`, and for the point `(25, 0)`, beyond the end, the flag is `false` and the
point passed in, `(3, 4)`, is returned as it was. -/
theorem C12_frenet_projection_flag_and_output_witness :
    get_point_in_frenet_frame_out Sample.reference_line ⟨5, 1⟩ ⟨3, 4⟩ = some (true, ⟨5, 1⟩)
      ∧ get_point_in_frenet_frame_out Sample.reference_line ⟨25, 0⟩ ⟨3, 4⟩
        = some (false, ⟨3, 4⟩)
      ∧ ∃ ok out, get_point_in_frenet_frame_out Sample.reference_line ⟨25, 0⟩ ⟨3, 4⟩
          = some (ok, out) ∧ (ok = false → out = ⟨3, 4⟩) := by
  obtain ⟨ok, out, h, _, h2, _⟩ :=
    C12_frenet_projection_flag_and_output Sample.reference_line ⟨25, 0⟩ ⟨3, 4⟩ 20 rfl
  exact ⟨by decide!, by decide!, ok, out, h, h2⟩

end ReferenceLine

/-! ## Theorems: ST-boundary mapper, purity -/

namespace StBoundaryMapper

/-- C20, counterexample: with the sample mapper set to planning time `-1`, two calls on the
same path decision return the same `PLANNING_ERROR` status but leave different boundary
lists, namely what the output vector held before each call: nothing in the first call, one
boundary in the second. -/
theorem C20_held_boundaries_survive_parameter_error :
    GetGraphBoundary Sample.ext Sample.mapper_negative_time ⟨[Sample.undecided_ahead]⟩ (some [])
        = some (⟨ErrorCode.PLANNING_ERROR, "Fail to get params since planning_time_ < 0."⟩,
            some [])
      ∧ GetGraphBoundary Sample.ext Sample.mapper_negative_time ⟨[Sample.undecided_ahead]⟩
          (some [Sample.default_boundary])
        = some (⟨ErrorCode.PLANNING_ERROR, "Fail to get params since planning_time_ < 0."⟩,
            some [Sample.default_boundary])
      ∧ GetGraphBoundary Sample.ext Sample.mapper_negative_time ⟨[Sample.undecided_ahead]⟩
          (some [])
        ≠ GetGraphBoundary Sample.ext Sample.mapper_negative_time ⟨[Sample.undecided_ahead]⟩
          (some [Sample.default_boundary]) := by
  decide!

/-- C20, amended: for one mapper and one path decision, the returned status does not depend
on what the output vector held before the call; when the parameter checks pass (planning time
not negative, at least two path points) the whole result, status and boundary list, does not
depend on it; and when a parameter check fails the call returns a planning error and the
vector holds what it held before. -/
theorem C20_result_is_independent_of_held_boundaries (ext : Externals) (m : StBoundaryMapper)
    (path_decision : PathDecision) (held1 held2 : List StGraphBoundary) :
    (GetGraphBoundary ext m path_decision (some held1)).map Prod.fst
        = (GetGraphBoundary ext m path_decision (some held2)).map Prod.fst
      ∧ (0 ≤ m.planning_time_ → 2 ≤ m.path_data_.discretized_path.length →
          GetGraphBoundary ext m path_decision (some held1)
            = GetGraphBoundary ext m path_decision (some held2))
      ∧ (m.planning_time_ < 0 ∨ m.path_data_.discretized_path.length < 2 →
          ∃ st, st.code = ErrorCode.PLANNING_ERROR
            ∧ ∀ held, GetGraphBoundary ext m path_decision (some held)
                = some (st, some held)) := by
  have hmain : 0 ≤ m.planning_time_ → 2 ≤ m.path_data_.discretized_path.length →
      GetGraphBoundary ext m path_decision (some held1)
        = GetGraphBoundary ext m path_decision (some held2) := by
    intro h1 h2
    unfold GetGraphBoundary
    simp only [not_lt.mpr h1, not_lt.mpr h2, if_false]
  refine ⟨?_, hmain, ?_⟩
  · by_cases h1 : m.planning_time_ < 0
    · unfold GetGraphBoundary
      simp only [h1, if_true, Option.map_some']
    · by_cases h2 : m.path_data_.discretized_path.length < 2
      · unfold GetGraphBoundary
        simp only [h1, h2, if_true, if_false, Option.map_some']
      · rw [hmain (not_lt.mp h1) (not_lt.mp h2)]
  · intro h
    by_cases h1 : m.planning_time_ < 0
    · refine ⟨⟨ErrorCode.PLANNING_ERROR, "Fail to get params since planning_time_ < 0."⟩, rfl, ?_⟩
      intro held
      unfold GetGraphBoundary
      simp only [h1, if_true]
    · have h2 : m.path_data_.discretized_path.length < 2 := h.resolve_left h1
      refine ⟨⟨ErrorCode.PLANNING_ERROR, "Fail to get params because of too few path points"⟩,
        rfl, ?_⟩
      intro held
      unfold GetGraphBoundary
      simp only [h1, h2, if_true, if_false]

/-- C20, amended, at the sample mapper (planning time 8, six path points): the call on an
empty vector and the call on a vector that already holds a boundary return the same status
and the same list of one boundary. -/
theorem C20_result_is_independent_of_held_boundaries_witness :
    GetGraphBoundary Sample.ext Sample.mapper ⟨[Sample.undecided_ahead]⟩ (some [])
        = GetGraphBoundary Sample.ext Sample.mapper ⟨[Sample.undecided_ahead]⟩
            (some [Sample.default_boundary])
      ∧ (GetGraphBoundary Sample.ext Sample.mapper ⟨[Sample.undecided_ahead]⟩
            (some [Sample.default_boundary])).map
          (fun r => (r.1, r.2.map (List.map (fun b => (b.boundary_type, b.id)))))
        = some (Status.OK, some [(BoundaryType.UNKNOWN, "o6")]) :=
  ⟨(C20_result_is_independent_of_held_boundaries Sample.ext Sample.mapper
      ⟨[Sample.undecided_ahead]⟩ [] [Sample.default_boundary]).2.1 (by decide!) (by decide),
    by decide!⟩

end StBoundaryMapper

/-! ## Theorems: discretized trajectory -/

namespace DiscretizedTrajectory

/-- What `set_trajectory_points` leaves passes `Valid()`. -/
theorem set_trajectory_points_valid (t t2 : DiscretizedTrajectory)
    (points : List TrajectoryPoint) (h : t.set_trajectory_points points = some t2) :
    t2.Valid = true ∧ t2.trajectory_points_ = points := by
  unfold set_trajectory_points at h
  split_ifs at h with hv
  simp only [Option.some.injEq] at h
  subst h
  exact ⟨hv, rfl⟩

/-- The pair loop accepts a list extended by a point later than its last point. -/
theorem Valid_loop_append (p : TrajectoryPoint) :
    ∀ (pts : List TrajectoryPoint) (back : TrajectoryPoint), Valid_loop pts = true →
      pts.getLast? = some back → back.relative_time < p.relative_time →
      Valid_loop (pts ++ [p]) = true := by
  intro pts
  induction pts with
  | nil => intro back _ hb; simp at hb
  | cons a t ih =>
    intro back hv hb hlt
    cases t with
    | nil =>
      simp at hb
      subst hb
      simp [Valid_loop, hlt]
    | cons b t2 =>
      rw [List.getLast?_cons_cons] at hb
      simp only [Valid_loop] at hv
      split_ifs at hv with hab
      have := ih back hv hb hlt
      simp only [List.cons_append, Valid_loop, hab, if_false]
      simpa using this

/-- The function `Valid()` is the pair loop on every list. -/
theorem Valid_eq_loop (t : DiscretizedTrajectory) : t.Valid = Valid_loop t.trajectory_points_ := by
  unfold Valid
  rcases t with ⟨pts⟩
  cases pts with
  | nil => simp [Valid_loop]
  | cons a r =>
    cases r with
    | nil => simp [Valid_loop]
    | cons b r2 => simp

/-- The function `AppendTrajectoryPoint` keeps `Valid()`, and returns exactly when the
trajectory is empty or the new point is strictly later than the last one. -/
theorem AppendTrajectoryPoint_valid (t : DiscretizedTrajectory) (p : TrajectoryPoint) :
    (∀ t2, t.AppendTrajectoryPoint p = some t2 → t.Valid = true → t2.Valid = true)
      ∧ (∀ back, t.trajectory_points_.getLast? = some back →
          ¬ back.relative_time < p.relative_time → t.AppendTrajectoryPoint p = none) := by
  constructor
  · intro t2 h hv
    unfold AppendTrajectoryPoint at h
    rw [Valid_eq_loop] at hv ⊢
    cases hb : t.trajectory_points_.getLast? with
    | none =>
      rw [hb] at h
      simp only [Option.some.injEq] at h
      subst h
      rw [List.getLast?_eq_none_iff] at hb
      simp [hb, Valid_loop]
    | some back =>
      rw [hb] at h
      simp only at h
      split_ifs at h with hgt
      simp only [Option.some.injEq] at h
      subst h
      exact Valid_loop_append p _ back hv hb hgt
  · intro back hb hnot
    unfold AppendTrajectoryPoint
    rw [hb]
    simp only [gt_iff_lt, hnot, if_false]

/-- C19, at a failing input: the constructor stores the two points with relative times 1 and
0 as they are, and the trajectory does not pass `Valid()`; `set_trajectory_points` refuses the
same vector, and `AppendTrajectoryPoint` refuses the point of time 0 after the point of
time 1. -/
theorem C19_constructor_accepts_unordered_points :
    (ctor [Sample.trajectory_point 1, Sample.trajectory_point 0]).trajectory_points
        = [Sample.trajectory_point 1, Sample.trajectory_point 0]
      ∧ (ctor [Sample.trajectory_point 1, Sample.trajectory_point 0]).Valid = false
      ∧ (ctor []).set_trajectory_points [Sample.trajectory_point 1, Sample.trajectory_point 0]
        = none
      ∧ (ctor [Sample.trajectory_point 1]).AppendTrajectoryPoint (Sample.trajectory_point 0)
        = none := by
  decide!

end DiscretizedTrajectory

/-! ## Theorems: planning cycle -/

namespace Planning

/-- Once the planner has returned `OK` for an info, the loop ends with a best info. -/
theorem plan_loop_best_some (env : PlanningEnv) (start_point : TrajectoryPoint) :
    ∀ (infos : List ReferenceLineInfo) (frame : Frame) (done : List ReferenceLineInfo) (i : Nat),
      (plan_loop env start_point frame infos done (some i)).2 ≠ none := by
  intro infos
  induction infos with
  | nil => intro frame done i; simp [plan_loop]
  | cons info rest ih =>
    intro frame done i
    simp only [plan_loop]
    split_ifs
    · exact ih _ _ _
    · exact ih _ _ _

/-- When the loop ends without a best info, and a planner call that does not return `OK`
leaves the trajectory points of the output message as they were, the loop leaves them as they
were. -/
theorem plan_loop_none (env : PlanningEnv) (start_point : TrajectoryPoint)
    (hplanner : ∀ pt fr info, (env.planner_Plan pt fr info).1 ≠ Status.OK →
      (env.planner_Plan pt fr info).2.1.trajectory_pb_.trajectory_point
        = fr.trajectory_pb_.trajectory_point) :
    ∀ (infos : List ReferenceLineInfo) (frame : Frame) (done : List ReferenceLineInfo),
      (plan_loop env start_point frame infos done none).2 = none →
      (plan_loop env start_point frame infos done none).1.trajectory_pb_.trajectory_point
        = frame.trajectory_pb_.trajectory_point := by
  intro infos
  induction infos with
  | nil => intro frame done _; simp [plan_loop]
  | cons info rest ih =>
    intro frame done h
    simp only [plan_loop] at h ⊢
    split_ifs at h ⊢ with hst
    · rw [ih _ _ h, hplanner _ _ _ hst]
    · exact absurd h (plan_loop_best_some env start_point rest _ _ _)

/-- C16: whenever `Planning::Plan` returns `false`, the trajectory published last has no point
afterwards, and, planner calls that fail leaving the trajectory points of the output message
of the frame as they were, these points are the ones the frame held before the call; whenever
it returns `true`, the flag `is_replan` of the output message is `true` exactly when the
stitching trajectory has a single point. -/
theorem C16_failed_plan_clears_last_trajectory (env : PlanningEnv) (p p2 : Planning)
    (is_on_auto_mode ok : Bool) (current_time_stamp planning_cycle_time : ℚ)
    (h : Plan env p is_on_auto_mode current_time_stamp planning_cycle_time = some (ok, p2)) :
    (ok = false →
        p2.last_publishable_trajectory_.trajectory_points_ = []
          ∧ ((∀ pt fr info, (env.planner_Plan pt fr info).1 ≠ Status.OK →
                (env.planner_Plan pt fr info).2.1.trajectory_pb_.trajectory_point
                  = fr.trajectory_pb_.trajectory_point) →
              ∃ frame frame2, p.frame_ = some frame ∧ p2.frame_ = some frame2
                ∧ frame2.trajectory_pb_.trajectory_point
                  = frame.trajectory_pb_.trajectory_point))
      ∧ (ok = true →
          ∃ frame2, p2.frame_ = some frame2
            ∧ (frame2.trajectory_pb_.is_replan = true ↔
                (env.ComputeStitchingTrajectory is_on_auto_mode current_time_stamp
                  planning_cycle_time p.last_publishable_trajectory_).length = 1)) := by
  unfold Plan at h
  dsimp only at h
  cases hf : p.frame_ with
  | none => rw [hf] at h; simp at h
  | some frame =>
    cases hb : (env.ComputeStitchingTrajectory is_on_auto_mode current_time_stamp
        planning_cycle_time p.last_publishable_trajectory_).getLast? with
    | none => rw [hf, hb] at h; simp at h
    | some back =>
      rw [hf, hb] at h
      dsimp only at h
      generalize hfr : Frame.AlignPredictionTime _ current_time_stamp = frame1 at h
      have hpts : frame1.trajectory_pb_.trajectory_point
          = frame.trajectory_pb_.trajectory_point := by
        rw [← hfr]
        by_cases hd : env.FLAGS_enable_record_debug = true
        · simp [hd, Frame.AlignPredictionTime, Frame.SetPlanningStartPoint]
        · simp [hd, Frame.AlignPredictionTime, Frame.SetPlanningStartPoint]
      cases hbest : (plan_loop env back frame1 frame1.reference_line_info_ [] none).2 with
      | none =>
        rw [hbest] at h
        simp only [Option.some.injEq, Prod.mk.injEq] at h
        obtain ⟨hok, hp2⟩ := h
        constructor
        · intro _
          subst hp2
          refine ⟨rfl, fun hplanner => ⟨frame, _, rfl, rfl, ?_⟩⟩
          rw [plan_loop_none env back hplanner _ _ _ hbest, hpts]
        · intro hc; rw [← hok] at hc; exact absurd hc (by simp)
      | some best =>
        rw [hbest] at h
        simp only at h
        cases hget : (plan_loop env back frame1 frame1.reference_line_info_ [] none
            ).1.reference_line_info_.get? best with
        | none => rw [hget] at h; simp at h
        | some info =>
          rw [hget] at h
          simp only [Option.some.injEq, Prod.mk.injEq] at h
          obtain ⟨hok, hp2⟩ := h
          constructor
          · intro hc; rw [← hok] at hc; exact absurd hc (by simp)
          · intro _
            subst hp2
            exact ⟨_, rfl, by simp⟩

/-- C16 at the sample planning object whose last trajectory has two points, after a frame
initialisation: with a planner that fails, `Plan` returns `false`, the last trajectory is
emptied and the output message has no trajectory point; with a planner that succeeds and a
stitching trajectory of two points, the flag `is_replan` is `false`. -/
theorem C16_failed_plan_clears_last_trajectory_witness :
    (∃ frame2,
        ((Plan (Sample.planning_env true false)
            (InitFrame (Sample.planning_env true false) Sample.planning_with_last
              Sample.adapters {} 1).2 true 100 (1 / 10)).map
          (fun r => (r.1, r.2.last_publishable_trajectory_.trajectory_points_)))
          = some (false, [])
        ∧ (InitFrame (Sample.planning_env true false) Sample.planning_with_last
              Sample.adapters {} 1).2.frame_ = some frame2
        ∧ frame2.trajectory_pb_.trajectory_point = [])
      ∧ ((Plan (Sample.planning_env true true)
            (InitFrame (Sample.planning_env true true) Sample.planning_with_last
              Sample.adapters {} 1).2 true 100 (1 / 10)).map
          (fun r => (r.1, r.2.frame_.map (fun f => f.trajectory_pb_.is_replan))))
          = some (true, some false) := by
  refine ⟨?_, by decide!⟩
  have hplan : ∃ p2, Plan (Sample.planning_env true false)
      (InitFrame (Sample.planning_env true false) Sample.planning_with_last
        Sample.adapters {} 1).2 true 100 (1 / 10) = some (false, p2) := by
    cases hp : Plan (Sample.planning_env true false)
      (InitFrame (Sample.planning_env true false) Sample.planning_with_last
        Sample.adapters {} 1).2 true 100 (1 / 10) with
    | none =>
      have : (Plan (Sample.planning_env true false)
        (InitFrame (Sample.planning_env true false) Sample.planning_with_last
          Sample.adapters {} 1).2 true 100 (1 / 10)).isSome = true := by decide!
      rw [hp] at this; exact absurd this (by simp)
    | some r =>
      have : (Plan (Sample.planning_env true false)
        (InitFrame (Sample.planning_env true false) Sample.planning_with_last
          Sample.adapters {} 1).2 true 100 (1 / 10)).map (fun r => r.1) = some false := by
        decide!
      rw [hp] at this
      simp only [Option.map_some', Option.some.injEq] at this
      exact ⟨r.2, by rw [← this]⟩
  obtain ⟨p2, hp2⟩ := hplan
  obtain ⟨hclear, hframe⟩ :=
    (C16_failed_plan_clears_last_trajectory (Sample.planning_env true false) _ p2 true false
      100 (1 / 10) hp2).1 rfl
  obtain ⟨frame, frame2, h1, _, _⟩ := hframe (by
    intro pt fr info _
    simp [Sample.planning_env])
  refine ⟨frame, ?_, h1, ?_⟩
  · rw [hp2]; simp [hclear]
  · have : ((InitFrame (Sample.planning_env true false) Sample.planning_with_last
        Sample.adapters {} 1).2.frame_.map (fun f => f.trajectory_pb_.trajectory_point))
        = some [] := by decide!
    rw [h1] at this
    simpa using this

/-- C17, at failing inputs: with every input observed, a cycle whose frame initialisation
fails and a cycle whose planner fails both end with nothing published (the latest published
message is still a null pointer), while a cycle without localization publishes one
not-ready message and a cycle that plans successfully publishes one trajectory message. -/
theorem C17_failed_cycle_publishes_nothing :
    (InitFrame (Sample.planning_env false true) Sample.planning Sample.adapters {} 1).1 = false
      ∧ (RunOnce (Sample.planning_env false true) Sample.planning Sample.adapters 100 101).map
          (fun r => (r.2.planning_published, r.2.GetLatestPublished)) = some ([], none)
      ∧ (Plan (Sample.planning_env true false)
            (InitFrame (Sample.planning_env true false) Sample.planning Sample.adapters {} 1).2
            true 100 (1 / 10)).map (fun r => r.1) = some false
      ∧ (RunOnce (Sample.planning_env true false) Sample.planning Sample.adapters 100 101).map
          (fun r => (r.2.planning_published, r.2.GetLatestPublished)) = some ([], none)
      ∧ (RunOnce (Sample.planning_env true true) Sample.planning
            { Sample.adapters with localization := [] } 100 101).map
          (fun r => r.2.planning_published.map (fun msg => msg.decision.main_decision))
        = some [MainDecision.not_ready "localization not ready"]
      ∧ (RunOnce (Sample.planning_env true true) Sample.planning Sample.adapters 100 101).map
          (fun r => r.2.planning_published.map (fun msg => msg.trajectory_point))
        = some [[Sample.trajectory_point 1, Sample.trajectory_point 2]] := by
  decide!

/-- The message `PublishPlanningPb` publishes is the given one but for header and gear. -/
theorem PublishPlanningPb_spec (env : PlanningEnv) (am : AdapterManager)
    (trajectory_pb : ADCTrajectory) :
    ∃ msg, (PublishPlanningPb env am trajectory_pb).planning_published
          = am.planning_published ++ [msg]
      ∧ (PublishPlanningPb env am trajectory_pb).localization = am.localization
      ∧ (PublishPlanningPb env am trajectory_pb).chassis = am.chassis
      ∧ (PublishPlanningPb env am trajectory_pb).routing_response = am.routing_response
      ∧ (PublishPlanningPb env am trajectory_pb).prediction = am.prediction
      ∧ msg.decision = trajectory_pb.decision
      ∧ msg.trajectory_point = trajectory_pb.trajectory_point
      ∧ msg.gear = some GearPosition.GEAR_DRIVE :=
  ⟨_, rfl, rfl, rfl, rfl, rfl, rfl, rfl, rfl⟩

/-- C18: when an input is missing after `Observe`, the cycle `RunOnce` leaves the planning
object as it was and publishes one message, whose main decision is `not_ready` with the
reason "localization not ready" if no localization has been observed, else "chassis not ready"
if no chassis, else "routing not ready" if no routing response, else "prediction not ready" if
prediction is enabled and none has been observed. -/
theorem C18_missing_input_publishes_not_ready (env : PlanningEnv) (p : Planning)
    (adapters : AdapterManager) (start_timestamp end_timestamp : ℚ) :
    ((env.Observe adapters).localization = [] →
        PublishesNotReady env p adapters start_timestamp end_timestamp "localization not ready")
      ∧ ((env.Observe adapters).localization ≠ [] → (env.Observe adapters).chassis = [] →
          PublishesNotReady env p adapters start_timestamp end_timestamp "chassis not ready")
      ∧ ((env.Observe adapters).localization ≠ [] → (env.Observe adapters).chassis ≠ [] →
          (env.Observe adapters).routing_response = [] →
          PublishesNotReady env p adapters start_timestamp end_timestamp "routing not ready")
      ∧ ((env.Observe adapters).localization ≠ [] → (env.Observe adapters).chassis ≠ [] →
          (env.Observe adapters).routing_response ≠ [] → env.FLAGS_enable_prediction = true →
          (env.Observe adapters).prediction = [] →
          PublishesNotReady env p adapters start_timestamp end_timestamp
            "prediction not ready") := by
  have key : ∀ reason : String,
      RunOnce env p adapters start_timestamp end_timestamp
        = some (p, PublishPlanningPb env (env.Observe adapters)
            { decision := { main_decision := MainDecision.not_ready reason } }) →
      PublishesNotReady env p adapters start_timestamp end_timestamp reason := by
    intro reason h
    obtain ⟨msg, h1, h2, h3, h4, h5, h6, h7, h8⟩ := PublishPlanningPb_spec env
      (env.Observe adapters) { decision := { main_decision := MainDecision.not_ready reason } }
    exact ⟨p, _, msg, h, rfl, rfl, h1, h2, h3, h4, h5, by rw [h6], by rw [h6], by rw [h7], h8⟩
  refine ⟨?_, ?_, ?_, ?_⟩
  · intro h1
    apply key
    unfold RunOnce
    simp only [h1]
  · intro h1 h2
    apply key
    unfold RunOnce
    cases hl : (env.Observe adapters).localization with
    | nil => exact absurd hl h1
    | cons l ls => simp only [hl, h2]
  · intro h1 h2 h3
    apply key
    unfold RunOnce
    cases hl : (env.Observe adapters).localization with
    | nil => exact absurd hl h1
    | cons l ls =>
      cases hc : (env.Observe adapters).chassis with
      | nil => exact absurd hc h2
      | cons c cs => simp [hl, hc, h3]
  · intro h1 h2 h3 h4 h5
    apply key
    unfold RunOnce
    cases hl : (env.Observe adapters).localization with
    | nil => exact absurd hl h1
    | cons l ls =>
      cases hc : (env.Observe adapters).chassis with
      | nil => exact absurd hc h2
      | cons c cs =>
        cases hr : (env.Observe adapters).routing_response with
        | nil => exact absurd hr h3
        | cons r rs => simp [hl, hc, hr, h4, h5]

/-- C18 at the sample adapters without chassis: the cycle publishes the message with the
reason "chassis not ready". -/
theorem C18_missing_input_publishes_not_ready_witness :
    PublishesNotReady (Sample.planning_env true true) Sample.planning
      { Sample.adapters with chassis := [] } 100 101 "chassis not ready" :=
  (C18_missing_input_publishes_not_ready (Sample.planning_env true true) Sample.planning
    { Sample.adapters with chassis := [] } 100 101).2.1 (by decide) rfl

end Planning

/-! ## Theorems: EM planner -/

namespace EMPlanner

/-- The loop over the optimizers logs every optimizer, whatever its `Optimize` returns. -/
theorem optimize_loop_log (env : EMPlannerEnv) :
    ∀ (optimizers : List Optimizer) (planning_data : PlanningData) (trajectory_pb : ADCTrajectory)
      (log : List String) (r : PlanningData × ADCTrajectory × List String),
      optimize_loop env optimizers planning_data trajectory_pb log = some r →
      r.2.2 = log ++ optimizers.map (fun o => o.name) := by
  intro optimizers
  induction optimizers with
  | nil =>
    intro planning_data trajectory_pb log r h
    simp only [optimize_loop, Option.some.injEq] at h
    subst h
    simp
  | cons o rest ih =>
    intro planning_data trajectory_pb log r h
    simp only [optimize_loop] at h
    split at h
    · split at h
      · exact absurd h (by simp)
      · split at h
        · rw [ih _ _ _ _ h]; simp
        · rw [ih _ _ _ _ h]; simp
    · rw [ih _ _ _ _ h]; simp

/-- The status of `EMPlanner::Plan` is `OK` or the error of the aggregation, and every
optimizer has been run when it returns. -/
theorem Plan_status (env : EMPlannerEnv) (planner : EMPlanner) (start_point : TrajectoryPoint)
    (frame : Frame) (trajectory_pb : ADCTrajectory)
    (r : Status × Frame × ADCTrajectory × List String)
    (h : Plan env planner start_point frame trajectory_pb = some r) :
    (r.1 = Status.OK ∨ r.1 = ⟨ErrorCode.PLANNING_ERROR, "Fail to aggregate planning trajectory."⟩)
      ∧ r.2.2.2 = planner.optimizers_.map (fun o => o.name) := by
  unfold Plan at h
  dsimp only at h
  split at h
  · exact absurd h (by simp)
  · rename_i planning_data pb log hloop
    have hlog := optimize_loop_log env _ _ _ _ _ hloop
    simp only [List.nil_append] at hlog
    split at h
    · simp only [Option.some.injEq] at h
      subst h
      exact ⟨Or.inr rfl, hlog⟩
    · simp only [Option.some.injEq] at h
      subst h
      exact ⟨Or.inl rfl, hlog⟩

/-- C15, at a failing input: in a chain of two optimizers whose first fails in `Optimize`
with a planning error, `EMPlanner::Plan` returns `OK`, has run the second optimizer (its name
is logged and its speed point is in the planning data) and has written two trajectory points
to the output message; the loop of `EMPlanner::Init` over the same kind of chain does return
a planning error when an `Init()` fails, and `PathOptimizer::Optimize` returns the status of
its failed `Process`. -/
theorem C15_failed_optimizer_does_not_abort_plan :
    (Sample.failing_optimizer.Optimize {}).1.code = ErrorCode.PLANNING_ERROR
      ∧ (Plan Sample.em_planner_env ⟨[Sample.failing_optimizer, Sample.speed_optimizer]⟩
            (Sample.trajectory_point 0) Sample.frame {}).map
          (fun r => (r.1, r.2.2.2, r.2.2.1.trajectory_point,
            r.2.1.planning_data_.speed_data_.speed_vector_))
        = some (Status.OK, ["DP_POLY_PATH_OPTIMIZER", "DP_ST_SPEED_OPTIMIZER"],
            [Sample.trajectory_point 0, Sample.trajectory_point (1 / 10)], [⟨0, 0, 1, 0, 0⟩])
      ∧ Init_loop [{ Sample.failing_optimizer with Init := false }, Sample.speed_optimizer]
        = ⟨ErrorCode.PLANNING_ERROR, "Init optimizer[DP_POLY_PATH_OPTIMIZER] failed."⟩
      ∧ (Sample.failing_path_optimizer.Optimize Sample.frame).1.code
        = ErrorCode.PLANNING_ERROR := by
  decide!

end EMPlanner

/-! ## Theorems: QP spline path generator -/

namespace QpSplinePathGenerator

/-- The extraction loop keeps two properties of the points pushed: the first point has
`s = 0`, and the `s` of every later point is the `s` of the point before it plus the distance
between the two. -/
theorem extract_loop_chain (ext : QpExternals) (g : QpSplinePathGenerator) (spline : Spline1d)
    (x_diff y_diff end_s s_resolution : ℚ) :
    ∀ (fuel : Nat) (s : ℚ) (path_points out : List PathPoint),
      extract_loop ext g spline x_diff y_diff end_s s_resolution fuel s path_points = some out →
      (∀ p, path_points.head? = some p → p.s = 0) →
      path_points.Chain' (fun p q => q.s = p.s + util.Distance2D ext.math p q) →
      (∀ p, out.head? = some p → p.s = 0)
        ∧ out.Chain' (fun p q => q.s = p.s + util.Distance2D ext.math p q) := by
  intro fuel
  induction fuel with
  | zero =>
    intro s path_points out h hhead hchain
    simp only [extract_loop] at h
    split_ifs at h
    simp only [Option.some.injEq] at h
    subst h
    exact ⟨hhead, hchain⟩
  | succ fuel ih =>
    intro s path_points out h hhead hchain
    simp only [extract_loop] at h
    split_ifs at h with hc
    · cases href : ReferenceLine.get_reference_point ext.math g.reference_line_ s with
      | none => rw [href] at h; simp at h
      | some ref_point =>
        rw [href] at h
        simp only at h
        split_ifs at h with hbreak
        · simp only [Option.some.injEq] at h
          subst h
          exact ⟨hhead, hchain⟩
        · refine ih _ _ _ h ?_ ?_
          · intro p hp
            cases hpp : path_points with
            | nil =>
              rw [hpp] at hp
              simp only [List.nil_append, List.head?_cons, Option.some.injEq,
                List.getLast?_nil] at hp
              rw [← hp]
              rfl
            | cons a t =>
              rw [hpp] at hp
              simp only [List.cons_append, List.head?_cons, Option.some.injEq] at hp
              exact hhead p (by rw [hpp, ← hp]; rfl)
          · rw [List.chain'_append]
            refine ⟨hchain, List.chain'_singleton _, ?_⟩
            intro x hx y hy
            simp only [List.head?_cons, Option.mem_def, Option.some.injEq] at hy
            rw [Option.mem_def] at hx
            rw [← hy, hx]
            simp [util.Distance2D, util.MakePathPoint]
    · simp only [Option.some.injEq] at h
      subst h
      exact ⟨hhead, hchain⟩

/-- What `Generate` returns with `true`: the path data given, after the setter has been given
the points of an extraction loop that started without points. -/
theorem Generate_true (ext : QpExternals) (g g2 : QpSplinePathGenerator)
    (decision_data : DecisionData) (speed_data : SpeedData) (init_point : TrajectoryPoint)
    (path_data pd : PathData)
    (h : Generate ext g decision_data speed_data init_point path_data = some (true, pd, g2)) :
    ∃ spline x_diff y_diff end_s s_resolution fuel s path_points,
      extract_loop ext g2 spline x_diff y_diff end_s s_resolution fuel s [] = some path_points
        ∧ pd = ext.PathData_set_discretized_path path_data path_points := by
  unfold Generate at h
  dsimp only at h
  repeat' split at h
  all_goals first
    | (simp only [Option.some.injEq, Prod.mk.injEq, true_and] at h
       obtain ⟨hpd, hg⟩ := h
       subst hg
       rename_i hloop
       exact ⟨_, _, _, _, _, _, _, _, hloop, hpd.symm⟩)
    | (simp at h)

/-- C13: whenever `QpSplinePathGenerator::Generate` returns `false`, the path data it leaves
are the path data it was given. -/
theorem C13_failed_generate_leaves_path_data (ext : QpExternals) (g g2 : QpSplinePathGenerator)
    (decision_data : DecisionData) (speed_data : SpeedData) (init_point : TrajectoryPoint)
    (path_data pd : PathData)
    (h : Generate ext g decision_data speed_data init_point path_data = some (false, pd, g2)) :
    pd = path_data := by
  unfold Generate at h
  dsimp only at h
  repeat' split at h
  all_goals first
    | (simp only [Option.some.injEq, Prod.mk.injEq, true_and] at h
       exact h.1.symm)
    | (simp at h)

/-- C13 at the sample generator with a solver that fails: `Generate` returns `false` and the
path data are the six sample points it was given; likewise for a start point beyond the end of
the line, whose projection fails. -/
theorem C13_failed_generate_leaves_path_data_witness :
    (Generate (Sample.qp_ext false) Sample.generator {} {} Sample.init_point
          Sample.path_data).map (fun r => (r.1, r.2.1))
        = some (false, Sample.path_data)
      ∧ (Generate (Sample.qp_ext true) Sample.generator {} {}
            { Sample.init_point with path_point := ⟨25, 0, 0, 0, 0⟩ } Sample.path_data).map
          (fun r => (r.1, r.2.1))
        = some (false, Sample.path_data) := by
  refine ⟨?_, by decide!⟩
  cases hr : Generate (Sample.qp_ext false) Sample.generator {} {} Sample.init_point
    Sample.path_data with
  | none =>
    have : (Generate (Sample.qp_ext false) Sample.generator {} {} Sample.init_point
      Sample.path_data).isSome = true := by decide!
    rw [hr] at this
    exact absurd this (by simp)
  | some r =>
    obtain ⟨ok, pd, g2⟩ := r
    have hok : (Generate (Sample.qp_ext false) Sample.generator {} {} Sample.init_point
      Sample.path_data).map (fun r => r.1) = some false := by decide!
    rw [hr] at hok
    simp only [Option.map_some', Option.some.injEq] at hok
    subst hok
    rw [C13_failed_generate_leaves_path_data _ _ _ _ _ _ _ _ hr]
    rfl

/-- C14, counterexample: on the line that turns around the origin at radius 1, from a start
point at the origin (lateral offset 1), `Generate` succeeds and writes two path points, both
at the origin; their distance is `0`, and the second point has the arc length `0` of the
first. -/
theorem C14_path_through_turn_centre_repeats_arc_length :
    (Generate Sample.qp_ext_turn Sample.generator_turn {} {} Sample.init_point_turn
          Sample.path_data).map (fun r => (r.1, r.2.1.discretized_path))
        = some (true, [⟨0, 0, 1, 1, 0⟩, ⟨0, 0, 2, 1, 0⟩])
      ∧ util.Distance2D Sample.qp_ext_turn.math ⟨0, 0, 1, 1, 0⟩ ⟨0, 0, 2, 1, 0⟩ = 0
      ∧ ¬ (0 : ℚ) < 0 := by
  decide!

/-- C14, amended: a successful `Generate` leaves the path data that `set_discretized_path`
makes of a list of path points in which the first point has `s = 0` and the `s` of each later
point is the `s` of the point before it plus `Distance2D` of the two; with a distance function
that is never negative the arc length never decreases, and with one that is `0` only between
points of equal position it increases between every two consecutive points of different
position. -/
theorem C14_arc_length_never_decreases (ext : QpExternals) (g g2 : QpSplinePathGenerator)
    (decision_data : DecisionData) (speed_data : SpeedData) (init_point : TrajectoryPoint)
    (path_data pd : PathData)
    (h : Generate ext g decision_data speed_data init_point path_data = some (true, pd, g2)) :
    ∃ path_points, pd = ext.PathData_set_discretized_path path_data path_points
      ∧ (∀ p, path_points.head? = some p → p.s = 0)
      ∧ path_points.Chain' (fun p q => q.s = p.s + util.Distance2D ext.math p q)
      ∧ ((∀ a b, 0 ≤ ext.math.hypot a b) → path_points.Chain' (fun p q => p.s ≤ q.s))
      ∧ ((∀ a b, 0 ≤ ext.math.hypot a b) →
          (∀ a b, ext.math.hypot a b = 0 → a = 0 ∧ b = 0) →
          path_points.Chain' (fun p q => (p.x ≠ q.x ∨ p.y ≠ q.y) → p.s < q.s)) := by
  obtain ⟨spline, x_diff, y_diff, end_s, s_resolution, fuel, s, path_points, hloop, hpd⟩ :=
    Generate_true ext g g2 decision_data speed_data init_point path_data pd h
  obtain ⟨hhead, hchain⟩ := extract_loop_chain ext g2 spline x_diff y_diff end_s s_resolution
    fuel s [] path_points hloop (by intro p hp; simp at hp) List.chain'_nil
  refine ⟨path_points, hpd, hhead, hchain, ?_, ?_⟩
  · intro hnonneg
    refine List.Chain'.imp ?_ hchain
    intro p q hpq
    rw [hpq]
    exact le_add_of_nonneg_right (hnonneg _ _)
  · intro hnonneg hzero
    refine List.Chain'.imp ?_ hchain
    intro p q hpq hne
    rw [hpq]
    refine lt_add_of_pos_right _ (lt_of_le_of_ne (hnonneg _ _) ?_)
    intro h0
    obtain ⟨hx, hy⟩ := hzero _ _ h0.symm
    rcases hne with hne | hne
    · exact hne (sub_eq_zero.mp hx)
    · exact hne (sub_eq_zero.mp hy)

/-- C14, amended, at the sample generator on the straight line: `Generate` succeeds with four
points of arc lengths `0`, `5/2`, `5` and `15/2`, which never decrease. -/
theorem C14_arc_length_never_decreases_witness :
    ∃ pd g2, Generate (Sample.qp_ext true) Sample.generator {} {} Sample.init_point
          Sample.path_data = some (true, pd, g2)
      ∧ pd.discretized_path.map (fun p => p.s) = [0, 5 / 2, 5, 15 / 2]
      ∧ pd.discretized_path.Chain' (fun p q => p.s ≤ q.s) := by
  obtain ⟨⟨ok, pd, g2⟩, hr, hf⟩ := Option.map_eq_some'.mp
    (by decide! : (Generate (Sample.qp_ext true) Sample.generator {} {} Sample.init_point
        Sample.path_data).map (fun r => (r.1, r.2.1.discretized_path.map (fun p => p.s)))
      = some (true, [0, 5 / 2, 5, 15 / 2]))
  simp only [Prod.mk.injEq] at hf
  obtain ⟨hok, hs⟩ := hf
  subst hok
  obtain ⟨path_points, hpd, _, _, hmono, _⟩ :=
    C14_arc_length_never_decreases (Sample.qp_ext true) Sample.generator g2 {} {}
      Sample.init_point Sample.path_data pd hr
  refine ⟨pd, g2, hr, hs, ?_⟩
  have hpts : pd.discretized_path = path_points := by rw [hpd]; rfl
  rw [hpts]
  exact hmono (by
    intro a b
    simp only [Sample.qp_ext, Sample.math]
    exact le_max_of_le_left (abs_nonneg a))

end QpSplinePathGenerator

/-! ## Theorems: the path generator returns -/

namespace ReferenceLine

/-- The lower bound of a value that is not above the last element is an index of the list. -/
theorem lower_bound_lt_length :
    ∀ (acc : List ℚ) (back s : ℚ), acc.getLast? = some back → ¬ s > back →
      lower_bound acc s < acc.length := by
  intro acc
  induction acc with
  | nil => intro back s hb; simp at hb
  | cons a t ih =>
    intro back s hb hs
    cases t with
    | nil =>
      simp at hb
      subst hb
      simp [lower_bound, List.takeWhile, not_lt.mpr (not_lt.mp hs)]
    | cons b t2 =>
      rw [List.getLast?_cons_cons] at hb
      have := ih back s hb hs
      simp only [lower_bound] at this ⊢
      by_cases ha : a < s
      · simp only [List.takeWhile, ha, decide_True, List.length_cons]
        exact Nat.succ_lt_succ this
      · simp [List.takeWhile, ha]

/-- On a line with as many reference points as accumulated `s` values, and at least one,
`get_reference_point(s)` reads no missing element. -/
theorem get_reference_point_some (ml : MathLib) (rl : ReferenceLine)
    (hacc : rl.reference_map_line_.accumulated_s ≠ [])
    (hlen : rl.reference_points_.length = rl.reference_map_line_.accumulated_s.length)
    (s : ℚ) : ∃ p, get_reference_point ml rl s = some p := by
  obtain ⟨front, hfront⟩ : ∃ front, rl.reference_map_line_.accumulated_s.head? = some front := by
    cases h : rl.reference_map_line_.accumulated_s with
    | nil => exact absurd h hacc
    | cons a t => exact ⟨a, rfl⟩
  obtain ⟨back, hback⟩ : ∃ back, rl.reference_map_line_.accumulated_s.getLast? = some back := by
    cases h : rl.reference_map_line_.accumulated_s.getLast? with
    | none => exact absurd (List.getLast?_eq_none_iff.mp h) hacc
    | some b => exact ⟨b, rfl⟩
  have hpts : rl.reference_points_ ≠ [] := by
    intro h
    rw [h] at hlen
    exact hacc (List.length_eq_zero.mp hlen.symm)
  obtain ⟨first, hfirst⟩ : ∃ first, rl.reference_points_.head? = some first := by
    cases h : rl.reference_points_ with
    | nil => exact absurd h hpts
    | cons a t => exact ⟨a, rfl⟩
  obtain ⟨last, hlast⟩ : ∃ last, rl.reference_points_.getLast? = some last := by
    cases h : rl.reference_points_.getLast? with
    | none => exact absurd (List.getLast?_eq_none_iff.mp h) hpts
    | some b => exact ⟨b, rfl⟩
  unfold get_reference_point
  simp only [hfront, hback, hfirst, hlast]
  split_ifs with h1 h2 h3 h4 h5
  · exact ⟨_, rfl⟩
  · exact ⟨_, rfl⟩
  · exact ⟨_, rfl⟩
  · exact ⟨_, rfl⟩
  · exact ⟨_, rfl⟩
  · have hidx := lower_bound_lt_length _ back s hback h3
    have hidx1 : lower_bound rl.reference_map_line_.accumulated_s s - 1
        < rl.reference_map_line_.accumulated_s.length := lt_of_le_of_lt (Nat.sub_le _ _) hidx
    rw [List.get?_eq_get (hlen ▸ hidx1), List.get?_eq_get (hlen ▸ hidx),
      List.get?_eq_get hidx1, List.get?_eq_get hidx]
    exact ⟨_, rfl⟩

end ReferenceLine

namespace QpSplinePathGenerator

/-- The loop `push_steps` adds `count` values. -/
theorem push_steps_length :
    ∀ (count : Nat) (curr delta : ℚ) (values : List ℚ),
      (push_steps count curr delta values).length = values.length + count := by
  intro count
  induction count with
  | zero => intro curr delta values; simp [push_steps]
  | succ n ih =>
    intro curr delta values
    simp only [push_steps]
    rw [ih]
    simp
    omega

/-- With a comparison that is negative only for a smaller first argument, the extraction loop
ends within `num_output + 1` rounds: in round `k ≤ num_output`, at `init_s + k * s_resolution`
with the fuel `num_output + 1 - k`, it returns, `s_resolution` being
`(end_s - init_s) / num_output`. -/
theorem extract_loop_some (ext : QpExternals) (g : QpSplinePathGenerator) (spline : Spline1d)
    (x_diff y_diff end_s init_s : ℚ) (n : Nat) (hn : 0 < n)
    (hcmp : ∀ a b, ext.Double_compare a b < 0 → a < b)
    (href : ∀ s, ∃ p, ReferenceLine.get_reference_point ext.math g.reference_line_ s = some p) :
    ∀ (fuel k : Nat) (path_points : List PathPoint), fuel + k = n + 1 → k ≤ n →
      ∃ out, extract_loop ext g spline x_diff y_diff end_s ((end_s - init_s) / n) fuel
        (init_s + k * ((end_s - init_s) / n)) path_points = some out := by
  have hn0 : (n : ℚ) ≠ 0 := Nat.cast_ne_zero.mpr (Nat.pos_iff_ne_zero.mp hn)
  intro fuel
  induction fuel with
  | zero => intro k path_points hk hkn; omega
  | succ fuel ih =>
    intro k path_points hk hkn
    simp only [extract_loop]
    split_ifs with hc
    · obtain ⟨p, hp⟩ := href (init_s + k * ((end_s - init_s) / n))
      rw [hp]
      simp only
      split_ifs with hbreak
      · exact ⟨_, rfl⟩
      · have hstep : init_s + (k : ℚ) * ((end_s - init_s) / n) + (end_s - init_s) / n
            = init_s + ((k + 1 : ℕ) : ℚ) * ((end_s - init_s) / n) := by
          push_cast
          ring
        rw [hstep]
        refine ih (k + 1) _ (by omega) ?_
        by_contra hcon
        have hkeq : k = n := by omega
        have hlt := hcmp _ _ hc
        rw [hkeq, mul_div_cancel₀ _ hn0] at hlt
        linarith
    · exact ⟨_, rfl⟩

/-- The function `InitSpline` returns, keeps the reference line, the configuration and the
initial Frenet point, and leaves a spline generator and knots when it returns `true`. -/
theorem InitSpline_spec (ext : QpExternals) (g : QpSplinePathGenerator)
    (init_frenet_point : FrenetFramePoint) (start_s end_s : ℚ) :
    ∃ ok g2, InitSpline ext g init_frenet_point start_s end_s = some (ok, g2)
      ∧ g2.reference_line_ = g.reference_line_
      ∧ g2.qp_spline_path_config_ = g.qp_spline_path_config_
      ∧ g2.init_frenet_point_ = g.init_frenet_point_
      ∧ (ok = true → g2.spline_generator_ ≠ none ∧ g2.knots_ ≠ []) := by
  unfold InitSpline
  dsimp only
  generalize (if _ > ext.FLAGS_planning_distance then ext.FLAGS_planning_distance
    else min g.reference_line_.reference_map_line_.length end_s - init_frenet_point.s)
      / (g.qp_spline_path_config_.number_of_knots : ℚ) = delta_s
  by_cases h1 : g.qp_spline_path_config_.number_of_knots ≤ 1
  · rw [if_pos h1]
    exact ⟨false, g, rfl, rfl, rfl, rfl, fun h => absurd h (by simp)⟩
  · rw [if_neg h1]
    by_cases h2 : g.qp_spline_path_config_.number_of_fx_constraint_knots ≤ 2
    · rw [if_pos h2]
      exact ⟨false, _, rfl, rfl, rfl, rfl, fun h => absurd h (by simp)⟩
    · rw [if_neg h2]
      generalize hk : push_steps (g.qp_spline_path_config_.number_of_knots + 1)
        init_frenet_point.s delta_s g.knots_ = knots
      have hlen : knots.length
          = g.knots_.length + (g.qp_spline_path_config_.number_of_knots + 1) := by
        rw [← hk, push_steps_length]
      cases hkn : knots with
      | nil => rw [hkn] at hlen; simp at hlen; omega
      | cons a t =>
        obtain ⟨back, hback⟩ : ∃ back, (a :: t).getLast? = some back := by
          cases h : (a :: t).getLast? with
          | none => exact absurd (List.getLast?_eq_none_iff.mp h) (by simp)
          | some b => exact ⟨b, rfl⟩
        simp only [List.head?_cons, hback]
        exact ⟨true, _, rfl, rfl, rfl, rfl, fun _ => ⟨by simp, by simp⟩⟩

/-- The function `AddConstraint` returns on a generator with a spline generator and knots,
and keeps the reference line, the configuration, the initial Frenet point and the presence of
the spline generator. -/
theorem AddConstraint_spec (ext : QpExternals) (g : QpSplinePathGenerator)
    (qp_frenet_frame : QpFrenetFrame) (hgen : g.spline_generator_ ≠ none)
    (hknots : g.knots_ ≠ []) :
    ∃ ok g2, AddConstraint ext g qp_frenet_frame = some (ok, g2)
      ∧ g2.reference_line_ = g.reference_line_
      ∧ g2.qp_spline_path_config_ = g.qp_spline_path_config_
      ∧ g2.init_frenet_point_ = g.init_frenet_point_
      ∧ g2.spline_generator_ ≠ none := by
  unfold AddConstraint
  cases hg : g.spline_generator_ with
  | none => exact absurd hg hgen
  | some gen =>
    cases hb : g.knots_.getLast? with
    | none => exact absurd (List.getLast?_eq_none_iff.mp hb) hknots
    | some back =>
      dsimp only
      split_ifs
      · exact ⟨false, _, rfl, rfl, rfl, rfl, by simp⟩
      · exact ⟨false, _, rfl, rfl, rfl, rfl, by simp⟩
      · exact ⟨true, _, rfl, rfl, rfl, rfl, by simp⟩

/-- The function `AddKernel` returns `true` on a generator with a spline generator, and keeps
the reference line, the configuration, the initial Frenet point and the presence of the spline
generator. -/
theorem AddKernel_spec (g : QpSplinePathGenerator) (hgen : g.spline_generator_ ≠ none) :
    ∃ g2, AddKernel g = some (true, g2)
      ∧ g2.reference_line_ = g.reference_line_
      ∧ g2.qp_spline_path_config_ = g.qp_spline_path_config_
      ∧ g2.init_frenet_point_ = g.init_frenet_point_
      ∧ g2.spline_generator_ ≠ none := by
  unfold AddKernel
  cases hg : g.spline_generator_ with
  | none => exact absurd hg hgen
  | some gen => exact ⟨_, rfl, rfl, rfl, rfl, by simp⟩

/-- The function `Generate` returns: on a reference line with as many points as accumulated
`s` values, and at least one, with at least one output point asked for and a comparison that
is negative only for a smaller first argument, the result is a flag with path data and a
generator. -/
theorem Generate_some (ext : QpExternals) (g : QpSplinePathGenerator)
    (decision_data : DecisionData) (speed_data : SpeedData) (init_point : TrajectoryPoint)
    (path_data : PathData)
    (hacc : g.reference_line_.reference_map_line_.accumulated_s ≠ [])
    (hlen : g.reference_line_.reference_points_.length
      = g.reference_line_.reference_map_line_.accumulated_s.length)
    (hout : 0 < g.qp_spline_path_config_.num_output)
    (hcmp : ∀ a b, ext.Double_compare a b < 0 → a < b) :
    ∃ r, Generate ext g decision_data speed_data init_point path_data = some r := by
  have href : ∀ s, ∃ p,
      ReferenceLine.get_reference_point ext.math g.reference_line_ s = some p :=
    ReferenceLine.get_reference_point_some ext.math g.reference_line_ hacc hlen
  unfold Generate
  have hinit : ∃ r, CalculateInitFrenetPoint ext g init_point g.init_frenet_point_ = some r := by
    unfold CalculateInitFrenetPoint
    split
    · exact ⟨_, rfl⟩
    · rename_i sl _
      obtain ⟨p, hp⟩ := href sl.s
      rw [hp]
      exact ⟨_, rfl⟩
  obtain ⟨⟨ok0, ifp⟩, hinit⟩ := hinit
  rw [hinit]
  cases ok0 with
  | false => exact ⟨_, rfl⟩
  | true =>
    dsimp only
    split_ifs with hfr
    · exact ⟨_, rfl⟩
    · simp only [InitCoordRange]
      obtain ⟨ok1, g1, h1, hrl1, hcfg1, hifp1, hok1⟩ := InitSpline_spec ext
        { g with init_frenet_point_ := ifp } ifp (max (ifp.s - 5) 0)
        (min (ext.QpFrenetFrame_feasible_longitudinal_upper_bound
            { reference_line := g.reference_line_, decision_data := decision_data,
              speed_data := speed_data, init_frenet_point := ifp, start_s := ifp.s,
              end_s := min g.reference_line_.length (ifp.s + ext.FLAGS_planning_distance),
              time_resolution := g.qp_spline_path_config_.time_resolution,
              num_points := g.qp_spline_path_config_.num_output })
          (min g.reference_line_.length (ifp.s + ext.FLAGS_planning_distance)) - 1 / 10)
      rw [h1]
      cases ok1 with
      | false => exact ⟨_, rfl⟩
      | true =>
        obtain ⟨hgen1, hknots1⟩ := hok1 rfl
        dsimp only
        obtain ⟨ok2, g2, h2, hrl2, hcfg2, hifp2, hgen2⟩ := AddConstraint_spec ext g1
          { reference_line := g.reference_line_, decision_data := decision_data,
            speed_data := speed_data, init_frenet_point := ifp, start_s := ifp.s,
            end_s := min g.reference_line_.length (ifp.s + ext.FLAGS_planning_distance),
            time_resolution := g.qp_spline_path_config_.time_resolution,
            num_points := g.qp_spline_path_config_.num_output } hgen1 hknots1
        rw [h2]
        cases ok2 with
        | false => exact ⟨_, rfl⟩
        | true =>
          dsimp only
          obtain ⟨g3, h3, hrl3, hcfg3, hifp3, hgen3⟩ := AddKernel_spec g2 hgen2
          rw [h3]
          dsimp only
          have hsolve : ∃ r, Solve ext g3 = some r := by
            unfold Solve
            cases hg : g3.spline_generator_ with
            | none => exact absurd hg hgen3
            | some gen => exact ⟨_, rfl⟩
          obtain ⟨r, hr⟩ := hsolve
          rw [hr]
          cases r with
          | none => exact ⟨_, rfl⟩
          | some spline =>
            dsimp only
            have hrl : g3.reference_line_ = g.reference_line_ := by
              rw [hrl3, hrl2, hrl1]
            have hcfg : g3.qp_spline_path_config_ = g.qp_spline_path_config_ := by
              rw [hcfg3, hcfg2, hcfg1]
            have href3 : ∀ s, ∃ p,
                ReferenceLine.get_reference_point ext.math g3.reference_line_ s = some p := by
              rw [hrl]; exact href
            obtain ⟨p, hp⟩ := href3 g3.init_frenet_point_.s
            rw [hp]
            dsimp only
            have hout3 : 0 < g3.qp_spline_path_config_.num_output := by rw [hcfg]; exact hout
            rw [if_neg (Nat.pos_iff_ne_zero.mp hout3)]
            obtain ⟨out, hloop⟩ := extract_loop_some ext g3 spline
              ((ext.calculate_xypoint p.heading ⟨p.x, p.y⟩
                (spline.value g3.init_frenet_point_.s)).x - init_point.path_point.x)
              ((ext.calculate_xypoint p.heading ⟨p.x, p.y⟩
                (spline.value g3.init_frenet_point_.s)).y - init_point.path_point.y)
              (min (ext.QpFrenetFrame_feasible_longitudinal_upper_bound
                  { reference_line := g.reference_line_, decision_data := decision_data,
                    speed_data := speed_data, init_frenet_point := ifp, start_s := ifp.s,
                    end_s := min g.reference_line_.length (ifp.s + ext.FLAGS_planning_distance),
                    time_resolution := g.qp_spline_path_config_.time_resolution,
                    num_points := g.qp_spline_path_config_.num_output })
                (min g.reference_line_.length (ifp.s + ext.FLAGS_planning_distance)))
              g3.init_frenet_point_.s g3.qp_spline_path_config_.num_output hout3 hcmp href3
              (g3.qp_spline_path_config_.num_output + 1) 0 [] (by omega) (by omega)
            simp only [Nat.cast_zero, zero_mul, add_zero] at hloop
            rw [hloop]
            exact ⟨_, rfl⟩

end QpSplinePathGenerator

/-! ## Theorems: ST-boundary mapper, vertices of the mapped boundaries -/

namespace StBoundaryMapper

/-- A built boundary has the type, id and characteristic length given, and, the polygon
constructor keeping its vertices, the vertices given, with `t` as `x` and `s` as `y`. -/
theorem built_spec (ext : Externals) (vertices : List STPoint) (type : BoundaryType)
    (id : String) (len : ℚ) (b : StGraphBoundary)
    (h : StGraphBoundary.built ext vertices type id len = some b) :
    b.boundary_type = type ∧ b.id = id ∧ b.characteristic_length_ = len
      ∧ vertices.length = 4
      ∧ b.toPolygon2d = ext.Polygon2d_ctor (vertices.map STPoint.toVec2d)
      ∧ (KeepsVertices ext → b.points = vertices.map STPoint.toVec2d) := by
  unfold StGraphBoundary.built StGraphBoundary.ctor_STPoints at h
  split_ifs at h with hlen
  · simp only [Option.map_some', Option.some.injEq] at h
    subst h
    have hp := (StGraphBoundary.extend_STPoints_fixed vertices
      { ext.StGraphBoundary_default with
        toPolygon2d := ext.Polygon2d_ctor (vertices.map STPoint.toVec2d) }).1
    refine ⟨rfl, rfl, rfl, hlen, hp, ?_⟩
    intro hk
    show (StGraphBoundary.extend_STPoints _ vertices).toPolygon2d.points = _
    rw [hp]
    exact hk _
  · simp at h

/-- Four vertices always build a boundary. -/
theorem built_some (ext : Externals) (p0 p1 p2 p3 : STPoint) (type : BoundaryType)
    (id : String) (len : ℚ) :
    ∃ b, StGraphBoundary.built ext [p0, p1, p2, p3] type id len = some b := by
  obtain ⟨b0, hb0⟩ := ctor_STPoints_of_length ext [p0, p1, p2, p3] rfl
  exact ⟨_, by unfold StGraphBoundary.built; rw [hb0]; rfl⟩

/-- C21: on a path with Frenet points and for a stop obstacle that starts at or before the
last of them, with `obstacle_point` the path point of its `start_s`,
`s_min = obstacle_point.s + stop.distance_s - front_edge_to_center - decision_valid_stop_range`
and `s_max = max(s_min, planning_distance, reference line length)`: `MapStopDecision` returns
`false` when `s_min < 0`, and otherwise `true` with the boundary of the vertices `(s_min, 0)`,
`(s_min, planning_time)`, `(s_max + boundary_buffer, planning_time)`, `(s_max, 0)`, of type
`STOP`, with the id of the obstacle and the boundary buffer as characteristic length. The
result is the same for every path obstacle of the same `start_s` and id, whatever its
obstacle. An obstacle that starts beyond the last Frenet point leaves the boundary as given,
with `true`. -/
theorem C21_stop_boundary_is_vertical_wall (ext : Externals) (m : StBoundaryMapper)
    (stop_obstacle : PathObstacle) (stop_decision : ObjectDecisionType)
    (boundary : StGraphBoundary) (frenet_back : FrenetFramePoint)
    (hback : m.path_data_.frenet_frame_path.getLast? = some frenet_back) :
    (stop_obstacle.perception_sl_boundary.start_s > frenet_back.s →
        MapStopDecision ext m stop_obstacle stop_decision boundary = some (true, boundary))
      ∧ (∀ obstacle_point : PathPoint,
          ¬ stop_obstacle.perception_sl_boundary.start_s > frenet_back.s →
          ext.PathData_GetPathPointWithRefS m.path_data_
            stop_obstacle.perception_sl_boundary.start_s = some obstacle_point →
          (obstacle_point.s + stop_decision.get_stop.distance_s
                - m.vehicle_param_.front_edge_to_center - ext.FLAGS_decision_valid_stop_range < 0 →
              MapStopDecision ext m stop_obstacle stop_decision boundary = some (false, boundary))
          ∧ (¬ obstacle_point.s + stop_decision.get_stop.distance_s
                - m.vehicle_param_.front_edge_to_center - ext.FLAGS_decision_valid_stop_range < 0 →
              ∃ b, MapStopDecision ext m stop_obstacle stop_decision boundary = some (true, b)
                ∧ StGraphBoundary.built ext
                    [⟨obstacle_point.s + stop_decision.get_stop.distance_s
                        - m.vehicle_param_.front_edge_to_center
                        - ext.FLAGS_decision_valid_stop_range, 0⟩,
                      ⟨obstacle_point.s + stop_decision.get_stop.distance_s
                        - m.vehicle_param_.front_edge_to_center
                        - ext.FLAGS_decision_valid_stop_range, m.planning_time_⟩,
                      ⟨max (obstacle_point.s + stop_decision.get_stop.distance_s
                          - m.vehicle_param_.front_edge_to_center
                          - ext.FLAGS_decision_valid_stop_range)
                          (max m.planning_distance_ m.reference_line_.length)
                        + m.st_boundary_config_.boundary_buffer, m.planning_time_⟩,
                      ⟨max (obstacle_point.s + stop_decision.get_stop.distance_s
                          - m.vehicle_param_.front_edge_to_center
                          - ext.FLAGS_decision_valid_stop_range)
                          (max m.planning_distance_ m.reference_line_.length), 0⟩]
                    BoundaryType.STOP stop_obstacle.Id m.st_boundary_config_.boundary_buffer
                  = some b
                ∧ b.boundary_type = BoundaryType.STOP ∧ b.id = stop_obstacle.Id
                ∧ (KeepsVertices ext →
                    b.points
                      = [⟨0, obstacle_point.s + stop_decision.get_stop.distance_s
                            - m.vehicle_param_.front_edge_to_center
                            - ext.FLAGS_decision_valid_stop_range⟩,
                          ⟨m.planning_time_, obstacle_point.s + stop_decision.get_stop.distance_s
                            - m.vehicle_param_.front_edge_to_center
                            - ext.FLAGS_decision_valid_stop_range⟩,
                          ⟨m.planning_time_,
                            max (obstacle_point.s + stop_decision.get_stop.distance_s
                              - m.vehicle_param_.front_edge_to_center
                              - ext.FLAGS_decision_valid_stop_range)
                              (max m.planning_distance_ m.reference_line_.length)
                            + m.st_boundary_config_.boundary_buffer⟩,
                          ⟨0, max (obstacle_point.s + stop_decision.get_stop.distance_s
                              - m.vehicle_param_.front_edge_to_center
                              - ext.FLAGS_decision_valid_stop_range)
                              (max m.planning_distance_ m.reference_line_.length)⟩])))
      ∧ (∀ other : PathObstacle,
          other.perception_sl_boundary.start_s = stop_obstacle.perception_sl_boundary.start_s →
          other.Id = stop_obstacle.Id →
          MapStopDecision ext m other stop_decision boundary
            = MapStopDecision ext m stop_obstacle stop_decision boundary) := by
  refine ⟨?_, ?_, ?_⟩
  · intro h
    unfold MapStopDecision
    simp only [hback, h, if_true]
  · intro obstacle_point hin hpoint
    generalize hs : obstacle_point.s + stop_decision.get_stop.distance_s
      - m.vehicle_param_.front_edge_to_center - ext.FLAGS_decision_valid_stop_range = s_min
    constructor
    · intro hneg
      unfold MapStopDecision
      simp only [hback, hin, if_false, hpoint, hs, hneg, if_true]
    · intro hpos
      obtain ⟨b, hb⟩ := built_some ext ⟨s_min, 0⟩ ⟨s_min, m.planning_time_⟩
        ⟨max s_min (max m.planning_distance_ m.reference_line_.length)
          + m.st_boundary_config_.boundary_buffer, m.planning_time_⟩
        ⟨max s_min (max m.planning_distance_ m.reference_line_.length), 0⟩
        BoundaryType.STOP stop_obstacle.Id m.st_boundary_config_.boundary_buffer
      obtain ⟨h1, h2, _, _, _, h6⟩ := built_spec ext _ _ _ _ b hb
      refine ⟨b, ?_, hb, h1, h2, fun hk => h6 hk⟩
      unfold MapStopDecision
      simp only [hback, hin, if_false, hpoint, hs, hpos]
      unfold StGraphBoundary.built at hb
      cases hc : StGraphBoundary.ctor_STPoints ext
        [⟨s_min, 0⟩, ⟨s_min, m.planning_time_⟩,
          ⟨max s_min (max m.planning_distance_ m.reference_line_.length)
            + m.st_boundary_config_.boundary_buffer, m.planning_time_⟩,
          ⟨max s_min (max m.planning_distance_ m.reference_line_.length), 0⟩] with
      | none => rw [hc] at hb; simp at hb
      | some b0 =>
        rw [hc] at hb
        simp only [Option.map_some', Option.some.injEq] at hb
        rw [← hb]
        rfl
  · intro other h1 h2
    unfold MapStopDecision
    rw [h1, h2]

/-- C21 at the sample mapper for the stop obstacle at `s = 6` with stop distance `-1`: with
the path point of `s = 6`, front edge 1 and stop range `1/2`, the wall stands at
`s_min = 7/2` from `t = 0` to `t = 8`, and reaches up to `s_max = 20`, the length of the
reference line. -/
theorem C21_stop_boundary_is_vertical_wall_witness :
    ∃ b, MapStopDecision Sample.ext Sample.mapper Sample.stop_near
          Sample.stop_near.LongitudinalDecision Sample.default_boundary = some (true, b)
      ∧ b.boundary_type = BoundaryType.STOP ∧ b.id = "o2"
      ∧ b.points = [⟨0, 7 / 2⟩, ⟨8, 7 / 2⟩, ⟨8, 201 / 10⟩, ⟨0, 20⟩] := by
  obtain ⟨b, h1, _, h3, h4, h5⟩ :=
    ((C21_stop_boundary_is_vertical_wall Sample.ext Sample.mapper Sample.stop_near
      Sample.stop_near.LongitudinalDecision Sample.default_boundary ⟨10, 0, 0, 0⟩ rfl).2.1
      (Sample.path_point 6) (by decide!) (by decide!)).2 (by decide!)
  refine ⟨b, h1, h3, h4.trans (by decide!), ?_⟩
  rw [h5 (fun _ => rfl)]
  decide!

end StBoundaryMapper

namespace StBoundaryMapper

/-- When `GetOverlapBoundaryPoints` returns `true`, both point lists have a first and a last
point. -/
theorem GetOverlapBoundaryPoints_true (ext : Externals) (m : StBoundaryMapper)
    (path_points : List PathPoint) (obstacle : Obstacle) (pts : OverlapPoints)
    (h : GetOverlapBoundaryPoints ext m path_points obstacle = (true, pts)) :
    ∃ lower_first lower_back upper_back upper_first,
      pts.lower_points.head? = some lower_first ∧ pts.lower_points.getLast? = some lower_back
        ∧ pts.upper_points.getLast? = some upper_back
        ∧ pts.upper_points.head? = some upper_first := by
  unfold GetOverlapBoundaryPoints at h
  by_cases h0 : path_points.length = 0
  · rw [if_pos h0] at h; simp at h
  · rw [if_neg h0] at h
    generalize (if obstacle.Trajectory.length = 0 then static_overlap ext m obstacle path_points
      else trajectory_overlap ext m obstacle path_points obstacle.Trajectory ⟨[], []⟩) = found at h
    simp only [Prod.mk.injEq, Bool.and_eq_true, decide_eq_true_eq] at h
    obtain ⟨⟨hl, hu⟩, hp⟩ := h
    rw [hp] at hl hu
    obtain ⟨lf, hlf⟩ := head?_of_pos _ hl
    obtain ⟨lb, hlb⟩ := getLast?_of_pos _ hl
    obtain ⟨uf, huf⟩ := head?_of_pos _ hu
    obtain ⟨ub, hub⟩ := getLast?_of_pos _ hu
    exact ⟨lf, lb, ub, uf, hlf, hlb, hub, huf⟩

/-- What `MapWithPredictionTrajectory` builds on an overlap: the boundary of the four points
that `adjust_by_decision` makes of the buffered first and last overlap points, with the type
and the characteristic length it gives and the id of the obstacle. -/
theorem MapWithPredictionTrajectory_built (ext : Externals) (m : StBoundaryMapper)
    (po : PathObstacle) (d : ObjectDecisionType) (boundary : StGraphBoundary)
    (pts : OverlapPoints) (lower_first lower_back upper_back upper_first : STPoint)
    (hov : GetOverlapBoundaryPoints ext m m.path_data_.discretized_path po.Obstacle = (true, pts))
    (hlf : pts.lower_points.head? = some lower_first)
    (hlb : pts.lower_points.getLast? = some lower_back)
    (hub : pts.upper_points.getLast? = some upper_back)
    (huf : pts.upper_points.head? = some upper_first) :
    ∃ b, MapWithPredictionTrajectory ext m po d boundary = some (Status.OK, b)
      ∧ StGraphBoundary.built ext
          (adjust_by_decision ext m po d m.st_boundary_config_.boundary_buffer
            ⟨max 0 (lower_first.s - m.st_boundary_config_.boundary_buffer), lower_first.t⟩
            ⟨max 0 (lower_back.s - m.st_boundary_config_.boundary_buffer), lower_back.t⟩
            ⟨upper_back.s + m.st_boundary_config_.boundary_buffer
              + m.st_boundary_config_.boundary_buffer, upper_back.t⟩
            ⟨upper_first.s + m.st_boundary_config_.boundary_buffer, upper_first.t⟩).1
          (adjust_by_decision ext m po d m.st_boundary_config_.boundary_buffer
            ⟨max 0 (lower_first.s - m.st_boundary_config_.boundary_buffer), lower_first.t⟩
            ⟨max 0 (lower_back.s - m.st_boundary_config_.boundary_buffer), lower_back.t⟩
            ⟨upper_back.s + m.st_boundary_config_.boundary_buffer
              + m.st_boundary_config_.boundary_buffer, upper_back.t⟩
            ⟨upper_first.s + m.st_boundary_config_.boundary_buffer, upper_first.t⟩).2.1
          po.Obstacle.Id
          (adjust_by_decision ext m po d m.st_boundary_config_.boundary_buffer
            ⟨max 0 (lower_first.s - m.st_boundary_config_.boundary_buffer), lower_first.t⟩
            ⟨max 0 (lower_back.s - m.st_boundary_config_.boundary_buffer), lower_back.t⟩
            ⟨upper_back.s + m.st_boundary_config_.boundary_buffer
              + m.st_boundary_config_.boundary_buffer, upper_back.t⟩
            ⟨upper_first.s + m.st_boundary_config_.boundary_buffer, upper_first.t⟩).2.2
        = some b := by
  have hl : pts.lower_points.length > 0 := by
    cases hp : pts.lower_points with
    | nil => rw [hp] at hlf; simp at hlf
    | cons a t => simp
  have hu : pts.upper_points.length > 0 := by
    cases hp : pts.upper_points with
    | nil => rw [hp] at huf; simp at huf
    | cons a t => simp
  generalize hadj : adjust_by_decision ext m po d m.st_boundary_config_.boundary_buffer
    ⟨max 0 (lower_first.s - m.st_boundary_config_.boundary_buffer), lower_first.t⟩
    ⟨max 0 (lower_back.s - m.st_boundary_config_.boundary_buffer), lower_back.t⟩
    ⟨upper_back.s + m.st_boundary_config_.boundary_buffer
      + m.st_boundary_config_.boundary_buffer, upper_back.t⟩
    ⟨upper_first.s + m.st_boundary_config_.boundary_buffer, upper_first.t⟩ = adj
  have hlen : adj.1.length = 4 := by
    rw [← hadj]; exact (adjust_by_decision_spec ext m po d _ _ _ _ _).1
  obtain ⟨b0, hb0⟩ := ctor_STPoints_of_length ext adj.1 hlen
  refine ⟨_, ?_, by unfold StGraphBoundary.built; rw [hb0]; rfl⟩
  unfold MapWithPredictionTrajectory
  rw [hov]
  simp only [hl, hu, and_self, if_true, hlf, hlb, hub, huf, hadj]
  obtain ⟨pts4, ty, len⟩ := adj
  simp only at hb0 ⊢
  rw [hb0]
  rfl

/-- What `MapWithoutDecision` builds on an overlap: the boundary of the first and last
overlap points moved by the boundary buffer in `s` and in `t`, with the id of the obstacle. -/
theorem MapWithoutDecision_built (ext : Externals) (m : StBoundaryMapper)
    (po : PathObstacle) (boundary : StGraphBoundary)
    (pts : OverlapPoints) (lower_first lower_back upper_back upper_first : STPoint)
    (hov : GetOverlapBoundaryPoints ext m m.path_data_.discretized_path po.Obstacle = (true, pts))
    (hlf : pts.lower_points.head? = some lower_first)
    (hlb : pts.lower_points.getLast? = some lower_back)
    (hub : pts.upper_points.getLast? = some upper_back)
    (huf : pts.upper_points.head? = some upper_first) :
    ∃ b0, StGraphBoundary.ctor_STPoints ext
          [⟨lower_first.s - m.st_boundary_config_.boundary_buffer,
              lower_first.t - m.st_boundary_config_.boundary_buffer⟩,
            ⟨lower_back.s - m.st_boundary_config_.boundary_buffer,
              lower_back.t + m.st_boundary_config_.boundary_buffer⟩,
            ⟨upper_back.s + m.st_boundary_config_.boundary_buffer,
              upper_back.t + m.st_boundary_config_.boundary_buffer⟩,
            ⟨upper_first.s + m.st_boundary_config_.boundary_buffer,
              upper_first.t - m.st_boundary_config_.boundary_buffer⟩] = some b0
      ∧ MapWithoutDecision ext m po boundary = some (Status.OK, b0.SetId po.Obstacle.Id) := by
  have hl : pts.lower_points.length > 0 := by
    cases hp : pts.lower_points with
    | nil => rw [hp] at hlf; simp at hlf
    | cons a t => simp
  have hu : pts.upper_points.length > 0 := by
    cases hp : pts.upper_points with
    | nil => rw [hp] at huf; simp at huf
    | cons a t => simp
  obtain ⟨b0, hb0⟩ := ctor_STPoints_of_length ext
    [⟨lower_first.s - m.st_boundary_config_.boundary_buffer,
        lower_first.t - m.st_boundary_config_.boundary_buffer⟩,
      ⟨lower_back.s - m.st_boundary_config_.boundary_buffer,
        lower_back.t + m.st_boundary_config_.boundary_buffer⟩,
      ⟨upper_back.s + m.st_boundary_config_.boundary_buffer,
        upper_back.t + m.st_boundary_config_.boundary_buffer⟩,
      ⟨upper_first.s + m.st_boundary_config_.boundary_buffer,
        upper_first.t - m.st_boundary_config_.boundary_buffer⟩] rfl
  refine ⟨b0, hb0, ?_⟩
  unfold MapWithoutDecision
  rw [hov]
  simp only [hl, hu, and_self, if_true, hlf, hlb, hub, huf, hb0]

/-- C22, counterexample: at the sample mapper, for the obstacle at `s = 6` with a follow
decision of distance `-3` (overlap from `s = 6` to `s = 10`, boundary buffer `1/10`),
`MapWithPredictionTrajectory` builds a boundary whose two lower-edge vertices are at
`s = 59/10`, the buffered overlap `6 - 1/10`, not lowered by the characteristic length `4`
that it records; and `GetGraphBoundary` maps an obstacle with that decision to a boundary with
vertices at `t = 0` and `t = 8` only, none at `t = -1`. -/
theorem C22_follow_lower_edge_is_not_lowered :
    GetOverlapBoundaryPoints Sample.ext Sample.mapper Sample.mapper.path_data_.discretized_path
        Sample.undecided_ahead.Obstacle
        = (true, ⟨[⟨10, 0⟩, ⟨10, 8⟩], [⟨6, 0⟩, ⟨6, 8⟩]⟩)
      ∧ (MapWithPredictionTrajectory Sample.ext Sample.mapper Sample.undecided_ahead
            (Sample.follow_decision (-3)) Sample.default_boundary).map
          (fun r => (r.1, r.2.points, r.2.boundary_type, r.2.characteristic_length_))
        = some (Status.OK, [⟨0, 59 / 10⟩, ⟨8, 59 / 10⟩, ⟨8, 51 / 5⟩, ⟨-1, 101 / 10⟩],
            BoundaryType.FOLLOW, 4)
      ∧ (59 / 10 : ℚ) ≠ max 0 (6 - 1 / 10) - 4
      ∧ (GetGraphBoundary Sample.ext Sample.mapper
            ⟨[(Sample.undecided (Sample.static_obstacle "o7" 6 0) 6).AddDecision "dp_st"
                (Sample.follow_decision (-3))]⟩ (some [])).map
          (fun r => (r.1, r.2.map (List.map (fun b => (b.points, b.boundary_type)))))
        = some (Status.OK,
            some [([⟨0, 7 / 2⟩, ⟨8, 7 / 2⟩, ⟨8, 10⟩, ⟨0, 10⟩], BoundaryType.FOLLOW)]) := by
  decide!

/-- C22, amended: for a follow decision, (1) on an overlap `MapWithPredictionTrajectory`
builds the boundary whose lower-edge vertices are the buffered first and last lower overlap
points, `max(0, s - boundary_buffer)`, unchanged, whose fourth vertex has the time `-1`, of
type `FOLLOW`, with the characteristic length
`max(scalar_speed * minimal_follow_time, |distance_s|) + front_edge_to_center`; (2) the loop
of `GetGraphBoundary` maps an obstacle with that decision by `MapFollowDecision`; and (3) a
boundary that `MapFollowDecision` builds has its vertices at `t = 0` and `t = planning_time`,
the type `FOLLOW` and the characteristic length `|distance_s| + follow_buffer`. -/
theorem C22_follow_keeps_lower_edge (ext : Externals) (m : StBoundaryMapper)
    (po : PathObstacle) (f : ObjectFollow) (boundary : StGraphBoundary) :
    (∀ (pts : OverlapPoints) (lower_first lower_back upper_back upper_first : STPoint),
        GetOverlapBoundaryPoints ext m m.path_data_.discretized_path po.Obstacle = (true, pts) →
        pts.lower_points.head? = some lower_first → pts.lower_points.getLast? = some lower_back →
        pts.upper_points.getLast? = some upper_back → pts.upper_points.head? = some upper_first →
        ∃ b, MapWithPredictionTrajectory ext m po (ObjectDecisionType.follow f) boundary
              = some (Status.OK, b)
          ∧ StGraphBoundary.built ext
              [⟨max 0 (lower_first.s - m.st_boundary_config_.boundary_buffer), lower_first.t⟩,
                ⟨max 0 (lower_back.s - m.st_boundary_config_.boundary_buffer), lower_back.t⟩,
                ⟨upper_back.s + m.st_boundary_config_.boundary_buffer
                  + m.st_boundary_config_.boundary_buffer, upper_back.t⟩,
                ⟨upper_first.s + m.st_boundary_config_.boundary_buffer, -1⟩]
              BoundaryType.FOLLOW po.Obstacle.Id
              (max (ext.math.hypot po.Obstacle.Perception.velocity.x
                    po.Obstacle.Perception.velocity.y
                  * m.st_boundary_config_.minimal_follow_time) |f.distance_s|
                + m.vehicle_param_.front_edge_to_center)
            = some b)
      ∧ (po.HasLongitudinalDecision = true →
          po.LongitudinalDecision = ObjectDecisionType.follow f →
          ∀ sel bs, GetGraphBoundary_body ext m po sel bs
            = match MapFollowDecision ext m po (ObjectDecisionType.follow f)
                ext.StGraphBoundary_default with
              | none => none
              | some (ret, follow_boundary) =>
                if !ret.ok then
                  some (Except.error ⟨ErrorCode.PLANNING_ERROR, "Fail to map follow decision"⟩,
                    bs)
                else some (Except.ok sel, AppendBoundary ext follow_boundary bs))
      ∧ (∀ st b, MapFollowDecision ext m po (ObjectDecisionType.follow f) boundary
            = some (st, b) →
          b = boundary
            ∨ ∃ distance speed : ℚ,
                StGraphBoundary.built ext
                  [⟨distance, 0⟩, ⟨distance + m.planning_time_ * speed, m.planning_time_⟩,
                    ⟨max (distance + m.planning_time_ * speed) m.planning_distance_,
                      m.planning_time_⟩,
                    ⟨max (distance + 1) m.planning_distance_, 0⟩]
                  BoundaryType.FOLLOW po.Obstacle.Id
                  (|f.distance_s| + m.st_boundary_config_.follow_buffer)
                = some b) := by
  refine ⟨?_, ?_, ?_⟩
  · intro pts lf lb ub uf hov hlf hlb hub huf
    obtain ⟨b, h1, h2⟩ := MapWithPredictionTrajectory_built ext m po
      (ObjectDecisionType.follow f) boundary pts lf lb ub uf hov hlf hlb hub huf
    refine ⟨b, h1, ?_⟩
    rw [← h2]
    simp [adjust_by_decision, ObjectDecisionType.has_follow, ObjectDecisionType.get_follow]
  · intro h1 h2 sel bs
    unfold GetGraphBoundary_body
    rw [h1, h2]
    rfl
  · intro st b h
    unfold MapFollowDecision at h
    dsimp only at h
    cases href : m.reference_line_.get_reference_point_xy ext.math
        po.Obstacle.Perception.position.x po.Obstacle.Perception.position.y with
    | none => rw [href] at h; simp at h
    | some ref_point =>
      rw [href] at h
      dsimp only at h
      by_cases hcos : ext.math.cos
          ((ObjectDecisionType.follow f).get_follow.fence_heading - ref_point.heading) < 0
      · rw [if_pos hcos] at h
        simp only [Option.some.injEq, Prod.mk.injEq] at h
        exact Or.inl h.2.symm
      · rw [if_neg hcos] at h
        cases hstart : m.path_data_.discretized_path.head? with
        | none => rw [hstart] at h; simp at h
        | some start_point =>
          rw [hstart] at h
          dsimp only at h
          cases hsl : m.reference_line_.get_point_in_frenet_frame
              ⟨start_point.x, start_point.y⟩ with
          | none =>
            rw [hsl] at h
            simp only [Option.some.injEq, Prod.mk.injEq] at h
            exact Or.inl h.2.symm
          | some start_sl_point =>
            rw [hsl] at h
            dsimp only at h
            split_ifs at h with hfar
            · simp only [Option.some.injEq, Prod.mk.injEq] at h
              exact Or.inl h.2.symm
            · split at h
              · rename_i b0 hb0
                simp only [Option.some.injEq, Prod.mk.injEq] at h
                refine Or.inr ⟨?_, ?_, ?_⟩
                rotate_left 2
                · unfold StGraphBoundary.built
                  refine (congrArg (Option.map _) hb0).trans ?_
                  rw [← h.2]
                  rfl
              · simp at h

/-- C22, amended, at the sample mapper for the obstacle at `s = 6` with a follow decision of
distance `-3`: the boundary of `MapWithPredictionTrajectory` has the lower edge at `59/10`
and the fourth vertex at `t = -1`. -/
theorem C22_follow_keeps_lower_edge_witness :
    ∃ b, MapWithPredictionTrajectory Sample.ext Sample.mapper Sample.undecided_ahead
          (Sample.follow_decision (-3)) Sample.default_boundary = some (Status.OK, b)
      ∧ b.points = [⟨0, 59 / 10⟩, ⟨8, 59 / 10⟩, ⟨8, 51 / 5⟩, ⟨-1, 101 / 10⟩]
      ∧ b.boundary_type = BoundaryType.FOLLOW ∧ b.characteristic_length_ = 4 := by
  obtain ⟨b, h1, h2⟩ := (C22_follow_keeps_lower_edge Sample.ext Sample.mapper
    Sample.undecided_ahead ⟨-3, ⟨0, 0⟩, 0⟩ Sample.default_boundary).1
    ⟨[⟨10, 0⟩, ⟨10, 8⟩], [⟨6, 0⟩, ⟨6, 8⟩]⟩ ⟨6, 0⟩ ⟨6, 8⟩ ⟨10, 8⟩ ⟨10, 0⟩
    (by decide!) rfl rfl rfl rfl
  obtain ⟨h3, _, h5, _, _, h8⟩ := built_spec _ _ _ _ _ b h2
  refine ⟨b, h1, ?_, h3, h5.trans (by decide!)⟩
  rw [h8 (fun _ => rfl)]
  decide!

/-- C23, counterexample: at the sample mapper, for the obstacle at `s = 6` with a yield
decision of distance 8, the buffered lower overlap is `s0 = 6 - 1/10 = 59/10` and
`max(0, s0 - 8) = 0`, but the lower-edge vertices of the boundary that
`MapWithPredictionTrajectory` builds are at `s = 29/5`, which is `s0 - 1/10`. -/
theorem C23_yield_clamp_keeps_lower_edge_near_overlap :
    GetOverlapBoundaryPoints Sample.ext Sample.mapper Sample.mapper.path_data_.discretized_path
        Sample.undecided_ahead.Obstacle
        = (true, ⟨[⟨10, 0⟩, ⟨10, 8⟩], [⟨6, 0⟩, ⟨6, 8⟩]⟩)
      ∧ (MapWithPredictionTrajectory Sample.ext Sample.mapper Sample.undecided_ahead
            (Sample.yield_decision 8) Sample.default_boundary).map
          (fun r => (r.1, r.2.points, r.2.boundary_type, r.2.characteristic_length_))
        = some (Status.OK, [⟨0, 29 / 5⟩, ⟨8, 29 / 5⟩, ⟨8, 51 / 5⟩, ⟨0, 101 / 10⟩],
            BoundaryType.YIELD, 8)
      ∧ max (0 : ℚ) (max 0 (6 - 1 / 10) - 8) = 0
      ∧ (29 / 5 : ℚ) ≠ 0 := by
  decide!

/-- C23, amended: for a yield decision of distance `d = |distance_s|`, on an overlap
`MapWithPredictionTrajectory` builds the boundary of type `YIELD` with characteristic length
`d` whose upper-edge vertices are the buffered upper overlap points and whose lower-edge
vertices have, for the buffered lower overlap `s0 = max(0, s - boundary_buffer)`, the arc
length `s0 - d` when `s0 - d` is not negative, and `max(s0 - boundary_buffer, 0)` when it
is. -/
theorem C23_yield_shifts_or_clamps_lower_edge (ext : Externals) (m : StBoundaryMapper)
    (po : PathObstacle) (y : ObjectYield) (boundary : StGraphBoundary)
    (pts : OverlapPoints) (lower_first lower_back upper_back upper_first : STPoint)
    (hov : GetOverlapBoundaryPoints ext m m.path_data_.discretized_path po.Obstacle = (true, pts))
    (hlf : pts.lower_points.head? = some lower_first)
    (hlb : pts.lower_points.getLast? = some lower_back)
    (hub : pts.upper_points.getLast? = some upper_back)
    (huf : pts.upper_points.head? = some upper_first) :
    ∃ b, MapWithPredictionTrajectory ext m po (ObjectDecisionType.yield y) boundary
          = some (Status.OK, b)
      ∧ StGraphBoundary.built ext
          [⟨(if max 0 (lower_first.s - m.st_boundary_config_.boundary_buffer)
                  - |y.distance_s| < 0 then
                max (max 0 (lower_first.s - m.st_boundary_config_.boundary_buffer)
                  - m.st_boundary_config_.boundary_buffer) 0
              else max 0 (lower_first.s - m.st_boundary_config_.boundary_buffer)
                - |y.distance_s|), lower_first.t⟩,
            ⟨(if max 0 (lower_back.s - m.st_boundary_config_.boundary_buffer)
                  - |y.distance_s| < 0 then
                max (max 0 (lower_back.s - m.st_boundary_config_.boundary_buffer)
                  - m.st_boundary_config_.boundary_buffer) 0
              else max 0 (lower_back.s - m.st_boundary_config_.boundary_buffer)
                - |y.distance_s|), lower_back.t⟩,
            ⟨upper_back.s + m.st_boundary_config_.boundary_buffer
              + m.st_boundary_config_.boundary_buffer, upper_back.t⟩,
            ⟨upper_first.s + m.st_boundary_config_.boundary_buffer, upper_first.t⟩]
          BoundaryType.YIELD po.Obstacle.Id |y.distance_s|
        = some b
      ∧ b.boundary_type = BoundaryType.YIELD ∧ b.characteristic_length_ = |y.distance_s| := by
  obtain ⟨b, h1, h2⟩ := MapWithPredictionTrajectory_built ext m po
    (ObjectDecisionType.yield y) boundary pts lower_first lower_back upper_back upper_first
    hov hlf hlb hub huf
  have h3 := h2
  simp only [adjust_by_decision, ObjectDecisionType.has_follow, ObjectDecisionType.has_yield,
    ObjectDecisionType.get_yield, if_true, Bool.false_eq_true, if_false] at h3
  have e : ∀ (c : Prop) [Decidable c] (a b t : ℚ),
      (if c then (⟨a, t⟩ : STPoint) else ⟨b, t⟩) = ⟨if c then a else b, t⟩ := by
    intro c _ a b t
    split_ifs <;> rfl
  rw [e, e] at h3
  obtain ⟨h4, _, h6, _⟩ := built_spec _ _ _ _ _ b h3
  exact ⟨b, h1, h3, h4, h6⟩

/-- C23, amended, at the sample mapper for the obstacle at `s = 6`: with a yield distance 2
the lower edge moves from `59/10` to `39/10`; the upper edge stays at `51/5` and `101/10`. -/
theorem C23_yield_shifts_or_clamps_lower_edge_witness :
    ∃ b, MapWithPredictionTrajectory Sample.ext Sample.mapper Sample.undecided_ahead
          (Sample.yield_decision 2) Sample.default_boundary = some (Status.OK, b)
      ∧ b.points = [⟨0, 39 / 10⟩, ⟨8, 39 / 10⟩, ⟨8, 51 / 5⟩, ⟨0, 101 / 10⟩]
      ∧ b.boundary_type = BoundaryType.YIELD ∧ b.characteristic_length_ = 2 := by
  obtain ⟨b, h1, h2, h3, h4⟩ := C23_yield_shifts_or_clamps_lower_edge Sample.ext Sample.mapper
    Sample.undecided_ahead ⟨2, ⟨0, 0⟩, 0⟩ Sample.default_boundary
    ⟨[⟨10, 0⟩, ⟨10, 8⟩], [⟨6, 0⟩, ⟨6, 8⟩]⟩ ⟨6, 0⟩ ⟨6, 8⟩ ⟨10, 8⟩ ⟨10, 0⟩
    (by decide!) rfl rfl rfl rfl
  obtain ⟨_, _, _, _, _, h8⟩ := built_spec _ _ _ _ _ b h2
  refine ⟨b, h1, ?_, h3, h4.trans (by decide!)⟩
  rw [h8 (fun _ => rfl)]
  decide!

/-- C24, at a failing input: at the sample mapper (boundary buffer `1/10`), for the obstacle
at `s = 6`, whose upper overlap points are at `s = 10`, `MapWithoutDecision` puts the
upper-end vertex at `10 + 1/10`, but `MapWithPredictionTrajectory` (here under a yield
decision of distance 2) puts it at `51/5 = 10 + 2/10`, the buffer added twice, next to the
upper-start vertex at `10 + 1/10`. -/
theorem C24_prediction_upper_end_has_double_buffer :
    GetOverlapBoundaryPoints Sample.ext Sample.mapper Sample.mapper.path_data_.discretized_path
        Sample.undecided_ahead.Obstacle
        = (true, ⟨[⟨10, 0⟩, ⟨10, 8⟩], [⟨6, 0⟩, ⟨6, 8⟩]⟩)
      ∧ Sample.mapper.st_boundary_config_.boundary_buffer = 1 / 10
      ∧ (MapWithoutDecision Sample.ext Sample.mapper Sample.undecided_ahead
            Sample.default_boundary).map (fun r => (r.1, r.2.points))
        = some (Status.OK,
            [⟨-1 / 10, 59 / 10⟩, ⟨81 / 10, 59 / 10⟩, ⟨81 / 10, 101 / 10⟩, ⟨-1 / 10, 101 / 10⟩])
      ∧ (MapWithPredictionTrajectory Sample.ext Sample.mapper Sample.undecided_ahead
            (Sample.yield_decision 2) Sample.default_boundary).map
          (fun r => (r.1, r.2.points))
        = some (Status.OK, [⟨0, 39 / 10⟩, ⟨8, 39 / 10⟩, ⟨8, 51 / 5⟩, ⟨0, 101 / 10⟩])
      ∧ (51 / 5 : ℚ) ≠ 10 + 1 / 10 := by
  decide!

/-- C28, at a failing input: at the sample mapper, for the obstacle at `s = 6` with an
overtake decision, `MapWithPredictionTrajectory` returns `OK` with a boundary of type
`UNKNOWN`, and `GetUnblockSRange` returns `false` for it at a time at which it overlaps the
boundary; for the same obstacle with a yield decision the type is `YIELD` and
`GetUnblockSRange` returns `true`. -/
theorem C28_overtake_boundary_is_tagged_unknown :
    (MapWithPredictionTrajectory Sample.ext Sample.mapper Sample.undecided_ahead
          (Sample.overtake_decision 2) Sample.default_boundary).map
        (fun r => (r.1, r.2.boundary_type, r.2.points,
          (StGraphBoundary.GetUnblockSRange Sample.boundary_overlap r.2 1).1))
        = some (Status.OK, BoundaryType.UNKNOWN,
            [⟨0, 59 / 10⟩, ⟨8, 59 / 10⟩, ⟨8, 61 / 5⟩, ⟨0, 121 / 10⟩], false)
      ∧ (MapWithPredictionTrajectory Sample.ext Sample.mapper Sample.undecided_ahead
            (Sample.yield_decision 2) Sample.default_boundary).map
          (fun r => (r.1, r.2.boundary_type,
            (StGraphBoundary.GetUnblockSRange Sample.boundary_overlap r.2 1).1))
        = some (Status.OK, BoundaryType.YIELD, true) := by
  decide!

end StBoundaryMapper

/-! ## Theorems: ST-boundary mapper, overlap of a predicted trajectory -/

namespace StBoundaryMapper

/-- One more pass of the bracketing search from a state in which the loop condition holds and
a flag is missing. -/
theorem overlap_search_succ (overlaps : Int → Bool) (fuel : Nat) (low high : Int)
    (fl fh : Bool) (hlt : low < high) (hf : (fl && fh) = false) :
    overlap_search overlaps (fuel + 1) ⟨low, high, fl, fh⟩
      = overlap_search overlaps fuel
          (let st1 : OverlapSearch :=
            if !fl then
              if !overlaps low then ⟨low + 1, high, fl, fh⟩ else ⟨low, high, true, fh⟩
            else ⟨low, high, fl, fh⟩
          if !st1.find_high then
            if !overlaps st1.high then { st1 with high := st1.high - 1 }
            else { st1 with find_high := true }
          else st1) := by
  simp only [overlap_search, hlt, if_true, hf, Bool.false_eq_true, if_false]

/-- The bracketing search ends by its own condition when the fuel is at least the distance
of the two indices plus the number of flags not yet set: in the state it returns, `low` is
not below `high`, or both flags are set. -/
theorem overlap_search_exits (overlaps : Int → Bool) :
    ∀ (fuel : Nat) (st : OverlapSearch),
      (st.high - st.low).toNat + (if st.find_low then 0 else 1)
          + (if st.find_high then 0 else 1) ≤ fuel →
      ¬ (overlap_search overlaps fuel st).low < (overlap_search overlaps fuel st).high
        ∨ ((overlap_search overlaps fuel st).find_low = true
          ∧ (overlap_search overlaps fuel st).find_high = true) := by
  intro fuel
  induction fuel with
  | zero =>
    intro st h
    obtain ⟨low, high, fl, fh⟩ := st
    simp only [overlap_search]
    cases fl <;> cases fh <;> simp at h ⊢
  | succ fuel ih =>
    intro st h
    obtain ⟨low, high, fl, fh⟩ := st
    by_cases hlt : low < high
    · by_cases hf : (fl && fh) = true
      · right
        simp only [overlap_search, hlt, if_true, hf]
        simpa using hf
      · have hf2 : (fl && fh) = false := by simpa using hf
        rw [overlap_search_succ overlaps fuel low high fl fh hlt hf2]
        apply ih
        cases fl <;> cases fh <;> cases ho : overlaps low <;> cases hh : overlaps high <;>
          simp [ho, hh] at h hf2 ⊢ <;> omega
    · left
      simp [overlap_search, hlt]

/-- Every pass of the bracketing search keeps `SearchInvariant`. -/
theorem overlap_search_invariant (overlaps : Int → Bool) (n : Int) :
    ∀ (fuel : Nat) (st : OverlapSearch),
      SearchInvariant overlaps n st →
      SearchInvariant overlaps n (overlap_search overlaps fuel st) := by
  intro fuel
  induction fuel with
  | zero => intro st h; simpa only [overlap_search] using h
  | succ fuel ih =>
    intro st h
    obtain ⟨low, high, fl, fh⟩ := st
    by_cases hlt : low < high
    · by_cases hf : (fl && fh) = true
      · simpa only [overlap_search, hlt, if_true, hf] using h
      · have hf2 : (fl && fh) = false := by simpa using hf
        rw [overlap_search_succ overlaps fuel low high fl fh hlt hf2]
        apply ih
        obtain ⟨h0, hn, hl, hh, hbelow, habove, hboth⟩ := h
        simp only at h0 hn hl hh hbelow habove hboth
        have below1 : overlaps low = false →
            ∀ i, 0 ≤ i → i < low + 1 → overlaps i = false := by
          intro ho i hi0 hi
          rcases lt_or_ge i low with hlo | hge
          · exact hbelow i hi0 hlo
          · have : i = low := by omega
            rw [this]; exact ho
        have above1 : overlaps high = false →
            ∀ i, high - 1 < i → i < n → overlaps i = false := by
          intro ho i hi hin
          rcases lt_or_ge high i with hlo | hge
          · exact habove i hlo hin
          · have : i = high := by omega
            rw [this]; exact ho
        cases fl <;> cases fh <;> cases ho : overlaps low <;> cases hov : overlaps high <;>
          simp [ho, hov] at hf2 hl hh hboth ⊢ <;>
          unfold SearchInvariant <;> dsimp only <;>
          refine ⟨by omega, by omega, ?_, ?_, ?_, ?_, ?_⟩ <;>
          (try simp only [Bool.false_eq_true, false_implies, true_implies, implies_true]) <;>
          first
            | exact ho
            | exact hov
            | exact hbelow
            | exact habove
            | exact below1 ho
            | exact above1 hov
            | exact hlt
    · simpa [overlap_search, hlt] using h

/-- The state the bracketing search over `n` path points ends in. With both flags set, `low`
is the first and `high` the last overlapping index and they differ; otherwise no two indices
overlap. -/
theorem overlap_search_spec (overlaps : Int → Bool) (n : Nat) (st : OverlapSearch)
    (hst : st = overlap_search overlaps (n + 2) ⟨0, (n : Int) - 1, false, false⟩) :
    ((st.find_high && st.find_low) = true →
        0 ≤ st.low ∧ st.low < st.high ∧ st.high < n
          ∧ overlaps st.low = true ∧ overlaps st.high = true
          ∧ (∀ i, 0 ≤ i → i < st.low → overlaps i = false)
          ∧ (∀ i, st.high < i → i < n → overlaps i = false))
      ∧ ((st.find_high && st.find_low) = false →
        ∀ i j : Int, 0 ≤ i → i < j → j < n → ¬ (overlaps i = true ∧ overlaps j = true)) := by
  have hinv : SearchInvariant overlaps n st := by
    rw [hst]
    apply overlap_search_invariant
    refine ⟨le_refl _, by simp, by simp, by simp, ?_, ?_, by simp⟩
    · intro i h0 h1; exact absurd h1 (by simpa using h0)
    · intro i h0 h1; simp only at h0; omega
  have hexit := overlap_search_exits overlaps (n + 2) ⟨0, (n : Int) - 1, false, false⟩
    (by simp)
  rw [← hst] at hexit
  obtain ⟨h0, hn, hl, hh, hbelow, habove, hboth⟩ := hinv
  constructor
  · intro hf
    simp only [Bool.and_eq_true] at hf
    exact ⟨h0, hboth hf.2 hf.1, hn, hl hf.2, hh hf.1, hbelow, habove⟩
  · intro hf i j hi hij hj ⟨hoi, hoj⟩
    have hle : st.high ≤ st.low := by
      rcases hexit with h | h
      · omega
      · rw [h.1, h.2] at hf; simp at hf
    have h1 : st.low ≤ i := by
      by_contra hc
      have := hbelow i hi (by omega)
      rw [hoi] at this; simp at this
    have h2 : j ≤ st.high := by
      by_contra hc
      have := habove j (by omega) hj
      rw [hoj] at this; simp at this
    omega

/-- An index within the path has a path point. -/
theorem path_point_at_some (path_points : List PathPoint) (i : Int) (h0 : 0 ≤ i)
    (hn : i < path_points.length) : ∃ p, path_point_at path_points i = some p := by
  unfold path_point_at
  rw [if_pos h0]
  have : i.toNat < path_points.length := by omega
  exact ⟨path_points.get ⟨i.toNat, this⟩, List.get?_eq_get this⟩

/-- One trajectory sample in the second loop of `GetOverlapBoundaryPoints`. Either two
different path points overlap the sample's box, and the sample adds one pair of points at its
relative time, from the first and the last overlapping path point; or no two path points
overlap it, and the sample adds nothing. -/
theorem trajectory_overlap_step (ext : Externals) (m : StBoundaryMapper) (obstacle : Obstacle)
    (path_points : List PathPoint) (trajectory_point : TrajectoryPoint)
    (rest : List TrajectoryPoint) (acc : OverlapPoints) :
    (∃ (low high : Int) (p_low p_high : PathPoint), low < high
        ∧ path_point_at path_points low = some p_low
        ∧ path_point_at path_points high = some p_high
        ∧ CheckOverlap ext m p_low (ext.Obstacle_GetBoundingBox obstacle trajectory_point)
            m.st_boundary_config_.boundary_buffer = true
        ∧ CheckOverlap ext m p_high (ext.Obstacle_GetBoundingBox obstacle trajectory_point)
            m.st_boundary_config_.boundary_buffer = true
        ∧ (∀ i p, (i < low ∨ high < i) → path_point_at path_points i = some p →
            CheckOverlap ext m p (ext.Obstacle_GetBoundingBox obstacle trajectory_point)
              m.st_boundary_config_.boundary_buffer = false)
        ∧ trajectory_overlap ext m obstacle path_points (trajectory_point :: rest) acc
          = trajectory_overlap ext m obstacle path_points rest
              { lower_points := acc.lower_points ++
                  [⟨p_low.s - m.st_boundary_config_.point_extension,
                    trajectory_point.relative_time⟩]
                upper_points := acc.upper_points ++
                  [⟨p_high.s + m.st_boundary_config_.point_extension,
                    trajectory_point.relative_time⟩] })
      ∨ ((∀ (i j : Int) (p q : PathPoint), i < j →
            path_point_at path_points i = some p → path_point_at path_points j = some q →
            ¬ (CheckOverlap ext m p (ext.Obstacle_GetBoundingBox obstacle trajectory_point)
                  m.st_boundary_config_.boundary_buffer = true
              ∧ CheckOverlap ext m q (ext.Obstacle_GetBoundingBox obstacle trajectory_point)
                  m.st_boundary_config_.boundary_buffer = true))
        ∧ trajectory_overlap ext m obstacle path_points (trajectory_point :: rest) acc
          = trajectory_overlap ext m obstacle path_points rest acc) := by
  have hrange : ∀ (i : Int) (p : PathPoint), path_point_at path_points i = some p →
      0 ≤ i ∧ i < (path_points.length : Int) := by
    intro i p hp
    unfold path_point_at at hp
    by_cases h0 : 0 ≤ i
    · rw [if_pos h0] at hp
      have := (List.get?_eq_some.mp hp).1
      omega
    · rw [if_neg h0] at hp; simp at hp
  rw [trajectory_overlap]
  generalize hst : overlap_search _ (path_points.length + 2) _ = st
  have hspec := overlap_search_spec _ path_points.length st hst.symm
  cases hf : (st.find_high && st.find_low)
  · right
    refine ⟨?_, by simp⟩
    intro i j p q hij hp hq ⟨hi, hj⟩
    refine hspec.2 hf i j (hrange i p hp).1 hij (hrange j q hq).2 ⟨?_, ?_⟩
    · simp only [hp]; exact hi
    · simp only [hq]; exact hj
  · left
    obtain ⟨h0, hlt, hn, hl, hh, hbelow, habove⟩ := hspec.1 hf
    obtain ⟨p_low, hpl⟩ := path_point_at_some path_points st.low h0 (by omega)
    obtain ⟨p_high, hph⟩ := path_point_at_some path_points st.high (by omega) hn
    simp only [hpl] at hl
    simp only [hph] at hh
    refine ⟨st.low, st.high, p_low, p_high, hlt, hpl, hph, hl, hh, ?_, ?_⟩
    · intro i p hi hp
      rcases hi with hi | hi
      · have := hbelow i (hrange i p hp).1 hi
        simpa only [hp] using this
      · have := habove i hi (hrange i p hp).2
        simpa only [hp] using this
    · simp only [if_true, hpl, hph]

/-- Claim C25, evaluated where the code departs from it. The sample path has points at
s = 0, 2, 4, 6, 8, 10. The box of a trajectory sample at x = 6, time 1, overlaps exactly one
of them, the point at s = 6. The search loop runs only while `low < high`, so it stops with
`low = high = 3` before the flag `find_low` is set, and the sample adds no point: the call
returns false with both lists empty, where the claim has the pair (5, 1), (7, 1). A sample
at x = 5, which overlaps the two points at s = 4 and s = 6, adds its pair, and the branch
for an obstacle without trajectory adds its points on this one overlapping point. -/
theorem C25_sample_overlapping_one_path_point_adds_nothing :
    Sample.mapper.path_data_.discretized_path.map
        (fun p => CheckOverlap Sample.ext Sample.mapper p
          (Sample.ext.Obstacle_GetBoundingBox
            (Sample.moving_obstacle [Sample.trajectory_point_at 6 1])
            (Sample.trajectory_point_at 6 1))
          Sample.mapper.st_boundary_config_.boundary_buffer)
      = [false, false, false, true, false, false]
    ∧ Sample.mapper.path_data_.discretized_path.map (fun p => p.s) = [0, 2, 4, 6, 8, 10]
    ∧ Sample.mapper.st_boundary_config_.point_extension = 1
    ∧ overlap_search
        (fun i =>
          match path_point_at Sample.mapper.path_data_.discretized_path i with
          | some p => CheckOverlap Sample.ext Sample.mapper p
              (Sample.ext.Obstacle_GetBoundingBox
                (Sample.moving_obstacle [Sample.trajectory_point_at 6 1])
                (Sample.trajectory_point_at 6 1))
              Sample.mapper.st_boundary_config_.boundary_buffer
          | none => false)
        (Sample.mapper.path_data_.discretized_path.length + 2) ⟨0, 5, false, false⟩
      = ⟨3, 3, false, true⟩
    ∧ GetOverlapBoundaryPoints Sample.ext Sample.mapper
        Sample.mapper.path_data_.discretized_path
        (Sample.moving_obstacle [Sample.trajectory_point_at 6 1])
      = (false, ⟨[], []⟩)
    ∧ GetOverlapBoundaryPoints Sample.ext Sample.mapper
        Sample.mapper.path_data_.discretized_path
        (Sample.moving_obstacle [Sample.trajectory_point_at 5 1])
      = (true, { lower_points := [⟨3, 1⟩], upper_points := [⟨7, 1⟩] })
    ∧ GetOverlapBoundaryPoints Sample.ext Sample.mapper
        Sample.mapper.path_data_.discretized_path (Sample.moving_obstacle [])
      = (true, { lower_points := [⟨6, 0⟩, ⟨6, 8⟩], upper_points := [⟨10, 0⟩, ⟨10, 8⟩] }) := by
  decide!

end StBoundaryMapper

/-! ## Theorems: cost terms of the path spline -/

namespace QpSplinePathGenerator

/-- The terms `AddKernel` adds: each of the four penalty terms with its weight when that
weight is positive, and the reference-line term, with the configured weight whatever its
sign, when there is more than one knot. -/
theorem kernel_terms_mem (config : QpSplinePathConfig) (knots : List ℚ)
    (term : SplineKernelTerm) :
    term ∈ kernel_terms config knots ↔
      (term = SplineKernelTerm.regularization config.regularization_weight
          ∧ config.regularization_weight > 0)
      ∨ (term = SplineKernelTerm.derivative_kernel_matrix config.derivative_weight
          ∧ config.derivative_weight > 0)
      ∨ (term = SplineKernelTerm.second_order_derivative_matrix config.second_derivative_weight
          ∧ config.second_derivative_weight > 0)
      ∨ (term = SplineKernelTerm.third_order_derivative_matrix config.third_derivative_weight
          ∧ config.third_derivative_weight > 0)
      ∨ (term = SplineKernelTerm.reference_line_kernel_matrix knots
            (List.replicate knots.length 0) config.reference_line_weight
          ∧ config.number_of_knots > 1) := by
  unfold kernel_terms
  simp only [List.mem_append]
  constructor
  · rintro ((((h | h) | h) | h) | h)
    · split_ifs at h with hw
      · simp at h; exact Or.inl ⟨h, hw⟩
      · simp at h
    · split_ifs at h with hw
      · simp at h; exact Or.inr (Or.inl ⟨h, hw⟩)
      · simp at h
    · split_ifs at h with hw
      · simp at h; exact Or.inr (Or.inr (Or.inl ⟨h, hw⟩))
      · simp at h
    · split_ifs at h with hw
      · simp at h; exact Or.inr (Or.inr (Or.inr (Or.inl ⟨h, hw⟩)))
      · simp at h
    · split_ifs at h with hw
      · simp at h; exact Or.inr (Or.inr (Or.inr (Or.inr ⟨h, hw⟩)))
      · simp at h
  · rintro (⟨h, hw⟩ | ⟨h, hw⟩ | ⟨h, hw⟩ | ⟨h, hw⟩ | ⟨h, hw⟩)
    · exact Or.inl (Or.inl (Or.inl (Or.inl (by rw [if_pos hw, h]; simp))))
    · exact Or.inl (Or.inl (Or.inl (Or.inr (by rw [if_pos hw, h]; simp))))
    · exact Or.inl (Or.inl (Or.inr (by rw [if_pos hw, h]; simp)))
    · exact Or.inl (Or.inr (by rw [if_pos hw, h]; simp))
    · exact Or.inr (by rw [if_pos hw, h]; simp)

/-- Claim C26, evaluated where the code departs from it. The four penalty terms are added
under `weight > 0`; the reference-line term is added under `number_of_knots() > 1` and its
weight is passed on unchecked. With two knots configured, knots at 0, 5 and 10 and a
`reference_line_weight` of -1, `AddKernel` returns true and the kernel holds the
reference-line term of weight -1, after the regularization term (weight 1/1000) and the
third-derivative term (weight 100); the first- and second-derivative terms, of weight 0, are
not added. The same holds with a `reference_line_weight` of 0. -/
theorem C26_reference_line_term_is_added_with_negative_weight :
    (Sample.generator_with_knots (-1)).qp_spline_path_config_.number_of_knots = 2
    ∧ (Sample.generator_with_knots (-1)).qp_spline_path_config_.derivative_weight = 0
    ∧ (Sample.generator_with_knots (-1)).qp_spline_path_config_.second_derivative_weight = 0
    ∧ (Sample.generator_with_knots (-1)).qp_spline_path_config_.reference_line_weight = -1
    ∧ (AddKernel (Sample.generator_with_knots (-1))).map
        (fun r => (r.1, r.2.spline_generator_.map (fun s => s.kernel)))
      = some (true, some
          [ SplineKernelTerm.regularization (1 / 1000),
            SplineKernelTerm.third_order_derivative_matrix 100,
            SplineKernelTerm.reference_line_kernel_matrix [0, 5, 10] [0, 0, 0] (-1) ])
    ∧ (AddKernel (Sample.generator_with_knots 0)).map
        (fun r => (r.1, r.2.spline_generator_.map (fun s => s.kernel)))
      = some (true, some
          [ SplineKernelTerm.regularization (1 / 1000),
            SplineKernelTerm.third_order_derivative_matrix 100,
            SplineKernelTerm.reference_line_kernel_matrix [0, 5, 10] [0, 0, 0] 0 ]) := by
  decide!

end QpSplinePathGenerator

/-! ## Theorems: the continuity patch of the path generator -/

namespace QpSplinePathGenerator

/-- The steps of `Generate` after the projection of the start point keep the reference line
and the initial Frenet point, and a `Generate` that returns `true` has solved a spline, read
the reference point at the initial `s`, and given the setter the points of an extraction loop
that started at the initial `s` without points, with the offset of the image of the initial
`s` from the start point. -/
theorem Generate_true_offset (ext : QpExternals) (g g2 : QpSplinePathGenerator)
    (decision_data : DecisionData) (speed_data : SpeedData) (init_point : TrajectoryPoint)
    (path_data pd : PathData)
    (h : Generate ext g decision_data speed_data init_point path_data = some (true, pd, g2)) :
    ∃ spline ref_point end_s path_points,
      g2.reference_line_ = g.reference_line_
        ∧ Solve ext g2 = some (some spline)
        ∧ ReferenceLine.get_reference_point ext.math g2.reference_line_ g2.init_frenet_point_.s
          = some ref_point
        ∧ extract_loop ext g2 spline
            ((ext.calculate_xypoint ref_point.heading ⟨ref_point.x, ref_point.y⟩
                (spline.value g2.init_frenet_point_.s)).x - init_point.path_point.x)
            ((ext.calculate_xypoint ref_point.heading ⟨ref_point.x, ref_point.y⟩
                (spline.value g2.init_frenet_point_.s)).y - init_point.path_point.y)
            end_s ((end_s - g2.init_frenet_point_.s) / g2.qp_spline_path_config_.num_output)
            (g2.qp_spline_path_config_.num_output + 1) g2.init_frenet_point_.s []
          = some path_points
        ∧ pd = ext.PathData_set_discretized_path path_data path_points := by
  unfold Generate at h
  dsimp only at h
  repeat' split at h
  all_goals try (simp at h; done)
  simp only [Option.some.injEq, Prod.mk.injEq, true_and] at h
  obtain ⟨hpd, hg⟩ := h
  subst hg
  rename_i _ _ _ _ _ _ _ _ g1 h1 _ g3 h2 _ g4 h3 _ spline hsolve _ ref_point href _ _
    path_points hloop
  refine ⟨spline, ref_point, _, path_points, ?_, hsolve, href, hloop, hpd.symm⟩
  obtain ⟨ok1, g1x, e1, hrl1, _, _, hok1⟩ := InitSpline_spec ext _ _ _ _
  rw [h1] at e1
  simp only [Option.some.injEq, Prod.mk.injEq] at e1
  obtain ⟨hok, e1⟩ := e1
  subst e1
  subst hok
  obtain ⟨hgen1, hknots1⟩ := hok1 rfl
  have hrl2 : g3.reference_line_ = g1.reference_line_ := by
    obtain ⟨ok2, g2x, e2, hrl2, _⟩ := AddConstraint_spec ext g1 _ hgen1 hknots1
    rw [h2] at e2
    simp only [Option.some.injEq, Prod.mk.injEq] at e2
    rw [e2.2]
    exact hrl2
  have hrl3 : g4.reference_line_ = g3.reference_line_ := by
    unfold AddKernel at h3
    split at h3
    · simp at h3
    · simp only [Option.some.injEq, Prod.mk.injEq, true_and] at h3
      rw [← h3]
  rw [hrl3, hrl2, hrl1]

/-- The extraction loop pushes, as its point of index `k`, the image of
`(s, l(s))` at `s = s0 + k * s_resolution`, moved by `(x_diff, y_diff)`. -/
theorem extract_loop_image (ext : QpExternals) (g : QpSplinePathGenerator) (spline : Spline1d)
    (x_diff y_diff end_s s_resolution s0 : ℚ) :
    ∀ (fuel : Nat) (s : ℚ) (path_points out : List PathPoint),
      extract_loop ext g spline x_diff y_diff end_s s_resolution fuel s path_points = some out →
      s = s0 + path_points.length * s_resolution →
      (∀ (k : Nat) (p : PathPoint), path_points.get? k = some p →
        ∃ ref_point,
          ReferenceLine.get_reference_point ext.math g.reference_line_ (s0 + k * s_resolution)
            = some ref_point
          ∧ p.x = (ext.calculate_xypoint ref_point.heading ⟨ref_point.x, ref_point.y⟩
              (spline.value (s0 + k * s_resolution))).x - x_diff
          ∧ p.y = (ext.calculate_xypoint ref_point.heading ⟨ref_point.x, ref_point.y⟩
              (spline.value (s0 + k * s_resolution))).y - y_diff) →
      ∀ (k : Nat) (p : PathPoint), out.get? k = some p →
        ∃ ref_point,
          ReferenceLine.get_reference_point ext.math g.reference_line_ (s0 + k * s_resolution)
            = some ref_point
          ∧ p.x = (ext.calculate_xypoint ref_point.heading ⟨ref_point.x, ref_point.y⟩
              (spline.value (s0 + k * s_resolution))).x - x_diff
          ∧ p.y = (ext.calculate_xypoint ref_point.heading ⟨ref_point.x, ref_point.y⟩
              (spline.value (s0 + k * s_resolution))).y - y_diff := by
  intro fuel
  induction fuel with
  | zero =>
    intro s path_points out h hs hacc
    simp only [extract_loop] at h
    split_ifs at h
    simp only [Option.some.injEq] at h
    subst h
    exact hacc
  | succ fuel ih =>
    intro s path_points out h hs hacc
    simp only [extract_loop] at h
    split_ifs at h with hc
    · cases href : ReferenceLine.get_reference_point ext.math g.reference_line_ s with
      | none => rw [href] at h; simp at h
      | some ref_point =>
        rw [href] at h
        simp only at h
        split_ifs at h with hbreak
        · simp only [Option.some.injEq] at h
          subst h
          exact hacc
        · refine ih _ _ _ h ?_ ?_
          · rw [List.length_append, List.length_singleton, hs]
            push_cast
            ring
          · intro k p hk
            rcases Nat.lt_or_ge k path_points.length with hlt | hge
            · rw [List.get?_append hlt] at hk
              exact hacc k p hk
            · rw [List.get?_append_right hge] at hk
              have hk0 : k - path_points.length = 0 := by
                by_contra hne
                obtain ⟨j, hj⟩ := Nat.exists_eq_succ_of_ne_zero hne
                rw [hj] at hk
                simp at hk
              rw [hk0] at hk
              have hkeq : k = path_points.length := by omega
              simp only [List.get?_cons_zero, Option.some.injEq] at hk
              rw [hkeq, ← hs]
              refine ⟨ref_point, href, ?_, ?_⟩
              · rw [← hk]
                cases path_points.getLast? <;> rfl
              · rw [← hk]
                cases path_points.getLast? <;> rfl
    · simp only [Option.some.injEq] at h
      subst h
      exact hacc

/-- C27: whenever `QpSplinePathGenerator::Generate` returns `true`, the path it writes starts,
when it has a point, at the `(x, y)` of `init_point`, and its point of index `k` is the
Cartesian image (`calculate_xypoint`) of `(s, l(s))` on the reference line at
`s = s0 + k * s_resolution`, with `l` the solved spline and `s0` the initial `s`, moved by one
offset: the image of `(s0, l(s0))` minus the position of `init_point`. -/
theorem C27_path_is_translated_image_starting_at_init_point (ext : QpExternals)
    (g g2 : QpSplinePathGenerator) (decision_data : DecisionData) (speed_data : SpeedData)
    (init_point : TrajectoryPoint) (path_data pd : PathData)
    (h : Generate ext g decision_data speed_data init_point path_data = some (true, pd, g2)) :
    ∃ spline ref_point0 s_resolution path_points,
      pd = ext.PathData_set_discretized_path path_data path_points
        ∧ Solve ext g2 = some (some spline)
        ∧ ReferenceLine.get_reference_point ext.math g.reference_line_ g2.init_frenet_point_.s
          = some ref_point0
        ∧ (∀ p, path_points.head? = some p →
            p.x = init_point.path_point.x ∧ p.y = init_point.path_point.y)
        ∧ (∀ (k : Nat) (p : PathPoint), path_points.get? k = some p →
            ∃ ref_point,
              ReferenceLine.get_reference_point ext.math g.reference_line_
                  (g2.init_frenet_point_.s + k * s_resolution) = some ref_point
              ∧ p.x = (ext.calculate_xypoint ref_point.heading ⟨ref_point.x, ref_point.y⟩
                    (spline.value (g2.init_frenet_point_.s + k * s_resolution))).x
                  - ((ext.calculate_xypoint ref_point0.heading ⟨ref_point0.x, ref_point0.y⟩
                      (spline.value g2.init_frenet_point_.s)).x - init_point.path_point.x)
              ∧ p.y = (ext.calculate_xypoint ref_point.heading ⟨ref_point.x, ref_point.y⟩
                    (spline.value (g2.init_frenet_point_.s + k * s_resolution))).y
                  - ((ext.calculate_xypoint ref_point0.heading ⟨ref_point0.x, ref_point0.y⟩
                      (spline.value g2.init_frenet_point_.s)).y - init_point.path_point.y)) := by
  obtain ⟨spline, ref_point0, end_s, path_points, hrl, hsolve, href, hloop, hpd⟩ :=
    Generate_true_offset ext g g2 decision_data speed_data init_point path_data pd h
  have himg := extract_loop_image ext g2 spline _ _ end_s _ g2.init_frenet_point_.s _ _ _ _
    hloop (by simp) (by intro k p hk; simp at hk)
  rw [hrl] at himg href
  refine ⟨spline, ref_point0, _, path_points, hpd, hsolve, href, ?_, himg⟩
  intro p hp
  have hp0 : path_points.get? 0 = some p := by
    cases path_points with
    | nil => simp at hp
    | cons a t => simpa using hp
  obtain ⟨ref_point, href2, hx, hy⟩ := himg 0 p hp0
  simp only [Nat.cast_zero, zero_mul, add_zero] at href2 hx hy
  rw [href] at href2
  simp only [Option.some.injEq] at href2
  subst href2
  constructor
  · rw [hx]; ring
  · rw [hy]; ring

/-- C27 at the sample generator with the solved spline `l(s) = s / 10` and the start point
`(2, 1/2)`: the image of the initial `s = 2` is `(2, 1/5)`, the offset is `(0, -3/10)`, and
`Generate` succeeds with the points `(2, 1/2)`, `(9/2, 3/4)`, `(7, 1)`, `(19/2, 5/4)`, the
first of which is the start point. -/
theorem C27_path_is_translated_image_starting_at_init_point_witness :
    ∃ pd g2, Generate Sample.qp_ext_slope Sample.generator {} {} Sample.init_point_beside
          Sample.path_data = some (true, pd, g2)
      ∧ pd.discretized_path.map (fun p => (p.x, p.y))
        = [(2, 1 / 2), (9 / 2, 3 / 4), (7, 1), (19 / 2, 5 / 4)]
      ∧ (∀ p, pd.discretized_path.head? = some p →
          p.x = Sample.init_point_beside.path_point.x
            ∧ p.y = Sample.init_point_beside.path_point.y) := by
  obtain ⟨⟨ok, pd, g2⟩, hr, hf⟩ := Option.map_eq_some'.mp
    (by decide! : (Generate Sample.qp_ext_slope Sample.generator {} {}
        Sample.init_point_beside Sample.path_data).map
          (fun r => (r.1, r.2.1.discretized_path.map (fun p => (p.x, p.y))))
      = some (true, [(2, 1 / 2), (9 / 2, 3 / 4), (7, 1), (19 / 2, 5 / 4)]))
  simp only [Prod.mk.injEq] at hf
  obtain ⟨hok, hs⟩ := hf
  subst hok
  obtain ⟨_, _, _, path_points, hpd, _, _, hhead, _⟩ :=
    C27_path_is_translated_image_starting_at_init_point Sample.qp_ext_slope Sample.generator g2
      {} {} Sample.init_point_beside Sample.path_data pd hr
  refine ⟨pd, g2, hr, hs, ?_⟩
  have hpts : pd.discretized_path = path_points := by rw [hpd]; rfl
  rw [hpts]
  exact hhead

end QpSplinePathGenerator

/-! ## Theorems: evaluation of a trajectory at a time -/

namespace DiscretizedTrajectory

/-- At a time before the time of the last point, `Evaluate` does not pass its second `CHECK`,
which asks for `back.relative_time <= relative_time`. -/
theorem Evaluate_before_back (interpolate : TrajectoryPoint → TrajectoryPoint → ℚ → TrajectoryPoint)
    (d : DiscretizedTrajectory) (relative_time : ℚ) (back : TrajectoryPoint)
    (hback : d.trajectory_points_.getLast? = some back)
    (ht : relative_time < back.relative_time) :
    d.Evaluate interpolate relative_time = none := by
  unfold Evaluate
  rw [hback]
  cases d.trajectory_points_.head? with
  | none => rfl
  | some front =>
    simp only
    rw [if_neg]
    intro h
    exact absurd h.2 (not_le.mpr ht)

/-- Claim C29, evaluated where the code departs from it. The second `CHECK` of `Evaluate` asks
for `back.relative_time <= relative_time`, so that on the trajectory with points at the times
0 and 1 the queries at 0 (the time of the front point) and at 1/2, both within the range of
the trajectory, end in the failure of the `CHECK`, whatever `util::interpolate` is. The query
at 1 passes and is the interpolation of the two points. The query at 2, beyond the last point,
passes both `CHECK`s, and `it_lower` is the end of the vector (index 2 of 2 points), which the
code reads. -/
theorem C29_evaluate_rejects_times_within_the_trajectory :
    Sample.two_point_trajectory.trajectory_points_.map (fun p => p.relative_time) = [0, 1]
    ∧ (∀ interpolate, Sample.two_point_trajectory.Evaluate interpolate 0 = none)
    ∧ (∀ interpolate, Sample.two_point_trajectory.Evaluate interpolate (1 / 2) = none)
    ∧ (∀ interpolate, Sample.two_point_trajectory.Evaluate interpolate 1
        = some (interpolate (Sample.trajectory_point_at 0 0) (Sample.trajectory_point_at 1 1) 1))
    ∧ (Sample.two_point_trajectory.trajectory_points_.takeWhile
        (fun p => decide (p.relative_time < 2))).length = 2
    ∧ (∀ interpolate, Sample.two_point_trajectory.Evaluate interpolate 2 = none) := by
  refine ⟨by decide!, ?_, ?_, ?_, by decide!, ?_⟩
  · intro interpolate
    exact Evaluate_before_back interpolate _ 0 (Sample.trajectory_point_at 1 1) rfl (by decide!)
  · intro interpolate
    exact Evaluate_before_back interpolate _ (1 / 2) (Sample.trajectory_point_at 1 1) rfl
      (by decide!)
  · intro interpolate
    have h1 : (Sample.two_point_trajectory.trajectory_points_.takeWhile
        (fun p => decide (p.relative_time < 1))).length = 1 := by decide!
    have h2 : ((0 : ℚ) ≤ 1 ∧ (1 : ℚ) ≤ 1) := by decide!
    simp only [Evaluate, Sample.two_point_trajectory, ctor, List.head?_cons,
      List.getLast?_cons_cons, List.getLast?_singleton, Sample.trajectory_point_at] at h1 ⊢
    rw [if_pos h2]
    simp only [h1]
    rfl
  · intro interpolate
    have h1 : (Sample.two_point_trajectory.trajectory_points_.takeWhile
        (fun p => decide (p.relative_time < 2))).length = 2 := by decide!
    have h2 : ((0 : ℚ) ≤ 2 ∧ (1 : ℚ) ≤ 2) := by decide!
    simp only [Evaluate, Sample.two_point_trajectory, ctor, List.head?_cons,
      List.getLast?_cons_cons, List.getLast?_singleton, Sample.trajectory_point_at] at h1 ⊢
    rw [if_pos h2]
    simp only [h1]
    rfl

end DiscretizedTrajectory

/-! ## Theorems: speed data at a time -/

namespace SpeedData

/-- On a vector of at least 2 points, and fewer than `2 ^ 32`, the index `find_index` returns
is at most the index before the last: the test `index + 1 >= speed_vector_.size()` of
`get_speed_point_with_time` never holds. -/
theorem find_index_succ_lt_size (d : SpeedData) (t : ℚ) (index : Nat)
    (hsize : 2 ≤ d.speed_vector_.length) (hmax : d.speed_vector_.length < 2 ^ 32)
    (h : d.find_index t = some index) :
    index + 1 < d.speed_vector_.length := by
  unfold find_index at h
  rw [if_neg (by omega)] at h
  simp only [Option.some.injEq] at h
  have hub : ((d.speed_vector_.drop 1).takeWhile
      (fun speed_point => !decide (t < speed_point.t))).length ≤ d.speed_vector_.length - 1 := by
    refine le_trans (List.takeWhile_sublist _).length_le ?_
    simp
  generalize ((d.speed_vector_.drop 1).takeWhile
    (fun speed_point => !decide (t < speed_point.t))).length = k at h hub
  generalize d.speed_vector_.length = n at h hub hsize hmax
  have h1 : (n - 1) % 2 ^ 32 = n - 1 := Nat.mod_eq_of_lt (by omega)
  have h2 : (1 + k) % 2 ^ 32 = 1 + k := Nat.mod_eq_of_lt (by omega)
  rw [h1, h2] at h
  have h3 : min (n - 1) (1 + k) + 2 ^ 32 - 1 = (min (n - 1) (1 + k) - 1) + 2 ^ 32 := by
    have : 1 ≤ min (n - 1) (1 + k) := by
      rw [le_min_iff]; omega
    omega
  rw [h3, Nat.add_mod_right, Nat.mod_eq_of_lt (by
    have : min (n - 1) (1 + k) ≤ n - 1 := min_le_left _ _
    omega)] at h
  have h4 : min (n - 1) (1 + k) ≤ n - 1 := min_le_left _ _
  have h5 : 1 ≤ min (n - 1) (1 + k) := by
    rw [le_min_iff]; omega
  omega

/-- On a vector of at least 2 points, and fewer than `2 ^ 32`, `get_speed_point_with_time`
returns, and what it returns depends on the first test alone: false, with the point left as
it is, when `Double::compare(t, speed_vector_[index].t())` is negative at the index that
`find_index` returns, and true otherwise. -/
theorem get_speed_point_with_time_returns (Double_compare : ℚ → ℚ → Int) (d : SpeedData)
    (t : ℚ) (speed_point : SpeedPoint)
    (hsize : 2 ≤ d.speed_vector_.length) (hmax : d.speed_vector_.length < 2 ^ 32) :
    ∃ index at_index, d.find_index t = some index
      ∧ index + 1 < d.speed_vector_.length
      ∧ d.speed_vector_.get? index = some at_index
      ∧ ((Double_compare t at_index.t < 0
          ∧ d.get_speed_point_with_time Double_compare t speed_point
            = some (false, speed_point))
        ∨ (¬ Double_compare t at_index.t < 0
          ∧ ∃ p, d.get_speed_point_with_time Double_compare t speed_point = some (true, p))) := by
  have hfi : ∃ index, d.find_index t = some index := by
    unfold find_index
    rw [if_neg (by omega)]
    exact ⟨_, rfl⟩
  obtain ⟨index, hindex⟩ := hfi
  have hlt := find_index_succ_lt_size d t index hsize hmax hindex
  have hmod : (index + 1) % 2 ^ 32 = index + 1 := Nat.mod_eq_of_lt (by omega)
  obtain ⟨at_index, hat⟩ : ∃ p, d.speed_vector_.get? index = some p :=
    ⟨_, List.get?_eq_get (by omega : index < d.speed_vector_.length)⟩
  obtain ⟨at_next, hnext⟩ : ∃ p, d.speed_vector_.get? (index + 1) = some p :=
    ⟨_, List.get?_eq_get hlt⟩
  refine ⟨index, at_index, hindex, hlt, hat, ?_⟩
  unfold get_speed_point_with_time
  rw [if_neg (by omega), hindex]
  simp only [hat, hmod, hnext]
  by_cases hc : Double_compare t at_index.t < 0
  · left
    refine ⟨hc, ?_⟩
    rw [if_pos (Or.inl hc)]
  · right
    refine ⟨hc, ?_⟩
    rw [if_neg (by
      intro h
      rcases h with h | h
      · exact hc h
      · omega)]
    exact ⟨_, rfl⟩

/-- Claim C30, evaluated where the code departs from it. The speed data have the points
`s = 0, v = 1` at the time 0 and `s = 2, v = 3` at the time 1. For the time 2, after the last
point, `find_index` returns 0, the index before the last, so that neither of the two tests
holds: `get_speed_point_with_time` returns true, with the point that `interpolate` makes of
the two points at the weight 2, `s = 4` at the time 2 with `v = 5`. For the time -1, before
the first point, it returns false and leaves the point as it is, and for the time 1/2 it
returns true with `s = 1` at the time 1/2 with `v = 2`. -/
theorem C30_time_after_last_point_is_extrapolated :
    Sample.two_point_speed_data.speed_vector_.map (fun p => p.t) = [0, 1]
    ∧ Sample.two_point_speed_data.find_index 2 = some 0
    ∧ Sample.two_point_speed_data.get_speed_point_with_time Sample.exact_compare 2
        ⟨0, 0, 0, 0, 0⟩ = some (true, ⟨4, 2, 5, 2, 0⟩)
    ∧ interpolate ⟨0, 0, 1, 2, 0⟩ ⟨2, 1, 3, 2, 0⟩ 2 = ⟨4, 2, 5, 2, 0⟩
    ∧ Sample.two_point_speed_data.get_speed_point_with_time Sample.exact_compare (-1)
        ⟨0, 0, 0, 0, 0⟩ = some (false, ⟨0, 0, 0, 0, 0⟩)
    ∧ Sample.two_point_speed_data.get_speed_point_with_time Sample.exact_compare (1 / 2)
        ⟨0, 0, 0, 0, 0⟩ = some (true, ⟨1, 1 / 2, 2, 2, 0⟩) := by
  decide!

end SpeedData

end planning
end apollo
